import Mathlib

/-!
# retro-remake: the simulation core, embedded

A shallow embedding of the state-machine layer of the game in `src/src`:
the player (`player_handler.cpp`), the play state with its two end-of-round
sequencers (`state_handler.cpp`), the match record (`game_handler.hpp`) and
the sprite animation counters (`sprite_handler.hpp`).

Conventions of the embedding.

* A C++ `int` is a Lean `Int`.  Signed overflow is undefined behaviour in the
  source, so the embedding describes the executions in which no counter
  leaves the 32-bit range.
* An `enum class` that the source converts from or to `int`
  (`PlayerAction`, `EndSequence`, `GameState`) is its underlying `int`, with
  the enumerators as named constants; the other enums are inductive types.
* A member function becomes a function from the state it touches to the new
  state.  `Player` methods that only touch the player take a `Player`,
  those that reach through `game_` take the whole `Game`.
* Indexing a `std::vector` outside its bounds is undefined behaviour; a
  function that indexes a hitbox table returns `none` there (`vecAt`).
* Calls into raylib that leave no trace in the program state (drawing,
  `PlaySound`, the music stream) and the drawing-only sprite members (`x`,
  `y`, the source rectangle with its mirroring sign) are not represented.
  The animation counters of a sprite are represented, because
  `updateAndDraw` reports a completed loop to the game logic.
* Keyboard polling (`IsKeyDown`, `IsKeyReleased`) is the `Keys` record handed
  to an input handler.
* The draw of `randBetween(0, 1)` is a parameter `rnd : Fin 2` of the
  function that makes it.
* `Timer::timeTick` returns the counters together with a flag that tells
  whether the call invoked the virtual `onTimeTick()`.
* The save file is the list of its bytes, `none` when it cannot be opened;
  the value the platform gives four bytes read as an `int` is a parameter
  `decode` of `Game.loadState`.
* The Intro and Preview screens are represented by what a frame of theirs can
  write, the phase of the game and the members of the two screen objects,
  handed to `Game.runFrame` with the inputs of the frame.
-/

namespace RetroRemake

/-! ## settings.hpp -/

@[simp] def DEFAULT_HEALTH : Int := 9
@[simp] def LOW_HEALTH : Int := 4
@[simp] def GAME_WIDTH : Int := 256
@[simp] def GAME_HEIGHT : Int := 256
@[simp] def TARGET_FPS : Int := 60
@[simp] def FRAME_SPEED : Int := 5

/-! ## other.hpp -/

/-- The struct `CollisionInfo`: a rectangular hit-box and a kick offset. -/
structure CollisionInfo where
  offsetLeft : Int
  offsetRight : Int
  offsetTop : Int
  boxWidth : Int
  boxHeight : Int
  kickAdjustment : Int
deriving DecidableEq

/-- The four `int*` out-parameters of the `calculate...CollisionBounds`
functions: origin and size of a box in world coordinates. -/
structure Bounds where
  x : Int
  y : Int
  w : Int
  h : Int
deriving DecidableEq

/-- Element `i` of a `std::vector`, `none` outside its bounds. -/
def vecAt {α : Type} (v : List α) (i : Int) : Option α :=
  if 0 ≤ i then v[i.toNat]? else none

/-- The data members of `class Timer`. -/
structure Timer where
  frameCounter_ : Int
  elapsedSeconds_ : Int
deriving DecidableEq

/-- The method `Timer::timeTick`: the counters after the call, and whether
the call invoked `onTimeTick()`.  The callback belongs to the subclass and is
not part of the timer. -/
def Timer.timeTick (t : Timer) : Timer × Bool :=
  let t1 : Timer := { t with frameCounter_ := t.frameCounter_ + 1 }
  if t1.frameCounter_ ≥ Int.tdiv TARGET_FPS FRAME_SPEED then
    let t2 : Timer := { t1 with frameCounter_ := 0 }
    if t2.elapsedSeconds_ = 59 then
      ({ t2 with elapsedSeconds_ := 0 }, true)
    else
      ({ t2 with elapsedSeconds_ := t2.elapsedSeconds_ + 1 }, true)
  else
    (t1, false)

/-! ## player_handler.hpp -/

/-! The `enum class PlayerAction : int`: an action is held as its underlying
integer (`setMovement` receives it as an `int`), the enumerators are named
constants. -/

namespace PlayerAction
@[simp] def None : Int := -1
@[simp] def Default : Int := 0
@[simp] def DefaultHold : Int := 1
@[simp] def WalkLeft : Int := 2
@[simp] def WalkRight : Int := 3
@[simp] def Crouch : Int := 4
@[simp] def PunchStand : Int := 5
@[simp] def PunchCrouch : Int := 6
@[simp] def KickStand : Int := 7
@[simp] def KickCrouch : Int := 8
@[simp] def KickHigh : Int := 9
@[simp] def JumpUp : Int := 10
@[simp] def JumpDown : Int := 11
@[simp] def Smile : Int := 12
@[simp] def Defeated : Int := 13
@[simp] def VeryDefeated : Int := 14
end PlayerAction

/-- The `enum class JumpDrift`. -/
inductive JumpDrift where
  | NoneDrift
  | LeftDrift
  | RightDrift
deriving DecidableEq

@[simp] def kPlayerDefaultX : Int := 35
@[simp] def kPlayerDefaultY : Int := 160
@[simp] def kPlayerSpeed : Int := 1
@[simp] def kPlayerFrameRate : Int := 12
@[simp] def kPlayerDefaultLives : Int := 2
@[simp] def kPlayerJumpHeight : Int := 114
@[simp] def kPlayerJumpSpeed : Int := 2
@[simp] def kPlayerJumpAccelFrameRate : Int := 53
@[simp] def kPlayerAttackCooldownFrames : Int := 2
@[simp] def kPlayerStunFrames : Int := 3
@[simp] def kPlayerShakeForce : Int := 2

/-- The data members of `class Player`, with the two counters of its `Timer`
base. -/
structure Player where
  x : Int
  oldX : Int
  shakeDirRight : Bool
  y : Int
  lives : Int
  health : Int
  bonusScore : Int
  life_counter : Int
  controlsLocked : Bool
  canAttack : Bool
  attackActive : Bool
  isInverted : Bool
  isShaking : Bool
  showHit_ : Bool
  jumpDrift : JumpDrift
  activateTime : Int
  currAction_ : Int
  prevAction_ : Int
  pauseTimer : Int
  stunJumpTimer_ : Int
  jumpFrameCounter_ : Int
  jumpAcceleration_ : Int
  isFlyingKick_ : Bool
  canFlyKick_ : Bool
  frameCounter_ : Int
  elapsedSeconds_ : Int
deriving DecidableEq

def kCollisionPunchCrouch : CollisionInfo := ⟨28, 0, 22, 3, 3, 0⟩
def kCollisionKickCrouch : CollisionInfo := ⟨30, 0, 27, 6, 5, 0⟩
def kCollisionKickStand : CollisionInfo := ⟨25, 0, 24, 6, 5, 0⟩
def kCollisionAirAttack : CollisionInfo := ⟨31, 0, 24, 4, 5, 0⟩
def kCollisionKickHigh : CollisionInfo := ⟨27, 0, 3, 5, 4, 0⟩
def kCollisionPunchStand : CollisionInfo := ⟨25, 0, 17, 3, 3, 0⟩
def kCollisionBody : CollisionInfo := ⟨8, 10, 1, 10, 32, 0⟩

/-! ## state_handler.hpp -/

@[simp] def ENEMY_DEFAULT_X : Int := 145
@[simp] def ENEMY_DEFAULT_Y : Int := 152
@[simp] def StageBoundary : Int := 10
@[simp] def EndDelayHigh : Int := 2
@[simp] def EndDelayLow : Int := 1
@[simp] def EnemyLogicFPS : Int := 21
@[simp] def EnemyWalkSpriteFPS : Int := 3
@[simp] def EnemyRunSpriteFPS : Int := 5
@[simp] def SpinningChainSpriteFPS : Int := 6
@[simp] def EnemyWalkSpeed : Int := 1
@[simp] def EnemyRunSpeed : Int := 3
@[simp] def EnemyRunBoundary : Int := 30
@[simp] def EnemyRetreatDistance : Int := 10

/-- The `enum class EnemyAction`. -/
inductive EnemyAction where
  | None
  | Idle
  | MoveLeft
  | MoveRight
  | Defeated
  | Punch
  | Kick
  | Special
  | Pause
deriving DecidableEq

/-- The `enum class MoveState`. -/
inductive MoveState where
  | FollowPlayer
  | ChargeAttack
  | RetreatRunningLeft
  | RetreatRunningRight
deriving DecidableEq

/-! The `enum class EndSequence : int`: a step is held as its underlying
integer (`prepareEndOfRoundChoreography` adds 1 to it), the enumerators are
named constants. -/

namespace EndSequence
@[simp] def Start : Int := 0
@[simp] def PlayWinSound : Int := 1
@[simp] def ShowPunch : Int := 2
@[simp] def ShowLowKick1 : Int := 3
@[simp] def ShowHighKick1 : Int := 4
@[simp] def ShowHighKick2 : Int := 5
@[simp] def ShowLowKick2 : Int := 6
@[simp] def ShowPunch2 : Int := 7
@[simp] def Smile : Int := 8
@[simp] def CountLife : Int := 9
@[simp] def Transition : Int := 10
@[simp] def GameOver : Int := 11
end EndSequence

/-- The `enum class EnemyEndSequence`. -/
inductive EnemyEndSequence where
  | Start
  | LieDown
  | MoveFeet
  | Transition
  | GameOver
deriving DecidableEq

/-- The data members of `class PlayState` that the game logic reads, with
the members of its `State` and `Timer` bases. -/
structure PlayState where
  enemyHealth : Int
  enemyX : Int
  enemyY : Int
  enemyCurrentMove : EnemyAction
  retreatCounter : Int
  isEnemyFlipped : Bool
  pauseMovement : Bool
  rotatingChainX : Int
  rotatingChainY : Int
  haltTime : Int
  haltTimeHit : Int
  maxHaltTime : Int
  endState : Int
  enemyEndState : EnemyEndSequence
  enemyMoveState : MoveState
  enemyRandomAttack : Int
  renderEnemyHit : Bool
  runCounter : Int
  initialized_ : Bool
  frameCounter_ : Int
  elapsedSeconds_ : Int
deriving DecidableEq

/-- The data members of `class IntroState`, with those of its bases. -/
structure IntroState where
  blinkEnter_ : Bool
  blinkCount_ : Int
  canProceed : Bool
  initialized_ : Bool
  frameCounter_ : Int
  elapsedSeconds_ : Int
deriving DecidableEq

/-- The data members of `class PreviewState` (those of its bases). -/
structure PreviewState where
  initialized_ : Bool
  frameCounter_ : Int
  elapsedSeconds_ : Int
deriving DecidableEq

def attackList : List EnemyAction := [EnemyAction.Kick, EnemyAction.Punch]

def enemySprites : List String := ["kick", "punch", "default", "defeated", "hit"]

def enemyBodyHitBoxes : List CollisionInfo :=
  [⟨5, 8, 8, 19, 31, 10⟩,
   ⟨6, 3, 3, 4, 31, 11⟩,
   ⟨10, 7, 9, 16, 31, 9⟩,
   ⟨8, 3, 8, 8, 31, 8⟩,
   ⟨11, 2, 7, 16, 31, 6⟩]

def enemyPunchHitBoxes : List CollisionInfo :=
  [⟨0, 47, 31, 4, 2, 0⟩,
   ⟨6, 28, 11, 3, 2, 0⟩,
   ⟨0, 36, 21, 3, 3, 0⟩,
   ⟨0, 22, 35, 5, 3, 0⟩,
   ⟨6, 27, 14, 2, 3, 0⟩]

def enemyKickHitBoxes : List CollisionInfo :=
  [⟨0, 42, 22, 7, 4, 0⟩,
   ⟨0, 31, 15, 5, 2, 0⟩,
   ⟨0, 34, 15, 4, 1, 0⟩,
   ⟨0, 24, 7, 3, 5, 0⟩,
   ⟨0, 31, 25, 5, 3, 0⟩]

def enemies : List String := ["wang", "tao", "chen", "lang", "mu"]

/-! ## sprite_handler.hpp -/

/-- The members of `class Sprite` that decide when an animation loops:
the pause flag, the texture width and the frame counters. -/
structure Sprite where
  isPaused : Bool
  texWidth : Int
  frameCount_ : Int
  currFrame_ : Int
  frameTimer_ : Int
  ticksBwFrame_ : Int
deriving DecidableEq

/-- The method `Sprite::updateAndDraw`: advance the frame timer and report
whether the animation just wrapped around to frame 0. -/
def Sprite.updateAndDraw (s : Sprite) : Bool × Sprite :=
  let s1 : Sprite := { s with frameTimer_ := s.frameTimer_ + 1 }
  if s1.frameTimer_ ≥ Int.tdiv TARGET_FPS s1.ticksBwFrame_ then
    let s2 : Sprite := { s1 with frameTimer_ := 0 }
    if !s2.isPaused then
      let s3 : Sprite := { s2 with currFrame_ := s2.currFrame_ + 1 }
      if s3.currFrame_ ≥ s3.frameCount_ then
        (true, { s3 with currFrame_ := 0 })
      else
        (false, s3)
    else
      (false, s2)
  else
    (false, s1)

/-- The method `Sprite::setFrameCount`. -/
def Sprite.setFrameCount (s : Sprite) (count : Int) : Sprite :=
  { s with frameCount_ := count, currFrame_ := 0, frameTimer_ := 0 }

/-- The method `Sprite::setAnimationSpeed`. -/
def Sprite.setAnimationSpeed (s : Sprite) (speed : Int) : Sprite :=
  { s with ticksBwFrame_ := speed }

/-- The method `Sprite::resetAnimation`. -/
def Sprite.resetAnimation (s : Sprite) : Sprite :=
  { s with currFrame_ := 0, frameTimer_ := 0 }

/-- The method `Sprite::getTileCount`. -/
def Sprite.getTileCount (s : Sprite) : Int := s.frameCount_

/-- Keys of the map `Game::sprites` whose animation counters the embedding
follows.  `enemy who part` is the sprite named
`enemies[who] + "_" + enemySprites[part]`; the key keeps the two indices the
source computes the name from. -/
inductive SpriteId where
  | player_default
  | player_defeated
  | spinning_chain
  | enemy (who : Int) (part : Int)
deriving DecidableEq

/-! ## game_handler.hpp -/

/-! The `enum class GameState : int`: the phase is held as its underlying
integer (`levelIndex` casts it, `loadState` reads it raw), the enumerators
are named constants. -/

namespace GameState
@[simp] def Intro : Int := 0
@[simp] def Preview : Int := 1
@[simp] def Play : Int := 2
end GameState

/-- The data members of `class Game`, the objects it points to held by
value. -/
structure Game where
  state : Int
  level : Int
  score : Int
  introState : IntroState
  previewState : PreviewState
  playState : PlayState
  player : Player
  sprites : SpriteId → Sprite

/-- The method `Game::levelIndex`. -/
def Game.levelIndex (g : Game) : Int := g.state - 1

/-- The answers of `IsKeyDown` and `IsKeyReleased` during one call of an
input handler. -/
structure Keys where
  left : Bool
  right : Bool
  up : Bool
  down : Bool
  keyA : Bool
  keyS : Bool
  enter : Bool
  releasedA : Bool
  releasedS : Bool
deriving DecidableEq

/-! ## player_handler.cpp -/

/-- The method `Player::setMovement`. -/
def Player.setMovement (p : Player) (move : Int) : Player :=
  if p.currAction_ = PlayerAction.Defeated ∧ move = 0 then p
  else { p with prevAction_ := p.currAction_, currAction_ := move }

/-- The method `Player::invertSprites`: the mirroring of the sprites is
drawing state, the facing flag is kept. -/
def Player.invertSprites (p : Player) : Player :=
  { p with isInverted := !p.isInverted }

/-- The method `Player::clear`. -/
def Player.clear (p : Player) : Player :=
  let p1 : Player :=
    { p with controlsLocked := false, canAttack := true,
             pauseTimer := 0, stunJumpTimer_ := 0,
             x := kPlayerDefaultX, y := kPlayerDefaultY }
  let p2 := p1.setMovement 0
  let p3 : Player :=
    { p2 with prevAction_ := PlayerAction.None, health := DEFAULT_HEALTH,
              attackActive := false, activateTime := 0,
              showHit_ := false, life_counter := 0 }
  if p3.isInverted then p3.invertSprites else p3

/-- The method `Player::calculateAttackCollisionBounds`. -/
def Player.calculateAttackCollisionBounds (p : Player) (col : CollisionInfo) : Bounds :=
  { x := if p.isInverted then p.x else p.x + col.offsetLeft
    w := col.boxWidth
    h := col.boxHeight
    y := p.y + col.offsetTop }

/-- The `switch` at the head of `Player::processCollision`: the collision
box of the current action and the bonus a hit is worth. -/
def Player.attackProfile (a : Int) : CollisionInfo × Int :=
  if a = PlayerAction.PunchCrouch then (kCollisionPunchCrouch, 100)
  else if a = PlayerAction.KickHigh then (kCollisionKickHigh, 200)
  else if a = PlayerAction.KickCrouch then (kCollisionKickCrouch, 100)
  else if a = PlayerAction.KickStand then (kCollisionKickStand, 100)
  else if a = PlayerAction.JumpDown then (kCollisionAirAttack, 250)
  else (kCollisionPunchStand, 100)

/-- The enemy body box of `Player::processCollision` (`eX`, `eY`, `eW`,
`eH`), from the entry of `enemyBodyHitBoxes` it is handed. -/
def enemyBodyBounds (st : PlayState) (e : CollisionInfo) : Bounds :=
  { x := st.enemyX + (if st.isEnemyFlipped then e.offsetRight else e.offsetLeft)
    y := st.enemyY + e.offsetTop
    w := e.boxWidth
    h := e.boxHeight }

/-- The condition of the `if` under the comment `AABB test` in
`Player::processCollision`: true when the attack misses. -/
def attackMisses (p e : Bounds) : Bool :=
  decide (p.x > e.x + e.w - 1 ∨ e.x > p.x + p.w - 1 ∨ p.y > e.y + e.h - 1 ∨ e.y > p.y + p.h - 1)

/-- The tail of `Player::processCollision` after the comment `Hit!`. -/
def Player.registerHit (g : Game) (bonus : Int) : Game :=
  { g with
    player := { g.player with showHit_ := true }
    score := g.score + bonus
    playState := { g.playState with haltTime := 0, pauseMovement := true } }

/-- The method `Player::processCollision`, `none` when `levelIndex()` is
outside `enemyBodyHitBoxes`. -/
def Player.processCollision (g : Game) : Option Game :=
  let col := (Player.attackProfile g.player.currAction_).1
  let bonus := (Player.attackProfile g.player.currAction_).2
  let pB := g.player.calculateAttackCollisionBounds col
  let idx := g.levelIndex
  match vecAt enemyBodyHitBoxes idx with
  | none => none
  | some e =>
    let eB := enemyBodyBounds g.playState e
    if attackMisses pB eB then some g
    else some (Player.registerHit g bonus)

/-- The lambda `doAttack` of `Player::handleInput`. -/
def Player.doAttack (g : Game) (cond : Bool) (mv : Int) : Option Game :=
  if cond then
    let p1 : Player := { g.player with controlsLocked := true, canAttack := false }
    Player.processCollision { g with player := p1.setMovement mv }
  else some g

/-- The method `Player::handleInput`. -/
def Player.handleInput (g : Game) (k : Keys) : Option Game :=
  if g.state ≠ GameState.Play ∨ g.player.controlsLocked
      ∨ g.playState.renderEnemyHit ∨ g.playState.pauseMovement then some g
  else
    let left := k.left
    let right := k.right
    let p := g.player
    let halfWidth := Int.tdiv (g.sprites SpriteId.player_default).texWidth 2
    -- horizontal movement
    let p1 : Player :=
      if p.x > StageBoundary ∧ left then
        { p.setMovement 2 with x := p.x - kPlayerSpeed }
      else if p.x < GAME_WIDTH - StageBoundary - halfWidth ∧ right then
        { p.setMovement 3 with x := p.x + kPlayerSpeed }
      else
        p.setMovement (if p.x ≥ GAME_WIDTH - StageBoundary ∧ right then 1 else 0)
    -- crouch
    let p2 : Player := if k.down then p1.setMovement 4 else p1
    -- jump
    let p3 : Player :=
      if k.up then
        { { p2 with jumpDrift := if left then JumpDrift.LeftDrift
                                 else if right then JumpDrift.RightDrift
                                 else JumpDrift.NoneDrift }.setMovement 10 with
          controlsLocked := true, jumpAcceleration_ := kPlayerJumpAccelFrameRate }
      else p2
    let g3 : Game := { g with player := p3 }
    -- three attack types
    (Player.doAttack g3 (k.keyA && g3.player.canAttack) (if k.down then 6 else 5)).bind fun g4 =>
    (Player.doAttack g4 (k.keyS && g4.player.canAttack && (left || right)) 9).bind fun g5 =>
    (Player.doAttack g5 (k.keyS && g5.player.canAttack) (if k.down then 8 else 7)).bind fun g6 =>
    -- release A/S to re-enable the next attack
    let g7 : Game :=
      if (k.releasedA || k.releasedS) ∧ !g6.player.attackActive ∧ !g6.player.showHit_ then
        { g6 with player := { g6.player with activateTime := 0, attackActive := true } }
      else g6
    -- mid-air flying kick
    if k.keyS ∧ g7.player.canFlyKick_
        ∧ (g7.player.currAction_ = PlayerAction.JumpUp ∨ g7.player.currAction_ = PlayerAction.JumpDown)
        ∧ g7.player.y ≤ kPlayerJumpHeight + 23 then
      Player.processCollision
        { g7 with player := { g7.player with isFlyingKick_ := true, canFlyKick_ := false,
                                             stunJumpTimer_ := 0 } }
    else some g7

/-- The method `Player::play`: the shake, the animation step of the sprite
that is drawn, the defeat loop counter and the automatic facing. -/
def Player.play (g : Game) : Game :=
  -- motion-shake effect
  let p0 := g.player
  let p1 : Player :=
    if p0.isShaking then
      { p0 with x := p0.x + (if p0.shakeDirRight then kPlayerShakeForce else -kPlayerShakeForce),
                shakeDirRight := !p0.shakeDirRight }
    else p0
  let g1 : Game := { g with player := p1 }
  -- draw based on the current action
  let g2 : Game :=
    if p1.currAction_ = PlayerAction.WalkLeft ∨ p1.currAction_ = PlayerAction.WalkRight then
      let normal : Sprite :=
        { g1.sprites SpriteId.player_default with isPaused := g1.playState.renderEnemyHit }
      { g1 with sprites := Function.update g1.sprites SpriteId.player_default normal.updateAndDraw.2 }
    else if p1.currAction_ = PlayerAction.Defeated then
      let r := (g1.sprites SpriteId.player_defeated).updateAndDraw
      let g1a : Game := { g1 with sprites := Function.update g1.sprites SpriteId.player_defeated r.2 }
      if r.1 then
        let p2 : Player := { g1a.player with life_counter := g1a.player.life_counter + 1 }
        if p2.life_counter = 3 then
          { g1a with player := p2.setMovement 14,
                     playState := { g1a.playState with enemyEndState := EnemyEndSequence.Transition } }
        else { g1a with player := p2 }
      else g1a
    else g1
  -- auto-flip to face the enemy if not mid-air attack
  if !g2.player.isFlyingKick_ ∧ g2.playState.endState ≤ EndSequence.Start then
    let shouldFlip := decide (g2.playState.enemyX < g2.player.x) != g2.player.isInverted
    if shouldFlip then { g2 with player := g2.player.invertSprites } else g2
  else g2

/-- The method `Player::processJump`, `none` when the division
`TARGET_FPS / jumpAcceleration_` would divide by zero. -/
def Player.processJump (g : Game) : Option Game :=
  let p := g.player
  if (p.currAction_ = PlayerAction.JumpUp ∨ p.currAction_ = PlayerAction.JumpDown)
      ∧ p.health > 0 ∧ !g.playState.renderEnemyHit then
    if p.jumpAcceleration_ = 0 then none
    else
      let p1 : Player := { p with jumpFrameCounter_ := p.jumpFrameCounter_ + 1 }
      if p1.jumpFrameCounter_ ≥ Int.tdiv TARGET_FPS p1.jumpAcceleration_ then
        let p2 : Player := { p1 with jumpFrameCounter_ := 0 }
        let halfWidth := Int.tdiv (g.sprites SpriteId.player_default).texWidth 2
        -- horizontal drift
        let p3 : Player :=
          if p2.jumpDrift = JumpDrift.LeftDrift ∧ p2.x > StageBoundary then
            { p2 with x := p2.x - kPlayerJumpSpeed }
          else if p2.jumpDrift = JumpDrift.RightDrift
              ∧ p2.x < GAME_WIDTH - StageBoundary - halfWidth then
            { p2 with x := p2.x + kPlayerJumpSpeed }
          else p2
        -- ascend or descend
        if p3.currAction_ = PlayerAction.JumpUp then
          if p3.y > kPlayerJumpHeight then
            some { g with player := { p3 with jumpAcceleration_ := p3.jumpAcceleration_ - 1,
                                              y := p3.y - kPlayerJumpSpeed } }
          else
            some { g with player := p3.setMovement 11 }
        else if p3.y < kPlayerDefaultY then
          some { g with player :=
            { p3 with jumpAcceleration_ :=
                        if p3.jumpAcceleration_ < kPlayerJumpAccelFrameRate then
                          p3.jumpAcceleration_ + 1
                        else p3.jumpAcceleration_,
                      y := p3.y + kPlayerJumpSpeed } }
        else
          -- landed
          some { g with player :=
            { ({ p3 with y := kPlayerDefaultY } : Player).setMovement 0 with
              controlsLocked := false, isFlyingKick_ := false, canFlyKick_ := true } }
      else
        some { g with player := p1 }
  else
    some g


/-! ## state_handler.cpp -/

/-- The method `State::cleanUp`, on the base members of the play state. -/
def PlayState.baseCleanUp (st : PlayState) : PlayState :=
  { st with frameCounter_ := 0, elapsedSeconds_ := 0, initialized_ := false }

/-- The method `PlayState::flipEnemySprites`: the facing flag and the
position of the spinning chain. -/
def PlayState.flipEnemySprites (st : PlayState) : PlayState :=
  let st1 : PlayState := { st with isEnemyFlipped := !st.isEnemyFlipped }
  if st1.isEnemyFlipped then
    { st1 with rotatingChainX := st1.rotatingChainX - 17 }
  else
    { st1 with rotatingChainX := st1.rotatingChainX + 17 }

/-- The method `PlayState::reset`. -/
def PlayState.reset (st : PlayState) : PlayState :=
  let st1 : PlayState :=
    { st with enemyCurrentMove := EnemyAction.Idle,
              enemyX := ENEMY_DEFAULT_X,
              enemyY := ENEMY_DEFAULT_Y, enemyHealth := DEFAULT_HEALTH,
              pauseMovement := false,
              haltTimeHit := 0, haltTime := 0,
              maxHaltTime := EndDelayHigh,
              retreatCounter := 0,
              rotatingChainY := 153, rotatingChainX := 135,
              renderEnemyHit := false, endState := EndSequence.Start,
              enemyEndState := EnemyEndSequence.Start,
              enemyMoveState := MoveState.FollowPlayer }
  if st1.isEnemyFlipped then st1.flipEnemySprites else st1

/-- The method `PlayState::cleanUp`. -/
def PlayState.cleanUp (g : Game) : Game :=
  { g with playState := g.playState.reset.baseCleanUp, player := g.player.clear }

/-- The method `PlayState::prepareEndOfRoundChoreography`. -/
def PlayState.prepareEndOfRoundChoreography (g : Game) (pMove : Int) (flip : Bool)
    (playSound : Bool) : Game :=
  let p1 : Player := if flip then g.player.invertSprites else g.player
  let p2 : Player := p1.setMovement pMove
  -- playSound only chooses whether the attack sound is heard
  let _unused := playSound
  let st := g.playState
  -- advance to the next state, without wrapping past GameOver
  let st1 : PlayState :=
    if st.endState ≠ EndSequence.GameOver then { st with endState := st.endState + 1 } else st
  { g with player := p2, playState := st1 }

/-- The method `PlayState::processEndState`. -/
def PlayState.processEndState (g : Game) : Game :=
  let es := g.playState.endState
  if es = EndSequence.PlayWinSound then
    { g with playState := { g.playState with endState := EndSequence.ShowPunch } }
  else if es = EndSequence.ShowPunch then
    PlayState.prepareEndOfRoundChoreography g 5 false true
  else if es = EndSequence.ShowLowKick1 then
    PlayState.prepareEndOfRoundChoreography g 8 true true
  else if es = EndSequence.ShowLowKick2 then
    PlayState.prepareEndOfRoundChoreography g 8 true true
  else if es = EndSequence.ShowHighKick1 then
    PlayState.prepareEndOfRoundChoreography g 9 true true
  else if es = EndSequence.ShowHighKick2 then
    PlayState.prepareEndOfRoundChoreography g 9 true true
  else if es = EndSequence.ShowPunch2 then
    PlayState.prepareEndOfRoundChoreography g 5 true true
  else if es = EndSequence.Smile then
    PlayState.prepareEndOfRoundChoreography g 12 true false
  else if es = EndSequence.CountLife then
    let g1 : Game := { g with playState := { g.playState with maxHaltTime := EndDelayLow } }
    if g1.player.health > 0 then
      { g1 with player := { g1.player with health := g1.player.health - 1 },
                score := g1.score + 100 }
    else
      { g1 with playState := { g1.playState with endState := EndSequence.Transition } }
  else if es = EndSequence.Transition then
    let g1 : Game := { g with playState := { g.playState with maxHaltTime := EndDelayHigh } }
    if g1.level = 5 then
      { g1 with playState := { g1.playState with endState := EndSequence.GameOver } }
    else
      let g2 := PlayState.cleanUp g1
      { g2 with level := g2.level + 1, state := GameState.Preview }
  else if es = EndSequence.GameOver then
    g
  else
    -- END_STATE_START
    { g with playState := { g.playState with enemyCurrentMove := EnemyAction.Defeated,
                                             endState := EndSequence.PlayWinSound } }

/-- The method `PlayState::processEnemyEndState`. -/
def PlayState.processEnemyEndState (g : Game) : Game :=
  match g.playState.enemyEndState with
  | EnemyEndSequence.LieDown =>
    { g with
      player := { g.player.setMovement 13 with y := kPlayerDefaultY }
      sprites := Function.update g.sprites SpriteId.player_defeated
                   (g.sprites SpriteId.player_defeated).resetAnimation
      playState := { g.playState with enemyEndState := EnemyEndSequence.MoveFeet } }
  | EnemyEndSequence.MoveFeet => g
  | EnemyEndSequence.GameOver => g
  | EnemyEndSequence.Transition =>
    if g.player.lives > 0 then
      PlayState.cleanUp
        { g with player := { g.player with lives := g.player.lives - 1 },
                 state := GameState.Preview }
    else
      { g with playState := { g.playState with enemyEndState := EnemyEndSequence.GameOver } }
  | _ =>
    -- END_STATE_ENEMY_START
    { g with
      playState := { g.playState with enemyEndState := EnemyEndSequence.LieDown,
                                      enemyCurrentMove := EnemyAction.Pause }
      player := { g.player with life_counter := 0 } }

/-- The method `PlayState::calculatePlayerCollisionBounds`: the box of the
enemy attack described by the table `collisionInfo`, `none` when
`level - 1` is outside `enemyBodyHitBoxes` or outside `collisionInfo`. -/
def PlayState.calculatePlayerCollisionBounds (g : Game) (collisionInfo : List CollisionInfo) :
    Option Bounds :=
  match vecAt enemyBodyHitBoxes (g.level - 1), vecAt collisionInfo (g.level - 1) with
  | some body, some info =>
    some
      { x := if g.playState.isEnemyFlipped then
               (g.playState.enemyX - body.kickAdjustment) + info.offsetRight
             else
               (g.playState.enemyX - body.kickAdjustment) + info.offsetLeft
        y := g.playState.enemyY + info.offsetTop
        w := info.boxWidth
        h := info.boxHeight }
  | _, _ => none

/-- The box the `switch` of `PlayState::isCollidedWithPlayer` leaves in
`outX`, `outY`, `outBoxWidth`, `outBoxHeight`: all zero unless the enemy
kicks or punches. -/
def PlayState.enemyAttackBounds (g : Game) : Option Bounds :=
  match g.playState.enemyCurrentMove with
  | EnemyAction.Kick => PlayState.calculatePlayerCollisionBounds g enemyKickHitBoxes
  | EnemyAction.Punch => PlayState.calculatePlayerCollisionBounds g enemyPunchHitBoxes
  | _ => some { x := 0, y := 0, w := 0, h := 0 }

/-- The method `PlayState::isCollidedWithPlayer`, `none` when a table lookup
is out of bounds. -/
def PlayState.isCollidedWithPlayer (g : Game) : Option Bool :=
  let pX := if g.player.isInverted then g.player.x + kCollisionBody.offsetRight
            else g.player.x + kCollisionBody.offsetLeft
  let pY := g.player.y + kCollisionBody.offsetTop
  let lowerX1 := kCollisionBody.boxWidth - 1 + pX
  let lowerY1 := kCollisionBody.boxHeight - 1 + pY
  (PlayState.enemyAttackBounds g).bind fun out =>
    let lowerX2 := out.w - 1 + out.x
    let lowerY2 := out.h - 1 + out.y
    if lowerX1 < out.x ∨ lowerX2 < g.player.x ∨ lowerY1 < out.y ∨ lowerY2 < g.player.y then
      some false
    else
      -- collision: the hit sprite of `enemies[level - 1]` is placed at the box
      (vecAt enemies (g.level - 1)).map fun _ => true

/-- The method `PlayState::handleInput`. -/
def PlayState.handleInput (g : Game) (k : Keys) : Option Game :=
  (if g.player.health > 0 ∧ g.playState.enemyHealth > 0 then Player.handleInput g k
   else some g).map fun g1 =>
    -- restart on ENTER after game over
    if (g1.playState.enemyEndState = EnemyEndSequence.GameOver
          ∨ g1.playState.endState = EndSequence.GameOver) ∧ k.enter then
      let g2 := PlayState.cleanUp g1
      { g2 with state := GameState.Intro, score := 0, level := 1,
                player := { g2.player with lives := kPlayerDefaultLives },
                introState := { g2.introState with canProceed := false } }
    else g1

/-- The method `PlayState::offsetEnemyX`. -/
def PlayState.offsetEnemyX (g : Game) (amount : Int) (isAdd : Bool) : Game :=
  let st := g.playState
  let st1 : PlayState :=
    { st with enemyX := if isAdd then st.enemyX + amount else st.enemyX - amount }
  let st2 : PlayState :=
    if g.level = 3 then
      { st1 with rotatingChainX := if isAdd then st1.rotatingChainX + amount
                                   else st1.rotatingChainX - amount }
    else st1
  { g with playState := st2 }

/-- The method `PlayState::enemyPursuePlayer`. -/
def PlayState.enemyPursuePlayer (g : Game) : Game :=
  let g1 : Game :=
    if g.playState.enemyX > g.player.x then PlayState.offsetEnemyX g EnemyWalkSpeed false else g
  if g1.playState.enemyX < g1.player.x then PlayState.offsetEnemyX g1 EnemyWalkSpeed true
  else g1

/-- The method `PlayState::enemyBasicAttack`; `rnd` is the value that
`randBetween(0, 1)` returns. -/
def PlayState.enemyBasicAttack (g : Game) (rnd : Fin 2) : Game :=
  { g with playState :=
    { g.playState with enemyMoveState := MoveState.ChargeAttack,
                       enemyRandomAttack := rnd.val,
                       enemyCurrentMove := attackList.get ⟨rnd.val, rnd.isLt⟩ } }

/-- The method `PlayState::playerInRange`.  The tile count of
`player_default` is 2 from `Game::Game` on. -/
def PlayState.playerInRange (g : Game) : Bool :=
  let boundary := Int.tdiv (g.sprites SpriteId.player_default).texWidth
                    (g.sprites SpriteId.player_default).getTileCount + 10
  decide ((g.playState.enemyX ≥ g.player.x - boundary ∧ g.playState.isEnemyFlipped)
          ∨ (g.playState.enemyX ≤ g.player.x + boundary ∧ !g.playState.isEnemyFlipped))

/-- The method `PlayState::moveEnemyRight`. -/
def PlayState.moveEnemyRight (g : Game) (goingRight : Bool) : Game :=
  let leftLimit := StageBoundary + EnemyRunBoundary
  let rightLimit := GAME_WIDTH - (StageBoundary + EnemyRunBoundary)
                      - Int.tdiv (g.sprites SpriteId.player_default).texWidth 2
  let g1 : Game :=
    if g.playState.runCounter > EnemyRetreatDistance then
      -- when done backing off, go back to follow and reset speed
      { g with
        playState := { g.playState with enemyMoveState := MoveState.FollowPlayer }
        sprites := Function.update g.sprites (SpriteId.enemy (g.level - 1) 2)
                     ((g.sprites (SpriteId.enemy (g.level - 1) 2)).setAnimationSpeed
                       EnemyWalkSpriteFPS) }
    else g
  if (goingRight ∧ g1.playState.enemyX < rightLimit)
      ∨ (!goingRight ∧ g1.playState.enemyX > leftLimit) then
    -- run in chosen direction
    let g2 := PlayState.offsetEnemyX g1 EnemyRunSpriteFPS goingRight
    { g2 with playState := { g2.playState with runCounter := g2.playState.runCounter + 1 } }
  else
    -- hit the wall, switch to running the other way
    { g1 with playState :=
      { g1.playState with enemyMoveState := if goingRight then MoveState.RetreatRunningLeft
                                            else MoveState.RetreatRunningRight } }

/-- The method `PlayState::updateEnemyMovementState`; `rnd` is the value
that `randBetween(0, 1)` returns if `enemyBasicAttack` is reached. -/
def PlayState.updateEnemyMovementState (g : Game) (rnd : Fin 2) : Game :=
  match g.playState.enemyMoveState with
  | MoveState.ChargeAttack => g
  | MoveState.RetreatRunningLeft =>
    PlayState.moveEnemyRight
      { g with playState := { g.playState with enemyCurrentMove := EnemyAction.Idle } } false
  | MoveState.RetreatRunningRight =>
    PlayState.moveEnemyRight
      { g with playState := { g.playState with enemyCurrentMove := EnemyAction.Idle } } true
  | _ =>
    let g1 := PlayState.enemyPursuePlayer g
    if PlayState.playerInRange g1 then PlayState.enemyBasicAttack g1 rnd else g1

/-- The method `PlayState::resetEnemyMove`. -/
def PlayState.resetEnemyMove (g : Game) : Game :=
  { g with
    playState := { g.playState with enemyCurrentMove := EnemyAction.Idle,
                                    enemyMoveState := MoveState.FollowPlayer }
    sprites := Function.update g.sprites
                 (SpriteId.enemy (g.level - 1) g.playState.enemyRandomAttack)
                 (g.sprites (SpriteId.enemy (g.level - 1)
                   g.playState.enemyRandomAttack)).resetAnimation }

/-- First `if` of `PlayState::onTimeTick`: the hit-freeze after a player
hit, at whose end the enemy loses one health point and starts its retreat. -/
def PlayState.tickHitFreeze (g : Game) : Game :=
  if g.playState.pauseMovement then
    let g1 : Game :=
      { g with playState := { g.playState with haltTime := g.playState.haltTime + 1 } }
    if g1.playState.haltTime = 2 then
      let g2 : Game :=
        { g1 with playState := { g1.playState with pauseMovement := false, haltTime := 0 } }
      let g3 : Game :=
        if g2.player.currAction_ = PlayerAction.JumpDown
            ∨ g2.player.currAction_ = PlayerAction.JumpUp then
          { g2 with player := { g2.player with showHit_ := false, attackActive := true,
                                               activateTime := 0 } }
        else g2
      let g4 : Game :=
        { g3 with playState :=
          { g3.playState with enemyHealth := g3.playState.enemyHealth - 1 } }
      if g4.playState.enemyHealth = 0 then
        { g4 with playState := { g4.playState with haltTime := 0 } }
      else if g4.playState.enemyMoveState ≠ MoveState.RetreatRunningLeft
          ∧ g4.playState.enemyMoveState ≠ MoveState.RetreatRunningRight then
        { g4 with
          playState :=
            { g4.playState with
              runCounter := 0
              enemyMoveState := if !g4.playState.isEnemyFlipped then MoveState.RetreatRunningRight
                                else MoveState.RetreatRunningLeft }
          sprites := Function.update g4.sprites (SpriteId.enemy (g4.level - 1) 2)
                       ((g4.sprites (SpriteId.enemy (g4.level - 1) 2)).setAnimationSpeed
                         EnemyRunSpriteFPS) }
      else g4
    else g1
  else g

/-- Second `if` of `PlayState::onTimeTick`: the victory sequencer, stepped
when the halt counter reaches `maxHaltTime`. -/
def PlayState.tickEndState (g : Game) : Game :=
  if g.playState.enemyHealth = 0 then
    let g1 : Game :=
      { g with playState := { g.playState with haltTime := g.playState.haltTime + 1 } }
    if g1.playState.haltTime = g1.playState.maxHaltTime then
      let g2 := PlayState.processEndState g1
      { g2 with playState := { g2.playState with haltTime := 0 } }
    else g1
  else g

/-- Third `if` of `PlayState::onTimeTick`: the defeat sequencer, stepped when
the halt counter reaches `maxHaltTime`. -/
def PlayState.tickEnemyEndState (g : Game) : Game :=
  if g.playState.enemyHealth ≠ 0 ∧ g.player.health = 0 then
    let g1 : Game :=
      { g with playState := { g.playState with haltTime := g.playState.haltTime + 1 } }
    if g1.playState.haltTime = g1.playState.maxHaltTime then
      let g2 := PlayState.processEnemyEndState g1
      { g2 with playState := { g2.playState with haltTime := 0 } }
    else g1
  else g

/-- Fourth `if` of `PlayState::onTimeTick`: the freeze after an enemy hit;
`k` holds the answers of the three `IsKeyDown` polls. -/
def PlayState.tickEnemyHit (g : Game) (k : Keys) : Game :=
  if g.playState.renderEnemyHit then
    let g1 : Game :=
      { g with playState := { g.playState with haltTimeHit := g.playState.haltTimeHit + 1 } }
    if g1.playState.haltTimeHit = 4 then
      let g2 : Game :=
        PlayState.resetEnemyMove
          { g1 with playState := { g1.playState with haltTimeHit := 0, renderEnemyHit := false } }
      let g3 : Game :=
        { g2 with player := { g2.player with x := g2.player.oldX, isShaking := false } }
      let g4 : Game :=
        if (g3.player.currAction_ = PlayerAction.WalkRight ∧ !k.right)
            ∨ (g3.player.currAction_ = PlayerAction.WalkLeft ∧ !k.left)
            ∨ (g3.player.currAction_ = PlayerAction.Crouch ∧ !k.down) then
          { g3 with player := g3.player.setMovement 0 }
        else g3
      if g4.player.health = 0 then
        { g4 with playState := { g4.playState with enemyCurrentMove := EnemyAction.Pause } }
      else g4
    else g1
  else g

/-- The method `PlayState::onTimeTick`: its four `if` statements in
sequence. -/
def PlayState.onTimeTick (g : Game) (k : Keys) : Game :=
  PlayState.tickEnemyHit
    (PlayState.tickEnemyEndState (PlayState.tickEndState (PlayState.tickHitFreeze g))) k


/-! ## player_handler.cpp: the timer callback -/

/-- The method `Player::onTimeTick`; `k` holds the answer of the
`IsKeyDown(KEY_DOWN)` poll. -/
def Player.onTimeTick (g : Game) (k : Keys) : Game :=
  let p := g.player
  -- handle stun and flying-kick timing
  let p1 : Player :=
    if p.controlsLocked ∧ !g.playState.renderEnemyHit then
      if p.currAction_ ≠ PlayerAction.JumpUp ∧ p.currAction_ ≠ PlayerAction.JumpDown then
        let q : Player := { p with pauseTimer := p.pauseTimer + 1 }
        if q.pauseTimer = 3 then
          let q1 : Player :=
            { q with controlsLocked := false, showHit_ := false, pauseTimer := 0,
                     activateTime := 0, attackActive := true }
          -- if they were holding down, stay crouched
          if k.down ∧ q1.prevAction_ = PlayerAction.Crouch then q1.setMovement 4
          else q1.setMovement 0
        else q
      else if p.isFlyingKick_ then
        let q : Player := { p with stunJumpTimer_ := p.stunJumpTimer_ + 1 }
        if q.stunJumpTimer_ = 2 then { q with isFlyingKick_ := false, stunJumpTimer_ := 0 }
        else q
      else p
    else p
  -- attack cooldown
  let p2 : Player :=
    if p1.attackActive then
      let q : Player := { p1 with activateTime := p1.activateTime + 1 }
      if q.activateTime = kPlayerAttackCooldownFrames then
        { q with activateTime := 0, attackActive := false, canAttack := true }
      else q
    else p1
  { g with player := p2 }

/-- The inherited `Timer::timeTick` called on the player: the two counters of
the base advance and `Player::onTimeTick` runs when the timer fires. -/
def Player.timeTick (g : Game) (k : Keys) : Game :=
  let r := Timer.timeTick
    { frameCounter_ := g.player.frameCounter_, elapsedSeconds_ := g.player.elapsedSeconds_ }
  let g1 : Game :=
    { g with player := { g.player with frameCounter_ := r.1.frameCounter_,
                                       elapsedSeconds_ := r.1.elapsedSeconds_ } }
  if r.2 then Player.onTimeTick g1 k else g1

/-! ## state_handler.cpp: enemy rendering and the frame -/

/-- The method `PlayState::tickEnemyMovement`; `rnd` is the value that
`randBetween(0, 1)` returns if `enemyBasicAttack` is reached. -/
def PlayState.tickEnemyMovement (g : Game) (rnd : Fin 2) : Game :=
  let g1 : Game :=
    { g with playState := { g.playState with retreatCounter := g.playState.retreatCounter + 1 } }
  if g1.playState.retreatCounter ≥ Int.tdiv TARGET_FPS EnemyLogicFPS then
    PlayState.updateEnemyMovementState
      { g1 with playState := { g1.playState with retreatCounter := 0 } } rnd
  else g1

/-- The method `PlayState::processCollisionWithPlayer`. -/
def PlayState.processCollisionWithPlayer (g : Game) : Game :=
  let g1 : Game :=
    { g with
      playState := { g.playState with enemyCurrentMove := EnemyAction.Pause,
                                      renderEnemyHit := true, haltTimeHit := 0 }
      player := { g.player with oldX := g.player.x, shakeDirRight := true, isShaking := true,
                                health := g.player.health - 1 } }
  if !g1.playState.isEnemyFlipped then PlayState.offsetEnemyX g1 EnemyWalkSpeed true
  else PlayState.offsetEnemyX g1 EnemyWalkSpeed false

/-- The body of the `if` under the comment `if last frame` in
`PlayState::renderEnemy`: the two collision tests that follow a completed
loop of the attack animation. -/
def PlayState.resolveEnemyAttack (g : Game) : Option Game :=
  (PlayState.isCollidedWithPlayer g).bind fun hit1 =>
    let g1 : Game := if !hit1 then PlayState.resetEnemyMove g else g
    (PlayState.isCollidedWithPlayer g1).map fun hit2 =>
      if hit2 = true ∧ g1.player.health > 0 then PlayState.processCollisionWithPlayer g1
      else g1

/-- The animation step of the attack sprite in the `Kick` / `Punch` case of
`PlayState::renderEnemy`: whether `updateAndDraw` reports a completed loop,
and the game with the sprite advanced. -/
def PlayState.stepAttackSprite (g : Game) : Bool × Game :=
  let id := SpriteId.enemy (g.level - 1) g.playState.enemyRandomAttack
  let r := ({ g.sprites id with isPaused := g.player.showHit_ } : Sprite).updateAndDraw
  (r.1, { g with sprites := Function.update g.sprites id r.2 })

/-- The `switch` of `PlayState::renderEnemy`: the animation step of the
sprite that is drawn and the resolution of an enemy attack when its animation
reports a completed loop.  The result is `none` when `enemies[level - 1]`,
`enemySprites[enemyRandomAttack]` or a hitbox lookup is out of bounds. -/
def PlayState.renderEnemySwitch (g : Game) : Option Game :=
  (vecAt enemies (g.level - 1)).bind fun _ =>
    match g.playState.enemyCurrentMove with
    | EnemyAction.MoveLeft => some g
    | EnemyAction.Defeated => some g
    | EnemyAction.Kick | EnemyAction.Punch =>
      (vecAt enemySprites g.playState.enemyRandomAttack).bind fun _ =>
        if (PlayState.stepAttackSprite g).1 then
          PlayState.resolveEnemyAttack (PlayState.stepAttackSprite g).2
        else some (PlayState.stepAttackSprite g).2
    | EnemyAction.Pause =>
      (vecAt enemySprites g.playState.enemyRandomAttack).map fun _ => g
    | _ =>
      let g1 : Game :=
        if g.level = 3 then
          let chain : Sprite :=
            { g.sprites SpriteId.spinning_chain with isPaused := g.player.showHit_ }
          { g with sprites := Function.update g.sprites SpriteId.spinning_chain
                                chain.updateAndDraw.2 }
        else g
      let id := SpriteId.enemy (g1.level - 1) 2
      let dflt : Sprite := { g1.sprites id with isPaused := g1.player.showHit_ }
      let g2 : Game := { g1 with sprites := Function.update g1.sprites id dflt.updateAndDraw.2 }
      (PlayState.isCollidedWithPlayer g2).map fun hit =>
        if hit then PlayState.processCollisionWithPlayer g2 else g2

/-- The two `if` statements under the comment `flip checker` at the end of
`PlayState::renderEnemy`. -/
def PlayState.flipChecker (g : Game) : Game :=
  let g1 : Game :=
    if g.playState.enemyX < g.player.x ∧ !g.playState.isEnemyFlipped
        ∧ g.playState.enemyCurrentMove ≠ EnemyAction.Punch
        ∧ g.playState.enemyCurrentMove ≠ EnemyAction.Kick then
      { g with playState := g.playState.flipEnemySprites }
    else g
  if g1.playState.enemyX > g1.player.x ∧ g1.playState.isEnemyFlipped
      ∧ g1.playState.enemyCurrentMove ≠ EnemyAction.Punch
      ∧ g1.playState.enemyCurrentMove ≠ EnemyAction.Kick then
    { g1 with playState := g1.playState.flipEnemySprites }
  else g1

/-- The method `PlayState::renderEnemy`. -/
def PlayState.renderEnemy (g : Game) : Option Game :=
  (PlayState.renderEnemySwitch g).map PlayState.flipChecker

/-- The method `PlayState::init`. -/
def PlayState.init (g : Game) : Game :=
  { g with
    sprites := Function.update g.sprites SpriteId.spinning_chain
                 ((g.sprites SpriteId.spinning_chain).setAnimationSpeed SpinningChainSpriteFPS)
    playState := g.playState.reset }

/-- The method `PlayState::drawStage`, of which `renderEnemy` and
`Player::play` touch the game state. -/
def PlayState.drawStage (g : Game) : Option Game :=
  (vecAt enemies (g.level - 1)).bind fun _ =>
    (PlayState.renderEnemy g).map Player.play

/-- The inherited `Timer::timeTick` called on the play state: the two
counters of the base advance and `PlayState::onTimeTick` runs when the timer
fires. -/
def PlayState.timeTick (g : Game) (k : Keys) : Game :=
  let r := Timer.timeTick
    { frameCounter_ := g.playState.frameCounter_,
      elapsedSeconds_ := g.playState.elapsedSeconds_ }
  let g1 : Game :=
    { g with playState := { g.playState with frameCounter_ := r.1.frameCounter_,
                                             elapsedSeconds_ := r.1.elapsedSeconds_ } }
  if r.2 then PlayState.onTimeTick g1 k else g1

/-- The part of `PlayState::run` before `tickEnemyMovement`: `State::run`
(first-frame `init`, `handleInput`, `draw`, `timeTick`) and, unless the
hit-freeze holds, the player timer and `processJump`.  `k` is the keyboard
state of the frame. -/
def PlayState.runBeforeEnemy (g : Game) (k : Keys) : Option Game :=
  let g0 : Game :=
    if !g.playState.initialized_ then
      let gi := PlayState.init g
      { gi with playState := { gi.playState with initialized_ := true } }
    else g
  (PlayState.handleInput g0 k).bind fun g1 =>
    (PlayState.drawStage g1).bind fun g2 =>
      let g3 := PlayState.timeTick g2 k
      if !g3.playState.pauseMovement then Player.processJump (Player.timeTick g3 k)
      else some g3

/-- The method `PlayState::run`: one frame of the Play phase.  `k` is the
keyboard state of the frame, `rnd` the value that `randBetween(0, 1)` returns
if the frame reaches `enemyBasicAttack`. -/
def PlayState.run (g : Game) (k : Keys) (rnd : Fin 2) : Option Game :=
  (PlayState.runBeforeEnemy g k).map fun g4 =>
    if !g4.player.showHit_ ∧ g4.player.health > 0 ∧ g4.playState.enemyHealth > 0 then
      PlayState.tickEnemyMovement g4 rnd
    else g4

/-! ## game_handler.cpp: the save record -/

/-- An input file stream: the bytes not yet read and whether the stream is
still good (no `failbit`). -/
structure IStream where
  rest : List Nat
  good : Bool
deriving DecidableEq

/-- The call `ifs.read(buffer, sizeof(int))` with `sizeof(int) = 4`: on a good
stream with four bytes left it delivers them; otherwise it delivers nothing
usable (the buffer keeps an indeterminate value), takes what is left and sets
`failbit`. -/
def IStream.read4 (s : IStream) : Option (List Nat) × IStream :=
  if s.good ∧ s.rest.length ≥ 4 then
    (some (s.rest.take 4), { s with rest := s.rest.drop 4 })
  else
    (none, { rest := if s.good then [] else s.rest, good := false })

/-- The method `Game::loadState`.  `file` is the content of `savegame.dat` as
a list of bytes, `none` when the file cannot be opened; `decode` is the value
the platform gives an `int` (and a `GameState`) stored in the four given
bytes.  The three fields are applied only if the stream is still good after
the third `read`. -/
def Game.loadState (decode : List Nat → Int) (file : Option (List Nat)) (g : Game) : Game :=
  match file with
  | none => g
  | some bytes =>
    let r1 := IStream.read4 { rest := bytes, good := true }
    let r2 := IStream.read4 r1.2
    let r3 := IStream.read4 r2.2
    -- only apply if the file was complete
    if r3.2.good then
      match r1.1, r2.1, r3.1 with
      | some savedState, some savedLevel, some savedScore =>
        { g with state := decode savedState, level := decode savedLevel,
                 score := decode savedScore }
      | _, _, _ => g
    else g

/-- The method `Game::saveState`: the record it writes, `encode` being the
four bytes the platform stores an `int` in. -/
def Game.saveState (encode : Int → List Nat) (g : Game) : List Nat :=
  encode g.state ++ encode g.level ++ encode g.score

/-! ## Concrete states

The states below instantiate the theorems.  Texture widths are asset data
that the sources do not contain; the sample sprites use 32 pixels. -/

/-- A sprite after `Game::Game` has set its frame count and speed. -/
def Sprite.loaded (frameCount speed : Int) : Sprite :=
  { isPaused := false, texWidth := 32, frameCount_ := frameCount,
    currFrame_ := 0, frameTimer_ := 0, ticksBwFrame_ := speed }

/-- The sprite map after `Game::Game`, `Player::Player` and
`PlayState::init`. -/
def sampleSprites : SpriteId → Sprite
  | SpriteId.player_default => Sprite.loaded 2 kPlayerFrameRate
  | SpriteId.player_defeated => Sprite.loaded 2 FRAME_SPEED
  | SpriteId.spinning_chain => Sprite.loaded 8 SpinningChainSpriteFPS
  | SpriteId.enemy who part =>
    if part = 2 then Sprite.loaded (if who = 2 then 4 else 2) EnemyWalkSpriteFPS
    else if part = 0 ∨ part = 1 then Sprite.loaded 2 EnemyWalkSpriteFPS
    else Sprite.loaded 1 FRAME_SPEED

/-- The player as `Player::Player` initialises it. -/
def samplePlayer : Player :=
  { x := kPlayerDefaultX, oldX := 0, shakeDirRight := false, y := kPlayerDefaultY,
    lives := kPlayerDefaultLives, health := DEFAULT_HEALTH, bonusScore := 0,
    life_counter := 0, controlsLocked := false, canAttack := true,
    attackActive := false, isInverted := false, isShaking := false, showHit_ := false,
    jumpDrift := JumpDrift.NoneDrift, activateTime := 0,
    currAction_ := PlayerAction.Default, prevAction_ := PlayerAction.None,
    pauseTimer := 0, stunJumpTimer_ := 0, jumpFrameCounter_ := 0, jumpAcceleration_ := 0,
    isFlyingKick_ := false, canFlyKick_ := true, frameCounter_ := 0, elapsedSeconds_ := 0 }

/-- The play state after `PlayState::init`, which ends in `reset()`. -/
def samplePlayState : PlayState :=
  { enemyHealth := DEFAULT_HEALTH, enemyX := ENEMY_DEFAULT_X, enemyY := ENEMY_DEFAULT_Y,
    enemyCurrentMove := EnemyAction.Idle, retreatCounter := 0, isEnemyFlipped := false,
    pauseMovement := false, rotatingChainX := 135, rotatingChainY := 153,
    haltTime := 0, haltTimeHit := 0, maxHaltTime := EndDelayHigh,
    endState := EndSequence.Start, enemyEndState := EnemyEndSequence.Start,
    enemyMoveState := MoveState.FollowPlayer, enemyRandomAttack := -1,
    renderEnemyHit := false, runCounter := 0,
    initialized_ := true, frameCounter_ := 0, elapsedSeconds_ := 0 }

/-- The first frame of a round of level 1 in the Play phase. -/
def sampleGame : Game :=
  { state := GameState.Play, level := 1, score := 0,
    introState := { blinkEnter_ := false, blinkCount_ := 0, canProceed := true,
                    initialized_ := false, frameCounter_ := 0, elapsedSeconds_ := 0 },
    previewState := { initialized_ := false, frameCounter_ := 0, elapsedSeconds_ := 0 },
    playState := samplePlayState,
    player := samplePlayer,
    sprites := sampleSprites }

/-- No key held, none released. -/
def noKeys : Keys :=
  { left := false, right := false, up := false, down := false, keyA := false,
    keyS := false, enter := false, releasedA := false, releasedS := false }

/-- Level 1, Play phase: the player stands at x = 135 in front of the enemy
at its default position (145, 152). -/
def levelOneDuel : Game :=
  { sampleGame with player := { samplePlayer with x := 135 } }


/-- The duel of `levelOneDuel` while the enemy, standing 10 pixels to the
right of the player at x = 100, throws a punch. -/
def punchAtCloseRange : Game :=
  { sampleGame with
    player := { samplePlayer with x := 100 }
    playState := { samplePlayState with enemyX := 110,
                                        enemyCurrentMove := EnemyAction.Punch,
                                        enemyRandomAttack := 1 } }

/-- A player lying defeated (action `Defeated`, no health left). -/
def defeatedPlayer : Player :=
  { samplePlayer with currAction_ := PlayerAction.Defeated, health := 0,
                      controlsLocked := true, canAttack := false, x := 80 }

/-- Two boxes share at least one pixel: the closed ranges
`[x, x + w - 1]` meet and the closed ranges `[y, y + h - 1]` meet. -/
def SharePixel (a b : Bounds) : Prop :=
  (∃ i : Int, a.x ≤ i ∧ i ≤ a.x + a.w - 1 ∧ b.x ≤ i ∧ i ≤ b.x + b.w - 1) ∧
  (∃ j : Int, a.y ≤ j ∧ j ≤ a.y + a.h - 1 ∧ b.y ≤ j ∧ j ≤ b.y + b.h - 1)

/-- The player body hurtbox: the locals `pX`, `pY` of
`PlayState::isCollidedWithPlayer` with the size of `kCollisionBody`. -/
def playerBodyBounds (p : Player) : Bounds :=
  { x := if p.isInverted then p.x + kCollisionBody.offsetRight
         else p.x + kCollisionBody.offsetLeft
    y := p.y + kCollisionBody.offsetTop
    w := kCollisionBody.boxWidth
    h := kCollisionBody.boxHeight }

/-- The index `level - 1` lies in `0..4` and the lookups that
`PlayState::calculatePlayerCollisionBounds` makes with it into the body,
punch and kick tables succeed. -/
def LevelInBounds (g : Game) : Prop :=
  1 ≤ g.level ∧ g.level ≤ 5 ∧ 0 ≤ g.level - 1 ∧ g.level - 1 ≤ 4 ∧
  (vecAt enemyBodyHitBoxes (g.level - 1)).isSome ∧
  (PlayState.calculatePlayerCollisionBounds g enemyPunchHitBoxes).isSome ∧
  (PlayState.calculatePlayerCollisionBounds g enemyKickHitBoxes).isSome

/-- The second state has the phase, level and sequencer positions of the
first. -/
def SameMatch (g g' : Game) : Prop :=
  g'.state = g.state ∧ g'.level = g.level ∧
  g'.playState.endState = g.playState.endState ∧
  g'.playState.enemyEndState = g.playState.enemyEndState

/-- The steps of the victory sequence in the order the specification lists
them, from `Start` to `CountLife`. -/
def victoryOrder : List Int :=
  [EndSequence.Start, EndSequence.PlayWinSound, EndSequence.ShowPunch,
   EndSequence.ShowLowKick1, EndSequence.ShowHighKick1, EndSequence.ShowHighKick2,
   EndSequence.ShowLowKick2, EndSequence.ShowPunch2, EndSequence.Smile,
   EndSequence.CountLife]

/-- A lost match at level 3, waiting on the game-over screen. -/
def gameOverLost : Game :=
  { sampleGame with
    level := 3
    score := 700
    player := { samplePlayer with health := 0, lives := 0,
                                  currAction_ := PlayerAction.VeryDefeated }
    playState := { samplePlayState with enemyEndState := EnemyEndSequence.GameOver,
                                        enemyCurrentMove := EnemyAction.Pause } }

/-- A won round at level 2: the sequencer has reached `CountLife` with 3
health points left and 500 points scored. -/
def countingLife : Game :=
  { sampleGame with
    level := 2
    score := 500
    player := { samplePlayer with health := 3, currAction_ := PlayerAction.Smile }
    playState := { samplePlayState with enemyHealth := 0,
                                        enemyCurrentMove := EnemyAction.Defeated,
                                        endState := EndSequence.CountLife } }

/-- A won round at level 5 whose sequencer has reached `Transition`. -/
def finalTransition : Game :=
  { countingLife with
    level := 5
    player := { countingLife.player with health := 0 }
    playState := { countingLife.playState with endState := EndSequence.Transition } }

/-- A won round at level 2 whose sequencer has reached `Transition`. -/
def secondTransition : Game :=
  { finalTransition with level := 2 }

/-- The defeated player of a lost round: the sequencer waits at `MoveFeet`,
two loops of the defeat animation are counted and the animation is one frame
short of completing the next loop. -/
def twitchingFeet : Game :=
  { sampleGame with
    player := { samplePlayer with health := 0, y := kPlayerDefaultY, life_counter := 2,
                                  currAction_ := PlayerAction.Defeated }
    playState := { samplePlayState with enemyEndState := EnemyEndSequence.MoveFeet,
                                        enemyCurrentMove := EnemyAction.Pause }
    sprites := Function.update sampleSprites SpriteId.player_defeated
                 { Sprite.loaded 2 FRAME_SPEED with currFrame_ := 1, frameTimer_ := 11 } }

/-- A lost round whose defeat animation has ended: the defeat sequencer is at
`Transition` and the player action is `VeryDefeated`, as `Player::play` sets
them together; two lives are left. -/
def lostRoundAtTransition : Game :=
  { sampleGame with
    level := 2
    score := 300
    player := { samplePlayer with health := 0, lives := 2, life_counter := 3, x := 90,
                                  controlsLocked := true,
                                  currAction_ := PlayerAction.VeryDefeated,
                                  prevAction_ := PlayerAction.Defeated }
    playState := { samplePlayState with enemyEndState := EnemyEndSequence.Transition,
                                        enemyCurrentMove := EnemyAction.Pause,
                                        enemyHealth := 4, enemyX := 120 } }

/-- The same lost round with no life left. -/
def lastLifeLost : Game :=
  { lostRoundAtTransition with
    player := { lostRoundAtTransition.player with lives := 0 } }

/-- A run of `PlayState::onTimeTick` calls, one per entry of `ks`, each with
the key answers of its entry. -/
def PlayState.ticks (ks : List Keys) (g : Game) : Game :=
  ks.foldl PlayState.onTimeTick g

/-- A won match on the game-over screen: the victory sequencer is at
`GameOver`, the enemy has no health left and no hit-freeze is pending. -/
def WonGameOver (g : Game) : Prop :=
  g.playState.endState = EndSequence.GameOver ∧ g.playState.enemyHealth = 0 ∧
  g.playState.pauseMovement = false

/-- A lost match on the game-over screen: the defeat sequencer is at
`GameOver`, the player has no health left, the enemy has, and no hit-freeze
is pending. -/
def LostGameOver (g : Game) : Prop :=
  g.playState.enemyEndState = EnemyEndSequence.GameOver ∧ g.playState.enemyHealth ≠ 0 ∧
  g.player.health = 0 ∧ g.playState.pauseMovement = false

/-- The second state has the phase, level, score, lives and sequencer
positions of the first. -/
def SameStanding (g g' : Game) : Prop :=
  g'.state = g.state ∧ g'.level = g.level ∧ g'.score = g.score ∧
  g'.player.lives = g.player.lives ∧
  g'.playState.endState = g.playState.endState ∧
  g'.playState.enemyEndState = g.playState.enemyEndState

/-- A won match at level 5 on the game-over screen. -/
def gameOverWon : Game :=
  { sampleGame with
    level := 5
    score := 4200
    player := { samplePlayer with health := 0, currAction_ := PlayerAction.Smile }
    playState := { samplePlayState with endState := EndSequence.GameOver,
                                        enemyHealth := 0,
                                        enemyCurrentMove := EnemyAction.Defeated } }

/-- Level 2, Play phase: the player stands at x = 126 within punching reach
of the enemy at its default position, which has one health point left. -/
def lastPunch : Game :=
  { sampleGame with
    level := 2
    player := { samplePlayer with x := 126, currAction_ := PlayerAction.PunchStand,
                                  controlsLocked := true, canAttack := false }
    playState := { samplePlayState with enemyHealth := 1 } }

/-- The player of `Player::handleInput` after the direction, crouch and jump
keys have been handled and before the attack keys are examined (the local
`p3` of the embedding). -/
def Player.afterMovementKeys (g : Game) (k : Keys) : Player :=
  let p := g.player
  let halfWidth := Int.tdiv (g.sprites SpriteId.player_default).texWidth 2
  let p1 : Player :=
    if p.x > StageBoundary ∧ k.left then
      { p.setMovement 2 with x := p.x - kPlayerSpeed }
    else if p.x < GAME_WIDTH - StageBoundary - halfWidth ∧ k.right then
      { p.setMovement 3 with x := p.x + kPlayerSpeed }
    else
      p.setMovement (if p.x ≥ GAME_WIDTH - StageBoundary ∧ k.right then 1 else 0)
  let p2 : Player := if k.down then p1.setMovement 4 else p1
  if k.up then
    { { p2 with jumpDrift := if k.left then JumpDrift.LeftDrift
                             else if k.right then JumpDrift.RightDrift
                             else JumpDrift.NoneDrift }.setMovement 10 with
      controlsLocked := true, jumpAcceleration_ := kPlayerJumpAccelFrameRate }
  else p2

/-- The block of `Player::handleInput` that re-arms the attack timer when the
punch or kick key is released. -/
def Player.afterKeyRelease (g : Game) (k : Keys) : Game :=
  if (k.releasedA || k.releasedS) ∧ !g.player.attackActive ∧ !g.player.showHit_ then
    { g with player := { g.player with activateTime := 0, attackActive := true } }
  else g

/-- The last block of `Player::handleInput`: the mid-air flying kick. -/
def Player.flyingKickBlock (g : Game) (k : Keys) : Option Game :=
  if k.keyS ∧ g.player.canFlyKick_
      ∧ (g.player.currAction_ = PlayerAction.JumpUp ∨ g.player.currAction_ = PlayerAction.JumpDown)
      ∧ g.player.y ≤ kPlayerJumpHeight + 23 then
    Player.processCollision
      { g with player := { g.player with isFlyingKick_ := true, canFlyKick_ := false,
                                         stunJumpTimer_ := 0 } }
  else some g

/-- The state in which the lambda `doAttack` calls `processCollision` when it
accepts the attack `mv`: direction keys handled, controls locked, `canAttack`
cleared, action `mv`. -/
def Player.attackEntry (g : Game) (k : Keys) (mv : Int) : Game :=
  let p : Player :=
    { Player.afterMovementKeys g k with controlsLocked := true, canAttack := false }
  { g with player := p.setMovement mv }

/-- The attack that `Player::handleInput` accepts for the held keys: the
punch by Down if the punch key is held, otherwise the high kick if Left or
Right is held, otherwise the kick by Down. -/
def acceptedAttack (k : Keys) : Int :=
  if k.keyA then (if k.down then PlayerAction.PunchCrouch else PlayerAction.PunchStand)
  else if k.left || k.right then PlayerAction.KickHigh
  else (if k.down then PlayerAction.KickCrouch else PlayerAction.KickStand)

/-- The first frame of a round with the player moved to the left stage
boundary. -/
def atLeftBoundary : Game :=
  { sampleGame with player := { samplePlayer with x := StageBoundary } }

/-- Only the Left key is held. -/
def leftKey : Keys := { noKeys with left := true }

/-- The first frame of a round with the player at the right walking limit
`GAME_WIDTH - StageBoundary - 32 / 2 = 230` of the sample sprite width. -/
def atRightLimit : Game :=
  { sampleGame with player := { samplePlayer with x := 230 } }

/-- Only the Right key is held. -/
def rightKey : Keys := { noKeys with right := true }

/-- `n` calls of `Player::processJump` in a row, `none` as soon as one of
them divides by zero. -/
def Player.jumpSteps : Nat → Game → Option Game
  | 0, g => some g
  | n + 1, g => (Player.processJump g).bind (Player.jumpSteps n)

/-- The player of `sampleGame` twelve `processJump` calls after the Up key
began a jump through `Player::handleInput`. -/
def midJump : Option Game :=
  (Player.handleInput sampleGame { noKeys with up := true }).bind (Player.jumpSteps 12)

/-- The kick key held together with Left: the high kick. -/
def highKickKeys : Keys := { noKeys with keyS := true, left := true }

/-- Only the punch key is held. -/
def punchKey : Keys := { noKeys with keyA := true }

/-- Only the kick key is held. -/
def kickKey : Keys := { noKeys with keyS := true }

/-- Only the Up key is held. -/
def upKey : Keys := { noKeys with up := true }

/-- The duel of `levelOneDuel` while the attack cooldown is still running:
`canAttack` is false. -/
def attackCoolingDown : Game :=
  { sampleGame with player := { samplePlayer with x := 135, canAttack := false } }

/-- The player of `Player::processJump` after the frame counter was reset
and the horizontal drift applied (the local `p3` of the embedding). -/
def Player.jumpDrifted (g : Game) : Player :=
  let p2 : Player := { g.player with jumpFrameCounter_ := 0 }
  let halfWidth := Int.tdiv (g.sprites SpriteId.player_default).texWidth 2
  if p2.jumpDrift = JumpDrift.LeftDrift ∧ p2.x > StageBoundary then
    { p2 with x := p2.x - kPlayerJumpSpeed }
  else if p2.jumpDrift = JumpDrift.RightDrift
      ∧ p2.x < GAME_WIDTH - StageBoundary - halfWidth then
    { p2 with x := p2.x + kPlayerJumpSpeed }
  else p2

/-- The heights and accelerations that one jump passes through: `y` lies
between the apex `kPlayerJumpHeight` and the ground `kPlayerDefaultY`, and
the acceleration has lost one unit for every `kPlayerJumpSpeed` pixels above
the ground. -/
def JumpArc (p : Player) : Prop :=
  kPlayerJumpHeight ≤ p.y ∧ p.y ≤ kPlayerDefaultY ∧
  kPlayerJumpSpeed * (kPlayerJumpAccelFrameRate - p.jumpAcceleration_) = kPlayerDefaultY - p.y

/-- The state in which `Player::handleInput` leaves `sampleGame` when only Up
is held: the start of a jump. -/
def jumpStart : Game :=
  { sampleGame with
    player := { samplePlayer with currAction_ := PlayerAction.JumpUp,
                                  prevAction_ := PlayerAction.Default,
                                  controlsLocked := true,
                                  jumpAcceleration_ := kPlayerJumpAccelFrameRate } }

/-- The first `if` of `PlayState::moveEnemyRight`: once the run counter is
above `EnemyRetreatDistance` the enemy goes back to following the player at
walking speed. -/
def PlayState.afterRetreatCheck (g : Game) : Game :=
  if g.playState.runCounter > EnemyRetreatDistance then
    { g with
      playState := { g.playState with enemyMoveState := MoveState.FollowPlayer }
      sprites := Function.update g.sprites (SpriteId.enemy (g.level - 1) 2)
                   ((g.sprites (SpriteId.enemy (g.level - 1) 2)).setAnimationSpeed
                     EnemyWalkSpriteFPS) }
  else g

/-- The local `leftLimit` of `PlayState::moveEnemyRight`. -/
def leftLimit : Int := StageBoundary + EnemyRunBoundary

/-- The local `rightLimit` of `PlayState::moveEnemyRight`. -/
def rightLimit (g : Game) : Int :=
  GAME_WIDTH - (StageBoundary + EnemyRunBoundary)
    - Int.tdiv (g.sprites SpriteId.player_default).texWidth 2

/-- The test of `PlayState::moveEnemyRight` for running on in the chosen
direction: the enemy has not reached the stage limit on that side. -/
def canRun (g : Game) (goingRight : Bool) : Prop :=
  (goingRight = true ∧ g.playState.enemyX < rightLimit g)
    ∨ ((!goingRight) = true ∧ g.playState.enemyX > leftLimit)

/-- The retreat state of a direction. -/
def retreatState (goingRight : Bool) : MoveState :=
  if goingRight then MoveState.RetreatRunningRight else MoveState.RetreatRunningLeft

/-- One call of `PlayState::updateEnemyMovementState` for each element of
`rnds`, in order; the element is the random draw of that call. -/
def PlayState.enemySteps (rnds : List (Fin 2)) (g : Game) : Game :=
  rnds.foldl PlayState.updateEnemyMovementState g

/-- The duel of `levelOneDuel` at the moment a player hit sends the enemy on
its retreat to the right, from x = 150. -/
def retreatFromCentre : Game :=
  { sampleGame with
    playState := { samplePlayState with enemyX := 150,
                                        enemyMoveState := MoveState.RetreatRunningRight,
                                        runCounter := 0 } }

/-- A retreat to the right that starts at the right stage limit
`rightLimit = 200` of the sample sprite width. -/
def retreatAtWall : Game :=
  { sampleGame with
    playState := { samplePlayState with enemyX := 200,
                                        enemyMoveState := MoveState.RetreatRunningRight,
                                        runCounter := 0 } }

/-- The counters after `n` calls of `Timer::timeTick` in a row. -/
def Timer.ticks (n : Nat) (t : Timer) : Timer :=
  (fun s => (Timer.timeTick s).1)^[n] t

/-- A timer as the member initialisers of `class Timer` leave it. -/
def freshTimer : Timer := { frameCounter_ := 0, elapsedSeconds_ := 0 }

/-- The four bytes of a 32-bit two's-complement `int`, least significant
first: the representation on the little-endian targets of the game. -/
def int32Bytes (v : Int) : List Nat :=
  let u := (v % 4294967296).toNat
  [u % 256, u / 256 % 256, u / 65536 % 256, u / 16777216 % 256]

/-- The `int` stored in four bytes, least significant first. -/
def int32OfBytes (bs : List Nat) : Int :=
  let u : Nat := bs.getD 0 0 + 256 * bs.getD 1 0 + 65536 * bs.getD 2 0 + 16777216 * bs.getD 3 0
  if u ≥ 2147483648 then (u : Int) - 4294967296 else (u : Int)

/-- The game as `Game::Game` has it when it calls `loadState`: phase Intro,
level 1, score 0. -/
def constructedGame : Game :=
  { sampleGame with state := GameState.Intro, level := 1, score := 0 }

/-- A game saved in the Play phase at level 3 with 1200 points. -/
def savedGame : Game :=
  { sampleGame with state := GameState.Play, level := 3, score := 1200 }

/-- A player whose controls an attack has locked: standing punch, stun
counter at 0. -/
def lockedAfterPunch : Game :=
  { sampleGame with
    player := { samplePlayer with controlsLocked := true, canAttack := false,
                                  currAction_ := PlayerAction.PunchStand,
                                  prevAction_ := PlayerAction.Default } }

/-- A player whose controls were locked when the defeat sequencer laid the
player down: action Defeated, stun counter at 0. -/
def lockedWhileDefeated : Game :=
  { sampleGame with
    player := { samplePlayer with controlsLocked := true, canAttack := false, health := 0,
                                  currAction_ := PlayerAction.Defeated,
                                  prevAction_ := PlayerAction.PunchStand } }

/-- Only the Down key is held. -/
def downKey : Keys := { noKeys with down := true }

/-- The `PlayState::updateEnemyMovementState` call on `g` reaches
`enemyBasicAttack`, the only consumer of `randBetween`: the enemy follows the
player and, after the pursuit step, has the player in range. -/
def PlayState.reachesBasicAttack (g : Game) : Prop :=
  g.playState.enemyMoveState = MoveState.FollowPlayer
    ∧ PlayState.playerInRange (PlayState.enemyPursuePlayer g) = true

/-- The frame `PlayState::run` on `g` with the keys `k` consumes a random
draw: it gets as far as `tickEnemyMovement`, the AI cadence counter fires, and
the AI step reaches `enemyBasicAttack`. -/
def PlayState.frameDraws (g : Game) (k : Keys) : Prop :=
  ∃ g4, PlayState.runBeforeEnemy g k = some g4 ∧
    ((!g4.player.showHit_) = true ∧ g4.player.health > 0 ∧ g4.playState.enemyHealth > 0) ∧
    g4.playState.retreatCounter + 1 ≥ Int.tdiv TARGET_FPS EnemyLogicFPS ∧
    PlayState.reachesBasicAttack
      { g4 with playState := { g4.playState with retreatCounter := 0 } }

/-- A run of the Play phase: one `PlayState::run` for each element of the
trace, which holds the keyboard state of the frame and the value
`randBetween(0, 1)` returns in it; `none` as soon as a frame has no defined
result. -/
def PlayState.runFrames : List (Keys × Fin 2) → Game → Option Game
  | [], g => some g
  | (k, rnd) :: rest, g => (PlayState.run g k rnd).bind (PlayState.runFrames rest)

/-- Two traces for a run from `g` hold the same keys frame by frame, and the
same draw in every frame that consumes one. -/
def TracesAgree : List (Keys × Fin 2) → List (Keys × Fin 2) → Game → Prop
  | [], [], _ => True
  | (k1, r1) :: t1, (k2, r2) :: t2, g =>
    k1 = k2 ∧ (PlayState.frameDraws g k1 → r1 = r2) ∧
    ∀ g1, PlayState.run g k1 r1 = some g1 → TracesAgree t1 t2 g1
  | _, _, _ => False

/-- The duel of `levelOneDuel` on a frame on which the AI cadence counter
fires. -/
def duelBeforeAttack : Game :=
  { levelOneDuel with playState := { samplePlayState with retreatCounter := 1 } }

/-- Level 2: the enemy, at x = 100 and not flipped, throws a punch. -/
def punchAtLevelTwo : Game :=
  { sampleGame with
    level := 2
    playState := { samplePlayState with enemyX := 100, enemyCurrentMove := EnemyAction.Punch,
                                        enemyRandomAttack := 1 } }

/-- Level 4: the enemy, at x = 100 and flipped, kicks. -/
def kickAtLevelFour : Game :=
  { sampleGame with
    level := 4
    playState := { samplePlayState with enemyX := 100, enemyCurrentMove := EnemyAction.Kick,
                                        enemyRandomAttack := 0, isEnemyFlipped := true } }

/-- The spinning chain is at its offset from the enemy: 10 pixels to the left
of `enemyX` when the enemy is not flipped, 27 when it is. -/
def ChainOffset (st : PlayState) : Prop :=
  st.rotatingChainX - st.enemyX = if st.isEnemyFlipped then -27 else -10

/-- The first frame of a round of level 3, after the initial `reset()`. -/
def chainRound : Game := { sampleGame with level := 3 }

/-- An enemy sprite one animation step before it completes its loop. -/
def Sprite.lastFrame (frameCount speed : Int) : Sprite :=
  { Sprite.loaded frameCount speed with
    currFrame_ := frameCount - 1, frameTimer_ := Int.tdiv TARGET_FPS speed - 1 }

/-- Level 1: the enemy, ten pixels to the right of the player, is on the last
frame of a punch that reaches the player. -/
def punchLands : Game :=
  { punchAtCloseRange with
    sprites := Function.update sampleSprites (SpriteId.enemy 0 1)
                 (Sprite.lastFrame 2 EnemyWalkSpriteFPS) }

/-- Level 1: the enemy is on the last frame of a punch, the player stands far
to the left, out of reach. -/
def punchMisses : Game :=
  { punchLands with player := { samplePlayer with x := 40 } }

/-- Level 5: the unflipped enemy at x = 100 is on the last frame of a punch
while the player, who has walked past it during the swing, stands at
x = 101 facing it. -/
def punchAfterPassing : Game :=
  { sampleGame with
    level := 5
    player := { samplePlayer with x := 101, isInverted := true }
    playState := { samplePlayState with enemyX := 100, enemyCurrentMove := EnemyAction.Punch,
                                        enemyMoveState := MoveState.ChargeAttack,
                                        enemyRandomAttack := 1 }
    sprites := Function.update sampleSprites (SpriteId.enemy 4 1)
                 (Sprite.lastFrame 2 EnemyWalkSpriteFPS) }

/-- The state `punchMisses` with the player moved off the screen, just left
of and above the origin. -/
def punchOffScreen : Game :=
  { punchMisses with player := { samplePlayer with x := -5, y := -5 } }

/-- A round in progress: the enemy has run 7 steps of a retreat, and the
player is at the apex of a jump, one sub-tick into the next jump step. -/
def roundInProgress : Game :=
  { sampleGame with
    player := { samplePlayer with currAction_ := PlayerAction.JumpUp, controlsLocked := true,
                                  y := kPlayerJumpHeight, jumpAcceleration_ := 30,
                                  jumpFrameCounter_ := 1 }
    playState := { samplePlayState with enemyMoveState := MoveState.RetreatRunningRight,
                                        runCounter := 7, enemyX := 180, retreatCounter := 1 } }

/-- The player is in the middle of a jump that `processJump` advances: on the
arc of the jump, ascending or descending, with health left and no hit-freeze
on screen. -/
def InJump (g : Game) : Prop :=
  JumpArc g.player ∧
  (g.player.currAction_ = PlayerAction.JumpUp ∨ g.player.currAction_ = PlayerAction.JumpDown) ∧
  g.player.health > 0 ∧ g.playState.renderEnemyHit = false

/-- The player has landed: on the ground, idle, controls free, the flying
kick re-armed and the jump acceleration back at its start value. -/
def Landed (p : Player) : Prop :=
  p.y = kPlayerDefaultY ∧ p.currAction_ = PlayerAction.Default ∧ p.controlsLocked = false ∧
  p.isFlyingKick_ = false ∧ p.canFlyKick_ = true ∧
  p.jumpAcceleration_ = kPlayerJumpAccelFrameRate

/-- How many move steps of `processJump` a jump still needs: while ascending,
one for each unit of acceleration above the 30 of the apex, the switch to
JumpDown, the 23 descents and the landing; while descending, one for each
unit of acceleration below the start value 53 and the landing. -/
def Player.movesLeft (p : Player) : Int :=
  if p.currAction_ = PlayerAction.JumpUp then (p.jumpAcceleration_ - 30) + 25
  else (kPlayerJumpAccelFrameRate - p.jumpAcceleration_) + 1

/-- What a step of the victory sequencer decides: the sequencer position, the
halt threshold, level, score, phase and the player's health. -/
def sequencerView (g : Game) : Int × Int × Int × Int × Int × Int :=
  (g.playState.endState, g.playState.maxHaltTime, g.level, g.score, g.state, g.player.health)

/-- The victory sequence between two firings of its long windows: the enemy
is out of health, no hit-freeze is pending, the halt counter is 0, the
threshold is `EndDelayHigh` and the sequencer is at one of the steps Start to
CountLife. -/
def VictoryLong (g : Game) : Prop :=
  g.playState.enemyHealth = 0 ∧ g.playState.pauseMovement = false ∧
  g.playState.haltTime = 0 ∧ g.playState.maxHaltTime = EndDelayHigh ∧
  EndSequence.Start ≤ g.playState.endState ∧ g.playState.endState ≤ EndSequence.CountLife

/-- The victory sequence between two firings of its short windows, after the
first CountLife firing: the threshold is `EndDelayLow` and the sequencer is at
CountLife or Transition. -/
def VictoryShort (g : Game) : Prop :=
  g.playState.enemyHealth = 0 ∧ g.playState.pauseMovement = false ∧
  g.playState.haltTime = 0 ∧ g.playState.maxHaltTime = EndDelayLow ∧
  (g.playState.endState = EndSequence.CountLife
    ∨ g.playState.endState = EndSequence.Transition)

/-- The enemy of level 2 has just lost its last health point: the victory
sequence begins. -/
def victoryBegins : Game :=
  { sampleGame with
    level := 2
    score := 500
    player := { samplePlayer with health := 1 }
    playState := { samplePlayState with enemyHealth := 0 } }

/-- The player has walked past the idle, unflipped enemy to its right. -/
def playerPassedEnemy : Game :=
  { sampleGame with player := { samplePlayer with x := 170 } }

/-- The player has walked past an unflipped enemy that is in the middle of a
punch. -/
def playerPassedMidSwing : Game :=
  { sampleGame with
    player := { samplePlayer with x := 170 }
    playState := { samplePlayState with enemyCurrentMove := EnemyAction.Punch,
                                        enemyMoveState := MoveState.ChargeAttack,
                                        enemyRandomAttack := 1 } }

/-- The enemy is on a retreat run, to either side. -/
def Retreating (st : PlayState) : Prop :=
  st.enemyMoveState = MoveState.RetreatRunningLeft
    ∨ st.enemyMoveState = MoveState.RetreatRunningRight

/-- The duel of `levelOneDuel` on the tick that ends the freeze of a player
hit: the halt counter is at 1, the enemy follows the player, is not flipped,
has five health points and an old run counter of 7. -/
def freezeExpiring : Game :=
  { levelOneDuel with
    player := { levelOneDuel.player with showHit_ := true, controlsLocked := true,
                                         canAttack := false,
                                         currAction_ := PlayerAction.PunchStand }
    playState := { samplePlayState with pauseMovement := true, haltTime := 1, enemyHealth := 5,
                                        runCounter := 7 } }

/-- The state `freezeExpiring` with the enemy flipped and already on a retreat
run to the right, four steps in. -/
def freezeExpiringOnRetreat : Game :=
  { freezeExpiring with
    playState := { freezeExpiring.playState with
                   isEnemyFlipped := true, runCounter := 4,
                   enemyMoveState := MoveState.RetreatRunningRight } }

/-- The engagement boundary of the enemy: the width of one frame of the
player sprite plus 10. -/
def engagementBoundary (g : Game) : Int :=
  Int.tdiv (g.sprites SpriteId.player_default).texWidth
    (g.sprites SpriteId.player_default).frameCount_ + 10

/-- The player is within engagement range of the enemy: `enemyX` is at least
the player's x minus the boundary when the enemy is flipped, at most the
player's x plus the boundary when it is not. -/
def InEngagementRange (g : Game) : Prop :=
  (g.playState.isEnemyFlipped = true
      ∧ g.playState.enemyX ≥ g.player.x - engagementBoundary g)
    ∨ (g.playState.isEnemyFlipped = false
      ∧ g.playState.enemyX ≤ g.player.x + engagementBoundary g)

/-- The enemy follows a player who stands far to its right, out of range of
the flipped enemy. -/
def chaseFromAfar : Game :=
  { sampleGame with
    player := { samplePlayer with x := 200 }
    playState := { samplePlayState with enemyX := 100, isEnemyFlipped := true } }

/-- The enemy holds a kick that it has charged. -/
def chargedKick : Game :=
  { levelOneDuel with
    playState := { samplePlayState with enemyMoveState := MoveState.ChargeAttack,
                                        enemyCurrentMove := EnemyAction.Kick,
                                        enemyRandomAttack := 0 } }

/-- The player action after each of `n` steps of the victory sequencer
(`processEndState`) in a row, first step first. -/
def PlayState.victoryPoses : Nat → Game → List Int
  | 0, _ => []
  | n + 1, g =>
    (PlayState.processEndState g).player.currAction_
      :: PlayState.victoryPoses n (PlayState.processEndState g)

/-- The position of the victory sequencer before each of `n` steps in a row,
first step first. -/
def PlayState.victorySteps : Nat → Game → List Int
  | 0, _ => []
  | n + 1, g =>
    g.playState.endState :: PlayState.victorySteps n (PlayState.processEndState g)

/-- The poses in the order punch, high kick, low kick, low kick, high kick,
punch, with the smile that follows. -/
def highKickFirstPoses : List Int :=
  [PlayerAction.PunchStand, PlayerAction.KickHigh, PlayerAction.KickCrouch,
   PlayerAction.KickCrouch, PlayerAction.KickHigh, PlayerAction.PunchStand,
   PlayerAction.Smile]

/-- A won round of level 2 whose victory sequencer has reached `ShowPunch`,
the first pose. -/
def firstVictoryPose : Game :=
  { victoryBegins with
    playState := { victoryBegins.playState with endState := EndSequence.ShowPunch,
                                                enemyCurrentMove := EnemyAction.Defeated } }

/-- The right end of the stage for the player: `GAME_WIDTH - StageBoundary`
less half the width of the player sprite. -/
def stageRight (g : Game) : Int :=
  GAME_WIDTH - StageBoundary - Int.tdiv (g.sprites SpriteId.player_default).texWidth 2

/-- The player is on the stage horizontally. -/
def OnStage (g : Game) : Prop :=
  StageBoundary ≤ g.player.x ∧ g.player.x ≤ stageRight g

/-- The Up and Left keys held together: a jump with a drift to the left. -/
def jumpLeftKeys : Keys := { noKeys with up := true, left := true }

/-- The first round from its first frame: one step to the left (x = 34), a
jump to the left begun with Up and Left (x = 33), and eleven calls of
`processJump`, each of which drifts two pixels. -/
def driftToLeftEdge : Option Game :=
  (Player.handleInput sampleGame leftKey).bind fun g1 =>
    (Player.handleInput g1 jumpLeftKeys).bind (Player.jumpSteps 11)

/-- The first frames of the first round: a frame with Left held, a frame with
Up and Left held, and eleven frames without keys. -/
def driftFrames : List (Keys × Fin 2) :=
  [(leftKey, 0), (jumpLeftKeys, 0)] ++ List.replicate 11 (noKeys, 0)

/-- The bonus of an attack: 200 for the high kick, 250 for an air attack
(action JumpDown), 100 for every other action. -/
def attackBonus (a : Int) : Int :=
  if a = PlayerAction.KickHigh then 200
  else if a = PlayerAction.JumpDown then 250
  else 100

/-- The state `lastPunch` with a high kick instead of the punch. -/
def highKickInReach : Game :=
  { lastPunch with player := { lastPunch.player with currAction_ := PlayerAction.KickHigh } }

/-- The player is in the air: the action is JumpUp or JumpDown. -/
def Airborne (p : Player) : Prop :=
  p.currAction_ = PlayerAction.JumpUp ∨ p.currAction_ = PlayerAction.JumpDown

/-- A run of `Player::handleInput` calls, one for each entry of `ks` with the
keyboard state of that entry; `none` as soon as a call has no defined
result. -/
def Player.inputs : List Keys → Game → Option Game
  | [], g => some g
  | k :: ks, g => (Player.handleInput g k).bind (Player.inputs ks)

/-- The frames up to a firing of the player's timer: one `handleInput` call
for each entry of `ks`, then `Player::onTimeTick` with the Down key as `k`
has it. -/
def Player.inputsThenTick (ks : List Keys) (k : Keys) (g : Game) : Option Game :=
  (Player.inputs ks g).map fun g1 => Player.onTimeTick g1 k

/-- The keys of a player who hammers the punch and kick keys while walking
right, and lets them go. -/
def mashingKeys : List Keys :=
  [{ noKeys with keyA := true, right := true },
   { noKeys with keyS := true, right := true, releasedA := true },
   { noKeys with keyA := true, keyS := true, up := true, releasedS := true }]

/-- The state `retreatFromCentre` with the retreat going left. -/
def retreatLeftFromCentre : Game :=
  { retreatFromCentre with
    playState := { retreatFromCentre.playState with
                   enemyMoveState := MoveState.RetreatRunningLeft } }

/-- The fields on which the two healths and the jump of the player depend:
the player's health, height, action, jump acceleration and control lock, the
enemy's health and the freeze of a player hit. -/
structure Vitals where
  health : Int
  y : Int
  action : Int
  accel : Int
  locked : Bool
  enemyHealth : Int
  paused : Bool

/-- The vitals of a game state. -/
def Game.vitals (g : Game) : Vitals :=
  { health := g.player.health, y := g.player.y, action := g.player.currAction_,
    accel := g.player.jumpAcceleration_, locked := g.player.controlsLocked,
    enemyHealth := g.playState.enemyHealth, paused := g.playState.pauseMovement }

/-- The vitals after `PlayState::cleanUp`: `reset()` and `Player::clear()`
restore both healths, the height and the lock, and `setMovement(0)` leaves a
Defeated action. -/
def Vitals.cleaned (v : Vitals) : Vitals :=
  { health := DEFAULT_HEALTH, y := kPlayerDefaultY,
    action := if v.action = PlayerAction.Defeated then PlayerAction.Defeated
              else PlayerAction.Default,
    accel := v.accel, locked := false, enemyHealth := DEFAULT_HEALTH, paused := false }

/-- The action is JumpUp or JumpDown. -/
def Vitals.airborne (v : Vitals) : Prop :=
  v.action = PlayerAction.JumpUp ∨ v.action = PlayerAction.JumpDown

/-- No health is negative, a pending player hit finds the enemy with health
left, and the player is not above the top of the screen. -/
def Vitals.roundSafe (v : Vitals) : Prop :=
  0 ≤ v.health ∧ 0 ≤ v.enemyHealth ∧ (v.paused = true → 1 ≤ v.enemyHealth) ∧ 0 ≤ v.y

/-- The health part of the state of a round is sound. -/
def RoundSafe (g : Game) : Prop := g.vitals.roundSafe

/-- A player in the air is on the arc of a jump with the controls locked; a
player not in the air is on the ground; no jump is under way while the enemy
is out of health or the freeze of a player hit is on. -/
def Vitals.jumpSafe (v : Vitals) : Prop :=
  (v.airborne →
    (kPlayerJumpHeight ≤ v.y ∧ v.y ≤ kPlayerDefaultY ∧
      kPlayerJumpSpeed * (kPlayerJumpAccelFrameRate - v.accel) = kPlayerDefaultY - v.y) ∧
    v.locked = true) ∧
  (¬ v.airborne → v.y = kPlayerDefaultY) ∧
  (v.enemyHealth ≤ 0 → ¬ v.airborne) ∧
  (v.paused = true → ¬ v.airborne)

/-- The jump part of the state of a round is sound. -/
def JumpSafe (g : Game) : Prop := g.vitals.jumpSafe

/-- The operation `f` keeps the property `I`: a defined result of `f` on a
state with `I` has `I`. -/
def Keeps (I : Game → Prop) (f : Game → Option Game) : Prop :=
  ∀ g g', I g → f g = some g' → I g'

/-- The operations through which the healths of a round change, and the
frame that runs them: `PlayState::handleInput` (which calls
`Player::handleInput` while both actors have health), `PlayState::onTimeTick`,
`PlayState::renderEnemy` with its collision handling, a step of the victory
sequencer, a step of the defeat sequencer, and a whole frame
`PlayState::run`. -/
inductive RoundOp where
  | input (k : Keys)
  | tick (k : Keys)
  | render
  | victory
  | defeat
  | frame (k : Keys) (rnd : Fin 2)

/-- The operation applied to a state, `none` when it has no defined
result. -/
def RoundOp.apply : RoundOp → Game → Option Game
  | RoundOp.input k, g => PlayState.handleInput g k
  | RoundOp.tick k, g => some (PlayState.onTimeTick g k)
  | RoundOp.render, g => PlayState.renderEnemy g
  | RoundOp.victory, g => some (PlayState.processEndState g)
  | RoundOp.defeat, g => some (PlayState.processEnemyEndState g)
  | RoundOp.frame k rnd, g => PlayState.run g k rnd

/-- A sequence of operations applied in order. -/
def RoundOp.applyAll : List RoundOp → Game → Option Game
  | [], g => some g
  | op :: ops, g => (op.apply g).bind (RoundOp.applyAll ops)

/-- A reset round: both healths are `DEFAULT_HEALTH`, no freeze of a player
hit is on and the player stands at the ground height, as `reset()` and
`Player::clear()` (or the constructor of the player) leave them. -/
def ResetRound (g : Game) : Prop :=
  g.player.health = DEFAULT_HEALTH ∧ g.playState.enemyHealth = DEFAULT_HEALTH ∧
  g.playState.pauseMovement = false ∧ g.player.y = kPlayerDefaultY

/-- A short round: two frames without input, a frame with the punch key, a
clock tick, a drawing of the enemy and a step of each sequencer. -/
def shortRound : List RoundOp :=
  [RoundOp.frame noKeys 0, RoundOp.frame noKeys 1, RoundOp.frame punchKey 0,
   RoundOp.tick noKeys, RoundOp.render, RoundOp.input kickKey, RoundOp.victory,
   RoundOp.defeat]

/-- The state on which a frame of `PlayState::run` calls
`Player::processJump`: the state after `State::run` and the player's timer.
The value is `none` when the frame has no defined result up to there or does
not make the call, the freeze of a player hit being on. -/
def PlayState.jumpEntry (g : Game) (k : Keys) : Option Game :=
  let g0 : Game :=
    if !g.playState.initialized_ then
      let gi := PlayState.init g
      { gi with playState := { gi.playState with initialized_ := true } }
    else g
  (PlayState.handleInput g0 k).bind fun g1 =>
    (PlayState.drawStage g1).bind fun g2 =>
      let g3 := PlayState.timeTick g2 k
      if !g3.playState.pauseMovement then some (Player.timeTick g3 k) else none

/-- What a frame of the Intro or the Preview screen can write: the phase of
the game and the members of the two screen objects. -/
structure ScreenWrite where
  state : Int
  introState : IntroState
  previewState : PreviewState

/-- The inputs of one frame of `Game::run`: the keyboard state, the value
`randBetween(0, 1)` returns if the frame draws one, and, for a frame of the
Intro or Preview screen, what that screen writes. -/
structure FrameInput where
  keys : Keys
  rnd : Fin 2
  screen : ScreenWrite

/-- One pass of the loop of `Game::run`: the frame of the Intro or Preview
screen in those phases, the frame `PlayState::run` otherwise. -/
def Game.runFrame (g : Game) (i : FrameInput) : Option Game :=
  if g.state = GameState.Intro ∨ g.state = GameState.Preview then
    some { g with state := i.screen.state, introState := i.screen.introState,
                  previewState := i.screen.previewState }
  else PlayState.run g i.keys i.rnd

/-- The loop of `Game::run` for the frames of `ins`, `none` as soon as a
frame has no defined result. -/
def Game.runFrames : List FrameInput → Game → Option Game
  | [], g => some g
  | i :: ins, g => (Game.runFrame g i).bind (Game.runFrames ins)

/-- The player as the initialiser list of `Player::Player` leaves the jump:
action Default, at the ground height, jump acceleration 0, controls free. -/
def Game.constructed (g : Game) : Prop :=
  g.player.currAction_ = PlayerAction.Default ∧ g.player.y = kPlayerDefaultY ∧
  g.player.jumpAcceleration_ = 0 ∧ g.player.controlsLocked = false

/-- A frame in which the Preview screen hands over to the Play phase. -/
def toPlayFrame : FrameInput :=
  { keys := noKeys, rnd := 0,
    screen := { state := GameState.Play, introState := constructedGame.introState,
                previewState := constructedGame.previewState } }

/-- A frame of the Play phase with the keys `k`. -/
def playFrame (k : Keys) : FrameInput := { toPlayFrame with keys := k }

/-- The start of a game: the switch to the Play phase, a frame in which the
Up key begins a jump, and two more frames of the jump. -/
def firstJump : List FrameInput :=
  [toPlayFrame, playFrame upKey, playFrame noKeys, playFrame noKeys]

/-- The game as its constructors leave it: the player of `Player::Player`
(action Default, full health, on the ground, no hit shown) and the play state
of the member initialisers of `PlayState` (both sequencers at `Start`, no
freeze, not initialised, so that the first frame of the Play phase calls
`init`).  The members without an initialiser, the enemy health among them,
are not constrained. -/
def Game.opened (g : Game) : Prop :=
  g.player.currAction_ = PlayerAction.Default ∧ g.player.health = DEFAULT_HEALTH ∧
  g.player.y = kPlayerDefaultY ∧ g.player.showHit_ = false ∧
  g.playState.endState = EndSequence.Start ∧
  g.playState.enemyEndState = EnemyEndSequence.Start ∧
  g.playState.pauseMovement = false ∧ g.playState.initialized_ = false

/-- The course of a round is in order: the health part is sound; while the
freeze of a player hit is on, the hit is shown and the player has health
left; the victory sequencer has left `Start` only with the enemy out of
health; the defeat sequencer has left `Start` only with the player out of
health and the enemy not; and a player whose action is `Defeated` is out of
health, facing an enemy that is not, with the defeat sequencer before
`Transition`. -/
def Orderly (g : Game) : Prop :=
  RoundSafe g ∧
  (g.playState.pauseMovement = true → g.player.showHit_ = true ∧ 1 ≤ g.player.health) ∧
  (g.playState.endState ≠ EndSequence.Start → g.playState.enemyHealth = 0) ∧
  (g.playState.enemyEndState ≠ EnemyEndSequence.Start →
    g.player.health = 0 ∧ g.playState.enemyHealth ≠ 0) ∧
  (g.player.currAction_ = PlayerAction.Defeated →
    g.player.health = 0 ∧ g.playState.enemyHealth ≠ 0 ∧
    g.playState.enemyEndState ≠ EnemyEndSequence.Transition ∧
    g.playState.enemyEndState ≠ EnemyEndSequence.GameOver)

/-- A state of a run of the game: the course of the round is in order, or
the game is still as its constructors left it. -/
def Settled (g : Game) : Prop := Orderly g ∨ g.opened

/-- The sequencer positions at which the program calls `PlayState::cleanUp`:
`Transition` of either sequencer (the calls in `processEndState` and
`processEnemyEndState`) and `GameOver` of either sequencer (the restart in
`PlayState::handleInput`). -/
def ResetDue (g : Game) : Prop :=
  g.playState.endState = EndSequence.Transition ∨
  g.playState.endState = EndSequence.GameOver ∨
  g.playState.enemyEndState = EnemyEndSequence.Transition ∨
  g.playState.enemyEndState = EnemyEndSequence.GameOver

/-- The game as its constructors leave it, in the Intro phase. -/
def openedGame : Game :=
  { constructedGame with
    playState := { constructedGame.playState with initialized_ := false } }

/-- What a call of `Player::handleInput`, or a part of it, leaves of the
course of the round: phase, healths and sequencer positions are kept, the
action is `Defeated` only if it was, and the freeze flag and the hit flag are
kept or both set. -/
def InputStep (g g' : Game) : Prop :=
  g'.state = g.state ∧ g'.player.health = g.player.health ∧
  g'.playState.enemyHealth = g.playState.enemyHealth ∧
  g'.playState.endState = g.playState.endState ∧
  g'.playState.enemyEndState = g.playState.enemyEndState ∧
  (g'.player.currAction_ = PlayerAction.Defeated →
    g.player.currAction_ = PlayerAction.Defeated) ∧
  ((g'.playState.pauseMovement = g.playState.pauseMovement ∧
      g'.player.showHit_ = g.player.showHit_) ∨
    (g'.playState.pauseMovement = true ∧ g'.player.showHit_ = true))

/-- The members, besides the vitals, that the course of a round reads: the
hit flag of the player and the positions of the two sequencers. -/
structure Marks where
  showHit : Bool
  endState : Int
  enemyEndState : EnemyEndSequence

/-- The marks of a game state. -/
def Game.marks (g : Game) : Marks :=
  { showHit := g.player.showHit_, endState := g.playState.endState,
    enemyEndState := g.playState.enemyEndState }

/-! ## Theorems -/

/-! ### Hitbox profile lookup of the player attack -/

/-- In the Play phase `levelIndex()` is 1, whatever the level. -/
theorem levelIndex_of_play (g : Game) (h : g.state = GameState.Play) : g.levelIndex = 1 := by
  simp [Game.levelIndex, h]

/-- C1 (code defect): at level 1 in the Play phase the index that
`Player::processCollision` uses into `enemyBodyHitBoxes` is
`levelIndex() = state - 1 = 1`, not `level - 1 = 0`.  A standing punch thrown
through `Player::handleInput` at x = 135 is a miss against profile 1, the box
the code tests, although it overlaps the level-1 body box (profile 0). -/
theorem processCollision_uses_phase_index :
    levelOneDuel.state = GameState.Play ∧ levelOneDuel.level = 1 ∧
    levelOneDuel.levelIndex = 1 ∧ levelOneDuel.levelIndex ≠ levelOneDuel.level - 1 ∧
    (Player.handleInput levelOneDuel { noKeys with keyA := true }).map
        (fun g => (g.player.currAction_, g.score, g.player.showHit_, g.playState.pauseMovement))
      = some (PlayerAction.PunchStand, 0, false, false) ∧
    (vecAt enemyBodyHitBoxes (levelOneDuel.level - 1)).map
        (fun e => attackMisses
          (levelOneDuel.player.calculateAttackCollisionBounds kCollisionPunchStand)
          (enemyBodyBounds levelOneDuel.playState e))
      = some false := by
  decide

/-! ### The player action register -/

/-- C3: `Player::setMovement` returns the player unchanged when the current
action is Defeated and the requested action is Idle (0); for every other pair
of current and requested action it stores the old current action as the
previous action, sets the current action to the requested one and touches no
other member. -/
theorem setMovement_spec (p : Player) (move : Int) :
    (p.currAction_ = PlayerAction.Defeated ∧ move = PlayerAction.Default →
      p.setMovement move = p) ∧
    (¬ (p.currAction_ = PlayerAction.Defeated ∧ move = PlayerAction.Default) →
      (p.setMovement move).prevAction_ = p.currAction_ ∧
      (p.setMovement move).currAction_ = move ∧
      p.setMovement move = { p with prevAction_ := p.currAction_, currAction_ := move }) := by
  constructor
  · intro h
    simp only [PlayerAction.Defeated, PlayerAction.Default] at h
    simp [Player.setMovement, h.1, h.2]
  · intro h
    simp only [PlayerAction.Defeated, PlayerAction.Default] at h
    simp [Player.setMovement, h]

/-- Witness of C3: the refused request on `defeatedPlayer`, and a committed
punch on `samplePlayer`. -/
theorem setMovement_spec_witness :
    (defeatedPlayer.currAction_ = PlayerAction.Defeated ∧
      defeatedPlayer.setMovement PlayerAction.Default = defeatedPlayer) ∧
    ((samplePlayer.setMovement PlayerAction.PunchStand).prevAction_ = PlayerAction.Default ∧
      (samplePlayer.setMovement PlayerAction.PunchStand).currAction_
        = PlayerAction.PunchStand) :=
  ⟨⟨by decide, (setMovement_spec defeatedPlayer PlayerAction.Default).1 (by decide)⟩,
    ⟨((setMovement_spec samplePlayer PlayerAction.PunchStand).2 (by decide)).1,
      ((setMovement_spec samplePlayer PlayerAction.PunchStand).2 (by decide)).2.1⟩⟩

/-- What `Player::clear` resets in every state, and what it does to the
action: Idle, unless the action was Defeated, which stays. -/
theorem clear_fields (p : Player) :
    p.clear.currAction_ =
      (if p.currAction_ = PlayerAction.Defeated then PlayerAction.Defeated
       else PlayerAction.Default) ∧
    p.clear.prevAction_ = PlayerAction.None ∧
    p.clear.health = DEFAULT_HEALTH ∧
    p.clear.controlsLocked = false ∧
    p.clear.canAttack = true ∧
    p.clear.x = kPlayerDefaultX ∧
    p.clear.y = kPlayerDefaultY ∧
    p.clear.isInverted = false ∧
    p.clear.lives = p.lives := by
  by_cases hd : p.currAction_ = 13 <;> cases hi : p.isInverted <;>
    simp [Player.clear, Player.setMovement, Player.invertSprites, hd, hi]

/-- An entry of a table is one of its elements. -/
theorem mem_of_vecAt {α : Type} {v : List α} {i : Int} {a : α} (h : vecAt v i = some a) :
    a ∈ v := by
  unfold vecAt at h
  split at h
  · exact List.getElem?_mem h
  · exact absurd h (by simp)

/-- Every enemy body box is at least one pixel wide and high. -/
theorem enemyBody_size_pos {i : Int} {e : CollisionInfo}
    (h : vecAt enemyBodyHitBoxes i = some e) : 1 ≤ e.boxWidth ∧ 1 ≤ e.boxHeight := by
  have hm := mem_of_vecAt h
  simp only [enemyBodyHitBoxes, List.mem_cons, List.mem_singleton, List.not_mem_nil,
    or_false] at hm
  rcases hm with rfl | rfl | rfl | rfl | rfl <;> decide

/-- Every player attack box is at least one pixel wide and high, and every
bonus is positive. -/
theorem attackProfile_size_pos (a : Int) :
    1 ≤ (Player.attackProfile a).1.boxWidth ∧ 1 ≤ (Player.attackProfile a).1.boxHeight ∧
    0 < (Player.attackProfile a).2 := by
  unfold Player.attackProfile
  split_ifs <;> decide

/-- The test of `Player::processCollision` passes exactly when the two
boxes share a pixel. -/
theorem attackMisses_eq_false_iff (a b : Bounds) (ha : 1 ≤ a.w ∧ 1 ≤ a.h)
    (hb : 1 ≤ b.w ∧ 1 ≤ b.h) : attackMisses a b = false ↔ SharePixel a b := by
  unfold attackMisses SharePixel
  rw [decide_eq_false_iff_not]
  constructor
  · intro h
    refine ⟨⟨max a.x b.x, ?_, ?_, ?_, ?_⟩, ⟨max a.y b.y, ?_, ?_, ?_, ?_⟩⟩ <;> omega
  · rintro ⟨⟨i, h1, h2, h3, h4⟩, ⟨j, h5, h6, h7, h8⟩⟩
    omega

/-- The test of `Player::processCollision` does not depend on the order of
the two boxes. -/
theorem attackMisses_comm (a b : Bounds) : attackMisses a b = attackMisses b a := by
  unfold attackMisses
  congr 1
  apply propext
  constructor <;> intro h <;> omega

/-- A landed hit changes the state: the score rises. -/
theorem registerHit_ne (g : Game) (bonus : Int) (hb : 0 < bonus) :
    Player.registerHit g bonus ≠ g := by
  intro h
  have hs : (Player.registerHit g bonus).score = g.score := by rw [h]
  simp only [Player.registerHit] at hs
  omega

/-- What `Player::processCollision` returns when the lookup succeeds. -/
theorem processCollision_eq (g : Game) (e : CollisionInfo)
    (he : vecAt enemyBodyHitBoxes g.levelIndex = some e) :
    Player.processCollision g =
      some (if attackMisses
                (g.player.calculateAttackCollisionBounds
                  (Player.attackProfile g.player.currAction_).1)
                (enemyBodyBounds g.playState e) then g
            else Player.registerHit g (Player.attackProfile g.player.currAction_).2) := by
  simp only [Player.processCollision, he]
  split_ifs <;> rfl

/-- C5: with `pB` the attack box and `eB` the enemy body box that
`Player::processCollision` computes, the call registers a hit (hit effect,
bonus, hit-freeze) if and only if the two boxes share at least one pixel, and
otherwise leaves the state alone.  The test is symmetric in the two boxes; an
attack box that starts right behind the body box (`pB.x = eB.x + eB.w`) is a
miss, one that overlaps its last column (`pB.x = eB.x + eB.w - 1`, rows
meeting) is a hit. -/
theorem processCollision_hit_iff_share_pixel (g : Game) (e : CollisionInfo)
    (he : vecAt enemyBodyHitBoxes g.levelIndex = some e) :
    let pB := g.player.calculateAttackCollisionBounds
                (Player.attackProfile g.player.currAction_).1
    let eB := enemyBodyBounds g.playState e
    let bonus := (Player.attackProfile g.player.currAction_).2
    (Player.processCollision g = some (Player.registerHit g bonus) ↔ SharePixel pB eB) ∧
    (Player.processCollision g = some g ↔ ¬ SharePixel pB eB) ∧
    (∀ a b : Bounds, attackMisses a b = attackMisses b a) ∧
    (SharePixel pB eB ↔ SharePixel eB pB) ∧
    (pB.x = eB.x + eB.w → Player.processCollision g = some g) ∧
    (pB.x = eB.x + eB.w - 1 → pB.y ≤ eB.y + eB.h - 1 → eB.y ≤ pB.y + pB.h - 1 →
      Player.processCollision g = some (Player.registerHit g bonus)) := by
  intro pB eB bonus
  have hp := attackProfile_size_pos g.player.currAction_
  have hpB : 1 ≤ pB.w ∧ 1 ≤ pB.h := ⟨hp.1, hp.2.1⟩
  have heB : 1 ≤ eB.w ∧ 1 ≤ eB.h := enemyBody_size_pos he
  have hiff := attackMisses_eq_false_iff pB eB hpB heB
  have hiff2 := attackMisses_eq_false_iff eB pB heB hpB
  have hne := registerHit_ne g bonus hp.2.2
  have hpc : Player.processCollision g =
      some (if attackMisses pB eB then g else Player.registerHit g bonus) :=
    processCollision_eq g e he
  have hhit : Player.processCollision g = some (Player.registerHit g bonus) ↔
      SharePixel pB eB := by
    rw [hpc, ← hiff]
    cases hm : attackMisses pB eB
    · simp
    · simpa using fun h => hne h.symm
  have hmiss : Player.processCollision g = some g ↔ ¬ SharePixel pB eB := by
    rw [hpc, ← hiff]
    cases hm : attackMisses pB eB
    · simpa using hne
    · simp
  refine ⟨hhit, hmiss, attackMisses_comm, ?_, ?_, ?_⟩
  · rw [← hiff, ← hiff2, attackMisses_comm]
  · intro hx
    rw [hmiss]
    rintro ⟨⟨i, h1, h2, h3, h4⟩, _⟩
    omega
  · intro hx hy1 hy2
    rw [hhit]
    exact ⟨⟨pB.x, by omega, by omega, by omega, by omega⟩,
      ⟨max pB.y eB.y, by omega, by omega, by omega, by omega⟩⟩

/-- Witness of C5: the standing punch of `levelOneDuel`. -/
theorem processCollision_hit_iff_share_pixel_witness :
    vecAt enemyBodyHitBoxes levelOneDuel.levelIndex = some ⟨6, 3, 3, 4, 31, 11⟩ ∧
    (Player.processCollision levelOneDuel = some levelOneDuel ↔
      ¬ SharePixel
          (levelOneDuel.player.calculateAttackCollisionBounds
            (Player.attackProfile levelOneDuel.player.currAction_).1)
          (enemyBodyBounds levelOneDuel.playState ⟨6, 3, 3, 4, 31, 11⟩)) :=
  ⟨by decide, (processCollision_hit_iff_share_pixel levelOneDuel ⟨6, 3, 3, 4, 31, 11⟩
    (by decide)).2.1⟩

/-- C6 (code defect): the enemy at x = 110 punches at level 1; its attack
box covers columns 100..103 and lies entirely left of the player body
hurtbox, columns 108..117, so the axis-aligned test of
`Player::processCollision` calls the two boxes disjoint.
`PlayState::isCollidedWithPlayer` compares the right edge of the attack box
with the player origin `x = 100` instead of the hurtbox origin and returns
true. -/
theorem isCollidedWithPlayer_left_of_hurtbox :
    punchAtCloseRange.playState.enemyCurrentMove = EnemyAction.Punch ∧
    PlayState.enemyAttackBounds punchAtCloseRange = some ⟨100, 183, 4, 2⟩ ∧
    playerBodyBounds punchAtCloseRange.player = ⟨108, 161, 10, 32⟩ ∧
    (100 : Int) + 4 - 1 < 108 ∧
    attackMisses ⟨100, 183, 4, 2⟩ (playerBodyBounds punchAtCloseRange.player) = true ∧
    PlayState.isCollidedWithPlayer punchAtCloseRange = some true := by
  decide


/-! ### The level stays inside the hitbox tables -/

/-- A level in 1..5 indexes all three enemy tables. -/
theorem levelInBounds_of_range (g : Game) (h : 1 ≤ g.level ∧ g.level ≤ 5) :
    LevelInBounds g := by
  have hc : g.level = 1 ∨ g.level = 2 ∨ g.level = 3 ∨ g.level = 4 ∨ g.level = 5 := by omega
  rcases hc with h1 | h1 | h1 | h1 | h1 <;>
    simp [LevelInBounds, PlayState.calculatePlayerCollisionBounds, vecAt, h1,
      enemyBodyHitBoxes, enemyPunchHitBoxes, enemyKickHitBoxes]

/-- Every state has its own match data. -/
theorem SameMatch.refl (g : Game) : SameMatch g g := ⟨rfl, rfl, rfl, rfl⟩

/-- Keeping the match data composes. -/
theorem SameMatch.trans {a b c : Game} (h1 : SameMatch a b) (h2 : SameMatch b c) :
    SameMatch a c :=
  ⟨h2.1.trans h1.1, h2.2.1.trans h1.2.1, h2.2.2.1.trans h1.2.2.1, h2.2.2.2.trans h1.2.2.2⟩

/-- In the Play phase `Player::processCollision` returns, and keeps phase,
level and sequencer positions. -/
theorem processCollision_play (g : Game) (h : g.state = GameState.Play) :
    ∃ g', Player.processCollision g = some g' ∧ SameMatch g g' := by
  have he : vecAt enemyBodyHitBoxes g.levelIndex = some ⟨6, 3, 3, 4, 31, 11⟩ := by
    rw [levelIndex_of_play g h]
    decide
  rw [processCollision_eq g _ he]
  split_ifs
  · exact ⟨g, rfl, SameMatch.refl g⟩
  · exact ⟨_, rfl, rfl, rfl, rfl, rfl⟩

/-- In the Play phase the lambda `doAttack` returns, and keeps phase, level
and sequencer positions. -/
theorem doAttack_play (g : Game) (cond : Bool) (mv : Int) (h : g.state = GameState.Play) :
    ∃ g', Player.doAttack g cond mv = some g' ∧ SameMatch g g' := by
  unfold Player.doAttack
  split_ifs
  · exact processCollision_play
      { g with player := Player.setMovement
                 { g.player with controlsLocked := true, canAttack := false } mv } h
  · exact ⟨g, rfl, SameMatch.refl g⟩

/-- Sequencing two steps that return and keep the match data. -/
theorem bind_sameMatch {g a : Game} {o : Option Game} {f : Game → Option Game}
    (hga : SameMatch g a) (ho : ∃ b, o = some b ∧ SameMatch a b)
    (hf : ∀ b, SameMatch g b → ∃ c, f b = some c ∧ SameMatch g c) :
    ∃ c, o.bind f = some c ∧ SameMatch g c := by
  obtain ⟨b, hb, hab⟩ := ho
  rw [hb, Option.some_bind]
  exact hf b (hga.trans hab)

/-- The flying-kick tail of `Player::handleInput`. -/
theorem flyKick_sameMatch (g g7 : Game) (hs : g.state = GameState.Play) (h7 : SameMatch g g7)
    (c : Prop) [Decidable c] (p : Player) :
    ∃ r, (if c then Player.processCollision { g7 with player := p } else some g7) = some r ∧
      SameMatch g r := by
  split_ifs
  · obtain ⟨r, hr, hsm⟩ := processCollision_play { g7 with player := p } (h7.1.trans hs)
    exact ⟨r, hr, h7.trans hsm⟩
  · exact ⟨g7, rfl, h7⟩

/-- The method `Player::handleInput` always returns, and keeps phase, level
and sequencer positions. -/
theorem Player.handleInput_sameMatch (g : Game) (k : Keys) :
    ∃ g', Player.handleInput g k = some g' ∧ SameMatch g g' := by
  unfold Player.handleInput
  by_cases hguard : g.state ≠ GameState.Play ∨ g.player.controlsLocked
      ∨ g.playState.renderEnemyHit ∨ g.playState.pauseMovement
  · rw [if_pos hguard]
    exact ⟨g, rfl, SameMatch.refl g⟩
  · rw [if_neg hguard]
    have hs : g.state = GameState.Play := by
      by_contra hne
      exact hguard (Or.inl hne)
    dsimp only
    refine bind_sameMatch (a := { g with player := _ }) ⟨rfl, rfl, rfl, rfl⟩
      (doAttack_play _ _ _ hs) ?_
    intro g4 h4
    refine bind_sameMatch h4 (doAttack_play _ _ _ (h4.1.trans hs)) ?_
    intro g5 h5
    refine bind_sameMatch h5 (doAttack_play _ _ _ (h5.1.trans hs)) ?_
    intro g6 h6
    apply flyKick_sameMatch g _ hs
    split_ifs
    · exact ⟨h6.1, h6.2.1, h6.2.2.1, h6.2.2.2⟩
    · exact h6

/-- The sequencer step at `PlayWinSound`. -/
theorem processEndState_playWinSound (g : Game)
    (h : g.playState.endState = EndSequence.PlayWinSound) :
    PlayState.processEndState g =
      { g with playState := { g.playState with endState := EndSequence.ShowPunch } } := by
  simp [PlayState.processEndState, h]

/-- The sequencer step at one of the seven choreography poses. -/
theorem processEndState_pose (g : Game)
    (h : EndSequence.ShowPunch ≤ g.playState.endState ∧ g.playState.endState ≤ EndSequence.Smile) :
    ∃ pMove flip playSound,
      PlayState.processEndState g =
        PlayState.prepareEndOfRoundChoreography g pMove flip playSound := by
  simp only [EndSequence.ShowPunch, EndSequence.Smile] at h
  have hc : g.playState.endState = 2 ∨ g.playState.endState = 3 ∨ g.playState.endState = 4 ∨
      g.playState.endState = 5 ∨ g.playState.endState = 6 ∨ g.playState.endState = 7 ∨
      g.playState.endState = 8 := by omega
  rcases hc with h1 | h1 | h1 | h1 | h1 | h1 | h1 <;>
    exact ⟨_, _, _, by simp [PlayState.processEndState, h1]; rfl⟩

/-- The sequencer step at `CountLife`. -/
theorem processEndState_countLife (g : Game)
    (h : g.playState.endState = EndSequence.CountLife) :
    PlayState.processEndState g =
      if g.player.health > 0 then
        { g with playState := { g.playState with maxHaltTime := EndDelayLow },
                 player := { g.player with health := g.player.health - 1 },
                 score := g.score + 100 }
      else
        { g with playState := { g.playState with maxHaltTime := EndDelayLow,
                                                 endState := EndSequence.Transition } } := by
  simp [PlayState.processEndState, h]

/-- The sequencer step at `Transition`. -/
theorem processEndState_transition (g : Game)
    (h : g.playState.endState = EndSequence.Transition) :
    PlayState.processEndState g =
      if g.level = 5 then
        { g with playState := { g.playState with maxHaltTime := EndDelayHigh,
                                                 endState := EndSequence.GameOver } }
      else
        { PlayState.cleanUp
            { g with playState := { g.playState with maxHaltTime := EndDelayHigh } } with
          level := g.level + 1, state := GameState.Preview } := by
  simp [PlayState.processEndState, h, PlayState.cleanUp]

/-- The sequencer step at `GameOver`. -/
theorem processEndState_gameOver (g : Game)
    (h : g.playState.endState = EndSequence.GameOver) :
    PlayState.processEndState g = g := by
  simp [PlayState.processEndState, h]

/-- The sequencer step at `Start` (the `default` label, which also takes
every value outside the enumeration). -/
theorem processEndState_start (g : Game)
    (h : g.playState.endState < EndSequence.PlayWinSound
          ∨ EndSequence.GameOver < g.playState.endState) :
    PlayState.processEndState g =
      { g with playState := { g.playState with enemyCurrentMove := EnemyAction.Defeated,
                                               endState := EndSequence.PlayWinSound } } := by
  simp only [EndSequence.PlayWinSound, EndSequence.GameOver] at h
  have h1 : ¬ g.playState.endState = 1 := by omega
  have h2 : ¬ g.playState.endState = 2 := by omega
  have h3 : ¬ g.playState.endState = 3 := by omega
  have h4 : ¬ g.playState.endState = 4 := by omega
  have h5 : ¬ g.playState.endState = 5 := by omega
  have h6 : ¬ g.playState.endState = 6 := by omega
  have h7 : ¬ g.playState.endState = 7 := by omega
  have h8 : ¬ g.playState.endState = 8 := by omega
  have h9 : ¬ g.playState.endState = 9 := by omega
  have h10 : ¬ g.playState.endState = 10 := by omega
  have h11 : ¬ g.playState.endState = 11 := by omega
  simp [PlayState.processEndState, h1, h2, h3, h4, h5, h6, h7, h8, h9, h10, h11]

/-- The level after one step of the victory sequencer. -/
theorem processEndState_level (g : Game) :
    (PlayState.processEndState g).level =
      if g.playState.endState = EndSequence.Transition ∧ g.level ≠ 5 then g.level + 1
      else g.level := by
  by_cases ht : g.playState.endState = EndSequence.Transition
  · rw [processEndState_transition g ht]
    by_cases h5 : g.level = 5
    · rw [if_pos h5, if_neg (fun hc => hc.2 h5)]
    · rw [if_neg h5, if_pos ⟨ht, h5⟩]
  · rw [if_neg (fun hc => ht hc.1)]
    simp only [EndSequence.Transition] at ht
    by_cases hs : g.playState.endState < EndSequence.PlayWinSound
        ∨ EndSequence.GameOver < g.playState.endState
    · rw [processEndState_start g hs]
    · simp only [EndSequence.PlayWinSound, EndSequence.GameOver] at hs
      have hc : g.playState.endState = 1 ∨
          (2 ≤ g.playState.endState ∧ g.playState.endState ≤ 8) ∨
          g.playState.endState = 9 ∨ g.playState.endState = 11 := by
        omega
      rcases hc with h1 | h1 | h1 | h1
      · rw [processEndState_playWinSound g h1]
      · obtain ⟨a, b, c, hp⟩ := processEndState_pose g h1
        rw [hp]
        rfl
      · rw [processEndState_countLife g h1]
        split_ifs <;> rfl
      · rw [processEndState_gameOver g h1]

/-- A step of the defeat sequencer keeps the level. -/
theorem processEnemyEndState_level (g : Game) :
    (PlayState.processEnemyEndState g).level = g.level := by
  unfold PlayState.processEnemyEndState
  split <;> try rfl
  split_ifs <;> rfl

/-- C2: if the level is in 1..5, it is in 1..5 after a step of the victory
sequencer, after a step of the defeat sequencer and after
`PlayState::handleInput` (which always returns, and which on a game-over
state with Enter held restarts the match at level 1 in the Intro phase); in
each of the three resulting states `level - 1` lies in 0..4 and the lookups of
`calculatePlayerCollisionBounds` into the body, punch and kick tables
succeed. -/
theorem level_stays_in_bounds (g : Game) (k : Keys) (h : 1 ≤ g.level ∧ g.level ≤ 5) :
    LevelInBounds (PlayState.processEndState g) ∧
    LevelInBounds (PlayState.processEnemyEndState g) ∧
    ∃ g', PlayState.handleInput g k = some g' ∧ LevelInBounds g' ∧
      ((g.playState.enemyEndState = EnemyEndSequence.GameOver
          ∨ g.playState.endState = EndSequence.GameOver) ∧ k.enter = true →
        g'.level = 1 ∧ g'.state = GameState.Intro) := by
  refine ⟨?_, ?_, ?_⟩
  · apply levelInBounds_of_range
    rw [processEndState_level]
    split_ifs with hc <;> omega
  · apply levelInBounds_of_range
    rw [processEnemyEndState_level]
    exact h
  · have h1 : ∃ g1, (if g.player.health > 0 ∧ g.playState.enemyHealth > 0 then
          Player.handleInput g k else some g) = some g1 ∧ SameMatch g g1 := by
      split_ifs
      · exact Player.handleInput_sameMatch g k
      · exact ⟨g, rfl, SameMatch.refl g⟩
    obtain ⟨g1, hg1, hsm⟩ := h1
    unfold PlayState.handleInput
    rw [hg1, Option.map_some']
    by_cases hr : (g1.playState.enemyEndState = EnemyEndSequence.GameOver
        ∨ g1.playState.endState = EndSequence.GameOver) ∧ k.enter = true
    · rw [if_pos hr]
      refine ⟨_, rfl, levelInBounds_of_range _ ?_, fun _ => ⟨rfl, rfl⟩⟩
      constructor <;> simp
    · rw [if_neg hr]
      refine ⟨g1, rfl, levelInBounds_of_range _ ?_, ?_⟩
      · rw [hsm.2.1]
        exact h
      · intro hgo
        rw [← hsm.2.2.1, ← hsm.2.2.2] at hgo
        exact absurd hgo hr

/-- Witness of C2: the restart from `gameOverLost` with Enter held. -/
theorem level_stays_in_bounds_witness :
    (1 ≤ gameOverLost.level ∧ gameOverLost.level ≤ 5) ∧
    LevelInBounds (PlayState.processEndState gameOverLost) ∧
    LevelInBounds (PlayState.processEnemyEndState gameOverLost) ∧
    ∃ g', PlayState.handleInput gameOverLost { noKeys with enter := true } = some g' ∧
      LevelInBounds g' ∧
      ((gameOverLost.playState.enemyEndState = EnemyEndSequence.GameOver
          ∨ gameOverLost.playState.endState = EndSequence.GameOver)
        ∧ ({ noKeys with enter := true } : Keys).enter = true →
        g'.level = 1 ∧ g'.state = GameState.Intro) :=
  ⟨by decide, level_stays_in_bounds gameOverLost { noKeys with enter := true } (by decide)⟩


/-! ### The victory sequencer -/

/-- The choreography helper moves the sequencer one step forward unless it
is at `GameOver`. -/
theorem prepareEndOfRoundChoreography_endState (g : Game) (pMove : Int) (flip playSound : Bool)
    (h : g.playState.endState ≠ EndSequence.GameOver) :
    (PlayState.prepareEndOfRoundChoreography g pMove flip playSound).playState.endState
      = g.playState.endState + 1 := by
  simp only [EndSequence.GameOver, ne_eq] at h
  simp [PlayState.prepareEndOfRoundChoreography, h]

/-- C7: for every step `s` from Start through Smile, at position `i` of the
order Start, PlayWinSound, ShowPunch, ShowLowKick1, ShowHighKick1,
ShowHighKick2, ShowLowKick2, ShowPunch2, Smile, CountLife, one call of
`processEndState` sets `endState` to the step at position `i + 1`, which is
`s + 1`: no step is skipped and none is repeated. -/
theorem processEndState_next_step (g : Game) (i : Nat) (hi : i < 9)
    (hs : victoryOrder[i]? = some g.playState.endState) :
    victoryOrder[i + 1]? = some (PlayState.processEndState g).playState.endState ∧
    (PlayState.processEndState g).playState.endState = g.playState.endState + 1 := by
  have hpose : ∀ v : Int, 2 ≤ v → v ≤ 8 → g.playState.endState = v →
      (PlayState.processEndState g).playState.endState = v + 1 := by
    intro v h2 h8 hv
    obtain ⟨a, b, c, hp⟩ := processEndState_pose g (by
      simp only [EndSequence.ShowPunch, EndSequence.Smile]; omega)
    rw [hp, prepareEndOfRoundChoreography_endState g a b c (by
      simp only [EndSequence.GameOver]; omega), hv]
  interval_cases i <;>
    simp only [victoryOrder, List.getElem?_cons_zero, List.getElem?_cons_succ,
      Option.some.injEq] at hs ⊢
  · have h0 : g.playState.endState = 0 := hs.symm
    rw [processEndState_start g (by simp [h0]), h0]
    exact ⟨rfl, rfl⟩
  · have h0 : g.playState.endState = 1 := hs.symm
    rw [processEndState_playWinSound g h0, h0]
    exact ⟨rfl, rfl⟩
  all_goals
    rw [hpose _ (by decide) (by decide) hs.symm, ← hs]
    exact ⟨rfl, rfl⟩

/-- Witness of C7: the step from `Start` in `sampleGame`. -/
theorem processEndState_next_step_witness :
    victoryOrder[0]? = some sampleGame.playState.endState ∧
    victoryOrder[0 + 1]? = some (PlayState.processEndState sampleGame).playState.endState ∧
    (PlayState.processEndState sampleGame).playState.endState
      = sampleGame.playState.endState + 1 :=
  ⟨by decide, processEndState_next_step sampleGame 0 (by decide) (by decide)⟩


/-- While health is left, the `CountLife` step is repeated: after `n` calls
the sequencer is still at `CountLife`, `n` health points are gone and `n`
bonuses are scored. -/
theorem countLife_iterate (g : Game) (h : Nat)
    (hes : g.playState.endState = EndSequence.CountLife) (hh : g.player.health = h) :
    ∀ n : Nat, n ≤ h →
      (PlayState.processEndState^[n] g).playState.endState = EndSequence.CountLife ∧
      (PlayState.processEndState^[n] g).player.health = h - n ∧
      (PlayState.processEndState^[n] g).score = g.score + 100 * n := by
  intro n
  induction n with
  | zero =>
    intro _
    simp [hes, hh]
  | succ k ih =>
    intro hk
    obtain ⟨h1, h2, h3⟩ := ih (by omega)
    rw [Function.iterate_succ_apply', processEndState_countLife _ h1]
    have hpos : (PlayState.processEndState^[k] g).player.health > 0 := by
      rw [h2]
      omega
    rw [if_pos hpos]
    refine ⟨h1, ?_, ?_⟩
    · show (PlayState.processEndState^[k] g).player.health - 1 = h - (k + 1 : Nat)
      rw [h2]
      push_cast
      omega
    · show (PlayState.processEndState^[k] g).score + 100 = g.score + 100 * (k + 1 : Nat)
      rw [h3]
      push_cast
      omega

/-- C8: from the `CountLife` step with player health `h ≥ 0`, each of the
first `h` calls of `processEndState` stays in `CountLife`, takes one health
point and adds 100 to the score (after `n ≤ h` calls: health `h - n`, score
up by `100 * n`); call `h + 1` changes neither health nor score and moves to
`Transition`, so the total awarded is `100 * h` and health ends at 0. -/
theorem countLife_loops_health_times (g : Game) (h : Nat)
    (hes : g.playState.endState = EndSequence.CountLife) (hh : g.player.health = h) :
    (∀ n : Nat, n ≤ h →
      (PlayState.processEndState^[n] g).playState.endState = EndSequence.CountLife ∧
      (PlayState.processEndState^[n] g).player.health = h - n ∧
      (PlayState.processEndState^[n] g).score = g.score + 100 * n) ∧
    (PlayState.processEndState^[h + 1] g).playState.endState = EndSequence.Transition ∧
    (PlayState.processEndState^[h + 1] g).player.health = 0 ∧
    (PlayState.processEndState^[h + 1] g).score = g.score + 100 * h := by
  refine ⟨countLife_iterate g h hes hh, ?_⟩
  obtain ⟨h1, h2, h3⟩ := countLife_iterate g h hes hh h (le_refl h)
  rw [Function.iterate_succ_apply', processEndState_countLife _ h1]
  have hzero : ¬ (PlayState.processEndState^[h] g).player.health > 0 := by
    rw [h2]
    omega
  rw [if_neg hzero]
  refine ⟨rfl, ?_, h3⟩
  show (PlayState.processEndState^[h] g).player.health = 0
  rw [h2]
  omega

/-- Witness of C8: `countingLife`, three health points. -/
theorem countLife_loops_health_times_witness :
    (∀ n : Nat, n ≤ 3 →
      (PlayState.processEndState^[n] countingLife).playState.endState
        = EndSequence.CountLife ∧
      (PlayState.processEndState^[n] countingLife).player.health = (3 : Nat) - n ∧
      (PlayState.processEndState^[n] countingLife).score = countingLife.score + 100 * n) ∧
    (PlayState.processEndState^[3 + 1] countingLife).playState.endState
      = EndSequence.Transition ∧
    (PlayState.processEndState^[3 + 1] countingLife).player.health = 0 ∧
    (PlayState.processEndState^[3 + 1] countingLife).score
      = countingLife.score + 100 * (3 : Nat) :=
  countLife_loops_health_times countingLife 3 (by decide) (by decide)

/-- C9: at the victory `Transition` step, if the level is below 5 one call
of `processEndState` raises the level by exactly 1, sets the phase to Preview
and resets the round (both sequencers at `Start`, enemy and player health
`DEFAULT_HEALTH`, enemy and player at their default positions) with score and
lives unchanged; if the level is 5 it sets `endState` to `GameOver` and leaves
level, phase, score and lives unchanged. -/
theorem processEndState_at_transition (g : Game)
    (hes : g.playState.endState = EndSequence.Transition) :
    (g.level < 5 →
      (PlayState.processEndState g).level = g.level + 1 ∧
      (PlayState.processEndState g).state = GameState.Preview ∧
      (PlayState.processEndState g).playState.endState = EndSequence.Start ∧
      (PlayState.processEndState g).playState.enemyEndState = EnemyEndSequence.Start ∧
      (PlayState.processEndState g).playState.enemyHealth = DEFAULT_HEALTH ∧
      (PlayState.processEndState g).player.health = DEFAULT_HEALTH ∧
      (PlayState.processEndState g).playState.enemyX = ENEMY_DEFAULT_X ∧
      (PlayState.processEndState g).playState.enemyY = ENEMY_DEFAULT_Y ∧
      (PlayState.processEndState g).player.x = kPlayerDefaultX ∧
      (PlayState.processEndState g).player.y = kPlayerDefaultY ∧
      (PlayState.processEndState g).score = g.score ∧
      (PlayState.processEndState g).player.lives = g.player.lives) ∧
    (g.level = 5 →
      (PlayState.processEndState g).playState.endState = EndSequence.GameOver ∧
      (PlayState.processEndState g).level = g.level ∧
      (PlayState.processEndState g).state = g.state ∧
      (PlayState.processEndState g).score = g.score ∧
      (PlayState.processEndState g).player.lives = g.player.lives) := by
  rw [processEndState_transition g hes]
  constructor
  · intro hlt
    have h5 : ¬ g.level = 5 := by omega
    rw [if_neg h5]
    refine ⟨rfl, rfl, ?_, ?_, ?_, ?_, ?_, ?_, ?_, ?_, rfl, ?_⟩ <;>
      simp only [PlayState.cleanUp, PlayState.reset, PlayState.baseCleanUp,
        PlayState.flipEnemySprites, Player.clear, Player.setMovement, Player.invertSprites] <;>
      split_ifs <;> rfl
  · intro h5
    rw [if_pos h5]
    exact ⟨rfl, rfl, rfl, rfl, rfl⟩

/-- Witness of C9: the level rises from 2 to 3 in `secondTransition`, the
match ends in `finalTransition`. -/
theorem processEndState_at_transition_witness :
    secondTransition.playState.endState = EndSequence.Transition ∧
    ((PlayState.processEndState secondTransition).level = 3 ∧
      (PlayState.processEndState secondTransition).state = GameState.Preview) ∧
    ((PlayState.processEndState finalTransition).playState.endState = EndSequence.GameOver ∧
      (PlayState.processEndState finalTransition).level = 5) :=
  ⟨by decide,
    ⟨((processEndState_at_transition secondTransition (by decide)).1 (by decide)).1,
      ((processEndState_at_transition secondTransition (by decide)).1 (by decide)).2.1⟩,
    ⟨((processEndState_at_transition finalTransition (by decide)).2 (by decide)).1,
      ((processEndState_at_transition finalTransition (by decide)).2 (by decide)).2.1⟩⟩


/-! ### The defeat sequencer -/

/-- What `Player::play` does to the defeat bookkeeping while the action is
Defeated: a frame on which the defeat animation does not complete a loop
changes nothing of it; a frame on which it does raises the loop counter, and
when the counter reaches 3 the action becomes VeryDefeated and the defeat
sequencer is sent to `Transition`. -/
theorem play_defeated (g : Game) (ha : g.player.currAction_ = PlayerAction.Defeated) :
    (Player.play g).player.life_counter =
      (if (g.sprites SpriteId.player_defeated).updateAndDraw.1 then g.player.life_counter + 1
       else g.player.life_counter) ∧
    (Player.play g).player.currAction_ =
      (if (g.sprites SpriteId.player_defeated).updateAndDraw.1 ∧ g.player.life_counter + 1 = 3
       then PlayerAction.VeryDefeated else PlayerAction.Defeated) ∧
    (Player.play g).playState.enemyEndState =
      (if (g.sprites SpriteId.player_defeated).updateAndDraw.1 ∧ g.player.life_counter + 1 = 3
       then EnemyEndSequence.Transition else g.playState.enemyEndState) := by
  simp only [PlayerAction.Defeated] at ha
  cases hl : (g.sprites SpriteId.player_defeated).updateAndDraw.1 <;>
    by_cases hsh : g.player.isShaking = true <;>
    by_cases h3 : g.player.life_counter + 1 = 3 <;>
    simp [Player.play, ha, hl, hsh, h3, Player.setMovement, Player.invertSprites] <;>
    split_ifs <;> simp [ha]


/-- C10: from `Start` the defeat sequencer steps to `LieDown` and then to
`MoveFeet`, where the player action is Defeated and the loop counter 0.  At
`MoveFeet` a call of `processEnemyEndState` changes nothing.  While the
sequencer waits at `MoveFeet` with the action Defeated, a frame of
`Player::play` that completes no animation loop keeps counter, action and
sequencer; the frames that complete the first and the second loop (counter 0
or 1 before) raise the counter and keep action and sequencer; the frame that
completes the third loop (counter 2 before) sets the action to VeryDefeated
and the sequencer to `Transition`. -/
theorem defeat_sequence_three_loops (g : Game) :
    (g.playState.enemyEndState = EnemyEndSequence.Start →
      (PlayState.processEnemyEndState g).playState.enemyEndState
        = EnemyEndSequence.LieDown ∧
      (PlayState.processEnemyEndState (PlayState.processEnemyEndState g)).playState.enemyEndState
        = EnemyEndSequence.MoveFeet ∧
      (PlayState.processEnemyEndState (PlayState.processEnemyEndState g)).player.currAction_
        = PlayerAction.Defeated ∧
      (PlayState.processEnemyEndState (PlayState.processEnemyEndState g)).player.life_counter
        = 0) ∧
    (g.playState.enemyEndState = EnemyEndSequence.MoveFeet →
      PlayState.processEnemyEndState g = g) ∧
    (g.playState.enemyEndState = EnemyEndSequence.MoveFeet →
      g.player.currAction_ = PlayerAction.Defeated →
      ((g.sprites SpriteId.player_defeated).updateAndDraw.1 = false →
        (Player.play g).player.life_counter = g.player.life_counter ∧
        (Player.play g).player.currAction_ = PlayerAction.Defeated ∧
        (Player.play g).playState.enemyEndState = EnemyEndSequence.MoveFeet) ∧
      ((g.sprites SpriteId.player_defeated).updateAndDraw.1 = true →
        (g.player.life_counter = 0 ∨ g.player.life_counter = 1) →
        (Player.play g).player.life_counter = g.player.life_counter + 1 ∧
        (Player.play g).player.currAction_ = PlayerAction.Defeated ∧
        (Player.play g).playState.enemyEndState = EnemyEndSequence.MoveFeet) ∧
      ((g.sprites SpriteId.player_defeated).updateAndDraw.1 = true →
        g.player.life_counter = 2 →
        (Player.play g).player.life_counter = 3 ∧
        (Player.play g).player.currAction_ = PlayerAction.VeryDefeated ∧
        (Player.play g).playState.enemyEndState = EnemyEndSequence.Transition)) := by
  refine ⟨?_, ?_, ?_⟩
  · intro hs
    simp [PlayState.processEnemyEndState, hs, Player.setMovement]
  · intro hs
    simp [PlayState.processEnemyEndState, hs]
  · intro hs ha
    obtain ⟨h1, h2, h3⟩ := play_defeated g ha
    refine ⟨?_, ?_, ?_⟩
    · intro hl
      rw [h1, h2, h3, hl, hs]
      simp
    · intro hl hc
      have hne : ¬ g.player.life_counter + 1 = 3 := by omega
      rw [h1, h2, h3, hl, hs]
      simp [hne]
    · intro hl hc
      rw [h1, h2, h3, hl, hc]
      simp

/-- Witness of C10: the third loop in `twitchingFeet`, and the two steps from
`Start` in `sampleGame`. -/
theorem defeat_sequence_three_loops_witness :
    (sampleGame.playState.enemyEndState = EnemyEndSequence.Start ∧
      (PlayState.processEnemyEndState
        (PlayState.processEnemyEndState sampleGame)).player.currAction_
        = PlayerAction.Defeated) ∧
    (twitchingFeet.playState.enemyEndState = EnemyEndSequence.MoveFeet ∧
      PlayState.processEnemyEndState twitchingFeet = twitchingFeet) ∧
    (twitchingFeet.player.currAction_ = PlayerAction.Defeated ∧
      (twitchingFeet.sprites SpriteId.player_defeated).updateAndDraw.1 = true ∧
      twitchingFeet.player.life_counter = 2 ∧
      (Player.play twitchingFeet).player.life_counter = 3 ∧
      (Player.play twitchingFeet).player.currAction_ = PlayerAction.VeryDefeated ∧
      (Player.play twitchingFeet).playState.enemyEndState = EnemyEndSequence.Transition) :=
  ⟨⟨by decide, ((defeat_sequence_three_loops sampleGame).1 (by decide)).2.2.1⟩,
    ⟨by decide, (defeat_sequence_three_loops twitchingFeet).2.1 (by decide)⟩,
    ⟨by decide, by decide, by decide,
      ((defeat_sequence_three_loops twitchingFeet).2.2 (by decide) (by decide)).2.2
        (by decide) (by decide)⟩⟩

/-- The defeat sequencer step at `Transition`. -/
theorem processEnemyEndState_transition (g : Game)
    (hes : g.playState.enemyEndState = EnemyEndSequence.Transition) :
    PlayState.processEnemyEndState g =
      if g.player.lives > 0 then
        PlayState.cleanUp
          { g with player := { g.player with lives := g.player.lives - 1 },
                   state := GameState.Preview }
      else
        { g with playState := { g.playState with enemyEndState := EnemyEndSequence.GameOver } } := by
  simp only [PlayState.processEnemyEndState, hes]

/-- The defeat sequencer step at `GameOver`. -/
theorem processEnemyEndState_gameOver (g : Game)
    (hes : g.playState.enemyEndState = EnemyEndSequence.GameOver) :
    PlayState.processEnemyEndState g = g := by
  simp only [PlayState.processEnemyEndState, hes]

/-- What `PlayState::reset` leaves in the sequencers and the enemy. -/
theorem reset_fields (st : PlayState) :
    st.reset.endState = EndSequence.Start ∧
    st.reset.enemyEndState = EnemyEndSequence.Start ∧
    st.reset.enemyHealth = DEFAULT_HEALTH ∧
    st.reset.enemyX = ENEMY_DEFAULT_X ∧
    st.reset.enemyY = ENEMY_DEFAULT_Y ∧
    st.reset.pauseMovement = false ∧
    st.reset.maxHaltTime = EndDelayHigh ∧
    st.reset.haltTime = 0 := by
  simp only [PlayState.reset, PlayState.flipEnemySprites]
  refine ⟨?_, ?_, ?_, ?_, ?_, ?_, ?_, ?_⟩ <;> split_ifs <;> rfl

/-- The defeat sequencer step at `Transition`, for every state: with a life
left it takes one life, enters the Preview phase and resets the round, the
player action becoming Idle unless it was Defeated; with no life left it only
sets `GameOver`. -/
theorem processEnemyEndState_at_transition (g : Game)
    (hes : g.playState.enemyEndState = EnemyEndSequence.Transition) :
    (g.player.lives > 0 →
      (PlayState.processEnemyEndState g).player.lives = g.player.lives - 1 ∧
      (PlayState.processEnemyEndState g).state = GameState.Preview ∧
      (PlayState.processEnemyEndState g).playState.enemyEndState = EnemyEndSequence.Start ∧
      (PlayState.processEnemyEndState g).playState.endState = EndSequence.Start ∧
      (PlayState.processEnemyEndState g).playState.enemyHealth = DEFAULT_HEALTH ∧
      (PlayState.processEnemyEndState g).player.health = DEFAULT_HEALTH ∧
      (PlayState.processEnemyEndState g).player.currAction_ =
        (if g.player.currAction_ = PlayerAction.Defeated then PlayerAction.Defeated
         else PlayerAction.Default) ∧
      (PlayState.processEnemyEndState g).score = g.score ∧
      (PlayState.processEnemyEndState g).level = g.level) ∧
    (¬ g.player.lives > 0 →
      (PlayState.processEnemyEndState g).playState.enemyEndState = EnemyEndSequence.GameOver ∧
      (PlayState.processEnemyEndState g).player.lives = g.player.lives ∧
      (PlayState.processEnemyEndState g).level = g.level ∧
      (PlayState.processEnemyEndState g).score = g.score ∧
      (PlayState.processEnemyEndState g).state = g.state) := by
  rw [processEnemyEndState_transition g hes]
  constructor
  · intro hl
    rw [if_pos hl]
    have hc := clear_fields { g.player with lives := g.player.lives - 1 }
    have hr := reset_fields g.playState
    exact ⟨hc.2.2.2.2.2.2.2.2, rfl, hr.2.1, hr.1, hr.2.2.1, hc.2.2.1, hc.1, rfl, rfl⟩
  · intro hl
    rw [if_neg hl]
    exact ⟨rfl, rfl, rfl, rfl, rfl⟩

/-- C11: the defeat sequencer step at `Transition`, taken with a player
action other than `Defeated` (`Player::play` sets `VeryDefeated` together
with `Transition`, and no run of the game reaches the step with `Defeated`:
`reset_finds_no_defeated`).  With a life left, `processEnemyEndState` takes
exactly one life, sets the phase to Preview and resets the round: both
sequencers at `Start`, both healths `DEFAULT_HEALTH`, the player action Idle,
score and level unchanged.  With no life left it sets `enemyEndState` to
`GameOver` and leaves lives, level, score and phase unchanged.  Lives that
are not negative stay so. -/
theorem defeat_transition_resets_round (g : Game)
    (hes : g.playState.enemyEndState = EnemyEndSequence.Transition)
    (hd : g.player.currAction_ ≠ PlayerAction.Defeated) :
    (g.player.lives > 0 →
      (PlayState.processEnemyEndState g).player.lives = g.player.lives - 1 ∧
      (PlayState.processEnemyEndState g).state = GameState.Preview ∧
      (PlayState.processEnemyEndState g).playState.enemyEndState = EnemyEndSequence.Start ∧
      (PlayState.processEnemyEndState g).playState.endState = EndSequence.Start ∧
      (PlayState.processEnemyEndState g).playState.enemyHealth = DEFAULT_HEALTH ∧
      (PlayState.processEnemyEndState g).player.health = DEFAULT_HEALTH ∧
      (PlayState.processEnemyEndState g).player.currAction_ = PlayerAction.Default ∧
      (PlayState.processEnemyEndState g).score = g.score ∧
      (PlayState.processEnemyEndState g).level = g.level) ∧
    (¬ g.player.lives > 0 →
      (PlayState.processEnemyEndState g).playState.enemyEndState = EnemyEndSequence.GameOver ∧
      (PlayState.processEnemyEndState g).player.lives = g.player.lives ∧
      (PlayState.processEnemyEndState g).level = g.level ∧
      (PlayState.processEnemyEndState g).score = g.score ∧
      (PlayState.processEnemyEndState g).state = g.state) ∧
    (0 ≤ g.player.lives → 0 ≤ (PlayState.processEnemyEndState g).player.lives) := by
  obtain ⟨h1, h2⟩ := processEnemyEndState_at_transition g hes
  refine ⟨?_, h2, ?_⟩
  · intro hl
    obtain ⟨a1, a2, a3, a4, a5, a6, a7, a8, a9⟩ := h1 hl
    rw [if_neg hd] at a7
    exact ⟨a1, a2, a3, a4, a5, a6, a7, a8, a9⟩
  · intro h0
    by_cases hl : g.player.lives > 0
    · rw [(h1 hl).1]
      omega
    · rw [(h2 hl).2.1]
      exact h0

/-- Witness of C11: the step with two lives left in `lostRoundAtTransition`
and with none left in `lastLifeLost`. -/
theorem defeat_transition_resets_round_witness :
    (lostRoundAtTransition.player.lives = 2 ∧
      lostRoundAtTransition.player.currAction_ = PlayerAction.VeryDefeated ∧
      (PlayState.processEnemyEndState lostRoundAtTransition).player.lives = 1 ∧
      (PlayState.processEnemyEndState lostRoundAtTransition).state = GameState.Preview ∧
      (PlayState.processEnemyEndState lostRoundAtTransition).player.currAction_
        = PlayerAction.Default ∧
      (PlayState.processEnemyEndState lostRoundAtTransition).player.health = DEFAULT_HEALTH ∧
      (PlayState.processEnemyEndState lostRoundAtTransition).playState.enemyHealth
        = DEFAULT_HEALTH) ∧
    (lastLifeLost.player.lives = 0 ∧
      (PlayState.processEnemyEndState lastLifeLost).playState.enemyEndState
        = EnemyEndSequence.GameOver ∧
      (PlayState.processEnemyEndState lastLifeLost).player.lives = 0 ∧
      (PlayState.processEnemyEndState lastLifeLost).state = GameState.Play) :=
  ⟨⟨by decide, by decide,
      ((defeat_transition_resets_round lostRoundAtTransition (by decide) (by decide)).1
        (by decide)).1,
      ((defeat_transition_resets_round lostRoundAtTransition (by decide) (by decide)).1
        (by decide)).2.1,
      ((defeat_transition_resets_round lostRoundAtTransition (by decide) (by decide)).1
        (by decide)).2.2.2.2.2.2.1,
      ((defeat_transition_resets_round lostRoundAtTransition (by decide) (by decide)).1
        (by decide)).2.2.2.2.2.1,
      ((defeat_transition_resets_round lostRoundAtTransition (by decide) (by decide)).1
        (by decide)).2.2.2.2.1⟩,
    ⟨by decide,
      ((defeat_transition_resets_round lastLifeLost (by decide) (by decide)).2.1
        (by decide)).1,
      ((defeat_transition_resets_round lastLifeLost (by decide) (by decide)).2.1
        (by decide)).2.1,
      ((defeat_transition_resets_round lastLifeLost (by decide) (by decide)).2.1
        (by decide)).2.2.2.2⟩⟩

/-! ### The clock callback of the play state -/

/-- The fourth block of `onTimeTick` touches neither the match data nor the
healths nor the halt bookkeeping of the sequencers. -/
theorem tickEnemyHit_frame (g : Game) (k : Keys) :
    (PlayState.tickEnemyHit g k).state = g.state ∧
    (PlayState.tickEnemyHit g k).level = g.level ∧
    (PlayState.tickEnemyHit g k).score = g.score ∧
    (PlayState.tickEnemyHit g k).player.lives = g.player.lives ∧
    (PlayState.tickEnemyHit g k).player.health = g.player.health ∧
    (PlayState.tickEnemyHit g k).playState.endState = g.playState.endState ∧
    (PlayState.tickEnemyHit g k).playState.enemyEndState = g.playState.enemyEndState ∧
    (PlayState.tickEnemyHit g k).playState.enemyHealth = g.playState.enemyHealth ∧
    (PlayState.tickEnemyHit g k).playState.pauseMovement = g.playState.pauseMovement ∧
    (PlayState.tickEnemyHit g k).playState.haltTime = g.playState.haltTime ∧
    (PlayState.tickEnemyHit g k).playState.maxHaltTime = g.playState.maxHaltTime := by
  unfold PlayState.tickEnemyHit
  by_cases h1 : g.playState.renderEnemyHit = true
  · rw [if_pos h1]
    dsimp only
    by_cases h2 : g.playState.haltTimeHit + 1 = 4
    · rw [if_pos h2]
      simp only [PlayState.resetEnemyMove, Player.setMovement]
      split_ifs <;> exact ⟨rfl, rfl, rfl, rfl, rfl, rfl, rfl, rfl, rfl, rfl, rfl⟩
    · rw [if_neg h2]
      exact ⟨rfl, rfl, rfl, rfl, rfl, rfl, rfl, rfl, rfl, rfl, rfl⟩
  · rw [if_neg h1]
    exact ⟨rfl, rfl, rfl, rfl, rfl, rfl, rfl, rfl, rfl, rfl, rfl⟩

/-- Without a pending hit-freeze the first block of `onTimeTick` does
nothing. -/
theorem tickHitFreeze_skip (g : Game) (h : g.playState.pauseMovement = false) :
    PlayState.tickHitFreeze g = g := by
  simp [PlayState.tickHitFreeze, h]

/-- While the enemy has health the second block of `onTimeTick` does
nothing. -/
theorem tickEndState_skip (g : Game) (h : g.playState.enemyHealth ≠ 0) :
    PlayState.tickEndState g = g := by
  simp [PlayState.tickEndState, h]

/-- The third block of `onTimeTick` does nothing unless the player is out of
health and the enemy is not. -/
theorem tickEnemyEndState_skip (g : Game)
    (h : ¬ (g.playState.enemyHealth ≠ 0 ∧ g.player.health = 0)) :
    PlayState.tickEnemyEndState g = g := by
  unfold PlayState.tickEnemyEndState
  rw [if_neg h]

/-- At `GameOver` the second block of `onTimeTick` only moves the halt
counter. -/
theorem tickEndState_gameOver (g : Game) (h : g.playState.endState = EndSequence.GameOver) :
    ∃ t, PlayState.tickEndState g = { g with playState := { g.playState with haltTime := t } } := by
  unfold PlayState.tickEndState
  by_cases h0 : g.playState.enemyHealth = 0
  · rw [if_pos h0]
    dsimp only
    by_cases h2 : g.playState.haltTime + 1 = g.playState.maxHaltTime
    · rw [if_pos h2, processEndState_gameOver
        { g with playState := { g.playState with haltTime := g.playState.haltTime + 1 } } h]
      exact ⟨0, rfl⟩
    · rw [if_neg h2]
      exact ⟨_, rfl⟩
  · rw [if_neg h0]
    exact ⟨g.playState.haltTime, rfl⟩

/-- At `GameOver` the third block of `onTimeTick` only moves the halt
counter. -/
theorem tickEnemyEndState_gameOver (g : Game)
    (h : g.playState.enemyEndState = EnemyEndSequence.GameOver) :
    ∃ t, PlayState.tickEnemyEndState g
      = { g with playState := { g.playState with haltTime := t } } := by
  unfold PlayState.tickEnemyEndState
  by_cases h0 : g.playState.enemyHealth ≠ 0 ∧ g.player.health = 0
  · rw [if_pos h0]
    dsimp only
    by_cases h2 : g.playState.haltTime + 1 = g.playState.maxHaltTime
    · rw [if_pos h2, processEnemyEndState_gameOver
        { g with playState := { g.playState with haltTime := g.playState.haltTime + 1 } } h]
      exact ⟨0, rfl⟩
    · rw [if_neg h2]
      exact ⟨_, rfl⟩
  · rw [if_neg h0]
    exact ⟨g.playState.haltTime, rfl⟩

/-- A tick in a won game over leaves a won game over with the same
standing. -/
theorem onTimeTick_won (g : Game) (k : Keys) (h : WonGameOver g) :
    WonGameOver (PlayState.onTimeTick g k) ∧ SameStanding g (PlayState.onTimeTick g k) := by
  obtain ⟨hend, hhealth, hpause⟩ := h
  obtain ⟨t, ht⟩ := tickEndState_gameOver g hend
  have hskip : PlayState.tickEnemyEndState
      { g with playState := { g.playState with haltTime := t } }
      = { g with playState := { g.playState with haltTime := t } } :=
    tickEnemyEndState_skip _ (fun hc => hc.1 hhealth)
  have hf := tickEnemyHit_frame { g with playState := { g.playState with haltTime := t } } k
  unfold PlayState.onTimeTick
  rw [tickHitFreeze_skip g hpause, ht, hskip]
  obtain ⟨f1, f2, f3, f4, _, f6, f7, f8, f9, _, _⟩ := hf
  exact ⟨⟨f6.trans hend, f8.trans hhealth, f9.trans hpause⟩, f1, f2, f3, f4, f6, f7⟩

/-- A tick in a lost game over leaves a lost game over with the same
standing. -/
theorem onTimeTick_lost (g : Game) (k : Keys) (h : LostGameOver g) :
    LostGameOver (PlayState.onTimeTick g k) ∧ SameStanding g (PlayState.onTimeTick g k) := by
  obtain ⟨hend, hhealth, hplayer, hpause⟩ := h
  obtain ⟨t, ht⟩ := tickEnemyEndState_gameOver g hend
  have hf := tickEnemyHit_frame { g with playState := { g.playState with haltTime := t } } k
  unfold PlayState.onTimeTick
  rw [tickHitFreeze_skip g hpause, tickEndState_skip g hhealth, ht]
  obtain ⟨f1, f2, f3, f4, f5, f6, f7, f8, f9, _, _⟩ := hf
  refine ⟨⟨f7.trans hend, ?_, f5.trans hplayer, f9.trans hpause⟩, f1, f2, f3, f4, f6, f7⟩
  rw [f8]
  exact hhealth

/-- Keeping the standing composes. -/
theorem sameStanding_chain {a b c : Game} (h1 : SameStanding a b) (h2 : SameStanding b c) :
    SameStanding a c :=
  ⟨h2.1.trans h1.1, h2.2.1.trans h1.2.1, h2.2.2.1.trans h1.2.2.1,
    h2.2.2.2.1.trans h1.2.2.2.1, h2.2.2.2.2.1.trans h1.2.2.2.2.1,
    h2.2.2.2.2.2.trans h1.2.2.2.2.2⟩

/-- Any run of ticks in a game over, won or lost, leaves a game over of the
same kind with the same standing. -/
theorem ticks_gameOver (ks : List Keys) :
    ∀ g : Game, (WonGameOver g ∨ LostGameOver g) →
      ((WonGameOver g → WonGameOver (PlayState.ticks ks g)) ∧
       (LostGameOver g → LostGameOver (PlayState.ticks ks g))) ∧
      SameStanding g (PlayState.ticks ks g) := by
  induction ks with
  | nil =>
    intro g _
    exact ⟨⟨id, id⟩, rfl, rfl, rfl, rfl, rfl, rfl⟩
  | cons k ks ih =>
    intro g hg
    have hstep : PlayState.ticks (k :: ks) g = PlayState.ticks ks (PlayState.onTimeTick g k) := rfl
    rw [hstep]
    have h1 : (WonGameOver (PlayState.onTimeTick g k) ∨ LostGameOver (PlayState.onTimeTick g k)) ∧
        SameStanding g (PlayState.onTimeTick g k) := by
      rcases hg with hw | hl
      · exact ⟨Or.inl (onTimeTick_won g k hw).1, (onTimeTick_won g k hw).2⟩
      · exact ⟨Or.inr (onTimeTick_lost g k hl).1, (onTimeTick_lost g k hl).2⟩
    obtain ⟨⟨ihw, ihl⟩, ihs⟩ := ih _ h1.1
    exact ⟨⟨fun hw => ihw (onTimeTick_won g k hw).1, fun hl => ihl (onTimeTick_lost g k hl).1⟩,
      sameStanding_chain h1.2 ihs⟩

/-- C12: both game-over states are absorbing.  A sequencer at `GameOver` is
not moved by its own step function, however often it is called.  In a won
game over (`endState` at `GameOver`, enemy health 0, no hit-freeze pending)
and in a lost game over (`enemyEndState` at `GameOver`, player health 0,
enemy health not 0, no hit-freeze pending), which are the game overs that
the runs of the game reach (`gameOver_reached`, `runFrames_settled`), no run
of `PlayState::onTimeTick` calls changes either sequencer position, the
level, the score, the lives or the phase, and the state stays a game over of
the same kind; `PlayState::handleInput` without Enter changes nothing there.
With Enter held and either sequencer at `GameOver`, `PlayState::handleInput`
sets the phase to Intro, the score to 0, the level to 1, the lives to
`kPlayerDefaultLives` and both sequencers to `Start`. -/
theorem gameOver_absorbing (g : Game) (ks : List Keys) (k : Keys) (n : Nat) :
    (g.playState.endState = EndSequence.GameOver → PlayState.processEndState^[n] g = g) ∧
    (g.playState.enemyEndState = EnemyEndSequence.GameOver →
      PlayState.processEnemyEndState^[n] g = g) ∧
    (WonGameOver g ∨ LostGameOver g →
      SameStanding g (PlayState.ticks ks g) ∧
      (WonGameOver g → WonGameOver (PlayState.ticks ks g)) ∧
      (LostGameOver g → LostGameOver (PlayState.ticks ks g))) ∧
    (WonGameOver g ∨ LostGameOver g → k.enter = false → PlayState.handleInput g k = some g) ∧
    ((g.playState.endState = EndSequence.GameOver
        ∨ g.playState.enemyEndState = EnemyEndSequence.GameOver) → k.enter = true →
      ∃ g', PlayState.handleInput g k = some g' ∧
        g'.state = GameState.Intro ∧ g'.score = 0 ∧ g'.level = 1 ∧
        g'.player.lives = kPlayerDefaultLives ∧
        g'.playState.endState = EndSequence.Start ∧
        g'.playState.enemyEndState = EnemyEndSequence.Start) := by
  refine ⟨?_, ?_, ?_, ?_, ?_⟩
  · intro h
    exact Function.iterate_fixed (processEndState_gameOver g h) n
  · intro h
    exact Function.iterate_fixed (processEnemyEndState_gameOver g h) n
  · intro h
    obtain ⟨⟨hw, hl⟩, hs⟩ := ticks_gameOver ks g h
    exact ⟨hs, hw, hl⟩
  · intro h hk
    have hguard : ¬ (g.player.health > 0 ∧ g.playState.enemyHealth > 0) := by
      rcases h with hw | hl
      · have := hw.2.1
        omega
      · have := hl.2.2.1
        omega
    unfold PlayState.handleInput
    rw [if_neg hguard, Option.map_some']
    simp [hk]
  · intro h hk
    have h1 : ∃ g1, (if g.player.health > 0 ∧ g.playState.enemyHealth > 0 then
          Player.handleInput g k else some g) = some g1 ∧ SameMatch g g1 := by
      split_ifs
      · exact Player.handleInput_sameMatch g k
      · exact ⟨g, rfl, SameMatch.refl g⟩
    obtain ⟨g1, hg1, hsm⟩ := h1
    have hr : (g1.playState.enemyEndState = EnemyEndSequence.GameOver
        ∨ g1.playState.endState = EndSequence.GameOver) ∧ k.enter = true := by
      rw [hsm.2.2.1, hsm.2.2.2]
      exact ⟨h.symm, hk⟩
    unfold PlayState.handleInput
    rw [hg1, Option.map_some', if_pos hr]
    have hf := reset_fields g1.playState
    exact ⟨_, rfl, rfl, rfl, rfl, rfl, hf.1, hf.2.1⟩

/-- Witness of C12: three ticks in `gameOverWon`, and `handleInput` without
and with Enter in `gameOverLost`. -/
theorem gameOver_absorbing_witness :
    (WonGameOver gameOverWon ∧
      SameStanding gameOverWon (PlayState.ticks [noKeys, noKeys, noKeys] gameOverWon)) ∧
    (LostGameOver gameOverLost ∧
      PlayState.handleInput gameOverLost noKeys = some gameOverLost) ∧
    (gameOverLost.playState.enemyEndState = EnemyEndSequence.GameOver ∧
      ∃ g', PlayState.handleInput gameOverLost { noKeys with enter := true } = some g' ∧
        g'.state = GameState.Intro ∧ g'.score = 0 ∧ g'.level = 1 ∧
        g'.player.lives = kPlayerDefaultLives ∧
        g'.playState.endState = EndSequence.Start ∧
        g'.playState.enemyEndState = EnemyEndSequence.Start) :=
  ⟨⟨by unfold WonGameOver; decide,
      ((gameOver_absorbing gameOverWon [noKeys, noKeys, noKeys] noKeys 0).2.2.1
        (Or.inl (by unfold WonGameOver; decide))).1⟩,
    ⟨by unfold LostGameOver; decide,
      (gameOver_absorbing gameOverLost [] noKeys 0).2.2.2.1
        (Or.inr (by unfold LostGameOver; decide)) (by decide)⟩,
    ⟨by decide,
      (gameOver_absorbing gameOverLost [] { noKeys with enter := true } 0).2.2.2.2
        (Or.inr (by decide)) (by decide)⟩⟩

/-! ### A landed player hit -/

/-- During the hit-freeze, before the halt counter reaches 2, the first
block of `onTimeTick` only counts. -/
theorem tickHitFreeze_count (g : Game) (hp : g.playState.pauseMovement = true)
    (ht : g.playState.haltTime + 1 ≠ 2) :
    PlayState.tickHitFreeze g
      = { g with playState := { g.playState with haltTime := g.playState.haltTime + 1 } } := by
  unfold PlayState.tickHitFreeze
  rw [if_pos hp]
  dsimp only
  rw [if_neg ht]

/-- When the halt counter reaches 2 the first block of `onTimeTick` ends the
hit-freeze and takes one enemy health point. -/
theorem tickHitFreeze_thaw (g : Game) (hp : g.playState.pauseMovement = true)
    (ht : g.playState.haltTime + 1 = 2) :
    (PlayState.tickHitFreeze g).playState.pauseMovement = false ∧
    (PlayState.tickHitFreeze g).playState.haltTime = 0 ∧
    (PlayState.tickHitFreeze g).playState.enemyHealth = g.playState.enemyHealth - 1 ∧
    (PlayState.tickHitFreeze g).playState.maxHaltTime = g.playState.maxHaltTime ∧
    (PlayState.tickHitFreeze g).playState.endState = g.playState.endState ∧
    (PlayState.tickHitFreeze g).player.health = g.player.health ∧
    (PlayState.tickHitFreeze g).score = g.score := by
  unfold PlayState.tickHitFreeze
  rw [if_pos hp]
  dsimp only
  rw [if_pos ht]
  split_ifs <;> exact ⟨rfl, rfl, rfl, rfl, rfl, rfl, rfl⟩

/-- With the enemy out of health and the halt counter short of its
threshold, the second block of `onTimeTick` only counts. -/
theorem tickEndState_wait (g : Game) (h0 : g.playState.enemyHealth = 0)
    (hne : g.playState.haltTime + 1 ≠ g.playState.maxHaltTime) :
    PlayState.tickEndState g
      = { g with playState := { g.playState with haltTime := g.playState.haltTime + 1 } } := by
  unfold PlayState.tickEndState
  rw [if_pos h0]
  dsimp only
  rw [if_neg hne]

/-- With the enemy out of health and the halt counter at its threshold, the
second block of `onTimeTick` steps the victory sequencer. -/
theorem tickEndState_fire (g : Game) (h0 : g.playState.enemyHealth = 0)
    (heq : g.playState.haltTime + 1 = g.playState.maxHaltTime) :
    PlayState.tickEndState g
      = { PlayState.processEndState
            { g with playState := { g.playState with haltTime := g.playState.haltTime + 1 } } with
          playState :=
            { (PlayState.processEndState
                { g with playState :=
                  { g.playState with haltTime := g.playState.haltTime + 1 } }).playState with
              haltTime := 0 } } := by
  unfold PlayState.tickEndState
  rw [if_pos h0]
  dsimp only
  rw [if_pos heq]

/-- First tick of a hit-freeze (halt counter 0): the freeze holds and no
health changes. -/
theorem onTimeTick_freeze_holds (g : Game) (k : Keys)
    (hp : g.playState.pauseMovement = true) (ht : g.playState.haltTime = 0)
    (hpl : g.player.health > 0) (he : g.playState.enemyHealth > 0) :
    (PlayState.onTimeTick g k).playState.pauseMovement = true ∧
    (PlayState.onTimeTick g k).playState.haltTime = 1 ∧
    (PlayState.onTimeTick g k).playState.enemyHealth = g.playState.enemyHealth ∧
    (PlayState.onTimeTick g k).player.health = g.player.health ∧
    (PlayState.onTimeTick g k).playState.maxHaltTime = g.playState.maxHaltTime ∧
    (PlayState.onTimeTick g k).playState.endState = g.playState.endState ∧
    (PlayState.onTimeTick g k).score = g.score := by
  have e1 := tickHitFreeze_count g hp (by rw [ht]; decide)
  have e2 := tickEndState_skip
    { g with playState := { g.playState with haltTime := g.playState.haltTime + 1 } }
    (show g.playState.enemyHealth ≠ 0 by omega)
  have e3 := tickEnemyEndState_skip
    { g with playState := { g.playState with haltTime := g.playState.haltTime + 1 } }
    (fun hc => by have := hc.2; change g.player.health = 0 at this; omega)
  have hf := tickEnemyHit_frame
    { g with playState := { g.playState with haltTime := g.playState.haltTime + 1 } } k
  unfold PlayState.onTimeTick
  rw [e1, e2, e3]
  obtain ⟨_, _, f3, _, f5, f6, _, f8, f9, f10, f11⟩ := hf
  refine ⟨f9.trans hp, ?_, f8, f5, f11, f6, f3⟩
  rw [f10]
  show g.playState.haltTime + 1 = 1
  rw [ht]
  rfl

/-- Second tick of a hit-freeze (halt counter 1) under the round threshold:
the freeze ends, the enemy loses exactly one health point and the victory
sequencer is not stepped yet. -/
theorem onTimeTick_freeze_ends (g : Game) (k : Keys)
    (hp : g.playState.pauseMovement = true) (ht : g.playState.haltTime = 1)
    (hpl : g.player.health > 0) (hmax : g.playState.maxHaltTime = EndDelayHigh) :
    (PlayState.onTimeTick g k).playState.pauseMovement = false ∧
    (PlayState.onTimeTick g k).playState.haltTime
      = (if g.playState.enemyHealth - 1 = 0 then 1 else 0) ∧
    (PlayState.onTimeTick g k).playState.enemyHealth = g.playState.enemyHealth - 1 ∧
    (PlayState.onTimeTick g k).player.health = g.player.health ∧
    (PlayState.onTimeTick g k).playState.maxHaltTime = g.playState.maxHaltTime ∧
    (PlayState.onTimeTick g k).playState.endState = g.playState.endState ∧
    (PlayState.onTimeTick g k).score = g.score := by
  simp only [EndDelayHigh] at hmax
  obtain ⟨a1, a2, a3, a4, a5, a6, a7⟩ := tickHitFreeze_thaw g hp (by rw [ht]; rfl)
  unfold PlayState.onTimeTick
  by_cases h0 : g.playState.enemyHealth - 1 = 0
  · have e2 := tickEndState_wait (PlayState.tickHitFreeze g) (a3.trans h0)
      (by rw [a2, a4, hmax]; decide)
    rw [e2, if_pos h0, tickEnemyEndState_skip]
    · obtain ⟨_, _, f3, _, f5, f6, _, f8, f9, f10, f11⟩ := tickEnemyHit_frame
        { PlayState.tickHitFreeze g with
          playState := { (PlayState.tickHitFreeze g).playState with
                         haltTime := (PlayState.tickHitFreeze g).playState.haltTime + 1 } } k
      refine ⟨f9.trans a1, ?_, f8.trans a3, f5.trans a6, f11.trans a4, f6.trans a5, f3.trans a7⟩
      rw [f10]
      show (PlayState.tickHitFreeze g).playState.haltTime + 1 = 1
      rw [a2]
      rfl
    · intro hc
      have h2 := hc.2
      change (PlayState.tickHitFreeze g).player.health = 0 at h2
      omega
  · have e2 := tickEndState_skip (PlayState.tickHitFreeze g) (by rw [a3]; exact h0)
    rw [e2, if_neg h0, tickEnemyEndState_skip]
    · obtain ⟨_, _, f3, _, f5, f6, _, f8, f9, f10, f11⟩ :=
        tickEnemyHit_frame (PlayState.tickHitFreeze g) k
      exact ⟨f9.trans a1, f10.trans a2, f8.trans a3, f5.trans a6, f11.trans a4, f6.trans a5,
        f3.trans a7⟩
    · intro hc
      have h2 := hc.2
      omega

/-- A tick with the enemy out of health, no freeze, the victory sequencer at
`Start` and the halt counter one short of its threshold steps the sequencer
to `PlayWinSound`. -/
theorem onTimeTick_starts_victory (g : Game) (k : Keys)
    (hp : g.playState.pauseMovement = false) (h0 : g.playState.enemyHealth = 0)
    (heq : g.playState.haltTime + 1 = g.playState.maxHaltTime)
    (hs : g.playState.endState = EndSequence.Start) :
    (PlayState.onTimeTick g k).playState.endState = EndSequence.PlayWinSound := by
  have hstart := processEndState_start
    { g with playState := { g.playState with haltTime := g.playState.haltTime + 1 } }
    (Or.inl (by
      show g.playState.endState < EndSequence.PlayWinSound
      rw [hs]
      decide))
  unfold PlayState.onTimeTick
  rw [tickHitFreeze_skip g hp, tickEndState_fire g h0 heq, hstart, tickEnemyEndState_skip]
  · exact (tickEnemyHit_frame _ k).2.2.2.2.2.1
  · exact fun hc => hc.1 h0

/-- C13: let a player attack land (`processCollision` returns the hit
state) while both actors have health, as `PlayState::handleInput` requires,
and the halt threshold has its round value `EndDelayHigh`.  The score has
risen by the bonus at once.  The first `onTimeTick` after the hit keeps the
freeze and the enemy health, the second ends the freeze and takes exactly one
enemy health point.  If that was the last one and the victory sequencer is at
`Start`, it is still at `Start` after the first and the second tick and moves
to `PlayWinSound` on the third. -/
theorem landed_hit_takes_effect (g : Game) (k1 k2 k3 : Keys)
    (hpl : g.player.health > 0) (he : g.playState.enemyHealth > 0)
    (hmax : g.playState.maxHaltTime = EndDelayHigh)
    (hhit : Player.processCollision g
      = some (Player.registerHit g (Player.attackProfile g.player.currAction_).2)) :
    ∃ g0, Player.processCollision g = some g0 ∧
      g0.score = g.score + (Player.attackProfile g.player.currAction_).2 ∧
      g0.playState.enemyHealth = g.playState.enemyHealth ∧
      g0.playState.pauseMovement = true ∧
      (PlayState.onTimeTick g0 k1).playState.enemyHealth = g.playState.enemyHealth ∧
      (PlayState.onTimeTick g0 k1).playState.pauseMovement = true ∧
      (PlayState.onTimeTick (PlayState.onTimeTick g0 k1) k2).playState.enemyHealth
        = g.playState.enemyHealth - 1 ∧
      (PlayState.onTimeTick (PlayState.onTimeTick g0 k1) k2).playState.pauseMovement = false ∧
      (PlayState.onTimeTick (PlayState.onTimeTick g0 k1) k2).score
        = g.score + (Player.attackProfile g.player.currAction_).2 ∧
      (g.playState.enemyHealth = 1 → g.playState.endState = EndSequence.Start →
        (PlayState.onTimeTick g0 k1).playState.endState = EndSequence.Start ∧
        (PlayState.onTimeTick (PlayState.onTimeTick g0 k1) k2).playState.endState
          = EndSequence.Start ∧
        (PlayState.onTimeTick (PlayState.onTimeTick (PlayState.onTimeTick g0 k1) k2)
          k3).playState.endState = EndSequence.PlayWinSound) := by
  refine ⟨_, hhit, rfl, rfl, rfl, ?_⟩
  obtain ⟨a1, a2, a3, a4, a5, a6, a7⟩ := onTimeTick_freeze_holds
    (Player.registerHit g (Player.attackProfile g.player.currAction_).2) k1 rfl rfl hpl he
  obtain ⟨b1, b2, b3, b4, b5, b6, b7⟩ := onTimeTick_freeze_ends
    (PlayState.onTimeTick (Player.registerHit g (Player.attackProfile g.player.currAction_).2) k1)
    k2 a1 a2 (by rw [a4]; exact hpl) (by rw [a5]; exact hmax)
  refine ⟨a3, a1, ?_, b1, ?_, ?_⟩
  · rw [b3, a3]
    rfl
  · rw [b7, a7]
    rfl
  · intro h1 hs
    have hs1 : (PlayState.onTimeTick
        (Player.registerHit g (Player.attackProfile g.player.currAction_).2) k1).playState.endState
        = EndSequence.Start := by
      rw [a6]
      exact hs
    have he1 : (PlayState.onTimeTick
        (Player.registerHit g (Player.attackProfile g.player.currAction_).2)
        k1).playState.enemyHealth - 1 = 0 := by
      rw [a3]
      show g.playState.enemyHealth - 1 = 0
      omega
    refine ⟨hs1, b6.trans hs1, ?_⟩
    apply onTimeTick_starts_victory _ k3 b1
    · rw [b3]
      exact he1
    · rw [b2, if_pos he1, b5, a5]
      show (1 : Int) + 1 = g.playState.maxHaltTime
      rw [hmax]
      rfl
    · exact b6.trans hs1

/-- Witness of C13: the standing punch of `lastPunch` (bonus 100) on an enemy
with one health point. -/
theorem landed_hit_takes_effect_witness :
    (Player.attackProfile lastPunch.player.currAction_).2 = 100 ∧
    lastPunch.playState.enemyHealth = 1 ∧
    ∃ g0, Player.processCollision lastPunch = some g0 ∧
      g0.score = lastPunch.score + 100 ∧
      (PlayState.onTimeTick (PlayState.onTimeTick g0 noKeys) noKeys).playState.enemyHealth = 0 ∧
      (PlayState.onTimeTick (PlayState.onTimeTick g0 noKeys) noKeys).playState.endState
        = EndSequence.Start ∧
      (PlayState.onTimeTick (PlayState.onTimeTick (PlayState.onTimeTick g0 noKeys) noKeys)
        noKeys).playState.endState = EndSequence.PlayWinSound := by
  obtain ⟨g0, h0, h1, _, _, _, _, h6, _, _, h9⟩ :=
    landed_hit_takes_effect lastPunch noKeys noKeys noKeys (by decide) (by decide) (by decide)
      (by rw [processCollision_eq lastPunch ⟨6, 3, 3, 4, 31, 11⟩ (by decide)]; rfl)
  exact ⟨by decide, by decide, g0, h0, h1, h6, (h9 (by decide) (by decide)).2.1,
    (h9 (by decide) (by decide)).2.2⟩

/-! ### Walking, attacking and the flying kick in `Player::handleInput` -/

/-- With the phase, lock or freeze guard taken, `Player::handleInput` returns
the state unchanged. -/
theorem handleInput_guarded (g : Game) (k : Keys)
    (h : g.state ≠ GameState.Play ∨ g.player.controlsLocked
      ∨ g.playState.renderEnemyHit ∨ g.playState.pauseMovement) :
    Player.handleInput g k = some g := by
  unfold Player.handleInput
  rw [if_pos h]

/-- Past its guard, `Player::handleInput` is its blocks in sequence. -/
theorem handleInput_blocks (g : Game) (k : Keys)
    (hplay : g.state = GameState.Play) (hlock : g.player.controlsLocked = false)
    (hhit : g.playState.renderEnemyHit = false) (hpause : g.playState.pauseMovement = false) :
    Player.handleInput g k =
      (Player.doAttack { g with player := Player.afterMovementKeys g k }
        (k.keyA && (Player.afterMovementKeys g k).canAttack)
        (if k.down then 6 else 5)).bind fun g4 =>
      (Player.doAttack g4 (k.keyS && g4.player.canAttack && (k.left || k.right)) 9).bind fun g5 =>
      (Player.doAttack g5 (k.keyS && g5.player.canAttack) (if k.down then 8 else 7)).bind fun g6 =>
      Player.flyingKickBlock (Player.afterKeyRelease g6 k) k := by
  have hguard : ¬ (g.state ≠ GameState.Play ∨ g.player.controlsLocked
      ∨ g.playState.renderEnemyHit ∨ g.playState.pauseMovement) := by
    simp [hplay, hlock, hhit, hpause]
  unfold Player.handleInput
  rw [if_neg hguard]
  rfl

/-- The method `Player::setMovement` touches the two action members only. -/
theorem setMovement_frame (p : Player) (move : Int) :
    (p.setMovement move).x = p.x ∧ (p.setMovement move).y = p.y ∧
    (p.setMovement move).canAttack = p.canAttack ∧
    (p.setMovement move).controlsLocked = p.controlsLocked ∧
    (p.setMovement move).canFlyKick_ = p.canFlyKick_ ∧
    (p.setMovement move).isFlyingKick_ = p.isFlyingKick_ ∧
    (p.setMovement move).jumpAcceleration_ = p.jumpAcceleration_ ∧
    (p.setMovement move).health = p.health := by
  unfold Player.setMovement
  split_ifs <;> exact ⟨rfl, rfl, rfl, rfl, rfl, rfl, rfl, rfl⟩

/-- A request other than Idle is always committed. -/
theorem setMovement_currAction (p : Player) (move : Int) (h : move ≠ 0) :
    (p.setMovement move).currAction_ = move := by
  unfold Player.setMovement
  rw [if_neg (fun hc => h hc.2)]

/-- A request for Idle is committed unless the action is Defeated. -/
theorem setMovement_idle (p : Player) (h : p.currAction_ ≠ PlayerAction.Defeated) :
    (p.setMovement 0).currAction_ = PlayerAction.Default := by
  unfold Player.setMovement
  rw [if_neg (fun hc => h hc.1)]
  rfl

/-- The direction, crouch and jump keys leave `canAttack` as it was. -/
theorem afterMovementKeys_canAttack (g : Game) (k : Keys) :
    (Player.afterMovementKeys g k).canAttack = g.player.canAttack := by
  unfold Player.afterMovementKeys
  dsimp only
  split_ifs <;> simp only [(setMovement_frame _ _).2.2.1]

/-- When no attack is accepted, `Player::handleInput` is the direction keys
followed by the release block and the flying-kick block. -/
theorem handleInput_no_attack (g : Game) (k : Keys)
    (hplay : g.state = GameState.Play) (hlock : g.player.controlsLocked = false)
    (hhit : g.playState.renderEnemyHit = false) (hpause : g.playState.pauseMovement = false)
    (hno : g.player.canAttack = false ∨ (k.keyA = false ∧ k.keyS = false)) :
    Player.handleInput g k =
      Player.flyingKickBlock
        (Player.afterKeyRelease { g with player := Player.afterMovementKeys g k } k) k := by
  rw [handleInput_blocks g k hplay hlock hhit hpause]
  have hc := afterMovementKeys_canAttack g k
  rcases hno with h | ⟨h1, h2⟩
  · simp [Player.doAttack, hc, h]
  · simp [Player.doAttack, h1, h2]

/-- C14: in the Play phase with controls unlocked, no freeze and only Left
held, `Player::handleInput` returns; from a position `x ≤ StageBoundary` with
an action other than Defeated it leaves `x` unchanged and sets the action to
Idle (Default), and from a position `x > StageBoundary` it sets WalkLeft and
lowers `x` by exactly `kPlayerSpeed`. -/
theorem handleInput_left (g : Game) (k : Keys)
    (hplay : g.state = GameState.Play) (hlock : g.player.controlsLocked = false)
    (hhit : g.playState.renderEnemyHit = false) (hpause : g.playState.pauseMovement = false)
    (hl : k.left = true) (hr : k.right = false) (hu : k.up = false) (hd : k.down = false)
    (ha : k.keyA = false) (hs : k.keyS = false) :
    ∃ g', Player.handleInput g k = some g' ∧
      (g.player.x ≤ StageBoundary → g.player.currAction_ ≠ PlayerAction.Defeated →
        g'.player.x = g.player.x ∧ g'.player.currAction_ = PlayerAction.Default) ∧
      (g.player.x > StageBoundary →
        g'.player.x = g.player.x - kPlayerSpeed ∧
        g'.player.currAction_ = PlayerAction.WalkLeft) := by
  rw [handleInput_no_attack g k hplay hlock hhit hpause (Or.inr ⟨ha, hs⟩)]
  have hfly : ∀ x : Game, Player.flyingKickBlock x k = some x := by
    intro x
    simp [Player.flyingKickBlock, hs]
  have hrel : ∀ x : Game, (Player.afterKeyRelease x k).player.x = x.player.x ∧
      (Player.afterKeyRelease x k).player.currAction_ = x.player.currAction_ := by
    intro x
    unfold Player.afterKeyRelease
    split_ifs <;> exact ⟨rfl, rfl⟩
  rw [hfly]
  refine ⟨_, rfl, ?_, ?_⟩
  · intro hx hne
    simp only [StageBoundary] at hx
    have hx' : ¬ (g.player.x > StageBoundary ∧ k.left = true) := by
      simp only [StageBoundary]
      omega
    have hm : Player.afterMovementKeys g k = g.player.setMovement 0 := by
      unfold Player.afterMovementKeys
      dsimp only
      rw [if_neg hx']
      simp [hr, hu, hd]
    rw [(hrel _).1, (hrel _).2]
    show (Player.afterMovementKeys g k).x = g.player.x ∧
      (Player.afterMovementKeys g k).currAction_ = PlayerAction.Default
    rw [hm]
    exact ⟨(setMovement_frame _ _).1, setMovement_idle _ hne⟩
  · intro hx
    have hm : Player.afterMovementKeys g k
        = { g.player.setMovement 2 with x := g.player.x - kPlayerSpeed } := by
      unfold Player.afterMovementKeys
      dsimp only
      rw [if_pos (show g.player.x > StageBoundary ∧ k.left = true from ⟨hx, hl⟩)]
      simp [hu, hd]
    rw [(hrel _).1, (hrel _).2]
    show (Player.afterMovementKeys g k).x = g.player.x - kPlayerSpeed ∧
      (Player.afterMovementKeys g k).currAction_ = PlayerAction.WalkLeft
    rw [hm]
    exact ⟨rfl, setMovement_currAction _ 2 (by decide)⟩

/-- Witness of C14: Left held at `x = StageBoundary = 10` and at `x = 35`. -/
theorem handleInput_left_witness :
    (∃ g', Player.handleInput atLeftBoundary leftKey = some g' ∧
      g'.player.x = 10 ∧ g'.player.currAction_ = PlayerAction.Default) ∧
    (∃ g', Player.handleInput sampleGame leftKey = some g' ∧
      g'.player.x = 35 - kPlayerSpeed ∧ g'.player.currAction_ = PlayerAction.WalkLeft) := by
  obtain ⟨g1, h1, h2, _⟩ := handleInput_left atLeftBoundary leftKey (by decide) (by decide)
    (by decide) (by decide) (by decide) (by decide) (by decide) (by decide) (by decide)
    (by decide)
  obtain ⟨g2, h3, _, h4⟩ := handleInput_left sampleGame leftKey (by decide) (by decide)
    (by decide) (by decide) (by decide) (by decide) (by decide) (by decide) (by decide)
    (by decide)
  exact ⟨⟨g1, h1, h2 (by decide) (by decide)⟩, ⟨g2, h3, h4 (by decide)⟩⟩

/-- With no key other than Right held at the right walking limit
`x = GAME_WIDTH - StageBoundary - width / 2` of a sprite whose half width is at
least one pixel, `Player::handleInput` does not move the player and requests
Idle, also while Right is held: the test for the alternate pose compares `x`
with `GAME_WIDTH - StageBoundary`. -/
theorem handleInput_right_at_limit (g : Game) (k : Keys)
    (hplay : g.state = GameState.Play) (hlock : g.player.controlsLocked = false)
    (hhit : g.playState.renderEnemyHit = false) (hpause : g.playState.pauseMovement = false)
    (hl : k.left = false) (hu : k.up = false) (hd : k.down = false)
    (ha : k.keyA = false) (hs : k.keyS = false)
    (hw : 1 ≤ Int.tdiv (g.sprites SpriteId.player_default).texWidth 2)
    (hx : g.player.x = GAME_WIDTH - StageBoundary
      - Int.tdiv (g.sprites SpriteId.player_default).texWidth 2)
    (hne : g.player.currAction_ ≠ PlayerAction.Defeated) :
    ∃ g', Player.handleInput g k = some g' ∧ g'.player.x = g.player.x ∧
      g'.player.currAction_ = PlayerAction.Default := by
  rw [handleInput_no_attack g k hplay hlock hhit hpause (Or.inr ⟨ha, hs⟩)]
  have hfly : ∀ x : Game, Player.flyingKickBlock x k = some x := by
    intro x
    simp [Player.flyingKickBlock, hs]
  have hrel : ∀ x : Game, (Player.afterKeyRelease x k).player.x = x.player.x ∧
      (Player.afterKeyRelease x k).player.currAction_ = x.player.currAction_ := by
    intro x
    unfold Player.afterKeyRelease
    split_ifs <;> exact ⟨rfl, rfl⟩
  have hm : Player.afterMovementKeys g k = g.player.setMovement 0 := by
    unfold Player.afterMovementKeys
    dsimp only
    have h1 : ¬ (g.player.x > StageBoundary ∧ k.left = true) := by
      simp [hl]
    have h2 : ¬ (g.player.x < GAME_WIDTH - StageBoundary
        - Int.tdiv (g.sprites SpriteId.player_default).texWidth 2 ∧ k.right = true) := by
      intro hc
      have := hc.1
      omega
    have h3 : ¬ (g.player.x ≥ GAME_WIDTH - StageBoundary ∧ k.right = true) := by
      intro hc
      have := hc.1
      omega
    rw [if_neg h1, if_neg h2, if_neg h3]
    simp [hu, hd]
  rw [hfly]
  refine ⟨_, rfl, ?_, ?_⟩
  · rw [(hrel _).1]
    show (Player.afterMovementKeys g k).x = g.player.x
    rw [hm]
    exact (setMovement_frame _ _).1
  · rw [(hrel _).2]
    show (Player.afterMovementKeys g k).currAction_ = PlayerAction.Default
    rw [hm]
    exact setMovement_idle _ hne

/-- C15 (code defect): the player stands at the right walking limit
`x = 256 - 10 - 32 / 2 = 230` and only Right is held.  `Player::handleInput`
does not move the player, and the action it selects is plain Idle (Default),
not the alternate idle pose DefaultHold. -/
theorem right_limit_selects_plain_idle :
    atRightLimit.player.x
      = GAME_WIDTH - StageBoundary
        - Int.tdiv (atRightLimit.sprites SpriteId.player_default).texWidth 2 ∧
    (Player.handleInput atRightLimit rightKey).map
        (fun g => (g.player.x, g.player.currAction_))
      = some (230, PlayerAction.Default) ∧
    PlayerAction.Default ≠ PlayerAction.DefaultHold := by
  decide

/-- The action after the direction, crouch and jump keys is Idle,
DefaultHold, WalkLeft, WalkRight, Crouch or JumpUp, or still Defeated: never
an attack. -/
theorem afterMovementKeys_action (g : Game) (k : Keys) :
    (Player.afterMovementKeys g k).currAction_ < PlayerAction.PunchStand
      ∨ PlayerAction.KickHigh < (Player.afterMovementKeys g k).currAction_ := by
  simp only [PlayerAction.PunchStand, PlayerAction.KickHigh]
  unfold Player.afterMovementKeys
  dsimp only
  by_cases hu : k.up = true
  · rw [if_pos hu]
    right
    show 9 < (Player.setMovement _ 10).currAction_
    rw [setMovement_currAction _ 10 (by decide)]
    decide
  · rw [if_neg hu]
    by_cases hd : k.down = true
    · rw [if_pos hd, setMovement_currAction _ 4 (by decide)]
      left
      decide
    · rw [if_neg hd]
      split_ifs
      · left
        show (Player.setMovement g.player 2).currAction_ < 5
        rw [setMovement_currAction _ 2 (by decide)]
        decide
      · left
        show (Player.setMovement g.player 3).currAction_ < 5
        rw [setMovement_currAction _ 3 (by decide)]
        decide
      · left
        rw [setMovement_currAction _ 1 (by decide)]
        decide
      · unfold Player.setMovement
        split_ifs with hc
        · right
          rw [hc.1]
          decide
        · left
          show (0 : Int) < 5
          decide

/-- What the direction, crouch and jump keys leave alone. -/
theorem afterMovementKeys_frame (g : Game) (k : Keys) :
    (Player.afterMovementKeys g k).y = g.player.y ∧
    (Player.afterMovementKeys g k).showHit_ = g.player.showHit_ ∧
    (Player.afterMovementKeys g k).canFlyKick_ = g.player.canFlyKick_ := by
  have hset : ∀ (p : Player) (m : Int), (p.setMovement m).y = p.y ∧
      (p.setMovement m).showHit_ = p.showHit_ ∧
      (p.setMovement m).canFlyKick_ = p.canFlyKick_ := by
    intro p m
    unfold Player.setMovement
    split_ifs <;> exact ⟨rfl, rfl, rfl⟩
  unfold Player.afterMovementKeys
  dsimp only
  split_ifs <;> refine ⟨?_, ?_, ?_⟩ <;>
    simp only [(hset _ _).1, (hset _ _).2.1, (hset _ _).2.2]

/-- The release block touches the attack timer only. -/
theorem afterKeyRelease_frame (g : Game) (k : Keys) :
    (Player.afterKeyRelease g k).score = g.score ∧
    (Player.afterKeyRelease g k).playState = g.playState ∧
    (Player.afterKeyRelease g k).state = g.state ∧
    (Player.afterKeyRelease g k).player.currAction_ = g.player.currAction_ ∧
    (Player.afterKeyRelease g k).player.controlsLocked = g.player.controlsLocked ∧
    (Player.afterKeyRelease g k).player.canAttack = g.player.canAttack ∧
    (Player.afterKeyRelease g k).player.showHit_ = g.player.showHit_ ∧
    (Player.afterKeyRelease g k).player.y = g.player.y ∧
    (Player.afterKeyRelease g k).player.isFlyingKick_ = g.player.isFlyingKick_ ∧
    (Player.afterKeyRelease g k).player.canFlyKick_ = g.player.canFlyKick_ := by
  unfold Player.afterKeyRelease
  split_ifs <;> exact ⟨rfl, rfl, rfl, rfl, rfl, rfl, rfl, rfl, rfl, rfl⟩

/-- In the Play phase `Player::processCollision` returns and leaves the
player as it was, the hit effect apart. -/
theorem processCollision_player (g : Game) (h : g.state = GameState.Play) :
    ∃ gc, Player.processCollision g = some gc ∧
      gc.player.currAction_ = g.player.currAction_ ∧
      gc.player.controlsLocked = g.player.controlsLocked ∧
      gc.player.canAttack = g.player.canAttack ∧
      gc.player.isFlyingKick_ = g.player.isFlyingKick_ ∧
      gc.player.canFlyKick_ = g.player.canFlyKick_ ∧
      gc.state = g.state := by
  have he : vecAt enemyBodyHitBoxes g.levelIndex = some ⟨6, 3, 3, 4, 31, 11⟩ := by
    rw [levelIndex_of_play g h]
    decide
  rw [processCollision_eq g _ he]
  split_ifs
  · exact ⟨g, rfl, rfl, rfl, rfl, rfl, rfl, rfl⟩
  · exact ⟨_, rfl, rfl, rfl, rfl, rfl, rfl, rfl⟩

/-- C16: `Player::handleInput` for a grounded player in the Play phase with
controls unlocked and no freeze.  If `canAttack` is false, the call returns a
state whose action is no attack and in which collision resolution has not
run: score, play state and hit effect are unchanged.  If `canAttack` is true
and the punch or the kick key is held, the call accepts exactly the attack
`acceptedAttack k` (PunchCrouch or PunchStand by Down if punch is held,
otherwise KickHigh if Left or Right is held, otherwise KickCrouch or KickStand
by Down): it runs `processCollision` once, in the state `attackEntry` whose
action is that attack, and returns its result, followed only by the
key-release block, with that action, `controlsLocked` true and `canAttack`
false. -/
theorem handleInput_attacks (g : Game) (k : Keys)
    (hplay : g.state = GameState.Play) (hlock : g.player.controlsLocked = false)
    (hhit : g.playState.renderEnemyHit = false) (hpause : g.playState.pauseMovement = false) :
    (g.player.canAttack = false → g.player.y = kPlayerDefaultY →
      ∃ g', Player.handleInput g k = some g' ∧
        (g'.player.currAction_ < PlayerAction.PunchStand
          ∨ PlayerAction.KickHigh < g'.player.currAction_) ∧
        g'.score = g.score ∧ g'.playState = g.playState ∧
        g'.player.showHit_ = g.player.showHit_ ∧ g'.player.canAttack = false) ∧
    (g.player.canAttack = true → (k.keyA = true ∨ k.keyS = true) →
      (Player.attackEntry g k (acceptedAttack k)).player.currAction_ = acceptedAttack k ∧
      (Player.attackEntry g k (acceptedAttack k)).score = g.score ∧
      ∃ gc, Player.processCollision (Player.attackEntry g k (acceptedAttack k)) = some gc ∧
        Player.handleInput g k = some (Player.afterKeyRelease gc k) ∧
        (Player.afterKeyRelease gc k).player.currAction_ = acceptedAttack k ∧
        (Player.afterKeyRelease gc k).player.controlsLocked = true ∧
        (Player.afterKeyRelease gc k).player.canAttack = false ∧
        (Player.afterKeyRelease gc k).score = gc.score ∧
        (Player.afterKeyRelease gc k).playState = gc.playState ∧
        (Player.afterKeyRelease gc k).player.showHit_ = gc.player.showHit_) := by
  constructor
  · intro hca hy
    rw [handleInput_no_attack g k hplay hlock hhit hpause (Or.inl hca)]
    obtain ⟨r1, r2, _, r4, _, r6, r7, r8, _, _⟩ :=
      afterKeyRelease_frame { g with player := Player.afterMovementKeys g k } k
    have hyk : ¬ (k.keyS = true ∧
        (Player.afterKeyRelease { g with player := Player.afterMovementKeys g k } k).player.canFlyKick_
          = true ∧
        ((Player.afterKeyRelease { g with player := Player.afterMovementKeys g k }
            k).player.currAction_ = PlayerAction.JumpUp ∨
          (Player.afterKeyRelease { g with player := Player.afterMovementKeys g k }
            k).player.currAction_ = PlayerAction.JumpDown) ∧
        (Player.afterKeyRelease { g with player := Player.afterMovementKeys g k } k).player.y
          ≤ kPlayerJumpHeight + 23) := by
      intro hc
      have h4 := hc.2.2.2
      rw [r8] at h4
      change (Player.afterMovementKeys g k).y ≤ kPlayerJumpHeight + 23 at h4
      rw [(afterMovementKeys_frame g k).1, hy] at h4
      simp only [kPlayerDefaultY, kPlayerJumpHeight] at h4
      omega
    unfold Player.flyingKickBlock
    rw [if_neg hyk]
    refine ⟨_, rfl, ?_, r1, r2, ?_, ?_⟩
    · rw [r4]
      exact afterMovementKeys_action g k
    · rw [r7]
      exact (afterMovementKeys_frame g k).2.1
    · rw [r6]
      exact (afterMovementKeys_canAttack g k).trans hca
  · intro hca hkey
    have hmv : acceptedAttack k ≠ 0 := by
      unfold acceptedAttack
      split_ifs <;> decide
    have hentry : (Player.attackEntry g k (acceptedAttack k)).player.currAction_
        = acceptedAttack k := setMovement_currAction _ _ hmv
    obtain ⟨gc, hgc, c1, c2, c3, _, _, c6⟩ :=
      processCollision_player (Player.attackEntry g k (acceptedAttack k)) hplay
    have hcl : (Player.attackEntry g k (acceptedAttack k)).player.controlsLocked = true :=
      (setMovement_frame _ _).2.2.2.1
    have hcan : (Player.attackEntry g k (acceptedAttack k)).player.canAttack = false :=
      (setMovement_frame _ _).2.2.1
    obtain ⟨r1, r2, _, r4, r5, r6, r7, _, _, _⟩ := afterKeyRelease_frame gc k
    have hact : (Player.afterKeyRelease gc k).player.currAction_ = acceptedAttack k :=
      r4.trans (c1.trans hentry)
    have hfly : Player.flyingKickBlock (Player.afterKeyRelease gc k) k
        = some (Player.afterKeyRelease gc k) := by
      unfold Player.flyingKickBlock
      rw [if_neg]
      intro hc
      have h3 := hc.2.2.1
      rw [hact] at h3
      simp only [PlayerAction.JumpUp, PlayerAction.JumpDown] at h3
      unfold acceptedAttack at h3
      split_ifs at h3 <;> simp at h3
    refine ⟨hentry, rfl, gc, hgc, ?_, hact, r5.trans (c2.trans hcl), r6.trans (c3.trans hcan),
      r1, r2, r7⟩
    rw [handleInput_blocks g k hplay hlock hhit hpause]
    have hcan3 := afterMovementKeys_canAttack g k
    have hgcan : gc.player.canAttack = false := c3.trans hcan
    by_cases hA : k.keyA = true
    · have hacc : acceptedAttack k = if k.down then 6 else 5 := by
        simp [acceptedAttack, hA]
      have h1 : Player.doAttack { g with player := Player.afterMovementKeys g k }
          (k.keyA && (Player.afterMovementKeys g k).canAttack) (if k.down then 6 else 5)
          = some gc := by
        rw [hcan3, hca, hA]
        simp only [Bool.and_self, Player.doAttack, if_true]
        rw [← hacc]
        exact hgc
      rw [h1, Option.some_bind]
      simp [Player.doAttack, hgcan, hfly]
    · have hA' : k.keyA = false := by simpa using hA
      have hS : k.keyS = true := by
        rcases hkey with h | h
        · exact absurd h hA
        · exact h
      have h1 : Player.doAttack { g with player := Player.afterMovementKeys g k }
          (k.keyA && (Player.afterMovementKeys g k).canAttack) (if k.down then 6 else 5)
          = some { g with player := Player.afterMovementKeys g k } := by
        simp [Player.doAttack, hA']
      rw [h1, Option.some_bind]
      by_cases hdir : (k.left || k.right) = true
      · have hacc : acceptedAttack k = 9 := by
          simp only [acceptedAttack, hA', hdir]
          rfl
        have h2 : Player.doAttack { g with player := Player.afterMovementKeys g k }
            (k.keyS && (Player.afterMovementKeys g k).canAttack && (k.left || k.right)) 9
            = some gc := by
          rw [hcan3, hca, hS, hdir]
          simp only [Bool.and_self, Player.doAttack, if_true]
          rw [← hacc]
          exact hgc
        rw [h2, Option.some_bind]
        simp [Player.doAttack, hgcan, hfly]
      · have hdir' : (k.left || k.right) = false := by simpa using hdir
        have hacc : acceptedAttack k = if k.down then 8 else 7 := by
          simp only [acceptedAttack, hA', hdir']
          rfl
        have h2 : Player.doAttack { g with player := Player.afterMovementKeys g k }
            (k.keyS && (Player.afterMovementKeys g k).canAttack && (k.left || k.right)) 9
            = some { g with player := Player.afterMovementKeys g k } := by
          rw [hdir']
          simp [Player.doAttack]
        rw [h2, Option.some_bind]
        have h3 : Player.doAttack { g with player := Player.afterMovementKeys g k }
            (k.keyS && (Player.afterMovementKeys g k).canAttack) (if k.down then 8 else 7)
            = some gc := by
          rw [hcan3, hca, hS]
          simp only [Bool.and_self, Player.doAttack, if_true]
          rw [← hacc]
          exact hgc
        rw [h3, Option.some_bind]
        exact hfly

/-- Witness of C16: the high kick accepted in `levelOneDuel`, and the punch
key ignored while the cooldown runs. -/
theorem handleInput_attacks_witness :
    acceptedAttack highKickKeys = PlayerAction.KickHigh ∧
    (∃ g', Player.handleInput levelOneDuel highKickKeys = some g' ∧
      g'.player.currAction_ = PlayerAction.KickHigh ∧
      g'.player.controlsLocked = true ∧ g'.player.canAttack = false) ∧
    (∃ g', Player.handleInput attackCoolingDown punchKey = some g' ∧
      (g'.player.currAction_ < PlayerAction.PunchStand
        ∨ PlayerAction.KickHigh < g'.player.currAction_) ∧
      g'.score = 0 ∧ g'.player.canAttack = false) := by
  obtain ⟨_, _, gc, _, h2, h3, h4, h5, _⟩ :=
    (handleInput_attacks levelOneDuel highKickKeys (by decide) (by decide) (by decide)
      (by decide)).2 (by decide) (by decide)
  obtain ⟨g2, k1, k2, k3, _, _, k6⟩ :=
    (handleInput_attacks attackCoolingDown punchKey (by decide) (by decide) (by decide)
      (by decide)).1 (by decide) (by decide)
  exact ⟨by decide, ⟨_, h2, h3, h4, h5⟩, ⟨g2, k1, k2, k3, k6⟩⟩

/-- C17 (code defect): the jump that the Up key begins in `sampleGame` through
`Player::handleInput` sets `controlsLocked`, and twelve `processJump` calls
later the player is airborne with action JumpUp at `y = 136`, which is at most
`kPlayerJumpHeight + 23 = 137`, with `canFlyKick_` true, in the Play phase
with no freeze, and `controlsLocked` still true.  A `Player::handleInput` call
with the kick key held then returns at its first test: the flying-kick flag
stays false, `canFlyKick_` stays true, and collision resolution has not run
(the hit effect and the score are as before). -/
theorem airborne_kick_key_is_ignored :
    (Player.handleInput sampleGame upKey).map
        (fun g => (g.player.currAction_, g.player.controlsLocked, g.player.y))
      = some (PlayerAction.JumpUp, true, kPlayerDefaultY) ∧
    midJump.map
        (fun g => (g.state, g.player.currAction_, g.player.y, g.player.canFlyKick_,
          g.player.isFlyingKick_))
      = some (GameState.Play, PlayerAction.JumpUp, 136, true, false) ∧
    midJump.map
        (fun g => (g.player.health, g.playState.renderEnemyHit, g.playState.pauseMovement,
          g.player.controlsLocked))
      = some (DEFAULT_HEALTH, false, false, true) ∧
    (136 : Int) ≤ kPlayerJumpHeight + 23 ∧
    (midJump.bind (fun g => Player.handleInput g kickKey)).map
        (fun g => (g.player.isFlyingKick_, g.player.canFlyKick_, g.player.showHit_, g.score,
          g.playState.enemyHealth))
      = some (false, true, false, 0, DEFAULT_HEALTH) := by
  refine ⟨?_, ?_, ?_, ?_, ?_⟩ <;> decide

/-- The horizontal drift leaves height, action and acceleration alone. -/
theorem jumpDrifted_frame (g : Game) :
    (Player.jumpDrifted g).y = g.player.y ∧
    (Player.jumpDrifted g).currAction_ = g.player.currAction_ ∧
    (Player.jumpDrifted g).jumpAcceleration_ = g.player.jumpAcceleration_ := by
  unfold Player.jumpDrifted
  dsimp only
  split_ifs <;> exact ⟨rfl, rfl, rfl⟩

/-- The move step of `Player::processJump`: the call that finds the frame
counter due. -/
theorem processJump_move (g : Game)
    (hg : (g.player.currAction_ = PlayerAction.JumpUp
      ∨ g.player.currAction_ = PlayerAction.JumpDown)
      ∧ g.player.health > 0 ∧ (!g.playState.renderEnemyHit) = true)
    (hne : g.player.jumpAcceleration_ ≠ 0)
    (hc : g.player.jumpFrameCounter_ + 1 ≥ Int.tdiv TARGET_FPS g.player.jumpAcceleration_) :
    Player.processJump g =
      if (Player.jumpDrifted g).currAction_ = PlayerAction.JumpUp then
        if (Player.jumpDrifted g).y > kPlayerJumpHeight then
          some { g with player :=
            { Player.jumpDrifted g with
              jumpAcceleration_ := (Player.jumpDrifted g).jumpAcceleration_ - 1,
              y := (Player.jumpDrifted g).y - kPlayerJumpSpeed } }
        else
          some { g with player := (Player.jumpDrifted g).setMovement 11 }
      else if (Player.jumpDrifted g).y < kPlayerDefaultY then
        some { g with player :=
          { Player.jumpDrifted g with
            jumpAcceleration_ :=
              if (Player.jumpDrifted g).jumpAcceleration_ < kPlayerJumpAccelFrameRate then
                (Player.jumpDrifted g).jumpAcceleration_ + 1
              else (Player.jumpDrifted g).jumpAcceleration_,
            y := (Player.jumpDrifted g).y + kPlayerJumpSpeed } }
      else
        some { g with player :=
          { ({ Player.jumpDrifted g with y := kPlayerDefaultY } : Player).setMovement 0 with
            controlsLocked := false, isFlyingKick_ := false, canFlyKick_ := true } } := by
  unfold Player.processJump
  dsimp only
  rw [if_pos hg, if_neg hne, if_pos hc]
  rfl

/-- The `Player::processJump` call that only counts a frame, and the call
outside a jump. -/
theorem processJump_wait (g : Game) (hne : g.player.jumpAcceleration_ ≠ 0)
    (hc : ¬ ((g.player.currAction_ = PlayerAction.JumpUp
        ∨ g.player.currAction_ = PlayerAction.JumpDown)
        ∧ g.player.health > 0 ∧ (!g.playState.renderEnemyHit) = true
        ∧ g.player.jumpFrameCounter_ + 1 ≥ Int.tdiv TARGET_FPS g.player.jumpAcceleration_)) :
    ∃ g', Player.processJump g = some g' ∧ g'.player.y = g.player.y ∧
      g'.player.jumpAcceleration_ = g.player.jumpAcceleration_ ∧
      g'.player.currAction_ = g.player.currAction_ := by
  unfold Player.processJump
  dsimp only
  by_cases hg : (g.player.currAction_ = PlayerAction.JumpUp
      ∨ g.player.currAction_ = PlayerAction.JumpDown)
      ∧ g.player.health > 0 ∧ (!g.playState.renderEnemyHit) = true
  · rw [if_pos hg, if_neg hne, if_neg (fun h => hc ⟨hg.1, hg.2.1, hg.2.2, h⟩)]
    exact ⟨_, rfl, rfl, rfl, rfl⟩
  · rw [if_neg hg]
    exact ⟨_, rfl, rfl, rfl, rfl⟩

/-- One `Player::processJump` call on the arc of a jump returns, stays on the
arc, and changes the acceleration as the direction of the jump prescribes. -/
theorem processJump_arc (g : Game) (h : JumpArc g.player) :
    ∃ g', Player.processJump g = some g' ∧ JumpArc g'.player ∧
      (g.player.currAction_ = PlayerAction.JumpUp →
        g'.player.jumpAcceleration_ ≤ g.player.jumpAcceleration_ ∧
        (g'.player.y < g.player.y →
          g'.player.jumpAcceleration_ = g.player.jumpAcceleration_ - 1)) ∧
      (g.player.currAction_ = PlayerAction.JumpDown →
        g.player.jumpAcceleration_ ≤ g'.player.jumpAcceleration_ ∧
        (g.player.y < g'.player.y →
          g'.player.jumpAcceleration_
            = if g.player.jumpAcceleration_ = kPlayerJumpAccelFrameRate
              then g.player.jumpAcceleration_ else g.player.jumpAcceleration_ + 1)) := by
  obtain ⟨h1, h2, h3⟩ := h
  simp only [kPlayerJumpHeight, kPlayerDefaultY, kPlayerJumpSpeed,
    kPlayerJumpAccelFrameRate] at h1 h2 h3
  have hne : g.player.jumpAcceleration_ ≠ 0 := by omega
  obtain ⟨dy, da, dacc⟩ := jumpDrifted_frame g
  by_cases hc : (g.player.currAction_ = PlayerAction.JumpUp
        ∨ g.player.currAction_ = PlayerAction.JumpDown)
        ∧ g.player.health > 0 ∧ (!g.playState.renderEnemyHit) = true
        ∧ g.player.jumpFrameCounter_ + 1 ≥ Int.tdiv TARGET_FPS g.player.jumpAcceleration_
  · rw [processJump_move g ⟨hc.1, hc.2.1, hc.2.2.1⟩ hne hc.2.2.2, da, dy, dacc]
    have hact := hc.1
    simp only [PlayerAction.JumpUp, PlayerAction.JumpDown] at hact
    by_cases hup : g.player.currAction_ = PlayerAction.JumpUp
    · rw [if_pos hup]
      by_cases hy : g.player.y > kPlayerJumpHeight
      · rw [if_pos hy]
        simp only [kPlayerJumpHeight] at hy
        refine ⟨_, rfl, ?_, ?_, ?_⟩
        · unfold JumpArc
          simp only [kPlayerJumpHeight, kPlayerDefaultY, kPlayerJumpSpeed,
            kPlayerJumpAccelFrameRate]
          omega
        · intro _
          dsimp only
          constructor
          · omega
          · intro _
            rfl
        · intro hd
          rw [hup] at hd
          exact absurd hd (by decide)
      · rw [if_neg hy]
        obtain ⟨_, s2, _, _, _, _, s7, _⟩ := setMovement_frame (Player.jumpDrifted g) 11
        refine ⟨_, rfl, ?_, ?_, ?_⟩
        · unfold JumpArc
          dsimp only
          rw [s2, s7, dy, dacc]
          simp only [kPlayerJumpHeight, kPlayerDefaultY, kPlayerJumpSpeed,
            kPlayerJumpAccelFrameRate]
          omega
        · intro _
          dsimp only
          rw [s2, s7, dy, dacc]
          exact ⟨le_refl _, fun hlt => absurd hlt (lt_irrefl _)⟩
        · intro hd
          rw [hup] at hd
          exact absurd hd (by decide)
    · rw [if_neg hup]
      have hdn : g.player.currAction_ = PlayerAction.JumpDown := by
        rcases hc.1 with h | h
        · exact absurd h hup
        · exact h
      by_cases hy : g.player.y < kPlayerDefaultY
      · rw [if_pos hy]
        simp only [kPlayerDefaultY] at hy
        have hlt : g.player.jumpAcceleration_ < kPlayerJumpAccelFrameRate := by
          simp only [kPlayerJumpAccelFrameRate]
          omega
        rw [if_pos hlt]
        refine ⟨_, rfl, ?_, ?_, ?_⟩
        · unfold JumpArc
          simp only [kPlayerJumpHeight, kPlayerDefaultY, kPlayerJumpSpeed,
            kPlayerJumpAccelFrameRate]
          omega
        · intro hu
          exact absurd hu hup
        · intro _
          dsimp only
          constructor
          · omega
          · intro _
            rw [if_neg (ne_of_lt hlt)]
      · rw [if_neg hy]
        simp only [kPlayerDefaultY] at hy
        obtain ⟨_, s2, _, _, _, _, s7, _⟩ :=
          setMovement_frame ({ Player.jumpDrifted g with y := kPlayerDefaultY } : Player) 0
        refine ⟨_, rfl, ?_, ?_, ?_⟩
        · unfold JumpArc
          dsimp only
          rw [s2, s7]
          dsimp only
          rw [dacc]
          simp only [kPlayerJumpHeight, kPlayerDefaultY, kPlayerJumpSpeed,
            kPlayerJumpAccelFrameRate]
          omega
        · intro hu
          exact absurd hu hup
        · intro _
          dsimp only
          rw [s2, s7]
          dsimp only
          rw [dacc]
          refine ⟨le_refl _, fun hlt => ?_⟩
          simp only [kPlayerDefaultY] at hlt
          omega
  · obtain ⟨g1, e1, e2, e3, e4⟩ := processJump_wait g hne hc
    refine ⟨g1, e1, ?_, ?_, ?_⟩
    · unfold JumpArc
      rw [e2, e3]
      simp only [kPlayerJumpHeight, kPlayerDefaultY, kPlayerJumpSpeed,
        kPlayerJumpAccelFrameRate]
      omega
    · intro _
      rw [e2, e3]
      exact ⟨le_refl _, fun hlt => absurd hlt (lt_irrefl _)⟩
    · intro _
      rw [e2, e3]
      exact ⟨le_refl _, fun hlt => absurd hlt (lt_irrefl _)⟩

/-- The last of `n + 1` jump steps is a `processJump` call on the state after
the first `n`. -/
theorem jumpSteps_succ_last (n : Nat) (g : Game) :
    Player.jumpSteps (n + 1) g = (Player.jumpSteps n g).bind Player.processJump := by
  induction n generalizing g with
  | zero =>
    show (Player.processJump g).bind (Player.jumpSteps 0) = (some g).bind Player.processJump
    rw [Option.some_bind]
    cases Player.processJump g <;> rfl
  | succ n ih =>
    show (Player.processJump g).bind (Player.jumpSteps (n + 1))
      = ((Player.processJump g).bind (Player.jumpSteps n)).bind Player.processJump
    cases Player.processJump g with
    | none => rfl
    | some g1 => exact ih g1

/-- Every run of `processJump` calls that starts on the arc of a jump
returns and ends on the arc. -/
theorem jumpSteps_arc (n : Nat) (g : Game) (h : JumpArc g.player) :
    ∃ gn, Player.jumpSteps n g = some gn ∧ JumpArc gn.player := by
  induction n generalizing g with
  | zero => exact ⟨g, rfl, h⟩
  | succ n ih =>
    obtain ⟨g1, h1, h2, _⟩ := processJump_arc g h
    obtain ⟨gn, h3, h4⟩ := ih g1 h2
    refine ⟨gn, ?_, h4⟩
    show (Player.processJump g).bind (Player.jumpSteps n) = _
    rw [h1]
    exact h3

/-- C18: the `Player::processJump` calls of one jump.  From a jump start
(`y = kPlayerDefaultY`, `jumpAcceleration_ = kPlayerJumpAccelFrameRate`, as
`Player::handleInput` sets them with the action JumpUp) every run of `n` calls
returns a state `gn`, and so does the call after it, with result `g1`.  The
acceleration of `gn` is positive and at most its starting value.  While the
action of `gn` is JumpUp the call does not raise the acceleration, and lowers
it by exactly 1 if it moves the player up; while the action is JumpDown the
call does not lower it, and if it moves the player down it raises it by 1
unless it already equals the starting value. -/
theorem jump_acceleration_monotone (g : Game) (n : Nat)
    (hy : g.player.y = kPlayerDefaultY)
    (hacc : g.player.jumpAcceleration_ = kPlayerJumpAccelFrameRate) :
    ∃ gn g1, Player.jumpSteps n g = some gn ∧ Player.processJump gn = some g1 ∧
      Player.jumpSteps (n + 1) g = some g1 ∧
      0 < gn.player.jumpAcceleration_ ∧
      gn.player.jumpAcceleration_ ≤ kPlayerJumpAccelFrameRate ∧
      (gn.player.currAction_ = PlayerAction.JumpUp →
        g1.player.jumpAcceleration_ ≤ gn.player.jumpAcceleration_ ∧
        (g1.player.y < gn.player.y →
          g1.player.jumpAcceleration_ = gn.player.jumpAcceleration_ - 1)) ∧
      (gn.player.currAction_ = PlayerAction.JumpDown →
        gn.player.jumpAcceleration_ ≤ g1.player.jumpAcceleration_ ∧
        (gn.player.y < g1.player.y →
          g1.player.jumpAcceleration_
            = if gn.player.jumpAcceleration_ = kPlayerJumpAccelFrameRate
              then gn.player.jumpAcceleration_ else gn.player.jumpAcceleration_ + 1)) := by
  have h0 : JumpArc g.player := by
    unfold JumpArc
    rw [hy, hacc]
    decide
  obtain ⟨gn, hn, harc⟩ := jumpSteps_arc n g h0
  obtain ⟨g1, hs, _, hup, hdown⟩ := processJump_arc gn harc
  refine ⟨gn, g1, hn, hs, ?_, ?_, ?_, hup, hdown⟩
  · rw [jumpSteps_succ_last, hn]
    exact hs
  · obtain ⟨a1, a2, a3⟩ := harc
    simp only [kPlayerJumpHeight, kPlayerDefaultY, kPlayerJumpSpeed,
      kPlayerJumpAccelFrameRate] at a1 a2 a3
    omega
  · obtain ⟨a1, a2, a3⟩ := harc
    simp only [kPlayerJumpHeight, kPlayerDefaultY, kPlayerJumpSpeed,
      kPlayerJumpAccelFrameRate] at a1 a2 a3
    simp only [kPlayerJumpAccelFrameRate]
    omega

/-- Witness of C18: the jump that Up begins in `sampleGame`.  After 23 calls
the player is at the apex with acceleration 30, after 48 calls the player is
on the way down with acceleration 52, and the 49th call raises it to 53. -/
theorem jump_acceleration_monotone_witness :
    (Player.handleInput sampleGame upKey).map (fun g => g.player) = some jumpStart.player ∧
    (Player.jumpSteps 23 jumpStart).map
        (fun g => (g.player.currAction_, g.player.y, g.player.jumpAcceleration_))
      = some (PlayerAction.JumpUp, kPlayerJumpHeight, 30) ∧
    (Player.jumpSteps 48 jumpStart).map
        (fun g => (g.player.currAction_, g.player.y, g.player.jumpAcceleration_))
      = some (PlayerAction.JumpDown, 158, 52) ∧
    ∃ gn g1, Player.jumpSteps 48 jumpStart = some gn ∧ Player.processJump gn = some g1 ∧
      gn.player.jumpAcceleration_ ≤ g1.player.jumpAcceleration_ := by
  obtain ⟨gn, g1, h1, h2, _, _, _, _, h7⟩ :=
    jump_acceleration_monotone jumpStart 48 (by decide) (by decide)
  have h8 : (Player.jumpSteps 48 jumpStart).map (fun g => g.player.currAction_)
      = some PlayerAction.JumpDown := by decide
  rw [h1] at h8
  exact ⟨by decide, by decide, by decide, gn, g1, h1, h2, (h7 (Option.some.inj h8)).1⟩

/-- In a retreat state `PlayState::updateEnemyMovementState` sets the enemy
idle and calls `moveEnemyRight` with the direction of the state. -/
theorem updateEnemyMovementState_retreat (g : Game) (rnd : Fin 2) (d : Bool)
    (hst : g.playState.enemyMoveState = retreatState d) :
    PlayState.updateEnemyMovementState g rnd
      = PlayState.moveEnemyRight
          { g with playState := { g.playState with enemyCurrentMove := EnemyAction.Idle } }
          d := by
  unfold PlayState.updateEnemyMovementState
  cases d
  · rw [hst]
    rfl
  · rw [hst]
    rfl

/-- The method `PlayState::offsetEnemyX` moves the enemy by the amount and
leaves the movement state, the run counter and the sprites alone. -/
theorem offsetEnemyX_frame (g : Game) (amount : Int) (isAdd : Bool) :
    (PlayState.offsetEnemyX g amount isAdd).playState.enemyX
      = (if isAdd then g.playState.enemyX + amount else g.playState.enemyX - amount) ∧
    (PlayState.offsetEnemyX g amount isAdd).playState.enemyMoveState
      = g.playState.enemyMoveState ∧
    (PlayState.offsetEnemyX g amount isAdd).playState.runCounter = g.playState.runCounter ∧
    (PlayState.offsetEnemyX g amount isAdd).sprites = g.sprites := by
  unfold PlayState.offsetEnemyX
  dsimp only
  split_ifs <;> exact ⟨rfl, rfl, rfl, rfl⟩

/-- The first `if` of `PlayState::moveEnemyRight` changes the movement state
and the animation speed of an enemy sprite only. -/
theorem afterRetreatCheck_frame (g : Game) :
    (PlayState.afterRetreatCheck g).playState.enemyX = g.playState.enemyX ∧
    (PlayState.afterRetreatCheck g).playState.runCounter = g.playState.runCounter ∧
    (PlayState.afterRetreatCheck g).playState.enemyMoveState
      = (if g.playState.runCounter > EnemyRetreatDistance then MoveState.FollowPlayer
         else g.playState.enemyMoveState) ∧
    (PlayState.afterRetreatCheck g).sprites SpriteId.player_default
      = g.sprites SpriteId.player_default := by
  unfold PlayState.afterRetreatCheck
  by_cases hc : g.playState.runCounter > EnemyRetreatDistance
  · rw [if_pos hc, if_pos hc]
    refine ⟨rfl, rfl, rfl, ?_⟩
    show Function.update g.sprites (SpriteId.enemy (g.level - 1) 2)
        ((g.sprites (SpriteId.enemy (g.level - 1) 2)).setAnimationSpeed EnemyWalkSpriteFPS)
        SpriteId.player_default
      = g.sprites SpriteId.player_default
    exact Function.update_noteq (fun h => SpriteId.noConfusion h) _ _
  · rw [if_neg hc, if_neg hc]
    exact ⟨rfl, rfl, rfl, rfl⟩

/-- The method `PlayState::moveEnemyRight` as its two `if`s in sequence. -/
theorem moveEnemyRight_eq (g : Game) (d : Bool) :
    PlayState.moveEnemyRight g d =
      if (d = true ∧ (PlayState.afterRetreatCheck g).playState.enemyX < rightLimit g)
          ∨ ((!d) = true ∧ (PlayState.afterRetreatCheck g).playState.enemyX > leftLimit) then
        { PlayState.offsetEnemyX (PlayState.afterRetreatCheck g) EnemyRunSpriteFPS d with
          playState :=
            { (PlayState.offsetEnemyX (PlayState.afterRetreatCheck g) EnemyRunSpriteFPS
                d).playState with
              runCounter :=
                (PlayState.offsetEnemyX (PlayState.afterRetreatCheck g) EnemyRunSpriteFPS
                  d).playState.runCounter + 1 } }
      else
        { PlayState.afterRetreatCheck g with
          playState :=
            { (PlayState.afterRetreatCheck g).playState with
              enemyMoveState := if d then MoveState.RetreatRunningLeft
                                else MoveState.RetreatRunningRight } } := by
  rfl

/-- A `PlayState::moveEnemyRight` call that can run on: the enemy moves by
`EnemyRunSpriteFPS`, the run counter goes up by one, and the movement state
becomes FollowPlayer exactly if the counter was above
`EnemyRetreatDistance`. -/
theorem moveEnemyRight_run (g : Game) (d : Bool) (h : canRun g d) :
    (PlayState.moveEnemyRight g d).playState.runCounter = g.playState.runCounter + 1 ∧
    (PlayState.moveEnemyRight g d).playState.enemyX
      = (if d then g.playState.enemyX + EnemyRunSpriteFPS
         else g.playState.enemyX - EnemyRunSpriteFPS) ∧
    (PlayState.moveEnemyRight g d).playState.enemyMoveState
      = (if g.playState.runCounter > EnemyRetreatDistance then MoveState.FollowPlayer
         else g.playState.enemyMoveState) ∧
    (PlayState.moveEnemyRight g d).sprites SpriteId.player_default
      = g.sprites SpriteId.player_default := by
  obtain ⟨a1, a2, a3, a4⟩ := afterRetreatCheck_frame g
  obtain ⟨o1, o2, o3, o4⟩ :=
    offsetEnemyX_frame (PlayState.afterRetreatCheck g) EnemyRunSpriteFPS d
  rw [moveEnemyRight_eq, a1,
    if_pos (show (d = true ∧ g.playState.enemyX < rightLimit g)
      ∨ ((!d) = true ∧ g.playState.enemyX > leftLimit) from h)]
  dsimp only
  rw [o1, o2, o3, o4, a1, a2, a3, a4]
  exact ⟨rfl, rfl, rfl, rfl⟩

/-- A `PlayState::moveEnemyRight` call at the stage limit: the enemy stays,
the run counter stays, and the movement state becomes the retreat state of
the other direction, also when the counter was above
`EnemyRetreatDistance`. -/
theorem moveEnemyRight_wall (g : Game) (d : Bool) (h : ¬ canRun g d) :
    (PlayState.moveEnemyRight g d).playState.runCounter = g.playState.runCounter ∧
    (PlayState.moveEnemyRight g d).playState.enemyX = g.playState.enemyX ∧
    (PlayState.moveEnemyRight g d).playState.enemyMoveState = retreatState (!d) ∧
    (PlayState.moveEnemyRight g d).sprites SpriteId.player_default
      = g.sprites SpriteId.player_default := by
  obtain ⟨a1, a2, a3, a4⟩ := afterRetreatCheck_frame g
  rw [moveEnemyRight_eq, a1,
    if_neg (show ¬ ((d = true ∧ g.playState.enemyX < rightLimit g)
      ∨ ((!d) = true ∧ g.playState.enemyX > leftLimit)) from h)]
  dsimp only
  rw [a1, a2, a4]
  refine ⟨rfl, rfl, ?_, rfl⟩
  cases d <;> rfl

/-- One `PlayState::updateEnemyMovementState` call in the retreat state of
direction `d`: what it does when the enemy can run on, and what it does at
the stage limit. -/
theorem retreat_step (g : Game) (d : Bool) (rnd : Fin 2)
    (hst : g.playState.enemyMoveState = retreatState d) :
    (canRun g d →
      (PlayState.updateEnemyMovementState g rnd).playState.runCounter
        = g.playState.runCounter + 1 ∧
      (PlayState.updateEnemyMovementState g rnd).playState.enemyMoveState
        = (if g.playState.runCounter > EnemyRetreatDistance then MoveState.FollowPlayer
           else retreatState d) ∧
      rightLimit (PlayState.updateEnemyMovementState g rnd) = rightLimit g) ∧
    (¬ canRun g d →
      (PlayState.updateEnemyMovementState g rnd).playState.runCounter
        = g.playState.runCounter ∧
      (PlayState.updateEnemyMovementState g rnd).playState.enemyX = g.playState.enemyX ∧
      (PlayState.updateEnemyMovementState g rnd).playState.enemyMoveState
        = retreatState (!d) ∧
      rightLimit (PlayState.updateEnemyMovementState g rnd) = rightLimit g) := by
  rw [updateEnemyMovementState_retreat g rnd d hst]
  constructor
  · intro h
    obtain ⟨r1, _, r3, r4⟩ := moveEnemyRight_run
      { g with playState := { g.playState with enemyCurrentMove := EnemyAction.Idle } } d h
    refine ⟨r1, ?_, ?_⟩
    · rw [r3]
      show (if g.playState.runCounter > EnemyRetreatDistance then MoveState.FollowPlayer
        else g.playState.enemyMoveState) = _
      rw [hst]
    · unfold rightLimit
      rw [r4]
  · intro h
    obtain ⟨r1, r2, r3, r4⟩ := moveEnemyRight_wall
      { g with playState := { g.playState with enemyCurrentMove := EnemyAction.Idle } } d h
    refine ⟨r1, r2, r3, ?_⟩
    unfold rightLimit
    rw [r4]

/-- A retreat whose remaining budget is at most `t` steps is over within `t`
calls.  The budget is two steps for each unit of the run counter still
missing up to `EnemyRetreatDistance + 2`, less one if the enemy can run on. -/
theorem retreat_ends_within (t : Nat) : ∀ (g : Game) (d : Bool),
    g.playState.enemyMoveState = retreatState d →
    g.playState.runCounter ≤ EnemyRetreatDistance + 1 →
    leftLimit < rightLimit g →
    (canRun g d → 2 * (EnemyRetreatDistance + 2 - g.playState.runCounter) - 1 ≤ (t : Int)) →
    (¬ canRun g d → 2 * (EnemyRetreatDistance + 2 - g.playState.runCounter) ≤ (t : Int)) →
    ∃ n, 1 ≤ n ∧ n ≤ t ∧ ∀ rnds : List (Fin 2), rnds.length = n →
      (PlayState.enemySteps rnds g).playState.enemyMoveState = MoveState.FollowPlayer := by
  induction t with
  | zero =>
    intro g d _ hc _ h1 h2
    simp only [EnemyRetreatDistance] at hc h1 h2
    by_cases hr : canRun g d
    · have := h1 hr
      omega
    · have := h2 hr
      omega
  | succ t ih =>
    intro g d hst hc hlim h1 h2
    simp only [EnemyRetreatDistance] at hc h1 h2
    by_cases hr : canRun g d
    · have hb := h1 hr
      by_cases hdone : g.playState.runCounter > EnemyRetreatDistance
      · refine ⟨1, le_refl 1, by omega, ?_⟩
        intro rnds hlen
        obtain ⟨r, rfl⟩ := List.length_eq_one.mp hlen
        show (PlayState.updateEnemyMovementState g r).playState.enemyMoveState = _
        rw [((retreat_step g d r hst).1 hr).2.1, if_pos hdone]
      · have hstep := fun r => (retreat_step g d r hst).1 hr
        have hnd : ¬ g.playState.runCounter > 10 := hdone
        obtain ⟨n, n1, n2, n3⟩ := ih (PlayState.updateEnemyMovementState g 0) d
          (by rw [(hstep 0).2.1, if_neg hdone])
          (by rw [(hstep 0).1]; simp only [EnemyRetreatDistance]; omega)
          (by rw [(hstep 0).2.2]; exact hlim)
          (by intro _; rw [(hstep 0).1]; simp only [EnemyRetreatDistance]; push_cast at hb ⊢; omega)
          (by intro _; rw [(hstep 0).1]; simp only [EnemyRetreatDistance]; push_cast at hb ⊢; omega)
        refine ⟨n + 1, by omega, by omega, ?_⟩
        intro rnds hlen
        cases rnds with
        | nil => exact absurd hlen (by simp)
        | cons r rs =>
          show (PlayState.enemySteps rs (PlayState.updateEnemyMovementState g r)).playState.enemyMoveState
            = _
          rw [updateEnemyMovementState_retreat g r d hst,
            ← updateEnemyMovementState_retreat g 0 d hst]
          exact n3 rs (by simpa using hlen)
    · have hb := h2 hr
      have hstep := fun r => (retreat_step g d r hst).2 hr
      have hcan : canRun (PlayState.updateEnemyMovementState g 0) (!d) := by
        unfold canRun
        rw [(hstep 0).2.1, (hstep 0).2.2.2]
        unfold canRun at hr
        cases d
        · left
          refine ⟨rfl, ?_⟩
          have : ¬ g.playState.enemyX > leftLimit := fun hx => hr (Or.inr ⟨rfl, hx⟩)
          omega
        · right
          refine ⟨rfl, ?_⟩
          have : ¬ g.playState.enemyX < rightLimit g := fun hx => hr (Or.inl ⟨rfl, hx⟩)
          omega
      obtain ⟨n, n1, n2, n3⟩ := ih (PlayState.updateEnemyMovementState g 0) (!d)
        (hstep 0).2.2.1
        (by rw [(hstep 0).1]; simp only [EnemyRetreatDistance]; omega)
        (by rw [(hstep 0).2.2.2]; exact hlim)
        (by intro _; rw [(hstep 0).1]; simp only [EnemyRetreatDistance]; push_cast at hb ⊢; omega)
        (by intro hn; exact absurd hcan hn)
      refine ⟨n + 1, by omega, by omega, ?_⟩
      intro rnds hlen
      cases rnds with
      | nil => exact absurd hlen (by simp)
      | cons r rs =>
        show (PlayState.enemySteps rs (PlayState.updateEnemyMovementState g r)).playState.enemyMoveState
          = _
        rw [updateEnemyMovementState_retreat g r d hst,
          ← updateEnemyMovementState_retreat g 0 d hst]
        exact n3 rs (by simpa using hlen)

/-- C19: the enemy retreat terminates.  From every state whose movement state
is one of the two retreat states, entered with `runCounter = 0`, at every
enemy position, with the stage limits of `moveEnemyRight` in the order
`leftLimit < rightLimit`, there is a number `n` of steps, at least 1 and at
most 24 (so within 30), such that every run of `n` calls of
`PlayState::updateEnemyMovementState`, whatever the random draws, ends with
`enemyMoveState = FollowPlayer`. -/
theorem enemy_retreat_terminates (g : Game)
    (hst : g.playState.enemyMoveState = MoveState.RetreatRunningLeft
      ∨ g.playState.enemyMoveState = MoveState.RetreatRunningRight)
    (hc : g.playState.runCounter = 0)
    (hlim : leftLimit < rightLimit g) :
    ∃ n, 1 ≤ n ∧ n ≤ 24 ∧ n ≤ 30 ∧ ∀ rnds : List (Fin 2), rnds.length = n →
      (PlayState.enemySteps rnds g).playState.enemyMoveState = MoveState.FollowPlayer := by
  have hd : ∃ d, g.playState.enemyMoveState = retreatState d := by
    rcases hst with h | h
    · exact ⟨false, h⟩
    · exact ⟨true, h⟩
  obtain ⟨d, hd⟩ := hd
  obtain ⟨n, n1, n2, n3⟩ := retreat_ends_within 24 g d hd (by rw [hc]; decide) hlim
    (by intro _; rw [hc]; decide) (by intro _; rw [hc]; decide)
  exact ⟨n, n1, n2, by omega, n3⟩

/-- Witness of C19: a retreat that starts at the right stage limit, and the
retreat from x = 150, which reaches the limit after ten steps, turns, and is
back to FollowPlayer at the thirteenth call. -/
theorem enemy_retreat_terminates_witness :
    retreatAtWall.playState.enemyX = rightLimit retreatAtWall ∧
    (∃ n, 1 ≤ n ∧ n ≤ 24 ∧ n ≤ 30 ∧ ∀ rnds : List (Fin 2), rnds.length = n →
      (PlayState.enemySteps rnds retreatAtWall).playState.enemyMoveState
        = MoveState.FollowPlayer) ∧
    (PlayState.enemySteps (List.replicate 10 0) retreatFromCentre).playState.enemyX = 200 ∧
    (PlayState.enemySteps (List.replicate 12 0) retreatFromCentre).playState.enemyMoveState
      = MoveState.RetreatRunningLeft ∧
    (PlayState.enemySteps (List.replicate 13 0) retreatFromCentre).playState.enemyMoveState
      = MoveState.FollowPlayer := by
  refine ⟨by decide, ?_, by decide, by decide, by decide⟩
  exact enemy_retreat_terminates retreatAtWall (Or.inr rfl) rfl (by decide)

/-- One `Timer::timeTick` call on a frame counter below 11 only counts the
frame; on a frame counter of 11 it resets the counter, advances or wraps the
seconds, and invokes the callback. -/
theorem timeTick_step (t : Timer) :
    (t.frameCounter_ + 1 < 12 →
      Timer.timeTick t = ({ t with frameCounter_ := t.frameCounter_ + 1 }, false)) ∧
    (12 ≤ t.frameCounter_ + 1 →
      Timer.timeTick t
        = ({ frameCounter_ := 0,
             elapsedSeconds_ := if t.elapsedSeconds_ = 59 then 0 else t.elapsedSeconds_ + 1 },
           true)) := by
  have h12 : Int.tdiv TARGET_FPS FRAME_SPEED = 12 := by decide
  unfold Timer.timeTick
  dsimp only
  rw [h12]
  constructor
  · intro h
    rw [if_neg (by omega)]
  · intro h
    rw [if_pos (by omega)]
    split_ifs <;> rfl

/-- The counters of a timer started with `frameCounter_ = 0` after `n`
calls. -/
theorem ticks_counters (t : Timer) (n : Nat) (hf : t.frameCounter_ = 0)
    (hlo : 0 ≤ t.elapsedSeconds_) (hhi : t.elapsedSeconds_ ≤ 59) :
    (Timer.ticks n t).frameCounter_ = ((n % 12 : Nat) : Int) ∧
    (Timer.ticks n t).elapsedSeconds_ = (t.elapsedSeconds_ + ((n / 12 : Nat) : Int)) % 60 := by
  induction n with
  | zero =>
    show t.frameCounter_ = _ ∧ t.elapsedSeconds_ = _
    rw [hf]
    constructor
    · rfl
    · simp only [Nat.zero_div, Nat.cast_zero, add_zero]
      omega
  | succ n ih =>
    obtain ⟨ih1, ih2⟩ := ih
    have hs : Timer.ticks (n + 1) t = (Timer.timeTick (Timer.ticks n t)).1 := by
      unfold Timer.ticks
      rw [Function.iterate_succ_apply']
    rw [hs]
    obtain ⟨s1, s2⟩ := timeTick_step (Timer.ticks n t)
    by_cases hlt : (Timer.ticks n t).frameCounter_ + 1 < 12
    · rw [s1 hlt]
      dsimp only
      rw [ih1, ih2]
      rw [ih1] at hlt
      constructor <;> omega
    · rw [s2 (by omega)]
      dsimp only
      rw [ih1] at hlt
      rw [ih2]
      constructor
      · omega
      · split_ifs with h59 <;> omega

/-- C20: the `Timer` clock started with `frameCounter_ = 0` and a seconds
value in 0..59.  After `n` calls of `timeTick` the frame counter is `n % 12`
and the seconds are the start value plus `n / 12`, modulo 60, so both stay in
0..11 and 0..59.  The next call, call number `n + 1`, invokes the callback if
and only if `n + 1` is a multiple of 12 = TARGET_FPS / FRAME_SPEED; if it
does, the seconds go from `s` to `s + 1` when `s < 59` and from 59 to 0, and
if it does not, the seconds stay. -/
theorem timeTick_fires_every_twelfth (t : Timer) (n : Nat) (hf : t.frameCounter_ = 0)
    (hlo : 0 ≤ t.elapsedSeconds_) (hhi : t.elapsedSeconds_ ≤ 59) :
    Int.tdiv TARGET_FPS FRAME_SPEED = 12 ∧
    (0 ≤ (Timer.ticks n t).frameCounter_ ∧ (Timer.ticks n t).frameCounter_ ≤ 11) ∧
    (0 ≤ (Timer.ticks n t).elapsedSeconds_ ∧ (Timer.ticks n t).elapsedSeconds_ ≤ 59) ∧
    ((Timer.timeTick (Timer.ticks n t)).2 = true ↔ (n + 1) % 12 = 0) ∧
    ((Timer.timeTick (Timer.ticks n t)).2 = true →
      (Timer.ticks n t).elapsedSeconds_ < 59 →
      (Timer.ticks (n + 1) t).elapsedSeconds_ = (Timer.ticks n t).elapsedSeconds_ + 1) ∧
    ((Timer.timeTick (Timer.ticks n t)).2 = true →
      (Timer.ticks n t).elapsedSeconds_ = 59 → (Timer.ticks (n + 1) t).elapsedSeconds_ = 0) ∧
    ((Timer.timeTick (Timer.ticks n t)).2 = false →
      (Timer.ticks (n + 1) t).elapsedSeconds_ = (Timer.ticks n t).elapsedSeconds_) := by
  obtain ⟨c1, c2⟩ := ticks_counters t n hf hlo hhi
  have hs : Timer.ticks (n + 1) t = (Timer.timeTick (Timer.ticks n t)).1 := by
    unfold Timer.ticks
    rw [Function.iterate_succ_apply']
  obtain ⟨s1, s2⟩ := timeTick_step (Timer.ticks n t)
  refine ⟨by decide, ⟨by omega, by omega⟩, ⟨by omega, by omega⟩, ?_, ?_, ?_, ?_⟩
  · by_cases hlt : (Timer.ticks n t).frameCounter_ + 1 < 12
    · rw [s1 hlt]
      rw [c1] at hlt
      constructor
      · intro h
        exact absurd h Bool.false_ne_true
      · intro h
        omega
    · rw [s2 (by omega)]
      rw [c1] at hlt
      constructor
      · intro _
        omega
      · intro _
        rfl
  · intro hfire hlt59
    rw [hs]
    by_cases hlt : (Timer.ticks n t).frameCounter_ + 1 < 12
    · rw [s1 hlt] at hfire
      exact absurd hfire Bool.false_ne_true
    · rw [s2 (by omega)]
      dsimp only
      rw [if_neg (by omega)]
  · intro hfire h59
    rw [hs]
    by_cases hlt : (Timer.ticks n t).frameCounter_ + 1 < 12
    · rw [s1 hlt] at hfire
      exact absurd hfire Bool.false_ne_true
    · rw [s2 (by omega)]
      dsimp only
      rw [if_pos h59]
  · intro hquiet
    rw [hs]
    by_cases hlt : (Timer.ticks n t).frameCounter_ + 1 < 12
    · rw [s1 hlt]
    · rw [s2 (by omega)] at hquiet
      exact absurd hquiet.symm Bool.false_ne_true

/-- Witness of C20: a fresh timer.  Call 12 is the first that invokes the
callback, call 13 does not, and call 720 wraps the seconds from 59 to 0. -/
theorem timeTick_fires_every_twelfth_witness :
    (Timer.timeTick (Timer.ticks 11 freshTimer)).2 = true ∧
    (Timer.timeTick (Timer.ticks 12 freshTimer)).2 = false ∧
    (Timer.ticks 719 freshTimer).elapsedSeconds_ = 59 ∧
    (Timer.ticks 720 freshTimer).elapsedSeconds_ = 0 := by
  have h11 := timeTick_fires_every_twelfth freshTimer 11 rfl (by decide) (by decide)
  have h12 := timeTick_fires_every_twelfth freshTimer 12 rfl (by decide) (by decide)
  have h719 := timeTick_fires_every_twelfth freshTimer 719 rfl (by decide) (by decide)
  have c719 := ticks_counters freshTimer 719 rfl (by decide) (by decide)
  have f11 : (Timer.timeTick (Timer.ticks 11 freshTimer)).2 = true :=
    h11.2.2.2.1.mpr (by decide)
  have f12 : (Timer.timeTick (Timer.ticks 12 freshTimer)).2 = false := by
    cases hb : (Timer.timeTick (Timer.ticks 12 freshTimer)).2 with
    | false => rfl
    | true => exact absurd (h12.2.2.2.1.mp hb) (by decide)
  have e719 : (Timer.ticks 719 freshTimer).elapsedSeconds_ = 59 := by
    rw [c719.2]
    decide
  exact ⟨f11, f12, e719,
    h719.2.2.2.2.2.1 (h719.2.2.2.1.mpr (by decide)) e719⟩

/-- Three `read` calls leave the stream good exactly when the file holds at
least twelve bytes, and then deliver its first three groups of four. -/
theorem read4_three (bytes : List Nat) :
    (12 ≤ bytes.length →
      (IStream.read4 { rest := bytes, good := true }).1 = some (bytes.take 4) ∧
      (IStream.read4 (IStream.read4 { rest := bytes, good := true }).2).1
        = some ((bytes.drop 4).take 4) ∧
      (IStream.read4 (IStream.read4 (IStream.read4 { rest := bytes, good := true }).2).2).1
        = some ((bytes.drop 8).take 4) ∧
      (IStream.read4 (IStream.read4 (IStream.read4 { rest := bytes, good := true }).2).2).2.good
        = true) ∧
    (bytes.length < 12 →
      (IStream.read4 (IStream.read4 (IStream.read4 { rest := bytes, good := true }).2).2).2.good
        = false) := by
  have hstep : ∀ s : IStream, s.good = true → 4 ≤ s.rest.length →
      IStream.read4 s = (some (s.rest.take 4), { s with rest := s.rest.drop 4 }) := by
    intro s hg hl
    unfold IStream.read4
    rw [if_pos ⟨hg, hl⟩]
  have hfail : ∀ s : IStream, ¬ (s.good = true ∧ 4 ≤ s.rest.length) →
      (IStream.read4 s).2.good = false := by
    intro s hs
    unfold IStream.read4
    rw [if_neg hs]
  have hbad : ∀ s : IStream, s.good = false → (IStream.read4 s).2.good = false :=
    fun s hs => hfail s (fun hc => by rw [hs] at hc; exact Bool.false_ne_true hc.1)
  constructor
  · intro h
    have e1 := hstep { rest := bytes, good := true } rfl (by show 4 ≤ bytes.length; omega)
    rw [e1]
    have e2 := hstep { rest := bytes.drop 4, good := true } rfl
      (by show 4 ≤ (bytes.drop 4).length; rw [List.length_drop]; omega)
    have e2a : IStream.read4 { rest := bytes.drop 4, good := true }
        = (some ((bytes.drop 4).take 4), { rest := (bytes.drop 4).drop 4, good := true }) := e2
    show some (bytes.take 4) = _ ∧
      (IStream.read4 { rest := bytes.drop 4, good := true }).1 = _ ∧
      (IStream.read4 (IStream.read4 { rest := bytes.drop 4, good := true }).2).1 = _ ∧
      (IStream.read4 (IStream.read4 { rest := bytes.drop 4, good := true }).2).2.good = true
    rw [e2a]
    have e3 := hstep { rest := (bytes.drop 4).drop 4, good := true } rfl
      (by show 4 ≤ ((bytes.drop 4).drop 4).length; rw [List.length_drop, List.length_drop]; omega)
    show _ ∧ _ ∧ (IStream.read4 { rest := (bytes.drop 4).drop 4, good := true }).1 = _ ∧
      (IStream.read4 { rest := (bytes.drop 4).drop 4, good := true }).2.good = true
    rw [e3, List.drop_drop]
    exact ⟨rfl, rfl, rfl, rfl⟩
  · intro h
    by_cases h1 : 4 ≤ bytes.length
    · have e1 := hstep { rest := bytes, good := true } rfl h1
      rw [e1]
      show (IStream.read4 (IStream.read4 { rest := bytes.drop 4, good := true }).2).2.good = false
      by_cases h2 : 4 ≤ (bytes.drop 4).length
      · have e2 := hstep { rest := bytes.drop 4, good := true } rfl h2
        rw [e2]
        apply hfail
        intro hc
        have h3 : 4 ≤ ((bytes.drop 4).drop 4).length := hc.2
        rw [List.length_drop, List.length_drop] at h3
        omega
      · apply hbad
        apply hfail
        exact fun hc => h2 hc.2
    · apply hbad
      apply hbad
      apply hfail
      exact fun hc => h1 hc.2

/-- C21: `Game::loadState` is all or nothing.  For a missing file and for
every record shorter than three 4-byte integers it returns the game
unchanged, so that phase, level and score keep the values the constructor
gave them (Intro, 1, 0); for a record of at least twelve bytes it sets phase,
level and score to the values stored in the first three groups of four bytes
and changes nothing else; and the record that `saveState` wrote for a game
`saved` loads as the phase, level and score of `saved`, whenever the
platform's `int` representation reads back what it stored for these three
values. -/
theorem loadState_all_or_nothing (decode : List Nat → Int) (encode : Int → List Nat)
    (g saved : Game) (bytes : List Nat)
    (hlen : ∀ v, (encode v).length = 4)
    (hstate : decode (encode saved.state) = saved.state)
    (hlevel : decode (encode saved.level) = saved.level)
    (hscore : decode (encode saved.score) = saved.score) :
    Game.loadState decode none g = g ∧
    (bytes.length < 3 * 4 → Game.loadState decode (some bytes) g = g) ∧
    (3 * 4 ≤ bytes.length →
      Game.loadState decode (some bytes) g
        = { g with state := decode (bytes.take 4),
                   level := decode ((bytes.drop 4).take 4),
                   score := decode ((bytes.drop 8).take 4) }) ∧
    Game.loadState decode (some (Game.saveState encode saved)) g
      = { g with state := saved.state, level := saved.level, score := saved.score } := by
  have hlong : ∀ bs : List Nat, 12 ≤ bs.length →
      Game.loadState decode (some bs) g
        = { g with state := decode (bs.take 4),
                   level := decode ((bs.drop 4).take 4),
                   score := decode ((bs.drop 8).take 4) } := by
    intro bs h
    obtain ⟨r1, r2, r3, r4⟩ := (read4_three bs).1 h
    unfold Game.loadState
    dsimp only
    rw [if_pos r4, r1, r2, r3]
  refine ⟨rfl, ?_, ?_, ?_⟩
  · intro h
    have r := (read4_three bytes).2 (by omega)
    unfold Game.loadState
    dsimp only
    rw [if_neg (by rw [r]; exact Bool.false_ne_true)]
  · intro h
    exact hlong bytes (by omega)
  · have h1 := hlen saved.state
    have h2 := hlen saved.level
    have h3 := hlen saved.score
    rw [hlong _ (by unfold Game.saveState; simp only [List.length_append]; omega)]
    have t1 : (Game.saveState encode saved).take 4 = encode saved.state := by
      unfold Game.saveState
      rw [List.append_assoc, List.take_left' h1]
    have t2 : ((Game.saveState encode saved).drop 4).take 4 = encode saved.level := by
      unfold Game.saveState
      rw [List.append_assoc, List.drop_left' h1, List.take_left' h2]
    have t3 : ((Game.saveState encode saved).drop 8).take 4 = encode saved.score := by
      unfold Game.saveState
      rw [List.drop_left' (by simp only [List.length_append]; omega)]
      exact List.take_of_length_le (by omega)
    rw [t1, t2, t3, hstate, hlevel, hscore]

/-- Witness of C21, with the little-endian representation: a record
truncated to its first four bytes leaves the constructed game at (Intro, 1,
0), and the record of `savedGame` loads as (Play, 3, 1200). -/
theorem loadState_all_or_nothing_witness :
    Game.saveState int32Bytes savedGame = [2, 0, 0, 0, 3, 0, 0, 0, 176, 4, 0, 0] ∧
    Game.loadState int32OfBytes (some [2, 0, 0, 0]) constructedGame = constructedGame ∧
    (constructedGame.state, constructedGame.level, constructedGame.score)
      = (GameState.Intro, 1, 0) ∧
    Game.loadState int32OfBytes (some (Game.saveState int32Bytes savedGame)) constructedGame
      = { constructedGame with state := GameState.Play, level := 3, score := 1200 } := by
  have hlen : ∀ v, (int32Bytes v).length = 4 := fun _ => rfl
  obtain ⟨_, h2, _, h4⟩ := loadState_all_or_nothing int32OfBytes int32Bytes constructedGame
    savedGame [2, 0, 0, 0] hlen (by decide) (by decide) (by decide)
  exact ⟨by decide, h2 (by decide), by decide, h4⟩

/-- What `Player::onTimeTick` never touches: everything outside the player,
and the action history unless the stun ends. -/
theorem onTimeTick_frame (g : Game) (k : Keys) :
    (Player.onTimeTick g k).playState = g.playState ∧
    (Player.onTimeTick g k).state = g.state ∧
    (Player.onTimeTick g k).score = g.score ∧
    (Player.onTimeTick g k).level = g.level := by
  exact ⟨rfl, rfl, rfl, rfl⟩

/-- One `Player::onTimeTick` call on a locked player outside a jump whose
stun counter is not about to reach 3: the counter advances and lock, hit
effect and actions stay. -/
theorem onTimeTick_stun_counts (g : Game) (k : Keys)
    (hlock : g.player.controlsLocked = true) (hhit : g.playState.renderEnemyHit = false)
    (hup : g.player.currAction_ ≠ PlayerAction.JumpUp)
    (hdown : g.player.currAction_ ≠ PlayerAction.JumpDown)
    (hc : g.player.pauseTimer + 1 ≠ 3) :
    (Player.onTimeTick g k).player.pauseTimer = g.player.pauseTimer + 1 ∧
    (Player.onTimeTick g k).player.controlsLocked = true ∧
    (Player.onTimeTick g k).player.currAction_ = g.player.currAction_ ∧
    (Player.onTimeTick g k).player.prevAction_ = g.player.prevAction_ ∧
    (Player.onTimeTick g k).player.showHit_ = g.player.showHit_ := by
  unfold Player.onTimeTick
  dsimp only
  rw [if_pos (show g.player.controlsLocked = true ∧ (!g.playState.renderEnemyHit) = true from
      ⟨hlock, by rw [hhit]; rfl⟩),
    if_pos (show g.player.currAction_ ≠ PlayerAction.JumpUp
      ∧ g.player.currAction_ ≠ PlayerAction.JumpDown from ⟨hup, hdown⟩),
    if_neg hc]
  split_ifs <;> exact ⟨rfl, hlock, rfl, rfl, rfl⟩

/-- The `Player::onTimeTick` call that brings the stun counter of a locked
player outside a jump to 3: the lock is released, the hit effect cleared, and
the action requested is Crouch or Idle. -/
theorem onTimeTick_stun_ends (g : Game) (k : Keys)
    (hlock : g.player.controlsLocked = true) (hhit : g.playState.renderEnemyHit = false)
    (hup : g.player.currAction_ ≠ PlayerAction.JumpUp)
    (hdown : g.player.currAction_ ≠ PlayerAction.JumpDown)
    (hc : g.player.pauseTimer + 1 = 3) :
    (Player.onTimeTick g k).player.pauseTimer = 0 ∧
    (Player.onTimeTick g k).player.controlsLocked = false ∧
    (Player.onTimeTick g k).player.showHit_ = false ∧
    (Player.onTimeTick g k).player.currAction_
      = (if k.down = true ∧ g.player.prevAction_ = PlayerAction.Crouch then PlayerAction.Crouch
         else if g.player.currAction_ = PlayerAction.Defeated then PlayerAction.Defeated
         else PlayerAction.Default) := by
  unfold Player.onTimeTick
  dsimp only
  rw [if_pos (show g.player.controlsLocked = true ∧ (!g.playState.renderEnemyHit) = true from
      ⟨hlock, by rw [hhit]; rfl⟩),
    if_pos (show g.player.currAction_ ≠ PlayerAction.JumpUp
      ∧ g.player.currAction_ ≠ PlayerAction.JumpDown from ⟨hup, hdown⟩),
    if_pos hc]
  unfold Player.setMovement
  dsimp only
  by_cases hk : k.down = true ∧ g.player.prevAction_ = PlayerAction.Crouch
  · rw [if_pos hk, if_pos hk]
    rw [if_neg (show ¬ (g.player.currAction_ = PlayerAction.Defeated ∧ (4 : Int) = 0) from
      fun hcc => absurd hcc.2 (by decide))]
    dsimp only
    split_ifs <;> exact ⟨rfl, rfl, rfl, rfl⟩
  · rw [if_neg hk, if_neg hk]
    by_cases hd : g.player.currAction_ = PlayerAction.Defeated
    · rw [if_pos (show g.player.currAction_ = PlayerAction.Defeated ∧ (0 : Int) = 0 from
        ⟨hd, rfl⟩), if_pos hd]
      dsimp only
      split_ifs <;> exact ⟨rfl, rfl, rfl, hd⟩
    · rw [if_neg (show ¬ (g.player.currAction_ = PlayerAction.Defeated ∧ (0 : Int) = 0) from
        fun hcc => hd hcc.1), if_neg hd]
      dsimp only
      split_ifs <;> exact ⟨rfl, rfl, rfl, rfl⟩

/-- While the action is JumpUp or JumpDown, `Player::onTimeTick` leaves the
stun counter and the lock alone. -/
theorem onTimeTick_jump_exempt (g : Game) (k : Keys)
    (hj : g.player.currAction_ = PlayerAction.JumpUp
      ∨ g.player.currAction_ = PlayerAction.JumpDown) :
    (Player.onTimeTick g k).player.pauseTimer = g.player.pauseTimer ∧
    (Player.onTimeTick g k).player.controlsLocked = g.player.controlsLocked := by
  have hn : ¬ (g.player.currAction_ ≠ PlayerAction.JumpUp
      ∧ g.player.currAction_ ≠ PlayerAction.JumpDown) := by
    intro hc
    rcases hj with h | h
    · exact hc.1 h
    · exact hc.2 h
  unfold Player.onTimeTick
  dsimp only
  by_cases hl : g.player.controlsLocked = true ∧ (!g.playState.renderEnemyHit) = true
  · rw [if_pos hl, if_neg hn]
    split_ifs <;> exact ⟨rfl, rfl⟩
  · rw [if_neg hl]
    split_ifs <;> exact ⟨rfl, rfl⟩

/-- Counterexample to C22 as stated: a locked player whose action is Defeated,
with the stun counter at 0 and no hit-freeze.  The third `Player::onTimeTick`
releases the lock, but the action stays Defeated instead of becoming Idle:
`setMovement(0)` does not leave Defeated. -/
theorem stun_end_keeps_defeated :
    lockedWhileDefeated.player.controlsLocked = true ∧
    lockedWhileDefeated.player.currAction_ = PlayerAction.Defeated ∧
    lockedWhileDefeated.player.pauseTimer = 0 ∧
    lockedWhileDefeated.playState.renderEnemyHit = false ∧
    lockedWhileDefeated.player.prevAction_ ≠ PlayerAction.Crouch ∧
    (Player.onTimeTick (Player.onTimeTick (Player.onTimeTick lockedWhileDefeated noKeys) noKeys)
      noKeys).player.controlsLocked = false ∧
    (Player.onTimeTick (Player.onTimeTick (Player.onTimeTick lockedWhileDefeated noKeys) noKeys)
      noKeys).player.currAction_ = PlayerAction.Defeated ∧
    PlayerAction.Defeated ≠ PlayerAction.Default := by
  decide

/-- C22 (amended): for a control-locked player whose action is not JumpUp or
JumpDown, with the stun counter at 0 and no hit-freeze, the first two
`Player::onTimeTick` calls keep the controls locked (and the action and the
hit effect as they are), and the third releases the lock, clears the hit
effect and sets the action to Crouch if Down is held and the previous action
was Crouch, otherwise to Idle, except that an action of Defeated stays
Defeated.  For a player `j` whose action is JumpUp or JumpDown a call
advances no stun counter and does not change the lock. -/
theorem stun_releases_on_third_tick (g j : Game) (k1 k2 k3 kj : Keys)
    (hlock : g.player.controlsLocked = true) (hhit : g.playState.renderEnemyHit = false)
    (hup : g.player.currAction_ ≠ PlayerAction.JumpUp)
    (hdown : g.player.currAction_ ≠ PlayerAction.JumpDown)
    (hc : g.player.pauseTimer = 0) :
    (Player.onTimeTick g k1).player.controlsLocked = true ∧
    (Player.onTimeTick g k1).player.currAction_ = g.player.currAction_ ∧
    (Player.onTimeTick g k1).player.showHit_ = g.player.showHit_ ∧
    (Player.onTimeTick (Player.onTimeTick g k1) k2).player.controlsLocked = true ∧
    (Player.onTimeTick (Player.onTimeTick g k1) k2).player.currAction_ = g.player.currAction_ ∧
    (Player.onTimeTick (Player.onTimeTick g k1) k2).player.showHit_ = g.player.showHit_ ∧
    (Player.onTimeTick (Player.onTimeTick (Player.onTimeTick g k1) k2) k3).player.controlsLocked
      = false ∧
    (Player.onTimeTick (Player.onTimeTick (Player.onTimeTick g k1) k2) k3).player.showHit_
      = false ∧
    (Player.onTimeTick (Player.onTimeTick (Player.onTimeTick g k1) k2) k3).player.currAction_
      = (if k3.down = true ∧ g.player.prevAction_ = PlayerAction.Crouch then PlayerAction.Crouch
         else if g.player.currAction_ = PlayerAction.Defeated then PlayerAction.Defeated
         else PlayerAction.Default) ∧
    ((j.player.currAction_ = PlayerAction.JumpUp ∨ j.player.currAction_ = PlayerAction.JumpDown) →
      (Player.onTimeTick j kj).player.pauseTimer = j.player.pauseTimer ∧
      (Player.onTimeTick j kj).player.controlsLocked = j.player.controlsLocked) := by
  obtain ⟨a1, a2, a3, a4, a5⟩ := onTimeTick_stun_counts g k1 hlock hhit hup hdown
    (by rw [hc]; decide)
  obtain ⟨b1, b2, b3, b4, b5⟩ := onTimeTick_stun_counts (Player.onTimeTick g k1) k2 a2 hhit
    (by rw [a3]; exact hup) (by rw [a3]; exact hdown) (by rw [a1, hc]; decide)
  obtain ⟨_, c2, c3, c4⟩ := onTimeTick_stun_ends (Player.onTimeTick (Player.onTimeTick g k1) k2)
    k3 b2 hhit (by rw [b3, a3]; exact hup) (by rw [b3, a3]; exact hdown)
    (by rw [b1, a1, hc]; decide)
  refine ⟨a2, a3, a5, b2, b3.trans a3, b5.trans a5, c2, c3, ?_, onTimeTick_jump_exempt j kj⟩
  rw [c4, b4, a4, b3, a3]

/-- Witness of C22: the lock of a standing punch is released to Idle on the
third tick, and a jumping player keeps the lock. -/
theorem stun_releases_on_third_tick_witness :
    (Player.onTimeTick (Player.onTimeTick lockedAfterPunch noKeys) downKey).player.controlsLocked
      = true ∧
    (Player.onTimeTick (Player.onTimeTick (Player.onTimeTick lockedAfterPunch noKeys) downKey)
      downKey).player.controlsLocked = false ∧
    (Player.onTimeTick (Player.onTimeTick (Player.onTimeTick lockedAfterPunch noKeys) downKey)
      downKey).player.currAction_ = PlayerAction.Default ∧
    (Player.onTimeTick jumpStart noKeys).player.controlsLocked = true := by
  obtain ⟨_, _, _, h4, _, _, h7, _, h9, h10⟩ :=
    stun_releases_on_third_tick lockedAfterPunch jumpStart noKeys downKey downKey noKeys
      (by decide) (by decide) (by decide) (by decide) (by decide)
  refine ⟨h4, h7, ?_, (h10 (Or.inl (by decide))).2⟩
  rw [h9]
  decide

/-- Counterexample to C23 as stated: two runs of one frame from
`duelBeforeAttack` with the same keys.  The enemy kicks in the run in which
`randBetween` returns 0 and punches in the run in which it returns 1. -/
theorem same_inputs_different_attack :
    (PlayState.run duelBeforeAttack noKeys 0).map (fun g => g.playState.enemyCurrentMove)
      = some EnemyAction.Kick ∧
    (PlayState.run duelBeforeAttack noKeys 1).map (fun g => g.playState.enemyCurrentMove)
      = some EnemyAction.Punch ∧
    (PlayState.run duelBeforeAttack noKeys 0).map (fun g => g.playState.enemyMoveState)
      = some MoveState.ChargeAttack ∧
    EnemyAction.Kick ≠ EnemyAction.Punch := by
  refine ⟨?_, ?_, ?_, ?_⟩ <;> decide

/-- An AI step that does not reach `enemyBasicAttack` does not depend on the
draw. -/
theorem updateEnemyMovementState_no_draw (g : Game) (r1 r2 : Fin 2)
    (h : ¬ PlayState.reachesBasicAttack g) :
    PlayState.updateEnemyMovementState g r1 = PlayState.updateEnemyMovementState g r2 := by
  unfold PlayState.reachesBasicAttack at h
  unfold PlayState.updateEnemyMovementState
  cases hs : g.playState.enemyMoveState
  · dsimp only
    rw [if_neg (fun hc => h ⟨hs, hc⟩), if_neg (fun hc => h ⟨hs, hc⟩)]
  · rfl
  · rfl
  · rfl

/-- An AI step that reaches `enemyBasicAttack` is the pursuit step followed
by the attack the draw selects. -/
theorem updateEnemyMovementState_draw (g : Game) (r : Fin 2)
    (h : PlayState.reachesBasicAttack g) :
    PlayState.updateEnemyMovementState g r
      = PlayState.enemyBasicAttack (PlayState.enemyPursuePlayer g) r := by
  unfold PlayState.updateEnemyMovementState
  rw [h.1]
  dsimp only
  rw [if_pos h.2]

/-- A frame that consumes no draw does not depend on the value
`randBetween` would return. -/
theorem run_no_draw (g : Game) (k : Keys) (r1 r2 : Fin 2)
    (h : ¬ PlayState.frameDraws g k) :
    PlayState.run g k r1 = PlayState.run g k r2 := by
  unfold PlayState.run
  cases hb : PlayState.runBeforeEnemy g k with
  | none => rfl
  | some g4 =>
    rw [Option.map_some', Option.map_some']
    by_cases hc : (!g4.player.showHit_) = true ∧ g4.player.health > 0
        ∧ g4.playState.enemyHealth > 0
    · rw [if_pos hc, if_pos hc]
      unfold PlayState.tickEnemyMovement
      dsimp only
      by_cases hf : g4.playState.retreatCounter + 1 ≥ Int.tdiv TARGET_FPS EnemyLogicFPS
      · rw [if_pos hf, if_pos hf]
        rw [updateEnemyMovementState_no_draw _ r1 r2 (fun hr => h ⟨g4, hb, hc, hf, hr⟩)]
      · rw [if_neg hf, if_neg hf]
    · rw [if_neg hc, if_neg hc]

/-- A frame that consumes a draw ends with the attack the draw selects, and
the draw decides nothing else. -/
theorem run_draw (g : Game) (k : Keys) (r : Fin 2) (h : PlayState.frameDraws g k) :
    ∃ g5, (∀ r0 : Fin 2, PlayState.run g k r0 = some (PlayState.enemyBasicAttack g5 r0)) ∧
      (PlayState.enemyBasicAttack g5 r).playState.enemyCurrentMove
        = attackList.get ⟨r.val, r.isLt⟩ ∧
      (PlayState.enemyBasicAttack g5 r).playState.enemyRandomAttack = r.val ∧
      (PlayState.enemyBasicAttack g5 r).playState.enemyMoveState = MoveState.ChargeAttack := by
  obtain ⟨g4, hb, hc, hf, hr⟩ := h
  refine ⟨PlayState.enemyPursuePlayer
    { g4 with playState := { g4.playState with retreatCounter := 0 } }, ?_, rfl, rfl, rfl⟩
  intro r0
  unfold PlayState.run
  rw [hb, Option.map_some', if_pos hc]
  unfold PlayState.tickEnemyMovement
  dsimp only
  rw [if_pos hf, updateEnemyMovementState_draw _ r0 hr]

/-- Runs whose traces agree in the keys and in the draws that are consumed
end in the same state. -/
theorem runFrames_agree : ∀ (ins1 ins2 : List (Keys × Fin 2)) (g : Game),
    TracesAgree ins1 ins2 g → PlayState.runFrames ins1 g = PlayState.runFrames ins2 g := by
  intro ins1
  induction ins1 with
  | nil =>
    intro ins2 g h
    cases ins2 with
    | nil => rfl
    | cons b t2 => exact absurd h (by simp [TracesAgree])
  | cons a t1 ih =>
    intro ins2 g h
    cases ins2 with
    | nil => exact absurd h (by simp [TracesAgree])
    | cons b t2 =>
      obtain ⟨k1, r1⟩ := a
      obtain ⟨k2, r2⟩ := b
      simp only [TracesAgree] at h
      obtain ⟨hk, hr, hrest⟩ := h
      subst hk
      have hrun : PlayState.run g k1 r1 = PlayState.run g k1 r2 := by
        by_cases hd : PlayState.frameDraws g k1
        · rw [hr hd]
        · exact run_no_draw g k1 r1 r2 hd
      show (PlayState.run g k1 r1).bind (PlayState.runFrames t1)
        = (PlayState.run g k1 r2).bind (PlayState.runFrames t2)
      rw [← hrun]
      cases h1 : PlayState.run g k1 r1 with
      | none => rfl
      | some g1 => exact ih t2 g1 (hrest g1 h1)

/-- C23 (amended): the Play phase is deterministic in its input trace
together with the values `randBetween` returns.  A frame that does not reach
`enemyBasicAttack` has the same result whatever the draw; a frame that
reaches it ends, for every draw `r`, in one and the same state up to the
attack, with `enemyRandomAttack = r` and the move `attackList[r]`: Kick
for 0, Punch for 1.  Two runs from the same state whose traces hold the same
keys in every frame, and the same draw in every frame that consumes one, end
in the same state (and so do all their prefixes).  The enemy's choice between
Kick and Punch is the draw, which the input trace does not determine. -/
theorem runs_agree_up_to_draws (g : Game) (k : Keys) (r1 r2 : Fin 2)
    (ins1 ins2 : List (Keys × Fin 2)) :
    (¬ PlayState.frameDraws g k → PlayState.run g k r1 = PlayState.run g k r2) ∧
    (PlayState.frameDraws g k →
      ∃ g5, PlayState.run g k r1 = some (PlayState.enemyBasicAttack g5 r1) ∧
        PlayState.run g k r2 = some (PlayState.enemyBasicAttack g5 r2) ∧
        (PlayState.enemyBasicAttack g5 r1).playState.enemyCurrentMove
          = attackList.get ⟨r1.val, r1.isLt⟩ ∧
        (PlayState.enemyBasicAttack g5 r1).playState.enemyRandomAttack = r1.val) ∧
    (TracesAgree ins1 ins2 g → PlayState.runFrames ins1 g = PlayState.runFrames ins2 g) := by
  refine ⟨run_no_draw g k r1 r2, ?_, runFrames_agree ins1 ins2 g⟩
  intro h
  obtain ⟨g5, h1, h2, h3, _⟩ := run_draw g k r1 h
  exact ⟨g5, h1 r1, h1 r2, h2, h3⟩

/-- Witness of C23: the frame of `duelBeforeAttack` consumes a draw, and the
frame of `sampleGame`, whose cadence counter does not fire, consumes none. -/
theorem runs_agree_up_to_draws_witness :
    PlayState.frameDraws duelBeforeAttack noKeys ∧
    (∃ g5, PlayState.run duelBeforeAttack noKeys 1 = some (PlayState.enemyBasicAttack g5 1) ∧
      (PlayState.enemyBasicAttack g5 1).playState.enemyCurrentMove = EnemyAction.Punch) ∧
    PlayState.run sampleGame noKeys 0 = PlayState.run sampleGame noKeys 1 ∧
    PlayState.runFrames [(noKeys, 0), (leftKey, 0)] sampleGame
      = PlayState.runFrames [(noKeys, 1), (leftKey, 0)] sampleGame := by
  have hd : PlayState.frameDraws duelBeforeAttack noKeys := by
    cases hb : PlayState.runBeforeEnemy duelBeforeAttack noKeys with
    | none =>
      have : (PlayState.runBeforeEnemy duelBeforeAttack noKeys).isSome = true := by decide
      rw [hb] at this
      exact absurd this (by decide)
    | some g4 =>
      have e1 : (PlayState.runBeforeEnemy duelBeforeAttack noKeys).map
          (fun x => (x.player.showHit_, x.player.health, x.playState.enemyHealth,
            x.playState.retreatCounter, x.playState.enemyMoveState))
          = some (false, 9, 9, 1, MoveState.FollowPlayer) := by decide
      have e2 : (PlayState.runBeforeEnemy duelBeforeAttack noKeys).map
          (fun x => PlayState.playerInRange (PlayState.enemyPursuePlayer
            { x with playState := { x.playState with retreatCounter := 0 } }))
          = some true := by decide
      rw [hb, Option.map_some', Option.some.injEq] at e1 e2
      simp only [Prod.mk.injEq] at e1
      obtain ⟨s1, s2, s3, s4, s5⟩ := e1
      refine ⟨g4, hb, ⟨by rw [s1]; rfl, by rw [s2]; decide, by rw [s3]; decide⟩, ?_, ?_⟩
      · rw [s4]
        decide
      · exact ⟨s5, e2⟩
  have hn : ¬ PlayState.frameDraws sampleGame noKeys := by
    rintro ⟨g4, hb, _, hf, _⟩
    have e1 : (PlayState.runBeforeEnemy sampleGame noKeys).map
        (fun x => x.playState.retreatCounter) = some 0 := by decide
    rw [hb, Option.map_some', Option.some.injEq] at e1
    rw [e1] at hf
    exact absurd hf (by decide)
  obtain ⟨_, h2, _⟩ := runs_agree_up_to_draws duelBeforeAttack noKeys 1 0 [] []
  obtain ⟨h1, _, h3⟩ := runs_agree_up_to_draws sampleGame noKeys 0 1
    [(noKeys, 0), (leftKey, 0)] [(noKeys, 1), (leftKey, 0)]
  obtain ⟨g5, a1, _, a3, _⟩ := h2 hd
  exact ⟨hd, ⟨g5, a1, a3⟩, h1 hn,
    h3 ⟨rfl, fun hc => absurd hc hn, fun _ _ => ⟨rfl, fun _ => rfl, fun _ _ => trivial⟩⟩⟩

/-- Counterexample to C24 as stated: at level 2 the box of a punch thrown at
`enemyX = 100` by an unflipped enemy starts at `95 = 100 - 11 + 6`, the kick
adjustment 11 of the level subtracted, and not at `106 = 100 + 6`. -/
theorem punch_box_is_shifted :
    punchAtLevelTwo.playState.enemyCurrentMove = EnemyAction.Punch ∧
    punchAtLevelTwo.playState.isEnemyFlipped = false ∧
    (vecAt enemyBodyHitBoxes (punchAtLevelTwo.level - 1)).map (fun e => e.kickAdjustment)
      = some 11 ∧
    (vecAt enemyPunchHitBoxes (punchAtLevelTwo.level - 1)).map (fun e => e.offsetLeft)
      = some 6 ∧
    (PlayState.enemyAttackBounds punchAtLevelTwo).map (fun b => b.x) = some 95 ∧
    punchAtLevelTwo.playState.enemyX + 6 ≠ 95 := by
  decide

/-- C24 (amended): the kick adjustment of the level's body profile enters the
enemy's attack hitbox for a Kick and for a Punch alike.  At every level 1..5
the adjustment is between 6 and 11, and for either attack the horizontal
origin of the hitbox is `enemyX` minus that adjustment plus the
facing-selected offset of the attack's own profile (`offsetRight` when
flipped, `offsetLeft` otherwise). -/
theorem attack_box_shifted_for_both (g : Game) (h : 1 ≤ g.level ∧ g.level ≤ 5) :
    ∃ body punch kick,
      vecAt enemyBodyHitBoxes (g.level - 1) = some body ∧
      vecAt enemyPunchHitBoxes (g.level - 1) = some punch ∧
      vecAt enemyKickHitBoxes (g.level - 1) = some kick ∧
      6 ≤ body.kickAdjustment ∧ body.kickAdjustment ≤ 11 ∧
      (g.playState.enemyCurrentMove = EnemyAction.Punch →
        ∃ b, PlayState.enemyAttackBounds g = some b ∧
          b.x = g.playState.enemyX - body.kickAdjustment
                + (if g.playState.isEnemyFlipped then punch.offsetRight else punch.offsetLeft)) ∧
      (g.playState.enemyCurrentMove = EnemyAction.Kick →
        ∃ b, PlayState.enemyAttackBounds g = some b ∧
          b.x = g.playState.enemyX - body.kickAdjustment
                + (if g.playState.isEnemyFlipped then kick.offsetRight else kick.offsetLeft)) := by
  have hbox : ∀ (tbl : List CollisionInfo) (body info : CollisionInfo),
      vecAt enemyBodyHitBoxes (g.level - 1) = some body →
      vecAt tbl (g.level - 1) = some info →
      ∃ b, PlayState.calculatePlayerCollisionBounds g tbl = some b ∧
        b.x = g.playState.enemyX - body.kickAdjustment
              + (if g.playState.isEnemyFlipped then info.offsetRight else info.offsetLeft) := by
    intro tbl body info hb hi
    unfold PlayState.calculatePlayerCollisionBounds
    rw [hb, hi]
    refine ⟨_, rfl, ?_⟩
    dsimp only
    split_ifs <;> rfl
  have hc : g.level = 1 ∨ g.level = 2 ∨ g.level = 3 ∨ g.level = 4 ∨ g.level = 5 := by omega
  have htab : ∃ body punch kick,
      vecAt enemyBodyHitBoxes (g.level - 1) = some body ∧
      vecAt enemyPunchHitBoxes (g.level - 1) = some punch ∧
      vecAt enemyKickHitBoxes (g.level - 1) = some kick ∧
      6 ≤ body.kickAdjustment ∧ body.kickAdjustment ≤ 11 := by
    rcases hc with h1 | h1 | h1 | h1 | h1 <;> rw [h1] <;>
      refine ⟨_, _, _, rfl, rfl, rfl, ?_, ?_⟩ <;> decide
  obtain ⟨body, punch, kick, hb, hp, hk, h6, h11⟩ := htab
  refine ⟨body, punch, kick, hb, hp, hk, h6, h11, ?_, ?_⟩
  · intro hm
    unfold PlayState.enemyAttackBounds
    rw [hm]
    exact hbox enemyPunchHitBoxes body punch hb hp
  · intro hm
    unfold PlayState.enemyAttackBounds
    rw [hm]
    exact hbox enemyKickHitBoxes body kick hb hk

/-- Witness of C24: the punch box of level 2 and the kick box of a flipped
enemy at level 4, both at `enemyX = 100`. -/
theorem attack_box_shifted_for_both_witness :
    (∃ b, PlayState.enemyAttackBounds punchAtLevelTwo = some b ∧ b.x = 100 - 11 + 6) ∧
    (∃ b, PlayState.enemyAttackBounds kickAtLevelFour = some b ∧ b.x = 100 - 8 + 24) := by
  obtain ⟨body, punch, _, hb, hp, _, _, _, h5, _⟩ :=
    attack_box_shifted_for_both punchAtLevelTwo (by decide)
  obtain ⟨body4, _, kick4, hb4, _, hk4, _, _, _, h6⟩ :=
    attack_box_shifted_for_both kickAtLevelFour (by decide)
  have e1 : body = ⟨6, 3, 3, 4, 31, 11⟩ := Option.some.inj (hb.symm.trans (by decide))
  have e2 : punch = ⟨6, 28, 11, 3, 2, 0⟩ := Option.some.inj (hp.symm.trans (by decide))
  have e3 : body4 = ⟨8, 3, 8, 8, 31, 8⟩ := Option.some.inj (hb4.symm.trans (by decide))
  have e4 : kick4 = ⟨0, 24, 7, 3, 5, 0⟩ := Option.some.inj (hk4.symm.trans (by decide))
  obtain ⟨b, hb1, hb2⟩ := h5 (by decide)
  obtain ⟨c, hc1, hc2⟩ := h6 (by decide)
  refine ⟨⟨b, hb1, ?_⟩, ⟨c, hc1, ?_⟩⟩
  · rw [hb2, e1, e2]
    decide
  · rw [hc2, e3, e4]
    decide

/-- At level 3 `offsetEnemyX` and `flipEnemySprites` keep the chain at its
offset from the enemy, and `reset()` of an unflipped enemy puts it there. -/
theorem chainOffset_kept (g : Game) (amount : Int) (isAdd : Bool) (h3 : g.level = 3) :
    (ChainOffset g.playState →
      ChainOffset (PlayState.offsetEnemyX g amount isAdd).playState) ∧
    (ChainOffset g.playState → ChainOffset g.playState.flipEnemySprites) ∧
    (g.playState.isEnemyFlipped = false → ChainOffset g.playState.reset) := by
  refine ⟨?_, ?_, ?_⟩
  · intro h
    unfold ChainOffset at h ⊢
    unfold PlayState.offsetEnemyX
    dsimp only
    rw [if_pos h3]
    dsimp only
    cases isAdd
    · simp only [Bool.false_eq_true, if_false]
      rw [← h]
      omega
    · simp only [if_true]
      rw [← h]
      omega
  · intro h
    unfold ChainOffset at h ⊢
    unfold PlayState.flipEnemySprites
    dsimp only
    cases hf : g.playState.isEnemyFlipped
    · rw [hf] at h
      simp only [Bool.not_false, if_true] at h ⊢
      simp only [Bool.false_eq_true, if_false] at h
      omega
    · rw [hf] at h
      simp only [Bool.not_true, Bool.false_eq_true, if_false, if_true] at h ⊢
      omega
  · intro hf
    unfold ChainOffset PlayState.reset
    dsimp only
    rw [hf]
    simp only [Bool.false_eq_true, if_false]
    decide

/-- C25 (code defect): at level 3, after the initial `reset()` the chain is
10 pixels left of the enemy; `flipEnemySprites` moves it to 27 pixels left of
the flipped enemy; the next `reset()` leaves the enemy unflipped with the
chain 7 pixels to its right (`rotatingChainX = 152`, `enemyX = 145`) instead
of 10 pixels to its left: `reset()` writes the unflipped position 135 and
then un-flips through `flipEnemySprites`, which adds 17 once more. -/
theorem reset_of_flipped_enemy_misplaces_chain :
    chainRound.level = 3 ∧
    chainRound.playState.reset = chainRound.playState ∧
    chainRound.playState.rotatingChainX - chainRound.playState.enemyX = -10 ∧
    chainRound.playState.flipEnemySprites.isEnemyFlipped = true ∧
    chainRound.playState.flipEnemySprites.rotatingChainX
      - chainRound.playState.flipEnemySprites.enemyX = -27 ∧
    chainRound.playState.flipEnemySprites.reset.isEnemyFlipped = false ∧
    chainRound.playState.flipEnemySprites.reset.rotatingChainX = 152 ∧
    chainRound.playState.flipEnemySprites.reset.enemyX = 145 ∧
    chainRound.playState.flipEnemySprites.reset.rotatingChainX
      - chainRound.playState.flipEnemySprites.reset.enemyX = 7 := by
  decide

/-- Counterexample to C26 as stated.  In `punchAfterPassing` the punch of the
unflipped enemy lands (player health 9 to 8, move Pause, hit-freeze set), and
the knock-back, which goes against the enemy's facing, moves the enemy from
x = 100 to x = 101, onto the player: the distance shrinks from 1 to 0.  In
`punchOffScreen` the test of the punch fails, but the second test, made after
the move was reset, succeeds against the empty box at the origin: the player
loses a health point and the move is Pause, not Idle. -/
theorem knockback_follows_facing :
    (PlayState.stepAttackSprite punchAfterPassing).1 = true ∧
    PlayState.isCollidedWithPlayer punchAfterPassing = some true ∧
    (punchAfterPassing.playState.enemyX, punchAfterPassing.player.x) = (100, 101) ∧
    (PlayState.renderEnemy punchAfterPassing).map
        (fun g => (g.player.health, g.playState.enemyCurrentMove, g.playState.renderEnemyHit))
      = some (8, EnemyAction.Pause, true) ∧
    (PlayState.renderEnemy punchAfterPassing).map (fun g => (g.playState.enemyX, g.player.x))
      = some (101, 101) ∧
    (PlayState.stepAttackSprite punchOffScreen).1 = true ∧
    PlayState.isCollidedWithPlayer punchOffScreen = some false ∧
    (PlayState.renderEnemy punchOffScreen).map
        (fun g => (g.player.health, g.playState.enemyCurrentMove))
      = some (8, EnemyAction.Pause) := by
  refine ⟨?_, ?_, ?_, ?_, ?_, ?_, ?_, ?_⟩ <;> decide

/-- The collision test does not look at the sprites. -/
theorem isCollidedWithPlayer_sprites (g : Game) (s : SpriteId → Sprite) :
    PlayState.isCollidedWithPlayer { g with sprites := s } = PlayState.isCollidedWithPlayer g := by
  rfl

/-- With a move other than Kick or Punch the collision test compares the
player with an empty box at the origin and fails for every player on
screen. -/
theorem isCollidedWithPlayer_no_attack (g : Game)
    (hk : g.playState.enemyCurrentMove ≠ EnemyAction.Kick)
    (hp : g.playState.enemyCurrentMove ≠ EnemyAction.Punch)
    (hy : 0 ≤ g.player.y) :
    PlayState.isCollidedWithPlayer g = some false := by
  have hb : PlayState.enemyAttackBounds g = some { x := 0, y := 0, w := 0, h := 0 } := by
    unfold PlayState.enemyAttackBounds
    cases hm : g.playState.enemyCurrentMove <;> first | rfl | exact absurd hm hk | exact absurd hm hp
  unfold PlayState.isCollidedWithPlayer
  rw [hb]
  dsimp only [Option.some_bind]
  rw [if_pos]
  right
  right
  right
  show (0 : Int) - 1 + 0 < g.player.y
  omega

/-- What `PlayState::resetEnemyMove` sets and what it keeps. -/
theorem resetEnemyMove_fields (g : Game) :
    (PlayState.resetEnemyMove g).playState.enemyCurrentMove = EnemyAction.Idle ∧
    (PlayState.resetEnemyMove g).playState.enemyMoveState = MoveState.FollowPlayer ∧
    (PlayState.resetEnemyMove g).player = g.player ∧
    (PlayState.resetEnemyMove g).playState.enemyX = g.playState.enemyX ∧
    (PlayState.resetEnemyMove g).playState.renderEnemyHit = g.playState.renderEnemyHit ∧
    (PlayState.resetEnemyMove g).level = g.level := by
  exact ⟨rfl, rfl, rfl, rfl, rfl, rfl⟩

/-- What `PlayState::processCollisionWithPlayer` does: one health point, the
Pause move, the hit-freeze flag, and one step of `EnemyWalkSpeed` against the
enemy's facing. -/
theorem processCollisionWithPlayer_fields (g : Game) :
    (PlayState.processCollisionWithPlayer g).player.health = g.player.health - 1 ∧
    (PlayState.processCollisionWithPlayer g).player.x = g.player.x ∧
    (PlayState.processCollisionWithPlayer g).playState.enemyCurrentMove = EnemyAction.Pause ∧
    (PlayState.processCollisionWithPlayer g).playState.renderEnemyHit = true ∧
    (PlayState.processCollisionWithPlayer g).playState.enemyX
      = (if g.playState.isEnemyFlipped then g.playState.enemyX - EnemyWalkSpeed
         else g.playState.enemyX + EnemyWalkSpeed) := by
  have hoff : ∀ (x : Game) (a : Int) (b : Bool),
      (PlayState.offsetEnemyX x a b).player = x.player ∧
      (PlayState.offsetEnemyX x a b).playState.enemyCurrentMove
        = x.playState.enemyCurrentMove ∧
      (PlayState.offsetEnemyX x a b).playState.renderEnemyHit = x.playState.renderEnemyHit ∧
      (PlayState.offsetEnemyX x a b).playState.enemyX
        = (if b then x.playState.enemyX + a else x.playState.enemyX - a) := by
    intro x a b
    unfold PlayState.offsetEnemyX
    dsimp only
    split_ifs <;> exact ⟨rfl, rfl, rfl, rfl⟩
  unfold PlayState.processCollisionWithPlayer
  dsimp only
  by_cases hf : g.playState.isEnemyFlipped = true
  · rw [if_neg (by rw [hf]; simp), if_pos hf]
    refine ⟨?_, ?_, ?_, ?_, ?_⟩
    · rw [(hoff _ _ _).1]
    · rw [(hoff _ _ _).1]
    · rw [(hoff _ _ _).2.1]
    · rw [(hoff _ _ _).2.2.1]
    · rw [(hoff _ _ _).2.2.2]
      rfl
  · rw [if_pos (by simpa using hf), if_neg hf]
    refine ⟨?_, ?_, ?_, ?_, ?_⟩
    · rw [(hoff _ _ _).1]
    · rw [(hoff _ _ _).1]
    · rw [(hoff _ _ _).2.1]
    · rw [(hoff _ _ _).2.2.1]
    · rw [(hoff _ _ _).2.2.2]
      rfl

/-- The facing check keeps the moves, the hit-freeze flag, both positions and
the player. -/
theorem flipChecker_frame (g : Game) :
    (PlayState.flipChecker g).playState.enemyCurrentMove = g.playState.enemyCurrentMove ∧
    (PlayState.flipChecker g).playState.enemyMoveState = g.playState.enemyMoveState ∧
    (PlayState.flipChecker g).playState.renderEnemyHit = g.playState.renderEnemyHit ∧
    (PlayState.flipChecker g).playState.enemyX = g.playState.enemyX ∧
    (PlayState.flipChecker g).player = g.player := by
  have hf : ∀ st : PlayState, st.flipEnemySprites.enemyCurrentMove = st.enemyCurrentMove ∧
      st.flipEnemySprites.enemyMoveState = st.enemyMoveState ∧
      st.flipEnemySprites.renderEnemyHit = st.renderEnemyHit ∧
      st.flipEnemySprites.enemyX = st.enemyX := by
    intro st
    unfold PlayState.flipEnemySprites
    dsimp only
    split_ifs <;> exact ⟨rfl, rfl, rfl, rfl⟩
  unfold PlayState.flipChecker
  dsimp only
  split_ifs <;>
    simp only [(hf _).1, (hf _).2.1, (hf _).2.2.1, (hf _).2.2.2, and_self]

/-- The `Kick` / `Punch` case of `PlayState::renderEnemy` on the frame that
completes the loop of the attack animation. -/
theorem renderEnemy_attack_done (g : Game)
    (hm : g.playState.enemyCurrentMove = EnemyAction.Kick
      ∨ g.playState.enemyCurrentMove = EnemyAction.Punch)
    (hlevel : 1 ≤ g.level ∧ g.level ≤ 5)
    (hidx : g.playState.enemyRandomAttack = 0 ∨ g.playState.enemyRandomAttack = 1)
    (hloop : (PlayState.stepAttackSprite g).1 = true) :
    PlayState.renderEnemy g
      = (PlayState.resolveEnemyAttack (PlayState.stepAttackSprite g).2).map
          PlayState.flipChecker := by
  have h1 : ∃ nm, vecAt enemies (g.level - 1) = some nm := by
    have hc : g.level = 1 ∨ g.level = 2 ∨ g.level = 3 ∨ g.level = 4 ∨ g.level = 5 := by omega
    rcases hc with h | h | h | h | h <;> rw [h] <;> exact ⟨_, rfl⟩
  have h2 : ∃ nm, vecAt enemySprites g.playState.enemyRandomAttack = some nm := by
    rcases hidx with h | h <;> rw [h] <;> exact ⟨_, rfl⟩
  obtain ⟨n1, e1⟩ := h1
  obtain ⟨n2, e2⟩ := h2
  unfold PlayState.renderEnemy PlayState.renderEnemySwitch
  rw [e1, Option.some_bind]
  rcases hm with h | h
  · rw [h]
    dsimp only
    rw [e2, Option.some_bind, if_pos hloop]
  · rw [h]
    dsimp only
    rw [e2, Option.some_bind, if_pos hloop]

/-- C26 (amended): let the enemy's Punch or Kick animation report a completed
loop in `renderEnemy`, at a level 1..5 with the attack index 0 or 1.  If the
collision test fails and the player is on screen (`y ≥ 0`), the enemy's move
becomes Idle and its move state FollowPlayer, and player health and enemy
position are unchanged.  If the test succeeds and player health is positive,
player health decreases by exactly 1, the move becomes Pause, `renderEnemyHit`
is set, and the enemy is moved one step of `EnemyWalkSpeed` against its
facing (`enemyX + 1` when not flipped, `enemyX - 1` when flipped); whenever
the enemy faces the player (player not to the right of an unflipped enemy,
not to the left of a flipped one) this is away from the player: the distance
`|enemyX - playerX|` grows by 1. -/
theorem enemy_attack_resolution (g : Game)
    (hm : g.playState.enemyCurrentMove = EnemyAction.Kick
      ∨ g.playState.enemyCurrentMove = EnemyAction.Punch)
    (hlevel : 1 ≤ g.level ∧ g.level ≤ 5)
    (hidx : g.playState.enemyRandomAttack = 0 ∨ g.playState.enemyRandomAttack = 1)
    (hloop : (PlayState.stepAttackSprite g).1 = true) :
    (PlayState.isCollidedWithPlayer g = some false → 0 ≤ g.player.y →
      ∃ g1, PlayState.renderEnemy g = some g1 ∧
        g1.playState.enemyCurrentMove = EnemyAction.Idle ∧
        g1.playState.enemyMoveState = MoveState.FollowPlayer ∧
        g1.player.health = g.player.health ∧
        g1.playState.enemyX = g.playState.enemyX) ∧
    (PlayState.isCollidedWithPlayer g = some true → g.player.health > 0 →
      ∃ g1, PlayState.renderEnemy g = some g1 ∧
        g1.player.health = g.player.health - 1 ∧
        g1.playState.enemyCurrentMove = EnemyAction.Pause ∧
        g1.playState.renderEnemyHit = true ∧
        g1.player.x = g.player.x ∧
        g1.playState.enemyX
          = (if g.playState.isEnemyFlipped then g.playState.enemyX - EnemyWalkSpeed
             else g.playState.enemyX + EnemyWalkSpeed) ∧
        (((g.playState.isEnemyFlipped = false ∧ g.player.x ≤ g.playState.enemyX)
            ∨ (g.playState.isEnemyFlipped = true ∧ g.playState.enemyX ≤ g.player.x)) →
          (g1.playState.enemyX - g1.player.x).natAbs
            = (g.playState.enemyX - g.player.x).natAbs + 1)) := by
  rw [renderEnemy_attack_done g hm hlevel hidx hloop]
  have hs : PlayState.isCollidedWithPlayer (PlayState.stepAttackSprite g).2
      = PlayState.isCollidedWithPlayer g := rfl
  obtain ⟨c1, c2, c3, c4, c5⟩ := flipChecker_frame
    (PlayState.resetEnemyMove (PlayState.stepAttackSprite g).2)
  obtain ⟨d1, d2, d3, d4, d5⟩ := flipChecker_frame
    (PlayState.processCollisionWithPlayer (PlayState.stepAttackSprite g).2)
  obtain ⟨p1, p2, p3, p4, p5⟩ :=
    processCollisionWithPlayer_fields (PlayState.stepAttackSprite g).2
  constructor
  · intro hmiss hy
    have h2 : PlayState.isCollidedWithPlayer
        (PlayState.resetEnemyMove (PlayState.stepAttackSprite g).2) = some false :=
      isCollidedWithPlayer_no_attack _
        (show EnemyAction.Idle ≠ EnemyAction.Kick from fun h => EnemyAction.noConfusion h)
        (show EnemyAction.Idle ≠ EnemyAction.Punch from fun h => EnemyAction.noConfusion h) hy
    refine ⟨PlayState.flipChecker (PlayState.resetEnemyMove (PlayState.stepAttackSprite g).2),
      ?_, c1, c2, ?_, c4⟩
    · unfold PlayState.resolveEnemyAttack
      rw [hs, hmiss, Option.some_bind]
      dsimp only
      rw [if_pos (by rfl), h2, Option.map_some', Option.map_some', if_neg]
      exact fun hc => Bool.false_ne_true hc.1
    · rw [c5]
      rfl
  · intro hhit hh
    refine ⟨PlayState.flipChecker
        (PlayState.processCollisionWithPlayer (PlayState.stepAttackSprite g).2),
      ?_, ?_, d1.trans p3, d3.trans p4, ?_, d4.trans p5, ?_⟩
    · unfold PlayState.resolveEnemyAttack
      rw [hs, hhit, Option.some_bind]
      dsimp only
      rw [if_neg (by simp), hs, hhit, Option.map_some', Option.map_some', if_pos]
      exact ⟨rfl, hh⟩
    · rw [d5]
      exact p1
    · rw [d5]
      exact p2
    · intro hface
      rw [d4, d5, p5, p2]
      have e1 : (PlayState.stepAttackSprite g).2.playState.enemyX = g.playState.enemyX := rfl
      have e2 : (PlayState.stepAttackSprite g).2.playState.isEnemyFlipped
          = g.playState.isEnemyFlipped := rfl
      have e3 : (PlayState.stepAttackSprite g).2.player.x = g.player.x := rfl
      rw [e1, e2, e3]
      simp only [EnemyWalkSpeed]
      rcases hface with ⟨hf, hle⟩ | ⟨hf, hle⟩
      · rw [hf]
        simp only [Bool.false_eq_true, if_false]
        omega
      · rw [hf]
        simp only [if_true]
        omega

/-- Witness of C26: the punch of `punchLands` takes one health point and
knocks the enemy from x = 110 back to x = 111, away from the player at
x = 100; the punch of `punchMisses` ends in Idle and FollowPlayer. -/
theorem enemy_attack_resolution_witness :
    (∃ g1, PlayState.renderEnemy punchLands = some g1 ∧
      g1.player.health = DEFAULT_HEALTH - 1 ∧
      g1.playState.enemyCurrentMove = EnemyAction.Pause ∧
      g1.playState.enemyX = 111 ∧
      (g1.playState.enemyX - g1.player.x).natAbs = 10 + 1) ∧
    (∃ g1, PlayState.renderEnemy punchMisses = some g1 ∧
      g1.playState.enemyCurrentMove = EnemyAction.Idle ∧
      g1.playState.enemyMoveState = MoveState.FollowPlayer ∧
      g1.player.health = DEFAULT_HEALTH) := by
  obtain ⟨_, hhit⟩ := enemy_attack_resolution punchLands (Or.inr (by decide)) (by decide)
    (Or.inr (by decide)) (by decide)
  obtain ⟨hmiss, _⟩ := enemy_attack_resolution punchMisses (Or.inr (by decide)) (by decide)
    (Or.inr (by decide)) (by decide)
  obtain ⟨g1, a1, a2, a3, _, _, a6, a7⟩ := hhit (by decide) (by decide)
  obtain ⟨g2, b1, b2, b3, b4, _⟩ := hmiss (by decide) (by decide)
  refine ⟨⟨g1, a1, a2, a3, ?_, ?_⟩, ⟨g2, b1, b2, b3, b4⟩⟩
  · rw [a6]
    decide
  · rw [a7 (Or.inl ⟨by decide, by decide⟩)]
    decide

/-- Counterexample to C27 as stated: in `roundInProgress` the retreat
distance counter is 7 and the jump sub-tick counter is 1, and both keep these
values through `PlayState::reset` and `PlayState::cleanUp`. -/
theorem reset_keeps_run_and_jump_counters :
    roundInProgress.playState.runCounter = 7 ∧
    roundInProgress.player.jumpFrameCounter_ = 1 ∧
    roundInProgress.playState.reset.runCounter = 7 ∧
    (PlayState.cleanUp roundInProgress).playState.runCounter = 7 ∧
    (PlayState.cleanUp roundInProgress).player.jumpFrameCounter_ = 1 := by
  decide

/-- C27 (amended): after `PlayState::reset` the counters `haltTime`,
`haltTimeHit` and `retreatCounter` are 0, both sequencers are at Start, the
move state is FollowPlayer and `pauseMovement` and `renderEnemyHit` are
false; after `PlayState::cleanUp` the same holds, the timer counters of the
state are 0, and the player's stun counters (`pauseTimer`, `stunJumpTimer_`)
and cooldown counter (`activateTime`) are 0.  The retreat distance counter
`runCounter` and the player's jump sub-tick counter `jumpFrameCounter_` are
not touched by either. -/
theorem cleanUp_clears_counters (g : Game) :
    (g.playState.reset.haltTime = 0 ∧ g.playState.reset.haltTimeHit = 0 ∧
      g.playState.reset.retreatCounter = 0 ∧
      g.playState.reset.endState = EndSequence.Start ∧
      g.playState.reset.enemyEndState = EnemyEndSequence.Start ∧
      g.playState.reset.enemyMoveState = MoveState.FollowPlayer ∧
      g.playState.reset.pauseMovement = false ∧ g.playState.reset.renderEnemyHit = false ∧
      g.playState.reset.runCounter = g.playState.runCounter) ∧
    ((PlayState.cleanUp g).playState.haltTime = 0 ∧
      (PlayState.cleanUp g).playState.haltTimeHit = 0 ∧
      (PlayState.cleanUp g).playState.retreatCounter = 0 ∧
      (PlayState.cleanUp g).playState.endState = EndSequence.Start ∧
      (PlayState.cleanUp g).playState.enemyEndState = EnemyEndSequence.Start ∧
      (PlayState.cleanUp g).playState.enemyMoveState = MoveState.FollowPlayer ∧
      (PlayState.cleanUp g).playState.pauseMovement = false ∧
      (PlayState.cleanUp g).playState.renderEnemyHit = false ∧
      (PlayState.cleanUp g).playState.frameCounter_ = 0 ∧
      (PlayState.cleanUp g).playState.elapsedSeconds_ = 0 ∧
      (PlayState.cleanUp g).playState.runCounter = g.playState.runCounter) ∧
    ((PlayState.cleanUp g).player.pauseTimer = 0 ∧
      (PlayState.cleanUp g).player.stunJumpTimer_ = 0 ∧
      (PlayState.cleanUp g).player.activateTime = 0 ∧
      (PlayState.cleanUp g).player.jumpFrameCounter_ = g.player.jumpFrameCounter_) := by
  have hr : g.playState.reset.haltTime = 0 ∧ g.playState.reset.haltTimeHit = 0 ∧
      g.playState.reset.retreatCounter = 0 ∧
      g.playState.reset.endState = EndSequence.Start ∧
      g.playState.reset.enemyEndState = EnemyEndSequence.Start ∧
      g.playState.reset.enemyMoveState = MoveState.FollowPlayer ∧
      g.playState.reset.pauseMovement = false ∧ g.playState.reset.renderEnemyHit = false ∧
      g.playState.reset.runCounter = g.playState.runCounter := by
    simp only [PlayState.reset, PlayState.flipEnemySprites]
    refine ⟨?_, ?_, ?_, ?_, ?_, ?_, ?_, ?_, ?_⟩ <;> split_ifs <;> rfl
  have hp : g.player.clear.pauseTimer = 0 ∧ g.player.clear.stunJumpTimer_ = 0 ∧
      g.player.clear.activateTime = 0 ∧
      g.player.clear.jumpFrameCounter_ = g.player.jumpFrameCounter_ := by
    simp only [Player.clear, Player.setMovement, Player.invertSprites]
    refine ⟨?_, ?_, ?_, ?_⟩ <;> split_ifs <;> rfl
  obtain ⟨r1, r2, r3, r4, r5, r6, r7, r8, r9⟩ := hr
  exact ⟨⟨r1, r2, r3, r4, r5, r6, r7, r8, r9⟩,
    ⟨r1, r2, r3, r4, r5, r6, r7, r8, rfl, rfl, r9⟩, hp⟩

/-- The horizontal drift leaves everything but `x` and the frame counter
alone. -/
theorem jumpDrifted_rest (g : Game) :
    (Player.jumpDrifted g).health = g.player.health ∧
    (Player.jumpDrifted g).controlsLocked = g.player.controlsLocked ∧
    (Player.jumpDrifted g).isFlyingKick_ = g.player.isFlyingKick_ ∧
    (Player.jumpDrifted g).canFlyKick_ = g.player.canFlyKick_ := by
  unfold Player.jumpDrifted
  dsimp only
  split_ifs <;> exact ⟨rfl, rfl, rfl, rfl⟩

/-- The `Player::processJump` call of a jump in progress that finds the frame
counter short of its threshold only counts the frame. -/
theorem processJump_counts (g : Game)
    (hg : (g.player.currAction_ = PlayerAction.JumpUp
      ∨ g.player.currAction_ = PlayerAction.JumpDown)
      ∧ g.player.health > 0 ∧ (!g.playState.renderEnemyHit) = true)
    (hne : g.player.jumpAcceleration_ ≠ 0)
    (hc : ¬ g.player.jumpFrameCounter_ + 1 ≥ Int.tdiv TARGET_FPS g.player.jumpAcceleration_) :
    Player.processJump g
      = some { g with player :=
          { g.player with jumpFrameCounter_ := g.player.jumpFrameCounter_ + 1 } } := by
  unfold Player.processJump
  dsimp only
  rw [if_pos hg, if_neg hne, if_neg hc]

/-- Runs of `processJump` calls compose. -/
theorem jumpSteps_add (a b : Nat) (g : Game) :
    Player.jumpSteps (a + b) g = (Player.jumpSteps a g).bind (Player.jumpSteps b) := by
  induction a generalizing g with
  | zero =>
    rw [Nat.zero_add]
    rfl
  | succ a ih =>
    rw [Nat.succ_add]
    show (Player.processJump g).bind (Player.jumpSteps (a + b))
      = ((Player.processJump g).bind (Player.jumpSteps a)).bind (Player.jumpSteps b)
    cases Player.processJump g with
    | none => rfl
    | some g1 => exact ih g1

/-- A jump in progress reaches, after finitely many counting calls, a call
that finds the frame counter due; nothing but the counter has changed by
then. -/
theorem jump_reaches_move (w : Nat) : ∀ g : Game,
    ((g.player.currAction_ = PlayerAction.JumpUp ∨ g.player.currAction_ = PlayerAction.JumpDown)
      ∧ g.player.health > 0 ∧ (!g.playState.renderEnemyHit) = true) →
    g.player.jumpAcceleration_ ≠ 0 →
    Int.tdiv TARGET_FPS g.player.jumpAcceleration_ - (g.player.jumpFrameCounter_ + 1) ≤ (w : Int) →
    ∃ (j : Nat) (c : Int),
      Player.jumpSteps j g
        = some { g with player := { g.player with jumpFrameCounter_ := c } } ∧
      c + 1 ≥ Int.tdiv TARGET_FPS g.player.jumpAcceleration_ := by
  induction w with
  | zero =>
    intro g _ _ hw
    exact ⟨0, g.player.jumpFrameCounter_, rfl, by push_cast at hw; omega⟩
  | succ w ih =>
    intro g hg hne hw
    by_cases hdue : g.player.jumpFrameCounter_ + 1
        ≥ Int.tdiv TARGET_FPS g.player.jumpAcceleration_
    · exact ⟨0, g.player.jumpFrameCounter_, rfl, hdue⟩
    · obtain ⟨j, c, hj, hc⟩ := ih
        { g with player := { g.player with jumpFrameCounter_ := g.player.jumpFrameCounter_ + 1 } }
        hg hne (by
          show Int.tdiv TARGET_FPS g.player.jumpAcceleration_
            - (g.player.jumpFrameCounter_ + 1 + 1) ≤ (w : Int)
          push_cast at hw
          omega)
      refine ⟨j + 1, c, ?_, hc⟩
      show (Player.processJump g).bind (Player.jumpSteps j) = _
      rw [processJump_counts g hg hne hdue]
      exact hj

/-- The move step of a jump in progress: either the jump is still in progress
with one move less to go, or the player has landed. -/
theorem jump_move_step (g : Game) (h : InJump g)
    (hdue : g.player.jumpFrameCounter_ + 1 ≥ Int.tdiv TARGET_FPS g.player.jumpAcceleration_) :
    ∃ g1, Player.processJump g = some g1 ∧
      ((InJump g1 ∧ Player.movesLeft g1.player = Player.movesLeft g.player - 1)
        ∨ Landed g1.player) := by
  obtain ⟨harc, hact, hh, hr⟩ := h
  obtain ⟨g1, hg1, harc1, _, _⟩ := processJump_arc g harc
  refine ⟨g1, hg1, ?_⟩
  obtain ⟨a1, a2, a3⟩ := harc
  simp only [kPlayerJumpHeight, kPlayerDefaultY, kPlayerJumpSpeed,
    kPlayerJumpAccelFrameRate] at a1 a2 a3
  have hne : g.player.jumpAcceleration_ ≠ 0 := by omega
  obtain ⟨dy, da, dacc⟩ := jumpDrifted_frame g
  obtain ⟨dh, dl, dk, dc⟩ := jumpDrifted_rest g
  have hmove := processJump_move g ⟨hact, hh, by rw [hr]; rfl⟩ hne hdue
  rw [hg1, da, dy, dacc] at hmove
  by_cases hup : g.player.currAction_ = PlayerAction.JumpUp
  · rw [if_pos hup] at hmove
    by_cases hy : g.player.y > kPlayerJumpHeight
    · rw [if_pos hy] at hmove
      have e := Option.some.inj hmove
      left
      refine ⟨⟨harc1, ?_, ?_, ?_⟩, ?_⟩
      · rw [e]
        exact Or.inl (da.trans hup)
      · rw [e]
        show (Player.jumpDrifted g).health > 0
        rw [dh]
        exact hh
      · rw [e]
        exact hr
      · unfold Player.movesLeft
        rw [if_pos hup, e]
        show (if (Player.jumpDrifted g).currAction_ = PlayerAction.JumpUp
          then (g.player.jumpAcceleration_ - 1 - 30) + 25
          else (kPlayerJumpAccelFrameRate - (g.player.jumpAcceleration_ - 1)) + 1) = _
        rw [if_pos (da.trans hup)]
        omega
    · rw [if_neg hy] at hmove
      have e := Option.some.inj hmove
      simp only [kPlayerJumpHeight] at hy
      obtain ⟨_, _, _, _, _, _, s7, s8⟩ := setMovement_frame (Player.jumpDrifted g) 11
      have s0 : ((Player.jumpDrifted g).setMovement 11).currAction_ = 11 :=
        setMovement_currAction _ 11 (by decide)
      left
      refine ⟨⟨harc1, ?_, ?_, ?_⟩, ?_⟩
      · rw [e]
        exact Or.inr s0
      · rw [e]
        show ((Player.jumpDrifted g).setMovement 11).health > 0
        rw [s8, dh]
        exact hh
      · rw [e]
        exact hr
      · unfold Player.movesLeft
        rw [if_pos hup, e]
        show (if ((Player.jumpDrifted g).setMovement 11).currAction_ = PlayerAction.JumpUp
          then (((Player.jumpDrifted g).setMovement 11).jumpAcceleration_ - 30) + 25
          else (kPlayerJumpAccelFrameRate
            - ((Player.jumpDrifted g).setMovement 11).jumpAcceleration_) + 1) = _
        rw [s0, if_neg (by decide), s7, dacc]
        simp only [kPlayerJumpAccelFrameRate]
        omega
  · rw [if_neg hup] at hmove
    have hdn : g.player.currAction_ = PlayerAction.JumpDown := by
      rcases hact with h | h
      · exact absurd h hup
      · exact h
    by_cases hy : g.player.y < kPlayerDefaultY
    · rw [if_pos hy] at hmove
      simp only [kPlayerDefaultY] at hy
      have hlt : g.player.jumpAcceleration_ < kPlayerJumpAccelFrameRate := by
        simp only [kPlayerJumpAccelFrameRate]
        omega
      rw [if_pos hlt] at hmove
      have e := Option.some.inj hmove
      left
      refine ⟨⟨harc1, ?_, ?_, ?_⟩, ?_⟩
      · rw [e]
        exact Or.inr (da.trans hdn)
      · rw [e]
        show (Player.jumpDrifted g).health > 0
        rw [dh]
        exact hh
      · rw [e]
        exact hr
      · unfold Player.movesLeft
        rw [if_neg hup, e]
        show (if (Player.jumpDrifted g).currAction_ = PlayerAction.JumpUp
          then (g.player.jumpAcceleration_ + 1 - 30) + 25
          else (kPlayerJumpAccelFrameRate - (g.player.jumpAcceleration_ + 1)) + 1) = _
        rw [if_neg (by rw [da]; exact hup)]
        omega
    · rw [if_neg hy] at hmove
      have e := Option.some.inj hmove
      simp only [kPlayerDefaultY] at hy
      obtain ⟨_, s2, _, _, _, _, s7, _⟩ :=
        setMovement_frame ({ Player.jumpDrifted g with y := kPlayerDefaultY } : Player) 0
      have s0 : (({ Player.jumpDrifted g with y := kPlayerDefaultY } : Player).setMovement
          0).currAction_ = PlayerAction.Default :=
        setMovement_idle _ (by
          show (Player.jumpDrifted g).currAction_ ≠ PlayerAction.Defeated
          rw [da, hdn]
          decide)
      right
      rw [e]
      refine ⟨s2, s0, rfl, rfl, rfl, ?_⟩
      show (({ Player.jumpDrifted g with y := kPlayerDefaultY } : Player).setMovement
        0).jumpAcceleration_ = kPlayerJumpAccelFrameRate
      rw [s7]
      show (Player.jumpDrifted g).jumpAcceleration_ = kPlayerJumpAccelFrameRate
      rw [dacc]
      simp only [kPlayerJumpAccelFrameRate]
      omega

/-- A jump in progress with at most `m` move steps to go lands after finitely
many `processJump` calls. -/
theorem jump_lands_within (m : Nat) : ∀ g : Game, InJump g →
    Player.movesLeft g.player ≤ (m : Int) →
    ∃ (n : Nat) (gn : Game), Player.jumpSteps n g = some gn ∧ Landed gn.player := by
  induction m with
  | zero =>
    intro g h hm
    obtain ⟨⟨a1, a2, a3⟩, _, _, _⟩ := h
    simp only [kPlayerJumpHeight, kPlayerDefaultY, kPlayerJumpSpeed,
      kPlayerJumpAccelFrameRate] at a1 a2 a3
    unfold Player.movesLeft at hm
    simp only [kPlayerJumpAccelFrameRate] at hm
    split_ifs at hm <;> push_cast at hm <;> omega
  | succ m ih =>
    intro g h hm
    have h' := h
    obtain ⟨⟨a1, a2, a3⟩, hact, hh, hr⟩ := h'
    simp only [kPlayerJumpHeight, kPlayerDefaultY, kPlayerJumpSpeed,
      kPlayerJumpAccelFrameRate] at a1 a2 a3
    have hne : g.player.jumpAcceleration_ ≠ 0 := by omega
    obtain ⟨j, c, hj, hdue⟩ := jump_reaches_move
      (Int.tdiv TARGET_FPS g.player.jumpAcceleration_
        - (g.player.jumpFrameCounter_ + 1)).toNat g ⟨hact, hh, by rw [hr]; rfl⟩ hne
      (Int.self_le_toNat _)
    obtain ⟨g1, hg1, hcase⟩ := jump_move_step
      { g with player := { g.player with jumpFrameCounter_ := c } } h hdue
    rcases hcase with ⟨hin, hml⟩ | hland
    · obtain ⟨n, gn, hn, hl⟩ := ih g1 hin (by
        rw [hml]
        show Player.movesLeft g.player - 1 ≤ (m : Int)
        push_cast at hm
        omega)
      refine ⟨j + (n + 1), gn, ?_, hl⟩
      rw [jumpSteps_add, hj]
      show (Player.processJump _).bind (Player.jumpSteps n) = _
      rw [hg1]
      exact hn
    · refine ⟨j + 1, g1, ?_, hland⟩
      rw [jumpSteps_add, hj]
      show (Player.processJump _).bind (Player.jumpSteps 0) = _
      rw [hg1]
      rfl

/-- On the arc of a jump a `processJump` call turns JumpUp into JumpDown only
at the apex `y = kPlayerJumpHeight`. -/
theorem processJump_switch_at_apex (g g1 : Game) (harc : JumpArc g.player)
    (hstep : Player.processJump g = some g1)
    (hup : g.player.currAction_ = PlayerAction.JumpUp)
    (hdn : g1.player.currAction_ = PlayerAction.JumpDown) :
    g.player.y = kPlayerJumpHeight := by
  obtain ⟨a1, a2, a3⟩ := harc
  simp only [kPlayerJumpHeight, kPlayerDefaultY, kPlayerJumpSpeed,
    kPlayerJumpAccelFrameRate] at a1 a2 a3
  have hne : g.player.jumpAcceleration_ ≠ 0 := by omega
  obtain ⟨dy, da, _⟩ := jumpDrifted_frame g
  by_cases hc : (g.player.currAction_ = PlayerAction.JumpUp
        ∨ g.player.currAction_ = PlayerAction.JumpDown)
        ∧ g.player.health > 0 ∧ (!g.playState.renderEnemyHit) = true
        ∧ g.player.jumpFrameCounter_ + 1 ≥ Int.tdiv TARGET_FPS g.player.jumpAcceleration_
  · have hmove := processJump_move g ⟨hc.1, hc.2.1, hc.2.2.1⟩ hne hc.2.2.2
    rw [hstep, da, dy, if_pos hup] at hmove
    by_cases hy : g.player.y > kPlayerJumpHeight
    · rw [if_pos hy] at hmove
      have e := Option.some.inj hmove
      rw [e] at hdn
      have h2 : (Player.jumpDrifted g).currAction_ = PlayerAction.JumpDown := hdn
      rw [da, hup] at h2
      exact absurd h2 (by decide)
    · simp only [kPlayerJumpHeight] at hy ⊢
      omega
  · obtain ⟨g2, e1, _, _, e4⟩ := processJump_wait g hne hc
    rw [hstep] at e1
    rw [Option.some.inj e1, e4, hup] at hdn
    exact absurd hdn (by decide)

/-- C28: a jump always lands.  Let the player be on the ground
(`y = kPlayerDefaultY`) at the start of a jump as `handleInput` begins it
(action JumpUp, `jumpAcceleration_ = kPlayerJumpAccelFrameRate`), with health
left and no hit-freeze.  Then some number `n` of `Player::processJump` calls
returns a state with `y = kPlayerDefaultY`, action Idle, `controlsLocked`
false, the flying-kick flag false, `canFlyKick_` true and the acceleration
back at its start value.  Every run of `k` calls returns a state whose `y`
lies between `kPlayerJumpHeight` and `kPlayerDefaultY`, and the call after it
turns JumpUp into JumpDown only if that `y` is `kPlayerJumpHeight`. -/
theorem jump_always_lands (g : Game)
    (hact : g.player.currAction_ = PlayerAction.JumpUp)
    (hy : g.player.y = kPlayerDefaultY)
    (hacc : g.player.jumpAcceleration_ = kPlayerJumpAccelFrameRate)
    (hh : g.player.health > 0) (hr : g.playState.renderEnemyHit = false) :
    (∃ (n : Nat) (gn : Game), Player.jumpSteps n g = some gn ∧
      gn.player.y = kPlayerDefaultY ∧ gn.player.currAction_ = PlayerAction.Default ∧
      gn.player.controlsLocked = false ∧ gn.player.isFlyingKick_ = false ∧
      gn.player.canFlyKick_ = true ∧
      gn.player.jumpAcceleration_ = kPlayerJumpAccelFrameRate) ∧
    (∀ k : Nat, ∃ gk g1 : Game, Player.jumpSteps k g = some gk ∧
      Player.processJump gk = some g1 ∧
      kPlayerJumpHeight ≤ gk.player.y ∧ gk.player.y ≤ kPlayerDefaultY ∧
      (gk.player.currAction_ = PlayerAction.JumpUp →
        g1.player.currAction_ = PlayerAction.JumpDown →
        gk.player.y = kPlayerJumpHeight)) := by
  have harc : JumpArc g.player := by
    unfold JumpArc
    rw [hy, hacc]
    decide
  constructor
  · obtain ⟨n, gn, hn, hl⟩ := jump_lands_within 48 g ⟨harc, Or.inl hact, hh, hr⟩ (by
      unfold Player.movesLeft
      rw [if_pos hact, hacc]
      decide)
    exact ⟨n, gn, hn, hl⟩
  · intro k
    obtain ⟨gk, hk, hak⟩ := jumpSteps_arc k g harc
    obtain ⟨g1, h1, _, _, _⟩ := processJump_arc gk hak
    exact ⟨gk, g1, hk, h1, hak.1, hak.2.1, processJump_switch_at_apex gk g1 hak h1⟩

/-- Witness of C28: the jump of `jumpStart` lands with the 50th call, and
turns to JumpDown with the 25th call, at `y = kPlayerJumpHeight`. -/
theorem jump_always_lands_witness :
    (∃ (n : Nat) (gn : Game), Player.jumpSteps n jumpStart = some gn ∧
      gn.player.y = kPlayerDefaultY ∧ gn.player.currAction_ = PlayerAction.Default ∧
      gn.player.controlsLocked = false) ∧
    (Player.jumpSteps 49 jumpStart).map (fun g => (g.player.currAction_, g.player.y))
      = some (PlayerAction.JumpDown, kPlayerDefaultY) ∧
    (Player.jumpSteps 50 jumpStart).map
        (fun g => (g.player.currAction_, g.player.y, g.player.controlsLocked,
          g.player.jumpAcceleration_))
      = some (PlayerAction.Default, kPlayerDefaultY, false, kPlayerJumpAccelFrameRate) ∧
    (Player.jumpSteps 24 jumpStart).map (fun g => (g.player.currAction_, g.player.y))
      = some (PlayerAction.JumpUp, kPlayerJumpHeight) ∧
    (Player.jumpSteps 25 jumpStart).map (fun g => (g.player.currAction_, g.player.y))
      = some (PlayerAction.JumpDown, kPlayerJumpHeight) := by
  obtain ⟨⟨n, gn, h1, h2, h3, h4, _⟩, _⟩ :=
    jump_always_lands jumpStart (by decide) (by decide) (by decide) (by decide) (by decide)
  exact ⟨⟨n, gn, h1, h2, h3, h4⟩, by decide, by decide, by decide, by decide⟩

/-- A step of the victory sequencer does not read the halt counter. -/
theorem processEndState_haltTime (g : Game) (t : Int) :
    sequencerView (PlayState.processEndState
        { g with playState := { g.playState with haltTime := t } })
      = sequencerView (PlayState.processEndState g) ∧
    (PlayState.processEndState
        { g with playState := { g.playState with haltTime := t } }).playState.enemyHealth
      = (PlayState.processEndState g).playState.enemyHealth ∧
    (PlayState.processEndState
        { g with playState := { g.playState with haltTime := t } }).playState.pauseMovement
      = (PlayState.processEndState g).playState.pauseMovement := by
  have hc : g.playState.endState = 1 ∨ g.playState.endState = 2 ∨ g.playState.endState = 3 ∨
      g.playState.endState = 4 ∨ g.playState.endState = 5 ∨ g.playState.endState = 6 ∨
      g.playState.endState = 7 ∨ g.playState.endState = 8 ∨ g.playState.endState = 9 ∨
      g.playState.endState = 10 ∨ g.playState.endState = 11 ∨
      (g.playState.endState < 1 ∨ 11 < g.playState.endState) := by omega
  rcases hc with h1 | h1 | h1 | h1 | h1 | h1 | h1 | h1 | h1 | h1 | h1 | h1
  · rw [processEndState_playWinSound g h1,
      processEndState_playWinSound { g with playState := { g.playState with haltTime := t } } h1]
    exact ⟨rfl, rfl, rfl⟩
  · simp [PlayState.processEndState, PlayState.prepareEndOfRoundChoreography, sequencerView, h1]
  · simp [PlayState.processEndState, PlayState.prepareEndOfRoundChoreography, sequencerView, h1]
  · simp [PlayState.processEndState, PlayState.prepareEndOfRoundChoreography, sequencerView, h1]
  · simp [PlayState.processEndState, PlayState.prepareEndOfRoundChoreography, sequencerView, h1]
  · simp [PlayState.processEndState, PlayState.prepareEndOfRoundChoreography, sequencerView, h1]
  · simp [PlayState.processEndState, PlayState.prepareEndOfRoundChoreography, sequencerView, h1]
  · simp [PlayState.processEndState, PlayState.prepareEndOfRoundChoreography, sequencerView, h1]
  · rw [processEndState_countLife g h1,
      processEndState_countLife { g with playState := { g.playState with haltTime := t } } h1]
    dsimp only
    split_ifs <;> exact ⟨rfl, rfl, rfl⟩
  · rw [processEndState_transition g h1,
      processEndState_transition { g with playState := { g.playState with haltTime := t } } h1]
    dsimp only
    split_ifs
    · exact ⟨rfl, rfl, rfl⟩
    · simp only [PlayState.cleanUp, PlayState.reset, PlayState.flipEnemySprites,
        PlayState.baseCleanUp, sequencerView]
      exact ⟨trivial, trivial, trivial⟩
  · rw [processEndState_gameOver g h1,
      processEndState_gameOver { g with playState := { g.playState with haltTime := t } } h1]
    exact ⟨rfl, rfl, rfl⟩
  · rw [processEndState_start g h1,
      processEndState_start { g with playState := { g.playState with haltTime := t } } h1]
    exact ⟨rfl, rfl, rfl⟩

/-- A step of the victory sequencer at one of the steps Start to CountLife:
the enemy stays out of health, no freeze begins, the threshold becomes
`EndDelayLow` exactly at CountLife, and the sequencer moves one step forward,
except that CountLife holds while the player has health left. -/
theorem processEndState_victory (g : Game)
    (hlo : EndSequence.Start ≤ g.playState.endState)
    (hhi : g.playState.endState ≤ EndSequence.CountLife) :
    (PlayState.processEndState g).playState.enemyHealth = g.playState.enemyHealth ∧
    (PlayState.processEndState g).playState.pauseMovement = g.playState.pauseMovement ∧
    (PlayState.processEndState g).playState.maxHaltTime
      = (if g.playState.endState = EndSequence.CountLife then EndDelayLow
         else g.playState.maxHaltTime) ∧
    (g.playState.endState < EndSequence.CountLife →
      (PlayState.processEndState g).playState.endState = g.playState.endState + 1) ∧
    (g.playState.endState = EndSequence.CountLife →
      (PlayState.processEndState g).playState.endState
        = (if g.player.health > 0 then EndSequence.CountLife else EndSequence.Transition)) := by
  simp only [EndSequence.Start, EndSequence.CountLife] at hlo hhi
  have hc : g.playState.endState = 0 ∨ g.playState.endState = 1 ∨ g.playState.endState = 2 ∨
      g.playState.endState = 3 ∨ g.playState.endState = 4 ∨ g.playState.endState = 5 ∨
      g.playState.endState = 6 ∨ g.playState.endState = 7 ∨ g.playState.endState = 8 ∨
      g.playState.endState = 9 := by omega
  rcases hc with h1 | h1 | h1 | h1 | h1 | h1 | h1 | h1 | h1 | h1
  · simp [PlayState.processEndState, h1]
  · simp [PlayState.processEndState, h1]
  · simp [PlayState.processEndState, PlayState.prepareEndOfRoundChoreography, h1]
  · simp [PlayState.processEndState, PlayState.prepareEndOfRoundChoreography, h1]
  · simp [PlayState.processEndState, PlayState.prepareEndOfRoundChoreography, h1]
  · simp [PlayState.processEndState, PlayState.prepareEndOfRoundChoreography, h1]
  · simp [PlayState.processEndState, PlayState.prepareEndOfRoundChoreography, h1]
  · simp [PlayState.processEndState, PlayState.prepareEndOfRoundChoreography, h1]
  · simp [PlayState.processEndState, PlayState.prepareEndOfRoundChoreography, h1]
  · rw [processEndState_countLife g h1, h1]
    by_cases hh : g.player.health > 0
    · rw [if_pos hh, if_pos hh]
      exact ⟨rfl, rfl, rfl, fun h => absurd h (by decide), fun _ => h1⟩
    · rw [if_neg hh, if_neg hh]
      exact ⟨rfl, rfl, rfl, fun h => absurd h (by decide), fun _ => rfl⟩

/-- The sequencer step at Transition restores the long threshold and leaves a
state the defeat sequencer does not act on. -/
theorem processEndState_transition_after (g : Game)
    (h : g.playState.endState = EndSequence.Transition) (h0 : g.playState.enemyHealth = 0) :
    (PlayState.processEndState g).playState.maxHaltTime = EndDelayHigh ∧
    ¬ ((PlayState.processEndState g).playState.enemyHealth ≠ 0
        ∧ (PlayState.processEndState g).player.health = 0) := by
  rw [processEndState_transition g h]
  by_cases h5 : g.level = 5
  · rw [if_pos h5]
    exact ⟨rfl, fun hc => hc.1 h0⟩
  · rw [if_neg h5]
    constructor
    · exact (reset_fields _).2.2.2.2.2.2.1
    · intro hc
      have hh : g.player.clear.health = DEFAULT_HEALTH := (clear_fields g.player).2.2.1
      have h2 : g.player.clear.health = 0 := hc.2
      rw [hh] at h2
      exact absurd h2 (by decide)

/-- A tick of the victory sequence on which the halt counter does not reach
the threshold: `processEndState` is not called, the counter advances. -/
theorem onTimeTick_victory_wait (g : Game) (k : Keys)
    (hp : g.playState.pauseMovement = false) (h0 : g.playState.enemyHealth = 0)
    (hne : g.playState.haltTime + 1 ≠ g.playState.maxHaltTime) :
    sequencerView (PlayState.onTimeTick g k) = sequencerView g ∧
    (PlayState.onTimeTick g k).playState.haltTime = g.playState.haltTime + 1 ∧
    (PlayState.onTimeTick g k).playState.enemyHealth = 0 ∧
    (PlayState.onTimeTick g k).playState.pauseMovement = false := by
  unfold PlayState.onTimeTick
  rw [tickHitFreeze_skip g hp, tickEndState_wait g h0 hne, tickEnemyEndState_skip]
  · obtain ⟨f1, f2, f3, _, f5, f6, _, f8, f9, f10, f11⟩ := tickEnemyHit_frame
      { g with playState := { g.playState with haltTime := g.playState.haltTime + 1 } } k
    refine ⟨?_, f10, f8.trans h0, f9.trans hp⟩
    unfold sequencerView
    rw [f1, f2, f3, f5, f6, f11]
  · exact fun hc => hc.1 h0

/-- A tick of the victory sequence on which the halt counter reaches the
threshold: `processEndState` is called once and the counter restarts. -/
theorem onTimeTick_victory_fire (g : Game) (k : Keys)
    (hp : g.playState.pauseMovement = false) (h0 : g.playState.enemyHealth = 0)
    (heq : g.playState.haltTime + 1 = g.playState.maxHaltTime)
    (hskip : ¬ ((PlayState.processEndState g).playState.enemyHealth ≠ 0
        ∧ (PlayState.processEndState g).player.health = 0)) :
    sequencerView (PlayState.onTimeTick g k) = sequencerView (PlayState.processEndState g) ∧
    (PlayState.onTimeTick g k).playState.haltTime = 0 ∧
    (PlayState.onTimeTick g k).playState.enemyHealth
      = (PlayState.processEndState g).playState.enemyHealth ∧
    (PlayState.onTimeTick g k).playState.pauseMovement
      = (PlayState.processEndState g).playState.pauseMovement := by
  obtain ⟨v1, v2, v3⟩ := processEndState_haltTime g (g.playState.haltTime + 1)
  have vh : (PlayState.processEndState
      { g with playState := { g.playState with haltTime := g.playState.haltTime + 1 } }).player.health
      = (PlayState.processEndState g).player.health := by
    have := congrArg (fun v => v.2.2.2.2.2) v1
    exact this
  unfold PlayState.onTimeTick
  rw [tickHitFreeze_skip g hp, tickEndState_fire g h0 heq, tickEnemyEndState_skip]
  · obtain ⟨f1, f2, f3, _, f5, f6, _, f8, f9, f10, f11⟩ := tickEnemyHit_frame
      { PlayState.processEndState
          { g with playState := { g.playState with haltTime := g.playState.haltTime + 1 } } with
        playState :=
          { (PlayState.processEndState
              { g with playState :=
                { g.playState with haltTime := g.playState.haltTime + 1 } }).playState with
            haltTime := 0 } } k
    refine ⟨?_, f10, f8.trans v2, f9.trans v3⟩
    rw [← v1]
    unfold sequencerView
    rw [f1, f2, f3, f5, f6, f11]
  · intro hc
    apply hskip
    refine ⟨?_, ?_⟩
    · rw [← v2]
      exact hc.1
    · rw [← vh]
      exact hc.2

/-- C29: the cadence of the victory sequence.  In a long window (enemy out of
health, no hit-freeze pending, halt counter 0, threshold `EndDelayHigh`,
sequencer at one of Start to CountLife) the first `PlayState::onTimeTick`
leaves the sequencer, level, score, phase and player health unchanged, and the
second is the step of `processEndState`: firings are exactly 2 ticks apart.
After a firing below CountLife the state is again a long window; after the
CountLife firing it is a short window (threshold `EndDelayLow`, sequencer at
CountLife or Transition).  In a short window every tick is a step of
`processEndState`: firings are exactly 1 tick apart, the window stays short
while the step fired at CountLife, and the step fired at Transition restores
the threshold `EndDelayHigh`.  Whatever the halt counter, a tick of the
victory sequence on which it does not reach the threshold leaves sequencer,
level, score, phase and player health unchanged. -/
theorem victory_firing_cadence (g : Game) (k1 k2 : Keys) :
    (VictoryLong g →
      sequencerView (PlayState.onTimeTick g k1) = sequencerView g ∧
      (PlayState.onTimeTick g k1).playState.haltTime = 1 ∧
      sequencerView (PlayState.onTimeTick (PlayState.onTimeTick g k1) k2)
        = sequencerView (PlayState.processEndState (PlayState.onTimeTick g k1)) ∧
      (g.playState.endState < EndSequence.CountLife →
        (PlayState.onTimeTick (PlayState.onTimeTick g k1) k2).playState.endState
          = g.playState.endState + 1 ∧
        VictoryLong (PlayState.onTimeTick (PlayState.onTimeTick g k1) k2)) ∧
      (g.playState.endState = EndSequence.CountLife →
        VictoryShort (PlayState.onTimeTick (PlayState.onTimeTick g k1) k2))) ∧
    (VictoryShort g →
      sequencerView (PlayState.onTimeTick g k1) = sequencerView (PlayState.processEndState g) ∧
      (PlayState.onTimeTick g k1).playState.haltTime = 0 ∧
      (g.playState.endState = EndSequence.CountLife →
        VictoryShort (PlayState.onTimeTick g k1)) ∧
      (g.playState.endState = EndSequence.Transition →
        (PlayState.onTimeTick g k1).playState.maxHaltTime = EndDelayHigh)) ∧
    (g.playState.enemyHealth = 0 → g.playState.pauseMovement = false →
      g.playState.haltTime + 1 ≠ g.playState.maxHaltTime →
      sequencerView (PlayState.onTimeTick g k1) = sequencerView g) := by
  refine ⟨?_, ?_, fun h0 hp hne => (onTimeTick_victory_wait g k1 hp h0 hne).1⟩
  · rintro ⟨h0, hp, ht, hm, hlo, hhi⟩
    obtain ⟨w1, w2, w3, w4⟩ := onTimeTick_victory_wait g k1 hp h0
      (by rw [ht, hm]; decide)
    have hv := w1
    unfold sequencerView at hv
    simp only [Prod.mk.injEq] at hv
    obtain ⟨e1, e2, _, _, _, _⟩ := hv
    obtain ⟨p1, p2, p3, p4, p5⟩ := processEndState_victory (PlayState.onTimeTick g k1)
      (by rw [e1]; exact hlo) (by rw [e1]; exact hhi)
    obtain ⟨f1, f2, f3, f4⟩ := onTimeTick_victory_fire (PlayState.onTimeTick g k1) k2 w4 w3
      (by rw [w2, ht, e2, hm]; decide)
      (fun hc => hc.1 (p1.trans w3))
    have hv2 := f1
    unfold sequencerView at hv2
    simp only [Prod.mk.injEq] at hv2
    obtain ⟨g1, g2, _, _, _, _⟩ := hv2
    refine ⟨w1, by rw [w2, ht]; rfl, f1, ?_, ?_⟩
    · intro hlt
      have hlt1 : (PlayState.onTimeTick g k1).playState.endState < EndSequence.CountLife := by
        rw [e1]
        exact hlt
      have hes : (PlayState.onTimeTick (PlayState.onTimeTick g k1) k2).playState.endState
          = g.playState.endState + 1 := by
        rw [g1, p4 hlt1, e1]
      refine ⟨hes, f3.trans (p1.trans w3), f4.trans (p2.trans w4), f2, ?_, ?_, ?_⟩
      · rw [g2, p3, if_neg (ne_of_lt hlt1), e2, hm]
      · rw [hes]
        simp only [EndSequence.Start] at hlo ⊢
        omega
      · rw [hes]
        simp only [EndSequence.CountLife] at hlt ⊢
        omega
    · intro hcl
      have hcl1 : (PlayState.onTimeTick g k1).playState.endState = EndSequence.CountLife := by
        rw [e1]
        exact hcl
      refine ⟨f3.trans (p1.trans w3), f4.trans (p2.trans w4), f2, ?_, ?_⟩
      · rw [g2, p3, if_pos hcl1]
      · rw [g1, p5 hcl1]
        split_ifs
        · exact Or.inl rfl
        · exact Or.inr rfl
  · rintro ⟨h0, hp, ht, hm, hes⟩
    have hskip : ¬ ((PlayState.processEndState g).playState.enemyHealth ≠ 0
        ∧ (PlayState.processEndState g).player.health = 0) := by
      rcases hes with h | h
      · have := (processEndState_victory g (by rw [h]; decide) (le_of_eq h)).1
        exact fun hc => hc.1 (this.trans h0)
      · exact (processEndState_transition_after g h h0).2
    obtain ⟨f1, f2, f3, f4⟩ := onTimeTick_victory_fire g k1 hp h0 (by rw [ht, hm]; decide) hskip
    have hv2 := f1
    unfold sequencerView at hv2
    simp only [Prod.mk.injEq] at hv2
    obtain ⟨g1, g2, _, _, _, _⟩ := hv2
    refine ⟨f1, f2, ?_, ?_⟩
    · intro hcl
      obtain ⟨p1, p2, p3, _, p5⟩ :=
        processEndState_victory g (by rw [hcl]; decide) (le_of_eq hcl)
      refine ⟨f3.trans (p1.trans h0), f4.trans (p2.trans hp), f2, ?_, ?_⟩
      · rw [g2, p3, if_pos hcl]
      · rw [g1, p5 hcl]
        split_ifs
        · exact Or.inl rfl
        · exact Or.inr rfl
    · intro htr
      rw [g2]
      exact (processEndState_transition_after g htr h0).1

/-- Witness of C29: the victory sequence of `victoryBegins` (level 2, one
health point left).  The first firing comes on tick 2; `countingLife`, reset
to a long window, fires CountLife on its tick 2 and is then in a short
window. -/
theorem victory_firing_cadence_witness :
    (PlayState.onTimeTick victoryBegins noKeys).playState.endState = EndSequence.Start ∧
    (PlayState.onTimeTick (PlayState.onTimeTick victoryBegins noKeys) noKeys).playState.endState
      = EndSequence.PlayWinSound ∧
    VictoryShort (PlayState.onTimeTick (PlayState.onTimeTick countingLife noKeys) noKeys) := by
  have hb : VictoryLong victoryBegins := by
    unfold VictoryLong
    decide
  have hcount : VictoryLong countingLife := by
    unfold VictoryLong
    decide
  obtain ⟨a1, _, _, a4, _⟩ := (victory_firing_cadence victoryBegins noKeys noKeys).1 hb
  obtain ⟨_, _, _, _, b5⟩ := (victory_firing_cadence countingLife noKeys noKeys).1 hcount
  have hv := a1
  unfold sequencerView at hv
  simp only [Prod.mk.injEq] at hv
  exact ⟨hv.1, (a4 (by decide)).1, b5 (by decide)⟩

/-- The method `PlayState::flipEnemySprites` toggles the facing flag and
leaves positions other than the chain's, and the move, alone. -/
theorem flipEnemySprites_frame (st : PlayState) :
    st.flipEnemySprites.isEnemyFlipped = !st.isEnemyFlipped ∧
    st.flipEnemySprites.enemyX = st.enemyX ∧
    st.flipEnemySprites.enemyCurrentMove = st.enemyCurrentMove := by
  unfold PlayState.flipEnemySprites
  dsimp only
  split_ifs <;> exact ⟨rfl, rfl, rfl⟩

/-- C30: the facing check at the end of `PlayState::renderEnemy`
(`renderEnemy` is its `switch` followed by the check).  Whenever the enemy's
current move is Punch or Kick the check leaves `isEnemyFlipped` unchanged.
For any other move, after the check `isEnemyFlipped` is true exactly if
`enemyX < player x` whenever the two differ, and is unchanged when they are
equal.  The check moves neither actor. -/
theorem flipChecker_faces_player (g : Game) :
    PlayState.renderEnemy g = (PlayState.renderEnemySwitch g).map PlayState.flipChecker ∧
    (PlayState.flipChecker g).playState.enemyX = g.playState.enemyX ∧
    (PlayState.flipChecker g).player = g.player ∧
    ((g.playState.enemyCurrentMove = EnemyAction.Punch
        ∨ g.playState.enemyCurrentMove = EnemyAction.Kick) →
      (PlayState.flipChecker g).playState.isEnemyFlipped = g.playState.isEnemyFlipped) ∧
    (g.playState.enemyCurrentMove ≠ EnemyAction.Punch →
      g.playState.enemyCurrentMove ≠ EnemyAction.Kick →
      (g.playState.enemyX ≠ g.player.x →
        (PlayState.flipChecker g).playState.isEnemyFlipped
          = decide (g.playState.enemyX < g.player.x)) ∧
      (g.playState.enemyX = g.player.x →
        (PlayState.flipChecker g).playState.isEnemyFlipped = g.playState.isEnemyFlipped)) := by
  obtain ⟨f1, f2, f3⟩ := flipEnemySprites_frame g.playState
  refine ⟨rfl, ?_, ?_, ?_, ?_⟩
  · unfold PlayState.flipChecker
    dsimp only
    split_ifs <;> simp only [f2, (flipEnemySprites_frame _).2.1]
  · unfold PlayState.flipChecker
    dsimp only
    split_ifs <;> rfl
  · intro hm
    have h1 : ¬ (g.playState.enemyX < g.player.x ∧ (!g.playState.isEnemyFlipped) = true
        ∧ g.playState.enemyCurrentMove ≠ EnemyAction.Punch
        ∧ g.playState.enemyCurrentMove ≠ EnemyAction.Kick) := by
      intro hc
      rcases hm with h | h
      · exact hc.2.2.1 h
      · exact hc.2.2.2 h
    have h2 : ¬ (g.playState.enemyX > g.player.x ∧ g.playState.isEnemyFlipped = true
        ∧ g.playState.enemyCurrentMove ≠ EnemyAction.Punch
        ∧ g.playState.enemyCurrentMove ≠ EnemyAction.Kick) := by
      intro hc
      rcases hm with h | h
      · exact hc.2.2.1 h
      · exact hc.2.2.2 h
    unfold PlayState.flipChecker
    dsimp only
    rw [if_neg h1, if_neg h2]
  · intro hp hk
    unfold PlayState.flipChecker
    dsimp only
    by_cases h1 : g.playState.enemyX < g.player.x ∧ (!g.playState.isEnemyFlipped) = true
        ∧ g.playState.enemyCurrentMove ≠ EnemyAction.Punch
        ∧ g.playState.enemyCurrentMove ≠ EnemyAction.Kick
    · rw [if_pos h1]
      dsimp only
      rw [f2, if_neg (fun hc => by have := hc.1; have := h1.1; omega)]
      dsimp only
      rw [f1]
      have hf : g.playState.isEnemyFlipped = false := by simpa using h1.2.1
      constructor
      · intro _
        rw [hf, decide_eq_true h1.1]
        rfl
      · intro he
        have := h1.1
        omega
    · rw [if_neg h1]
      by_cases h2 : g.playState.enemyX > g.player.x ∧ g.playState.isEnemyFlipped = true
          ∧ g.playState.enemyCurrentMove ≠ EnemyAction.Punch
          ∧ g.playState.enemyCurrentMove ≠ EnemyAction.Kick
      · rw [if_pos h2]
        dsimp only
        rw [f1, h2.2.1]
        constructor
        · intro _
          rw [decide_eq_false (by have := h2.1; omega)]
          rfl
        · intro he
          have := h2.1
          omega
      · rw [if_neg h2]
        constructor
        · intro hne
          cases hf : g.playState.isEnemyFlipped
          · have hge : ¬ g.playState.enemyX < g.player.x :=
              fun hlt => h1 ⟨hlt, by rw [hf]; rfl, hp, hk⟩
            rw [decide_eq_false hge]
          · have hle : ¬ g.playState.enemyX > g.player.x := fun hgt => h2 ⟨hgt, hf, hp, hk⟩
            rw [decide_eq_true (by omega)]
        · intro _
          rfl

/-- Witness of C30: the idle enemy turns to the player who has walked past
it; the punching enemy does not. -/
theorem flipChecker_faces_player_witness :
    (PlayState.flipChecker playerPassedEnemy).playState.isEnemyFlipped = true ∧
    (PlayState.flipChecker playerPassedMidSwing).playState.isEnemyFlipped = false := by
  obtain ⟨_, _, _, _, h5⟩ := flipChecker_faces_player playerPassedEnemy
  obtain ⟨_, _, _, h4, _⟩ := flipChecker_faces_player playerPassedMidSwing
  refine ⟨?_, ?_⟩
  · rw [(h5 (by decide) (by decide)).1 (by decide)]
    decide
  · rw [h4 (Or.inl (by decide))]
    decide

/-! ### The retreat that a player hit starts -/

/-- Without an enemy hit on screen the fourth block of `onTimeTick` does
nothing. -/
theorem tickEnemyHit_skip (g : Game) (k : Keys) (h : g.playState.renderEnemyHit = false) :
    PlayState.tickEnemyHit g k = g := by
  simp [PlayState.tickEnemyHit, h]

/-- The first block of `onTimeTick` touches neither the player's health nor
the enemy-hit flag nor the facing of the enemy. -/
theorem tickHitFreeze_frame (g : Game) :
    (PlayState.tickHitFreeze g).player.health = g.player.health ∧
    (PlayState.tickHitFreeze g).playState.renderEnemyHit = g.playState.renderEnemyHit ∧
    (PlayState.tickHitFreeze g).playState.isEnemyFlipped = g.playState.isEnemyFlipped := by
  unfold PlayState.tickHitFreeze
  by_cases hp : g.playState.pauseMovement = true
  · rw [if_pos hp]
    dsimp only
    by_cases ht : g.playState.haltTime + 1 = 2
    · rw [if_pos ht]
      split_ifs <;> exact ⟨rfl, rfl, rfl⟩
    · rw [if_neg ht]
      exact ⟨rfl, rfl, rfl⟩
  · rw [if_neg hp]
    exact ⟨rfl, rfl, rfl⟩

/-- C31: let the freeze of a player hit expire in `PlayState::onTimeTick`
(the freeze is on and the halt counter reaches 2) with the enemy's health
still above 0 after the decrement.  The first block of `onTimeTick` takes the
health point and keeps the facing.  If the enemy is not retreating, the run
counter is reset to 0 and the move state becomes RetreatRunningRight for an
unflipped enemy and RetreatRunningLeft for a flipped one; if it is already
retreating, move state and run counter stay as they are.  When the player has
health and no enemy hit is on screen the other blocks of `onTimeTick` do
nothing on that tick, so this is the effect of the whole call. -/
theorem freeze_expiry_starts_retreat (g : Game) (k : Keys)
    (hp : g.playState.pauseMovement = true) (ht : g.playState.haltTime + 1 = 2)
    (he : g.playState.enemyHealth - 1 > 0) :
    (PlayState.tickHitFreeze g).playState.enemyHealth = g.playState.enemyHealth - 1 ∧
    (PlayState.tickHitFreeze g).playState.isEnemyFlipped = g.playState.isEnemyFlipped ∧
    (¬ Retreating g.playState →
      (PlayState.tickHitFreeze g).playState.runCounter = 0 ∧
      (PlayState.tickHitFreeze g).playState.enemyMoveState
        = (if g.playState.isEnemyFlipped then MoveState.RetreatRunningLeft
           else MoveState.RetreatRunningRight)) ∧
    (Retreating g.playState →
      (PlayState.tickHitFreeze g).playState.enemyMoveState = g.playState.enemyMoveState ∧
      (PlayState.tickHitFreeze g).playState.runCounter = g.playState.runCounter) ∧
    (g.player.health > 0 → g.playState.renderEnemyHit = false →
      PlayState.onTimeTick g k = PlayState.tickHitFreeze g) := by
  have hne : g.playState.enemyHealth - 1 ≠ 0 := by omega
  obtain ⟨a1, _, a3, _, _, _, _⟩ := tickHitFreeze_thaw g hp ht
  obtain ⟨f1, f2, f3⟩ := tickHitFreeze_frame g
  refine ⟨a3, f3, ?_, ?_, ?_⟩
  · intro hr
    have hr1 : g.playState.enemyMoveState ≠ MoveState.RetreatRunningLeft :=
      fun h => hr (Or.inl h)
    have hr2 : g.playState.enemyMoveState ≠ MoveState.RetreatRunningRight :=
      fun h => hr (Or.inr h)
    unfold PlayState.tickHitFreeze
    rw [if_pos hp]
    dsimp only
    rw [if_pos ht]
    by_cases hj : g.player.currAction_ = PlayerAction.JumpDown
        ∨ g.player.currAction_ = PlayerAction.JumpUp
    · rw [if_pos hj]
      dsimp only
      rw [if_neg hne, if_pos ⟨hr1, hr2⟩]
      cases hfl : g.playState.isEnemyFlipped <;> simp
    · rw [if_neg hj]
      dsimp only
      rw [if_neg hne, if_pos ⟨hr1, hr2⟩]
      cases hfl : g.playState.isEnemyFlipped <;> simp
  · intro hr
    have hr' : ¬ (g.playState.enemyMoveState ≠ MoveState.RetreatRunningLeft
        ∧ g.playState.enemyMoveState ≠ MoveState.RetreatRunningRight) := by
      intro hc
      cases hr with
      | inl h => exact hc.1 h
      | inr h => exact hc.2 h
    unfold PlayState.tickHitFreeze
    rw [if_pos hp]
    dsimp only
    rw [if_pos ht]
    by_cases hj : g.player.currAction_ = PlayerAction.JumpDown
        ∨ g.player.currAction_ = PlayerAction.JumpUp
    · rw [if_pos hj]
      dsimp only
      rw [if_neg hne, if_neg hr']
      exact ⟨rfl, rfl⟩
    · rw [if_neg hj]
      dsimp only
      rw [if_neg hne, if_neg hr']
      exact ⟨rfl, rfl⟩
  · intro hpl hhit
    unfold PlayState.onTimeTick
    rw [tickEndState_skip (PlayState.tickHitFreeze g) (by rw [a3]; exact hne),
      tickEnemyEndState_skip (PlayState.tickHitFreeze g)
        (fun hc => by have h2 := hc.2; rw [f1] at h2; omega),
      tickEnemyHit_skip (PlayState.tickHitFreeze g) k (by rw [f2]; exact hhit)]

/-- Witness of C31: the freeze of a landed punch expires on an enemy that
follows the player, and on a flipped enemy that is already on a retreat
run. -/
theorem freeze_expiry_starts_retreat_witness :
    ((PlayState.onTimeTick freezeExpiring noKeys).playState.enemyHealth = 4 ∧
      (PlayState.onTimeTick freezeExpiring noKeys).playState.runCounter = 0 ∧
      (PlayState.onTimeTick freezeExpiring noKeys).playState.enemyMoveState
        = MoveState.RetreatRunningRight) ∧
    ((PlayState.tickHitFreeze freezeExpiringOnRetreat).playState.enemyMoveState
        = MoveState.RetreatRunningRight ∧
      (PlayState.tickHitFreeze freezeExpiringOnRetreat).playState.runCounter = 4) := by
  have h1 := freeze_expiry_starts_retreat freezeExpiring noKeys rfl rfl (by decide)
  have h2 := freeze_expiry_starts_retreat freezeExpiringOnRetreat noKeys rfl rfl (by decide)
  have e := h1.2.2.2.2 (by decide) rfl
  have r1 := h1.2.2.1 (by unfold Retreating; decide)
  refine ⟨⟨?_, ?_, ?_⟩, h2.2.2.2.1 (by unfold Retreating; decide)⟩
  · rw [e, h1.1]; rfl
  · rw [e, r1.1]
  · rw [e, r1.2]; rfl

/-! ### Pursuit and the start of an enemy attack -/

/-- The method `offsetEnemyX` as one update of the play state. -/
theorem offsetEnemyX_eq (g : Game) (amount : Int) (isAdd : Bool) :
    PlayState.offsetEnemyX g amount isAdd =
      { g with playState :=
        { g.playState with
          enemyX := if isAdd then g.playState.enemyX + amount else g.playState.enemyX - amount
          rotatingChainX :=
            if g.level = 3 then
              (if isAdd then g.playState.rotatingChainX + amount
               else g.playState.rotatingChainX - amount)
            else g.playState.rotatingChainX } } := by
  unfold PlayState.offsetEnemyX
  by_cases h : g.level = 3
  · simp only [h, if_true]
  · simp only [h, if_false]

/-- The pursuit step moves `enemyX` one `EnemyWalkSpeed` towards the player
and touches nothing else the AI step decides on. -/
theorem enemyPursuePlayer_fields (g : Game) :
    (PlayState.enemyPursuePlayer g).playState.enemyX
      = (if g.playState.enemyX > g.player.x then g.playState.enemyX - EnemyWalkSpeed
         else if g.playState.enemyX < g.player.x then g.playState.enemyX + EnemyWalkSpeed
         else g.playState.enemyX) ∧
    (PlayState.enemyPursuePlayer g).player = g.player ∧
    (PlayState.enemyPursuePlayer g).sprites = g.sprites ∧
    (PlayState.enemyPursuePlayer g).playState.isEnemyFlipped = g.playState.isEnemyFlipped ∧
    (PlayState.enemyPursuePlayer g).playState.enemyMoveState = g.playState.enemyMoveState ∧
    (PlayState.enemyPursuePlayer g).playState.enemyCurrentMove = g.playState.enemyCurrentMove ∧
    (PlayState.enemyPursuePlayer g).playState.enemyRandomAttack
      = g.playState.enemyRandomAttack := by
  unfold PlayState.enemyPursuePlayer
  by_cases h1 : g.playState.enemyX > g.player.x
  · rw [if_pos h1]
    dsimp only
    have h2 : ¬ (PlayState.offsetEnemyX g EnemyWalkSpeed false).playState.enemyX
        < (PlayState.offsetEnemyX g EnemyWalkSpeed false).player.x := by
      rw [offsetEnemyX_eq]
      show ¬ (if false = true then g.playState.enemyX + EnemyWalkSpeed
        else g.playState.enemyX - EnemyWalkSpeed) < g.player.x
      simp only [Bool.false_eq_true, if_false, EnemyWalkSpeed]
      omega
    rw [if_neg h2, if_pos h1, offsetEnemyX_eq]
    exact ⟨rfl, rfl, rfl, rfl, rfl, rfl, rfl⟩
  · rw [if_neg h1]
    dsimp only
    by_cases h2 : g.playState.enemyX < g.player.x
    · rw [if_pos h2, if_neg h1, if_pos h2, offsetEnemyX_eq]
      exact ⟨rfl, rfl, rfl, rfl, rfl, rfl, rfl⟩
    · rw [if_neg h2, if_neg h1, if_neg h2]
      exact ⟨rfl, rfl, rfl, rfl, rfl, rfl, rfl⟩

/-- The range test of `playerInRange` is the engagement range. -/
theorem playerInRange_iff (g : Game) :
    PlayState.playerInRange g = true ↔ InEngagementRange g := by
  unfold PlayState.playerInRange InEngagementRange engagementBoundary Sprite.getTileCount
  simp only [decide_eq_true_eq]
  cases g.playState.isEnemyFlipped <;> simp

/-- The attack and the sprite that a draw selects: `attackList` and
`enemySprites` at the index of the draw. -/
theorem attackList_index :
    ∀ rnd : Fin 2,
      vecAt attackList (rnd.val : Int) = some (attackList.get ⟨rnd.val, rnd.isLt⟩) ∧
      attackList.get ⟨rnd.val, rnd.isLt⟩
        = (if rnd = 0 then EnemyAction.Kick else EnemyAction.Punch) ∧
      vecAt enemySprites (rnd.val : Int) = some (if rnd = 0 then "kick" else "punch") := by
  decide

/-- C32: one `updateEnemyMovementState` step of an enemy in FollowPlayer
moves `enemyX` exactly `EnemyWalkSpeed` = 1 towards the player (not at all
when `enemyX` equals the player's x), so the distance never grows.  Then, if
the player is within engagement range of the moved enemy, the move state
becomes ChargeAttack, the attack index is the draw and the current move is
the attack of that index (0: Kick, sprite "kick"; 1: Punch, sprite "punch");
if the player is not in range, move state and current move stay as they are.
In ChargeAttack a step changes nothing. -/
theorem follow_step_pursues_then_attacks (g : Game) (rnd : Fin 2) :
    (g.playState.enemyMoveState = MoveState.FollowPlayer →
      (PlayState.updateEnemyMovementState g rnd).player = g.player ∧
      (g.playState.enemyX > g.player.x →
        (PlayState.updateEnemyMovementState g rnd).playState.enemyX
          = g.playState.enemyX - EnemyWalkSpeed) ∧
      (g.playState.enemyX < g.player.x →
        (PlayState.updateEnemyMovementState g rnd).playState.enemyX
          = g.playState.enemyX + EnemyWalkSpeed) ∧
      (g.playState.enemyX = g.player.x →
        (PlayState.updateEnemyMovementState g rnd).playState.enemyX = g.playState.enemyX) ∧
      ((PlayState.updateEnemyMovementState g rnd).playState.enemyX - g.player.x).natAbs
        ≤ (g.playState.enemyX - g.player.x).natAbs ∧
      (InEngagementRange (PlayState.enemyPursuePlayer g) →
        (PlayState.updateEnemyMovementState g rnd).playState.enemyMoveState
          = MoveState.ChargeAttack ∧
        (PlayState.updateEnemyMovementState g rnd).playState.enemyRandomAttack = rnd.val ∧
        vecAt attackList rnd.val
          = some (PlayState.updateEnemyMovementState g rnd).playState.enemyCurrentMove ∧
        (PlayState.updateEnemyMovementState g rnd).playState.enemyCurrentMove
          = (if rnd = 0 then EnemyAction.Kick else EnemyAction.Punch) ∧
        vecAt enemySprites (PlayState.updateEnemyMovementState g rnd).playState.enemyRandomAttack
          = some (if rnd = 0 then "kick" else "punch")) ∧
      (¬ InEngagementRange (PlayState.enemyPursuePlayer g) →
        (PlayState.updateEnemyMovementState g rnd).playState.enemyMoveState
          = MoveState.FollowPlayer ∧
        (PlayState.updateEnemyMovementState g rnd).playState.enemyCurrentMove
          = g.playState.enemyCurrentMove)) ∧
    (g.playState.enemyMoveState = MoveState.ChargeAttack →
      PlayState.updateEnemyMovementState g rnd = g) := by
  constructor
  · intro hf
    obtain ⟨p1, p2, p3, p4, p5, p6, p7⟩ := enemyPursuePlayer_fields g
    simp only [EnemyWalkSpeed] at p1
    have hx : (PlayState.updateEnemyMovementState g rnd).playState.enemyX
        = (PlayState.enemyPursuePlayer g).playState.enemyX := by
      unfold PlayState.updateEnemyMovementState
      rw [hf]
      dsimp only
      split_ifs <;> rfl
    have hpl : (PlayState.updateEnemyMovementState g rnd).player
        = (PlayState.enemyPursuePlayer g).player := by
      unfold PlayState.updateEnemyMovementState
      rw [hf]
      dsimp only
      split_ifs <;> rfl
    refine ⟨hpl.trans p2, ?_, ?_, ?_, ?_, ?_, ?_⟩
    · intro h
      rw [hx, p1, if_pos h]
      rfl
    · intro h
      rw [hx, p1, if_neg (by omega), if_pos h]
      rfl
    · intro h
      rw [hx, p1, if_neg (by omega), if_neg (by omega)]
    · rw [hx, p1]
      split_ifs <;> omega
    · intro hr
      have hreach : PlayState.reachesBasicAttack g :=
        ⟨hf, (playerInRange_iff _).2 hr⟩
      rw [updateEnemyMovementState_draw g rnd hreach]
      exact ⟨rfl, rfl, (attackList_index rnd).1, (attackList_index rnd).2.1,
        (attackList_index rnd).2.2⟩
    · intro hr
      have hnr : ¬ PlayState.playerInRange (PlayState.enemyPursuePlayer g) = true :=
        fun hc => hr ((playerInRange_iff _).1 hc)
      have he : PlayState.updateEnemyMovementState g rnd = PlayState.enemyPursuePlayer g := by
        unfold PlayState.updateEnemyMovementState
        rw [hf]
        dsimp only
        rw [if_neg hnr]
      rw [he]
      exact ⟨p5.trans hf, p6⟩
  · intro hc
    unfold PlayState.updateEnemyMovementState
    rw [hc]

/-- Witness of C32: the enemy of `levelOneDuel` steps from 145 to 144 and,
the player at 135 being in range, charges the attack of the draw; the flipped
enemy of `chaseFromAfar` steps from 100 to 101 and keeps following; the enemy
of `chargedKick` holds. -/
theorem follow_step_pursues_then_attacks_witness :
    ((PlayState.updateEnemyMovementState levelOneDuel 1).playState.enemyX = 144 ∧
      (PlayState.updateEnemyMovementState levelOneDuel 1).playState.enemyMoveState
        = MoveState.ChargeAttack ∧
      (PlayState.updateEnemyMovementState levelOneDuel 1).playState.enemyCurrentMove
        = EnemyAction.Punch) ∧
    ((PlayState.updateEnemyMovementState chaseFromAfar 0).playState.enemyX = 101 ∧
      (PlayState.updateEnemyMovementState chaseFromAfar 0).playState.enemyMoveState
        = MoveState.FollowPlayer) ∧
    PlayState.updateEnemyMovementState chargedKick 0 = chargedKick := by
  have h1 := (follow_step_pursues_then_attacks levelOneDuel 1).1 rfl
  have h2 := (follow_step_pursues_then_attacks chaseFromAfar 0).1 rfl
  have r1 := h1.2.2.2.2.2.1 (by unfold InEngagementRange engagementBoundary; decide)
  have r2 := h2.2.2.2.2.2.2 (by unfold InEngagementRange engagementBoundary; decide)
  refine ⟨⟨?_, r1.1, ?_⟩, ⟨?_, r2.1⟩,
    (follow_step_pursues_then_attacks chargedKick 0).2 rfl⟩
  · rw [h1.2.1 (by decide)]; rfl
  · rw [r1.2.2.2.1]; rfl
  · rw [h2.2.2.1 (by decide)]; rfl

/-! ### The order of the victory poses -/

/-- C33 (amended): from `ShowPunch` the sequencer walks the steps ShowPunch,
ShowLowKick1, ShowHighKick1, ShowHighKick2, ShowLowKick2, ShowPunch2, Smile,
the order of their enumerator values, and shows one pose at each, whatever
the state otherwise: PunchStand, KickCrouch, KickHigh, KickHigh, KickCrouch,
PunchStand, Smile, that is punch, low kick, high kick, high kick, low kick,
punch and smile. -/
theorem victory_poses_follow_sequencer (g : Game)
    (h : g.playState.endState = EndSequence.ShowPunch) :
    PlayState.victorySteps 7 g
      = [EndSequence.ShowPunch, EndSequence.ShowLowKick1, EndSequence.ShowHighKick1,
         EndSequence.ShowHighKick2, EndSequence.ShowLowKick2, EndSequence.ShowPunch2,
         EndSequence.Smile] ∧
    PlayState.victoryPoses 7 g
      = [PlayerAction.PunchStand, PlayerAction.KickCrouch, PlayerAction.KickHigh,
         PlayerAction.KickHigh, PlayerAction.KickCrouch, PlayerAction.PunchStand,
         PlayerAction.Smile] := by
  constructor
  · simp [PlayState.victorySteps, PlayState.processEndState,
      PlayState.prepareEndOfRoundChoreography, Player.setMovement, Player.invertSprites, h]
  · simp [PlayState.victoryPoses, PlayState.processEndState,
      PlayState.prepareEndOfRoundChoreography, Player.setMovement, Player.invertSprites, h]

/-- Witness of C33: the seven poses of the won round `firstVictoryPose`. -/
theorem victory_poses_follow_sequencer_witness :
    firstVictoryPose.playState.endState = EndSequence.ShowPunch ∧
    PlayState.victoryPoses 7 firstVictoryPose
      = [PlayerAction.PunchStand, PlayerAction.KickCrouch, PlayerAction.KickHigh,
         PlayerAction.KickHigh, PlayerAction.KickCrouch, PlayerAction.PunchStand,
         PlayerAction.Smile] :=
  ⟨by decide, (victory_poses_follow_sequencer firstVictoryPose (by decide)).2⟩

/-- Counterexample to C33 as stated: in the won round `firstVictoryPose` the
second pose is the low kick (KickCrouch) where the high kick is claimed, and
the third is the high kick; the seven poses are not punch, high kick, low
kick, low kick, high kick, punch and smile. -/
theorem victory_poses_low_kick_first :
    firstVictoryPose.playState.endState = EndSequence.ShowPunch ∧
    PlayState.victoryPoses 7 firstVictoryPose
      = [PlayerAction.PunchStand, PlayerAction.KickCrouch, PlayerAction.KickHigh,
         PlayerAction.KickHigh, PlayerAction.KickCrouch, PlayerAction.PunchStand,
         PlayerAction.Smile] ∧
    PlayState.victoryPoses 7 firstVictoryPose ≠ highKickFirstPoses := by
  refine ⟨?_, ?_, ?_⟩ <;> decide

/-! ### The stage limits of the player -/

/-- A walking step of `Player::handleInput` keeps the player on the stage. -/
theorem walk_keeps_stage (g : Game) (k : Keys) (h : OnStage g) :
    StageBoundary ≤ (Player.afterMovementKeys g k).x ∧
    (Player.afterMovementKeys g k).x ≤ stageRight g := by
  unfold OnStage stageRight at h
  unfold stageRight
  have hs := fun (p : Player) (m : Int) => (setMovement_frame p m).1
  unfold Player.afterMovementKeys
  simp only [StageBoundary, GAME_WIDTH, kPlayerSpeed] at h ⊢
  split_ifs <;> simp only [hs] <;> omega

/-- A drift step of `Player::processJump` moves the player at most one pixel
off the stage. -/
theorem drift_keeps_stage_but_one (g : Game) (h : OnStage g) :
    StageBoundary - 1 ≤ (Player.jumpDrifted g).x ∧
    (Player.jumpDrifted g).x ≤ stageRight g + 1 := by
  unfold OnStage stageRight at h
  unfold stageRight Player.jumpDrifted
  simp only [StageBoundary, GAME_WIDTH, kPlayerJumpSpeed] at h ⊢
  split_ifs <;> dsimp only <;> omega

/-- C34: in the first round, after one step to the left and the start of a
jump to the left, eleven `processJump` calls bring the player to x = 11, on
the stage (between `StageBoundary` = 10 and the right end 230, the half width
of the sprite being 16).  The drift step of the next call takes two
pixels because 11 is greater than `StageBoundary`, and leaves the player at
x = 9, left of the stage.  The thirteen frames `driftFrames` of
`PlayState::run` from the first frame of the round end in the same place. -/
theorem drift_step_leaves_stage :
    (PlayState.runFrames driftFrames sampleGame).map (fun g => g.player.x) = some 9 ∧
    driftToLeftEdge.map
        (fun g => (g.player.x, stageRight g, g.player.jumpDrift, g.player.currAction_))
      = some (11, 230, JumpDrift.LeftDrift, PlayerAction.JumpUp) ∧
    (driftToLeftEdge.bind Player.processJump).map (fun g => g.player.x) = some 9 ∧
    (9 : Int) < StageBoundary := by
  refine ⟨?_, ?_, ?_, ?_⟩ <;> decide

/-! ### The frame of `Player::processCollision` -/

/-- The bonus that the `switch` of `processCollision` selects is the bonus of
the attack. -/
theorem attackProfile_bonus (a : Int) : (Player.attackProfile a).2 = attackBonus a := by
  unfold Player.attackProfile attackBonus
  simp only [PlayerAction.PunchCrouch, PlayerAction.KickHigh, PlayerAction.KickCrouch,
    PlayerAction.KickStand, PlayerAction.JumpDown]
  split_ifs <;> first | rfl | omega

/-- C35: in the Play phase `Player::processCollision` finds its enemy body
box and returns.  When the attack box meets it (a hit) the result has the
score raised by exactly the bonus of the attack (200 for KickHigh, 250 for
JumpDown, 100 for every other action), the hit effect shown, the hit-freeze
started (`pauseMovement` true, `haltTime` 0) and both healths unchanged; when
it misses, the result is the state it was called on, so score, hit effect,
`pauseMovement` and `haltTime` are unchanged. -/
theorem processCollision_applies_bonus (g : Game) (hplay : g.state = GameState.Play) :
    ∃ e, vecAt enemyBodyHitBoxes g.levelIndex = some e ∧
      (attackMisses
          (g.player.calculateAttackCollisionBounds
            (Player.attackProfile g.player.currAction_).1)
          (enemyBodyBounds g.playState e) = false →
        ∃ g', Player.processCollision g = some g' ∧
          g'.score = g.score + attackBonus g.player.currAction_ ∧
          g'.player.showHit_ = true ∧
          g'.playState.pauseMovement = true ∧
          g'.playState.haltTime = 0 ∧
          g'.player.health = g.player.health ∧
          g'.playState.enemyHealth = g.playState.enemyHealth) ∧
      (attackMisses
          (g.player.calculateAttackCollisionBounds
            (Player.attackProfile g.player.currAction_).1)
          (enemyBodyBounds g.playState e) = true →
        Player.processCollision g = some g) ∧
      attackBonus PlayerAction.KickHigh = 200 ∧
      attackBonus PlayerAction.JumpDown = 250 ∧
      (g.player.currAction_ ≠ PlayerAction.KickHigh →
        g.player.currAction_ ≠ PlayerAction.JumpDown →
        attackBonus g.player.currAction_ = 100) := by
  have he : vecAt enemyBodyHitBoxes g.levelIndex = some ⟨6, 3, 3, 4, 31, 11⟩ := by
    unfold Game.levelIndex
    rw [hplay]
    decide
  refine ⟨_, he, ?_, ?_, by decide, by decide, ?_⟩
  · intro hm
    rw [processCollision_eq g _ he, hm]
    refine ⟨_, rfl, ?_, rfl, rfl, rfl, rfl, rfl⟩
    show g.score + (Player.attackProfile g.player.currAction_).2 = _
    rw [attackProfile_bonus]
  · intro hm
    rw [processCollision_eq g _ he, hm]
    rfl
  · intro h1 h2
    unfold attackBonus
    rw [if_neg h1, if_neg h2]

/-- Witness of C35: the high kick of `highKickInReach` lands and is worth 200
points; the punch of `sampleGame`, far from the enemy, misses and changes
nothing. -/
theorem processCollision_applies_bonus_witness :
    (∃ g', Player.processCollision highKickInReach = some g' ∧
      g'.score = highKickInReach.score + 200 ∧ g'.playState.pauseMovement = true ∧
      g'.playState.enemyHealth = 1) ∧
    Player.processCollision sampleGame = some sampleGame := by
  obtain ⟨e1, he1, h1, _, _⟩ := processCollision_applies_bonus highKickInReach rfl
  obtain ⟨e2, he2, _, h2, _⟩ := processCollision_applies_bonus sampleGame rfl
  have e1eq : e1 = ⟨6, 3, 3, 4, 31, 11⟩ := by
    have : (some e1 : Option CollisionInfo) = some ⟨6, 3, 3, 4, 31, 11⟩ := by
      rw [← he1]; decide
    exact Option.some.inj this
  have e2eq : e2 = ⟨6, 3, 3, 4, 31, 11⟩ := by
    have : (some e2 : Option CollisionInfo) = some ⟨6, 3, 3, 4, 31, 11⟩ := by
      rw [← he2]; decide
    exact Option.some.inj this
  subst e1eq
  subst e2eq
  obtain ⟨g', hg, hs, _, hp, _, _, hh⟩ := h1 (by decide)
  exact ⟨⟨g', hg, hs, hp, hh⟩, h2 (by decide)⟩

/-! ### The attack cooldown -/

/-- The method `setMovement` touches the two action registers only. -/
theorem setMovement_keeps (p : Player) (m : Int) :
    (p.setMovement m).health = p.health ∧ (p.setMovement m).y = p.y ∧
    (p.setMovement m).pauseTimer = p.pauseTimer ∧
    (p.setMovement m).attackActive = p.attackActive ∧
    (p.setMovement m).activateTime = p.activateTime ∧
    (p.setMovement m).jumpAcceleration_ = p.jumpAcceleration_ ∧
    (p.setMovement m).controlsLocked = p.controlsLocked ∧
    (p.setMovement m).canAttack = p.canAttack := by
  unfold Player.setMovement
  split_ifs <;> exact ⟨rfl, rfl, rfl, rfl, rfl, rfl, rfl, rfl⟩

/-- A request for an action other than JumpUp and JumpDown never leaves the
player in the air. -/
theorem setMovement_grounded (p : Player) (m : Int)
    (h10 : m ≠ PlayerAction.JumpUp) (h11 : m ≠ PlayerAction.JumpDown) :
    ¬ Airborne (p.setMovement m) := by
  unfold Airborne Player.setMovement
  by_cases hc : p.currAction_ = PlayerAction.Defeated ∧ m = 0
  · rw [if_pos hc, hc.1]
    decide
  · rw [if_neg hc]
    intro h
    rcases h with h | h
    · exact h10 h
    · exact h11 h

/-- What the direction, crouch and jump keys do to the timers, the lock and
the jump of the player. -/
theorem afterMovementKeys_vitals (g : Game) (k : Keys) :
    (Player.afterMovementKeys g k).health = g.player.health ∧
    (Player.afterMovementKeys g k).y = g.player.y ∧
    (Player.afterMovementKeys g k).pauseTimer = g.player.pauseTimer ∧
    (Player.afterMovementKeys g k).attackActive = g.player.attackActive ∧
    (Player.afterMovementKeys g k).activateTime = g.player.activateTime ∧
    (k.up = true →
      (Player.afterMovementKeys g k).currAction_ = PlayerAction.JumpUp ∧
      (Player.afterMovementKeys g k).jumpAcceleration_ = kPlayerJumpAccelFrameRate ∧
      (Player.afterMovementKeys g k).controlsLocked = true) ∧
    (k.up = false →
      ¬ Airborne (Player.afterMovementKeys g k) ∧
      (Player.afterMovementKeys g k).jumpAcceleration_ = g.player.jumpAcceleration_ ∧
      (Player.afterMovementKeys g k).controlsLocked = g.player.controlsLocked) := by
  have hs := setMovement_keeps
  have hg := setMovement_grounded
  refine ⟨?_, ?_, ?_, ?_, ?_, ?_, ?_⟩
  · unfold Player.afterMovementKeys
    dsimp only
    split_ifs <;> simp only [(hs _ _).1]
  · unfold Player.afterMovementKeys
    dsimp only
    split_ifs <;> simp only [(hs _ _).2.1]
  · unfold Player.afterMovementKeys
    dsimp only
    split_ifs <;> simp only [(hs _ _).2.2.1]
  · unfold Player.afterMovementKeys
    dsimp only
    split_ifs <;> simp only [(hs _ _).2.2.2.1]
  · unfold Player.afterMovementKeys
    dsimp only
    split_ifs <;> simp only [(hs _ _).2.2.2.2.1]
  · intro hu
    unfold Player.afterMovementKeys
    dsimp only
    rw [if_pos hu]
    exact ⟨setMovement_currAction _ 10 (by decide), rfl, rfl⟩
  · intro hu
    have hu' : ¬ k.up = true := by rw [hu]; exact Bool.false_ne_true
    unfold Player.afterMovementKeys
    dsimp only
    rw [if_neg hu']
    refine ⟨?_, ?_, ?_⟩
    · split_ifs
      all_goals exact hg _ _ (by decide) (by decide)
    · split_ifs <;> simp only [(hs _ _).2.2.2.2.2.1]
    · split_ifs <;> simp only [(hs _ _).2.2.2.2.2.2.1]

/-- In the Play phase `Player::processCollision` returns either the state it
was called on (a miss) or that state with the hit registered. -/
theorem processCollision_play_cases (g : Game) (h : g.state = GameState.Play) :
    Player.processCollision g = some g
      ∨ Player.processCollision g
          = some (Player.registerHit g (Player.attackProfile g.player.currAction_).2) := by
  have he : vecAt enemyBodyHitBoxes g.levelIndex = some ⟨6, 3, 3, 4, 31, 11⟩ := by
    unfold Game.levelIndex
    rw [h]
    decide
  rw [processCollision_eq g _ he]
  split_ifs
  · exact Or.inl rfl
  · exact Or.inr rfl

/-- The release block leaves an armed cooldown alone, and it never touches
anything but the cooldown. -/
theorem afterKeyRelease_keeps (g : Game) (k : Keys) :
    (Player.afterKeyRelease g k).level = g.level ∧
    (Player.afterKeyRelease g k).player.health = g.player.health ∧
    (Player.afterKeyRelease g k).player.pauseTimer = g.player.pauseTimer ∧
    (Player.afterKeyRelease g k).player.jumpAcceleration_ = g.player.jumpAcceleration_ ∧
    (g.player.attackActive = true → Player.afterKeyRelease g k = g) := by
  unfold Player.afterKeyRelease
  refine ⟨?_, ?_, ?_, ?_, ?_⟩
  · split_ifs <;> rfl
  · split_ifs <;> rfl
  · split_ifs <;> rfl
  · split_ifs <;> rfl
  · intro ha
    rw [if_neg]
    rw [ha]
    simp

/-- An accepted attack: with `canAttack` set and the punch or the kick key
held, `Player::handleInput` enters `acceptedAttack k`, resolves the collision
once and runs only the key-release block after it. -/
theorem handleInput_accepts (g : Game) (k : Keys)
    (hplay : g.state = GameState.Play) (hlock : g.player.controlsLocked = false)
    (hhit : g.playState.renderEnemyHit = false) (hpause : g.playState.pauseMovement = false)
    (hca : g.player.canAttack = true) (hkey : k.keyA = true ∨ k.keyS = true) :
    (Player.attackEntry g k (acceptedAttack k)).player.currAction_ = acceptedAttack k ∧
    (Player.attackEntry g k (acceptedAttack k)).score = g.score ∧
    ∃ gc, Player.processCollision (Player.attackEntry g k (acceptedAttack k)) = some gc ∧
      Player.handleInput g k = some (Player.afterKeyRelease gc k) ∧
      (Player.afterKeyRelease gc k).player.currAction_ = acceptedAttack k ∧
      (Player.afterKeyRelease gc k).player.controlsLocked = true ∧
      (Player.afterKeyRelease gc k).player.canAttack = false ∧
      (Player.afterKeyRelease gc k).score = gc.score ∧
      (Player.afterKeyRelease gc k).playState = gc.playState ∧
      (Player.afterKeyRelease gc k).player.showHit_ = gc.player.showHit_ := by
  have hmv : acceptedAttack k ≠ 0 := by
    unfold acceptedAttack
    split_ifs <;> decide
  have hentry : (Player.attackEntry g k (acceptedAttack k)).player.currAction_
      = acceptedAttack k := setMovement_currAction _ _ hmv
  obtain ⟨gc, hgc, c1, c2, c3, _, _, c6⟩ :=
    processCollision_player (Player.attackEntry g k (acceptedAttack k)) hplay
  have hcl : (Player.attackEntry g k (acceptedAttack k)).player.controlsLocked = true :=
    (setMovement_frame _ _).2.2.2.1
  have hcan : (Player.attackEntry g k (acceptedAttack k)).player.canAttack = false :=
    (setMovement_frame _ _).2.2.1
  obtain ⟨r1, r2, _, r4, r5, r6, r7, _, _, _⟩ := afterKeyRelease_frame gc k
  have hact : (Player.afterKeyRelease gc k).player.currAction_ = acceptedAttack k :=
    r4.trans (c1.trans hentry)
  have hfly : Player.flyingKickBlock (Player.afterKeyRelease gc k) k
      = some (Player.afterKeyRelease gc k) := by
    unfold Player.flyingKickBlock
    rw [if_neg]
    intro hc
    have h3 := hc.2.2.1
    rw [hact] at h3
    simp only [PlayerAction.JumpUp, PlayerAction.JumpDown] at h3
    unfold acceptedAttack at h3
    split_ifs at h3 <;> simp at h3
  refine ⟨hentry, rfl, gc, hgc, ?_, hact, r5.trans (c2.trans hcl), r6.trans (c3.trans hcan),
    r1, r2, r7⟩
  rw [handleInput_blocks g k hplay hlock hhit hpause]
  have hcan3 := afterMovementKeys_canAttack g k
  have hgcan : gc.player.canAttack = false := c3.trans hcan
  by_cases hA : k.keyA = true
  · have hacc : acceptedAttack k = if k.down then 6 else 5 := by
      simp [acceptedAttack, hA]
    have h1 : Player.doAttack { g with player := Player.afterMovementKeys g k }
        (k.keyA && (Player.afterMovementKeys g k).canAttack) (if k.down then 6 else 5)
        = some gc := by
      rw [hcan3, hca, hA]
      simp only [Bool.and_self, Player.doAttack, if_true]
      rw [← hacc]
      exact hgc
    rw [h1, Option.some_bind]
    simp [Player.doAttack, hgcan, hfly]
  · have hA' : k.keyA = false := by simpa using hA
    have hS : k.keyS = true := by
      rcases hkey with h | h
      · exact absurd h hA
      · exact h
    have h1 : Player.doAttack { g with player := Player.afterMovementKeys g k }
        (k.keyA && (Player.afterMovementKeys g k).canAttack) (if k.down then 6 else 5)
        = some { g with player := Player.afterMovementKeys g k } := by
      simp [Player.doAttack, hA']
    rw [h1, Option.some_bind]
    by_cases hdir : (k.left || k.right) = true
    · have hacc : acceptedAttack k = 9 := by
        simp only [acceptedAttack, hA', hdir]
        rfl
      have h2 : Player.doAttack { g with player := Player.afterMovementKeys g k }
          (k.keyS && (Player.afterMovementKeys g k).canAttack && (k.left || k.right)) 9
          = some gc := by
        rw [hcan3, hca, hS, hdir]
        simp only [Bool.and_self, Player.doAttack, if_true]
        rw [← hacc]
        exact hgc
      rw [h2, Option.some_bind]
      simp [Player.doAttack, hgcan, hfly]
    · have hdir' : (k.left || k.right) = false := by simpa using hdir
      have hacc : acceptedAttack k = if k.down then 8 else 7 := by
        simp only [acceptedAttack, hA', hdir']
        rfl
      have h2 : Player.doAttack { g with player := Player.afterMovementKeys g k }
          (k.keyS && (Player.afterMovementKeys g k).canAttack && (k.left || k.right)) 9
          = some { g with player := Player.afterMovementKeys g k } := by
        rw [hdir']
        simp [Player.doAttack]
      rw [h2, Option.some_bind]
      have h3 : Player.doAttack { g with player := Player.afterMovementKeys g k }
          (k.keyS && (Player.afterMovementKeys g k).canAttack) (if k.down then 8 else 7)
          = some gc := by
        rw [hcan3, hca, hS]
        simp only [Bool.and_self, Player.doAttack, if_true]
        rw [← hacc]
        exact hgc
      rw [h3, Option.some_bind]
      exact hfly

/-- What one `Player::handleInput` call can do.  It always returns; phase,
level, both healths, the height of the player, the stun counter and the
enemy-hit flag are as before.  Either nothing changed at all, or the controls
were free and no hit-freeze was on; then a player who is in the air
afterwards has just begun a jump (JumpUp, acceleration at its start value,
controls locked), and a hit-freeze begun in the same call by the flying kick
needs the player at or above the flying-kick height.  While `canAttack` is
false it stays false, the controls are locked afterwards only if they were
before or a jump has begun, and an armed cooldown stays armed with its
count. -/
theorem handleInput_effect (g : Game) (k : Keys) :
    ∃ g', Player.handleInput g k = some g' ∧
      g'.state = g.state ∧ g'.level = g.level ∧
      g'.player.health = g.player.health ∧ g'.player.y = g.player.y ∧
      g'.player.pauseTimer = g.player.pauseTimer ∧
      g'.playState.enemyHealth = g.playState.enemyHealth ∧
      g'.playState.renderEnemyHit = g.playState.renderEnemyHit ∧
      (g' = g ∨
        (g.player.controlsLocked = false ∧ g.playState.pauseMovement = false ∧
          (Airborne g'.player →
            g'.player.currAction_ = PlayerAction.JumpUp ∧
            g'.player.jumpAcceleration_ = kPlayerJumpAccelFrameRate ∧
            g'.player.controlsLocked = true ∧
            (g'.playState.pauseMovement = true → g.player.y ≤ kPlayerJumpHeight + 23)))) ∧
      (g.player.canAttack = false →
        g'.player.canAttack = false ∧
        (g'.player.controlsLocked = true →
          g.player.controlsLocked = true ∨ Airborne g'.player) ∧
        (g.player.attackActive = true →
          g'.player.attackActive = true ∧
          g'.player.activateTime = g.player.activateTime)) := by
  by_cases hblock : g.state ≠ GameState.Play ∨ g.player.controlsLocked
      ∨ g.playState.renderEnemyHit ∨ g.playState.pauseMovement
  · exact ⟨g, handleInput_guarded g k hblock, rfl, rfl, rfl, rfl, rfl, rfl, rfl, Or.inl rfl,
      fun hc => ⟨hc, fun hl => Or.inl hl, fun ha => ⟨ha, rfl⟩⟩⟩
  · have hplay : g.state = GameState.Play := by
      by_contra hc
      exact hblock (Or.inl hc)
    have hlock : g.player.controlsLocked = false := by
      cases hc : g.player.controlsLocked
      · rfl
      · exact absurd (Or.inr (Or.inl hc)) hblock
    have hhit : g.playState.renderEnemyHit = false := by
      cases hc : g.playState.renderEnemyHit
      · rfl
      · exact absurd (Or.inr (Or.inr (Or.inl hc))) hblock
    have hpause : g.playState.pauseMovement = false := by
      cases hc : g.playState.pauseMovement
      · rfl
      · exact absurd (Or.inr (Or.inr (Or.inr hc))) hblock
    obtain ⟨m1, m2, m3, m4, m5, m6, m7⟩ := afterMovementKeys_vitals g k
    have mc := afterMovementKeys_canAttack g k
    by_cases hno : g.player.canAttack = false ∨ (k.keyA = false ∧ k.keyS = false)
    · -- no attack is accepted
      rw [handleInput_no_attack g k hplay hlock hhit hpause hno]
      obtain ⟨r1, r2, r3, r4, r5, r6, r7, r8, r9, r10⟩ :=
        afterKeyRelease_frame { g with player := Player.afterMovementKeys g k } k
      obtain ⟨q1, q2, q3, q4, q5⟩ :=
        afterKeyRelease_keeps { g with player := Player.afterMovementKeys g k } k
      have hair : Airborne
          (Player.afterKeyRelease { g with player := Player.afterMovementKeys g k } k).player →
          (Player.afterKeyRelease { g with player := Player.afterMovementKeys g k } k).player.currAction_
            = PlayerAction.JumpUp ∧
          (Player.afterKeyRelease { g with player := Player.afterMovementKeys g k }
            k).player.jumpAcceleration_ = kPlayerJumpAccelFrameRate ∧
          (Player.afterKeyRelease { g with player := Player.afterMovementKeys g k }
            k).player.controlsLocked = true := by
        intro ha
        unfold Airborne at ha
        rw [r4] at ha
        cases hu : k.up
        · exact absurd ha (m7 hu).1
        · rw [r4, q4, r5]
          exact m6 hu
      have hcan : g.player.canAttack = false →
          (Player.afterKeyRelease { g with player := Player.afterMovementKeys g k }
            k).player.canAttack = false ∧
          ((Player.afterKeyRelease { g with player := Player.afterMovementKeys g k }
              k).player.controlsLocked = true →
            g.player.controlsLocked = true
              ∨ Airborne (Player.afterKeyRelease
                  { g with player := Player.afterMovementKeys g k } k).player) ∧
          (g.player.attackActive = true →
            (Player.afterKeyRelease { g with player := Player.afterMovementKeys g k }
              k).player.attackActive = true ∧
            (Player.afterKeyRelease { g with player := Player.afterMovementKeys g k }
              k).player.activateTime = g.player.activateTime) := by
        intro hc
        refine ⟨by rw [r6]; exact mc.trans hc, ?_, ?_⟩
        · intro hl
          rw [r5] at hl
          cases hu : k.up
          · exact Or.inl ((m7 hu).2.2 ▸ hl)
          · right
            unfold Airborne
            rw [r4]
            exact Or.inl (m6 hu).1
        · intro ha
          rw [q5 (m4.trans ha)]
          exact ⟨m4.trans ha, m5⟩
      unfold Player.flyingKickBlock
      by_cases hfly : k.keyS = true
          ∧ (Player.afterKeyRelease { g with player := Player.afterMovementKeys g k }
              k).player.canFlyKick_ = true
          ∧ ((Player.afterKeyRelease { g with player := Player.afterMovementKeys g k }
                k).player.currAction_ = PlayerAction.JumpUp
            ∨ (Player.afterKeyRelease { g with player := Player.afterMovementKeys g k }
                k).player.currAction_ = PlayerAction.JumpDown)
          ∧ (Player.afterKeyRelease { g with player := Player.afterMovementKeys g k }
              k).player.y ≤ kPlayerJumpHeight + 23
      · rw [if_pos hfly]
        have hy : g.player.y ≤ kPlayerJumpHeight + 23 := by
          have := hfly.2.2.2
          rw [r8] at this
          exact m2 ▸ this
        rcases processCollision_play_cases
          { Player.afterKeyRelease { g with player := Player.afterMovementKeys g k } k with
            player :=
              { (Player.afterKeyRelease { g with player := Player.afterMovementKeys g k }
                  k).player with
                isFlyingKick_ := true, canFlyKick_ := false, stunJumpTimer_ := 0 } }
          (r3.trans hplay) with hc | hc
        · rw [hc]
          refine ⟨_, rfl, r3, q1, q2.trans m1, r8.trans m2, q3.trans m3, ?_, ?_, Or.inr ?_, ?_⟩
          · show (Player.afterKeyRelease _ k).playState.enemyHealth = _
            rw [r2]
          · show (Player.afterKeyRelease _ k).playState.renderEnemyHit = _
            rw [r2]
          · refine ⟨hlock, hpause, fun ha => ?_⟩
            obtain ⟨a1, a2, a3⟩ := hair ha
            exact ⟨a1, a2, a3, fun _ => hy⟩
          · exact hcan
        · rw [hc]
          refine ⟨_, rfl, r3, q1, q2.trans m1, r8.trans m2, q3.trans m3, ?_, ?_, Or.inr ?_, ?_⟩
          · show (Player.afterKeyRelease _ k).playState.enemyHealth = _
            rw [r2]
          · show (Player.afterKeyRelease _ k).playState.renderEnemyHit = _
            rw [r2]
          · refine ⟨hlock, hpause, fun ha => ?_⟩
            obtain ⟨a1, a2, a3⟩ := hair ha
            exact ⟨a1, a2, a3, fun _ => hy⟩
          · exact hcan
      · rw [if_neg hfly]
        refine ⟨_, rfl, r3, q1, q2.trans m1, r8.trans m2, q3.trans m3, ?_, ?_, Or.inr ?_, hcan⟩
        · rw [r2]
        · rw [r2]
        · refine ⟨hlock, hpause, fun ha => ?_⟩
          obtain ⟨a1, a2, a3⟩ := hair ha
          refine ⟨a1, a2, a3, fun hp => ?_⟩
          rw [r2] at hp
          exact absurd (hp.symm.trans hpause) (by decide)
    · -- an attack is accepted
      have hcan : g.player.canAttack = true := by
        cases hc : g.player.canAttack
        · exact absurd (Or.inl hc) hno
        · rfl
      have hkey : k.keyA = true ∨ k.keyS = true := by
        cases ha : k.keyA
        · cases hs : k.keyS
          · exact absurd (Or.inr ⟨ha, hs⟩) hno
          · exact Or.inr rfl
        · exact Or.inl rfl
      obtain ⟨e1, _, gc, hgc, hin, f1, f2, f3, _, f5, _⟩ :=
        handleInput_accepts g k hplay hlock hhit hpause hcan hkey
      have hmv : acceptedAttack k ≠ PlayerAction.JumpUp
          ∧ acceptedAttack k ≠ PlayerAction.JumpDown := by
        unfold acceptedAttack
        split_ifs <;> decide
      obtain ⟨s1, s2, s3, _, _, _, _, _⟩ := setMovement_keeps
        { Player.afterMovementKeys g k with controlsLocked := true, canAttack := false }
        (acceptedAttack k)
      obtain ⟨r1, r2, r3, r4, r5, r6, r7, r8, r9, r10⟩ := afterKeyRelease_frame gc k
      obtain ⟨q1, q2, q3, q4, q5⟩ := afterKeyRelease_keeps gc k
      have hnair : ¬ Airborne (Player.afterKeyRelease gc k).player := by
        unfold Airborne
        rw [f1]
        intro hc
        rcases hc with hc | hc
        · exact hmv.1 hc
        · exact hmv.2 hc
      have hcanf : g.player.canAttack = false →
          (Player.afterKeyRelease gc k).player.canAttack = false ∧
          ((Player.afterKeyRelease gc k).player.controlsLocked = true →
            g.player.controlsLocked = true ∨ Airborne (Player.afterKeyRelease gc k).player) ∧
          (g.player.attackActive = true →
            (Player.afterKeyRelease gc k).player.attackActive = true ∧
            (Player.afterKeyRelease gc k).player.activateTime = g.player.activateTime) :=
        fun hc => absurd (hc.symm.trans hcan) (by decide)
      rw [hin]
      rcases processCollision_play_cases (Player.attackEntry g k (acceptedAttack k)) hplay
        with hc | hc
      · rw [hc, Option.some.injEq] at hgc
        subst hgc
        refine ⟨_, rfl, r3, q1, ?_, ?_, ?_, ?_, ?_, Or.inr ⟨hlock, hpause, fun ha => absurd ha hnair⟩,
          hcanf⟩
        · rw [q2]
          exact s1.trans m1
        · rw [r8]
          exact s2.trans m2
        · rw [q3]
          exact s3.trans m3
        · rw [r2]
          rfl
        · rw [r2]
          rfl
      · rw [hc, Option.some.injEq] at hgc
        subst hgc
        refine ⟨_, rfl, r3, q1, ?_, ?_, ?_, ?_, ?_, Or.inr ⟨hlock, hpause, fun ha => absurd ha hnair⟩,
          hcanf⟩
        · rw [q2]
          exact s1.trans m1
        · rw [r8]
          exact s2.trans m2
        · rw [q3]
          exact s3.trans m3
        · rw [r2]
          rfl
        · rw [r2]
          rfl

/-- While the controls are locked, `Player::handleInput` calls do nothing. -/
theorem inputs_locked (ks : List Keys) (g : Game) (h : g.player.controlsLocked = true) :
    Player.inputs ks g = some g := by
  induction ks with
  | nil => rfl
  | cons k ks ih =>
    show (Player.handleInput g k).bind (Player.inputs ks) = some g
    rw [handleInput_guarded g k (Or.inr (Or.inl h))]
    exact ih

/-- A cooldown that runs with `canAttack` false survives any `handleInput`
calls: `canAttack` stays false, the cooldown stays armed with its count, the
stun counter and the enemy-hit flag stay, and the controls are locked
afterwards only if they were before or the player has begun a jump. -/
theorem inputs_keep_cooldown (ks : List Keys) : ∀ (g : Game),
    g.player.canAttack = false → g.player.attackActive = true →
    (g.player.controlsLocked = true → Airborne g.player) →
    ∃ g', Player.inputs ks g = some g' ∧
      g'.player.canAttack = false ∧ g'.player.attackActive = true ∧
      g'.player.activateTime = g.player.activateTime ∧
      g'.player.pauseTimer = g.player.pauseTimer ∧
      g'.playState.renderEnemyHit = g.playState.renderEnemyHit ∧
      (g'.player.controlsLocked = true → Airborne g'.player) := by
  induction ks with
  | nil =>
    intro g hc ha hl
    exact ⟨g, rfl, hc, ha, rfl, rfl, rfl, hl⟩
  | cons k ks ih =>
    intro g hc ha hl
    obtain ⟨g1, h1, _, _, _, _, e5, _, e7, _, e9⟩ := handleInput_effect g k
    obtain ⟨c1, c2, c3⟩ := e9 hc
    obtain ⟨c4, c5⟩ := c3 ha
    have hl1 : g1.player.controlsLocked = true → Airborne g1.player := by
      intro hk
      rcases c2 hk with h | h
      · have heq : g1 = g := by
          rw [handleInput_guarded g k (Or.inr (Or.inl h)), Option.some.injEq] at h1
          exact h1.symm
        rw [heq]
        exact hl h
      · exact h
    obtain ⟨g', h2, d1, d2, d3, d4, d5, d6⟩ := ih g1 c1 c4 hl1
    refine ⟨g', ?_, d1, d2, d3.trans c5, d4.trans e5, d5.trans e7, d6⟩
    show (Player.handleInput g k).bind (Player.inputs ks) = some g'
    rw [h1]
    exact h2

/-- The `Player::onTimeTick` call on which an armed cooldown counts its
second tick: `canAttack` is true again and the cooldown is disarmed.  The
player is free or in a jump, so the stun block does not re-arm the
cooldown. -/
theorem onTimeTick_cooldown_expires (g : Game) (k : Keys)
    (ha : g.player.attackActive = true)
    (ht : g.player.activateTime + 1 = kPlayerAttackCooldownFrames)
    (hl : g.player.controlsLocked = true → Airborne g.player) :
    (Player.onTimeTick g k).player.canAttack = true ∧
    (Player.onTimeTick g k).player.attackActive = false ∧
    (Player.onTimeTick g k).player.activateTime = 0 := by
  unfold Player.onTimeTick
  try dsimp only
  by_cases hc : g.player.controlsLocked = true ∧ (!g.playState.renderEnemyHit) = true
  · have hn : ¬ (g.player.currAction_ ≠ PlayerAction.JumpUp
        ∧ g.player.currAction_ ≠ PlayerAction.JumpDown) := by
      intro hcc
      rcases hl hc.1 with h | h
      · exact hcc.1 h
      · exact hcc.2 h
    rw [if_pos hc, if_neg hn]
    by_cases hf : g.player.isFlyingKick_ = true
    · rw [if_pos hf]
      try dsimp only
      by_cases hs : g.player.stunJumpTimer_ + 1 = 2
      · rw [if_pos hs]
        try dsimp only
        rw [if_pos ha, if_pos ht]
        exact ⟨rfl, rfl, rfl⟩
      · rw [if_neg hs]
        try dsimp only
        rw [if_pos ha, if_pos ht]
        exact ⟨rfl, rfl, rfl⟩
    · rw [if_neg hf, if_pos ha, if_pos ht]
      exact ⟨rfl, rfl, rfl⟩
  · rw [if_neg hc, if_pos ha, if_pos ht]
    exact ⟨rfl, rfl, rfl⟩

/-- A `Player::onTimeTick` call on a locked, grounded player whose stun
counter does not reach 3 and whose cooldown is not armed only advances the
stun counter. -/
theorem onTimeTick_stun_only (g : Game) (k : Keys)
    (hlock : g.player.controlsLocked = true) (hhit : g.playState.renderEnemyHit = false)
    (hgr : ¬ Airborne g.player) (hc : g.player.pauseTimer + 1 ≠ 3)
    (ha : g.player.attackActive = false) :
    Player.onTimeTick g k
      = { g with player := { g.player with pauseTimer := g.player.pauseTimer + 1 } } := by
  have hgr2 : g.player.currAction_ ≠ PlayerAction.JumpUp
      ∧ g.player.currAction_ ≠ PlayerAction.JumpDown :=
    ⟨fun h => hgr (Or.inl h), fun h => hgr (Or.inr h)⟩
  unfold Player.onTimeTick
  try dsimp only
  rw [if_pos (show g.player.controlsLocked = true ∧ (!g.playState.renderEnemyHit) = true from
      ⟨hlock, by rw [hhit]; rfl⟩), if_pos hgr2, if_neg hc]
  try dsimp only
  rw [if_neg (by rw [ha]; exact Bool.false_ne_true)]

/-- The `Player::onTimeTick` call that brings the stun counter of a locked,
grounded player to 3 releases the lock and arms the cooldown, which counts
its first tick in the same call; `canAttack` is not touched. -/
theorem onTimeTick_unlock_arms (g : Game) (k : Keys)
    (hlock : g.player.controlsLocked = true) (hhit : g.playState.renderEnemyHit = false)
    (hgr : ¬ Airborne g.player) (hc : g.player.pauseTimer + 1 = 3) :
    (Player.onTimeTick g k).player.controlsLocked = false ∧
    (Player.onTimeTick g k).player.attackActive = true ∧
    (Player.onTimeTick g k).player.activateTime = 1 ∧
    (Player.onTimeTick g k).player.pauseTimer = 0 ∧
    (Player.onTimeTick g k).player.canAttack = g.player.canAttack := by
  have hgr2 : g.player.currAction_ ≠ PlayerAction.JumpUp
      ∧ g.player.currAction_ ≠ PlayerAction.JumpDown :=
    ⟨fun h => hgr (Or.inl h), fun h => hgr (Or.inr h)⟩
  obtain ⟨_, _, s3, s4, s5, _, s7, s8⟩ := setMovement_keeps
    { g.player with pauseTimer := 0, controlsLocked := false, showHit_ := false,
                    activateTime := 0, attackActive := true } 4
  obtain ⟨_, _, t3, t4, t5, _, t7, t8⟩ := setMovement_keeps
    { g.player with pauseTimer := 0, controlsLocked := false, showHit_ := false,
                    activateTime := 0, attackActive := true } 0
  unfold Player.onTimeTick
  try dsimp only
  rw [if_pos (show g.player.controlsLocked = true ∧ (!g.playState.renderEnemyHit) = true from
      ⟨hlock, by rw [hhit]; rfl⟩), if_pos hgr2, if_pos hc]
  try dsimp only
  by_cases hk : k.down = true ∧ g.player.prevAction_ = PlayerAction.Crouch
  · rw [if_pos hk, if_pos s4, s5]
    try dsimp only
    rw [if_neg (by decide)]
    exact ⟨s7, s4, rfl, s3, s8⟩
  · rw [if_neg hk, if_pos t4, t5]
    try dsimp only
    rw [if_neg (by decide)]
    exact ⟨t7, t4, rfl, t3, t8⟩

/-- C36: let a grounded attack have been accepted (controls locked,
`canAttack` false, action not a jump) in a state with the stun counter at 0,
the cooldown not armed and no enemy hit on screen.  Whatever keys the
`handleInput` calls between the ticks see and whatever the ticks see of the
Down key, `canAttack` is false after the first, second and third
`Player::onTimeTick` call and still false right before the fourth, and true
after the fourth.  The cooldown is not armed after the first two ticks; the
third tick releases the lock and arms the cooldown, which has counted 1 of
its `kPlayerAttackCooldownFrames` = 2 ticks when that call ends, and the
fourth tick disarms it. -/
theorem attack_cooldown_four_ticks (g : Game) (ks1 ks2 ks3 ks4 : List Keys)
    (k1 k2 k3 k4 : Keys)
    (hlock : g.player.controlsLocked = true) (hcan : g.player.canAttack = false)
    (hstun : g.player.pauseTimer = 0) (harm : g.player.attackActive = false)
    (hgr : ¬ Airborne g.player) (hhit : g.playState.renderEnemyHit = false) :
    ∃ g1 g2 g3 g3' g4,
      Player.inputsThenTick ks1 k1 g = some g1 ∧
      Player.inputsThenTick ks2 k2 g1 = some g2 ∧
      Player.inputsThenTick ks3 k3 g2 = some g3 ∧
      Player.inputs ks4 g3 = some g3' ∧
      Player.inputsThenTick ks4 k4 g3 = some g4 ∧
      (g1.player.canAttack = false ∧ g1.player.attackActive = false) ∧
      (g2.player.canAttack = false ∧ g2.player.attackActive = false) ∧
      (g3.player.canAttack = false ∧ g3.player.attackActive = true ∧
        g3.player.activateTime = 1 ∧ g3.player.controlsLocked = false) ∧
      g3'.player.canAttack = false ∧
      (g4.player.canAttack = true ∧ g4.player.attackActive = false) ∧
      kPlayerAttackCooldownFrames = 2 := by
  -- first tick
  have e1 : Player.inputsThenTick ks1 k1 g
      = some { g with player := { g.player with pauseTimer := g.player.pauseTimer + 1 } } := by
    unfold Player.inputsThenTick
    rw [inputs_locked ks1 g hlock, Option.map_some',
      onTimeTick_stun_only g k1 hlock hhit hgr (by rw [hstun]; decide) harm]
  -- second tick
  have e2 : Player.inputsThenTick ks2 k2
      { g with player := { g.player with pauseTimer := g.player.pauseTimer + 1 } }
      = some { g with player :=
          { g.player with pauseTimer := g.player.pauseTimer + 1 + 1 } } := by
    unfold Player.inputsThenTick
    rw [inputs_locked ks2
        { g with player := { g.player with pauseTimer := g.player.pauseTimer + 1 } } hlock,
      Option.map_some',
      onTimeTick_stun_only
        { g with player := { g.player with pauseTimer := g.player.pauseTimer + 1 } } k2
        hlock hhit hgr (by show g.player.pauseTimer + 1 + 1 ≠ 3; rw [hstun]; decide) harm]
  -- third tick
  have e3 : Player.inputsThenTick ks3 k3
      { g with player := { g.player with pauseTimer := g.player.pauseTimer + 1 + 1 } }
      = some (Player.onTimeTick
          { g with player := { g.player with pauseTimer := g.player.pauseTimer + 1 + 1 } }
          k3) := by
    unfold Player.inputsThenTick
    rw [inputs_locked ks3
        { g with player := { g.player with pauseTimer := g.player.pauseTimer + 1 + 1 } } hlock,
      Option.map_some']
  obtain ⟨u1, u2, u3, u4, u5⟩ := onTimeTick_unlock_arms
    { g with player := { g.player with pauseTimer := g.player.pauseTimer + 1 + 1 } } k3
    hlock hhit hgr (by show g.player.pauseTimer + 1 + 1 + 1 = 3; rw [hstun]; rfl)
  -- the frames before the fourth tick, and the fourth tick
  obtain ⟨g3', hin, d1, d2, d3, _, _, d6⟩ := inputs_keep_cooldown ks4
    (Player.onTimeTick
      { g with player := { g.player with pauseTimer := g.player.pauseTimer + 1 + 1 } } k3)
    (u5.trans hcan) u2 (fun hl => absurd (hl.symm.trans u1) (by decide))
  obtain ⟨c1, c2, _⟩ := onTimeTick_cooldown_expires g3' k4 d2
    (by rw [d3, u3]; rfl) d6
  refine ⟨_, _, _, g3', Player.onTimeTick g3' k4, e1, e2, e3, hin, ?_, ⟨hcan, harm⟩,
    ⟨hcan, harm⟩, ⟨u5.trans hcan, u2, u3, u1⟩, d1, ⟨c1, c2⟩, rfl⟩
  unfold Player.inputsThenTick
  rw [hin, Option.map_some']

/-- Witness of C36: the punch of `lockedAfterPunch`, with a player who
hammers the keys in every frame. -/
theorem attack_cooldown_four_ticks_witness :
    ∃ g3 g4,
      ((Player.inputsThenTick mashingKeys downKey lockedAfterPunch).bind
        (Player.inputsThenTick mashingKeys noKeys)).bind
          (Player.inputsThenTick mashingKeys downKey) = some g3 ∧
      Player.inputsThenTick mashingKeys noKeys g3 = some g4 ∧
      g3.player.canAttack = false ∧ g3.player.attackActive = true ∧
      g4.player.canAttack = true := by
  obtain ⟨g1, g2, g3, g3', g4, h1, h2, h3, _, h4, _, _, c3, _, c4, _⟩ :=
    attack_cooldown_four_ticks lockedAfterPunch mashingKeys mashingKeys mashingKeys mashingKeys
      downKey noKeys downKey noKeys rfl rfl rfl rfl (by unfold Airborne; decide) rfl
  refine ⟨g3, g4, ?_, h4, c3.1, c3.2.1, c4.1⟩
  rw [h1, Option.some_bind, h2, Option.some_bind, h3]

/-! ### The length of a retreat run step -/

/-- C37: the unblocked retreat steps of `retreatFromCentre` (to the right)
and `retreatLeftFromCentre` (to the left) increment the run counter by 1 and
displace the enemy from x = 150 by `EnemyRunSpriteFPS` = 5 pixels, to 155 and
145, not by `EnemyRunSpeed` = 3.  The blocked step of `retreatAtWall` leaves
`enemyX` and the run counter alone and reverses the retreat. -/
theorem retreat_step_moves_five :
    ((PlayState.updateEnemyMovementState retreatFromCentre 0).playState.enemyX = 155 ∧
      (PlayState.updateEnemyMovementState retreatFromCentre 0).playState.enemyX
        = retreatFromCentre.playState.enemyX + EnemyRunSpriteFPS ∧
      (PlayState.updateEnemyMovementState retreatFromCentre 0).playState.enemyX
        ≠ retreatFromCentre.playState.enemyX + EnemyRunSpeed ∧
      (PlayState.updateEnemyMovementState retreatFromCentre 0).playState.runCounter
        = retreatFromCentre.playState.runCounter + 1) ∧
    ((PlayState.updateEnemyMovementState retreatLeftFromCentre 0).playState.enemyX = 145 ∧
      (PlayState.updateEnemyMovementState retreatLeftFromCentre 0).playState.enemyX
        ≠ retreatLeftFromCentre.playState.enemyX - EnemyRunSpeed ∧
      (PlayState.updateEnemyMovementState retreatLeftFromCentre 0).playState.runCounter
        = retreatLeftFromCentre.playState.runCounter + 1) ∧
    ((PlayState.updateEnemyMovementState retreatAtWall 0).playState.enemyX
        = retreatAtWall.playState.enemyX ∧
      (PlayState.updateEnemyMovementState retreatAtWall 0).playState.runCounter
        = retreatAtWall.playState.runCounter ∧
      (PlayState.updateEnemyMovementState retreatAtWall 0).playState.enemyMoveState
        = MoveState.RetreatRunningLeft) := by
  refine ⟨⟨?_, ?_, ?_, ?_⟩, ⟨?_, ?_, ?_⟩, ⟨?_, ?_, ?_⟩⟩ <;> decide

/-! ### No damage from an enemy that does not attack -/

/-- With a move other than Kick or Punch the collision test fails as soon as
one coordinate of the player is not negative. -/
theorem isCollidedWithPlayer_idle (g : Game)
    (hk : g.playState.enemyCurrentMove ≠ EnemyAction.Kick)
    (hp : g.playState.enemyCurrentMove ≠ EnemyAction.Punch)
    (hpos : 0 ≤ g.player.x ∨ 0 ≤ g.player.y) :
    PlayState.isCollidedWithPlayer g = some false := by
  have hb : PlayState.enemyAttackBounds g = some { x := 0, y := 0, w := 0, h := 0 } := by
    unfold PlayState.enemyAttackBounds
    cases hm : g.playState.enemyCurrentMove <;> first | rfl | exact absurd hm hk | exact absurd hm hp
  unfold PlayState.isCollidedWithPlayer
  rw [hb]
  dsimp only [Option.some_bind]
  rw [if_pos]
  cases hpos with
  | inl hx =>
    right
    left
    show (0 : Int) - 1 + 0 < g.player.x
    omega
  | inr hy =>
    right
    right
    right
    show (0 : Int) - 1 + 0 < g.player.y
    omega

/-- The `switch` of `renderEnemy` for an enemy that neither kicks nor
punches: it advances sprites at most and leaves the player and the play
state alone. -/
theorem renderEnemySwitch_idle (g g' : Game)
    (hk : g.playState.enemyCurrentMove ≠ EnemyAction.Kick)
    (hp : g.playState.enemyCurrentMove ≠ EnemyAction.Punch)
    (hpos : 0 ≤ g.player.x ∨ 0 ≤ g.player.y)
    (hr : PlayState.renderEnemySwitch g = some g') :
    g'.player = g.player ∧ g'.playState = g.playState ∧ g'.level = g.level ∧
    g'.state = g.state ∧ g'.score = g.score := by
  unfold PlayState.renderEnemySwitch at hr
  cases hv : vecAt enemies (g.level - 1) with
  | none =>
    rw [hv] at hr
    exact absurd hr (by simp)
  | some nm =>
    rw [hv] at hr
    simp only [Option.some_bind] at hr
    have hdefault : ∀ g2 : Game, g2.player = g.player → g2.playState = g.playState →
        g2.level = g.level → g2.state = g.state → g2.score = g.score →
        (PlayState.isCollidedWithPlayer g2).map
          (fun hit => if hit = true then PlayState.processCollisionWithPlayer g2 else g2)
          = some g' →
        g'.player = g.player ∧ g'.playState = g.playState ∧ g'.level = g.level ∧
        g'.state = g.state ∧ g'.score = g.score := by
      intro g2 e1 e2 e3 e4 e5 h
      rw [isCollidedWithPlayer_idle g2 (by rw [e2]; exact hk) (by rw [e2]; exact hp)
        (by rw [e1]; exact hpos)] at h
      simp only [Option.map_some', Bool.false_eq_true, if_false, Option.some.injEq] at h
      rw [← h]
      exact ⟨e1, e2, e3, e4, e5⟩
    cases hm : g.playState.enemyCurrentMove <;> rw [hm] at hr <;> dsimp only at hr
    case Kick => exact absurd hm hk
    case Punch => exact absurd hm hp
    case MoveLeft =>
      rw [Option.some.injEq] at hr
      rw [← hr]
      exact ⟨rfl, rfl, rfl, rfl, rfl⟩
    case Defeated =>
      rw [Option.some.injEq] at hr
      rw [← hr]
      exact ⟨rfl, rfl, rfl, rfl, rfl⟩
    case Pause =>
      cases hs : vecAt enemySprites g.playState.enemyRandomAttack with
      | none =>
        rw [hs] at hr
        exact absurd hr (by simp)
      | some s =>
        rw [hs] at hr
        simp only [Option.map_some', Option.some.injEq] at hr
        rw [← hr]
        exact ⟨rfl, rfl, rfl, rfl, rfl⟩
    all_goals
      refine hdefault _ ?_ ?_ ?_ ?_ ?_ hr <;> split_ifs <;> rfl

/-- The name lookup `enemies[level - 1]` succeeds for the levels 1 to 5. -/
theorem vecAt_enemies (l : Int) (h1 : 1 ≤ l) (h5 : l ≤ 5) :
    ∃ nm, vecAt enemies (l - 1) = some nm := by
  have hc : l = 1 ∨ l = 2 ∨ l = 3 ∨ l = 4 ∨ l = 5 := by omega
  rcases hc with rfl | rfl | rfl | rfl | rfl <;> exact ⟨_, rfl⟩

/-- C38: whenever the enemy's current move is neither Punch nor Kick and the
player's x or y is not negative, `PlayState::isCollidedWithPlayer` returns
false.  The `switch` of `renderEnemy` then leaves the player and the play
state as they are (it does not call `processCollisionWithPlayer`, which would
set the enemy-hit flag and the Pause move), and `renderEnemy` as a whole
leaves the player, with the health, the enemy-hit flag and the current move
unchanged.  At a level from 1 to 5 and with a move other than Pause the call
returns. -/
theorem idle_enemy_cannot_hit (g : Game)
    (hk : g.playState.enemyCurrentMove ≠ EnemyAction.Kick)
    (hp : g.playState.enemyCurrentMove ≠ EnemyAction.Punch)
    (hpos : 0 ≤ g.player.x ∨ 0 ≤ g.player.y) :
    PlayState.isCollidedWithPlayer g = some false ∧
    (∀ g', PlayState.renderEnemySwitch g = some g' →
      g'.player = g.player ∧ g'.playState = g.playState) ∧
    (∀ g', PlayState.renderEnemy g = some g' →
      g'.player = g.player ∧ g'.player.health = g.player.health ∧
      g'.playState.renderEnemyHit = g.playState.renderEnemyHit ∧
      g'.playState.enemyCurrentMove = g.playState.enemyCurrentMove) ∧
    (1 ≤ g.level → g.level ≤ 5 → g.playState.enemyCurrentMove ≠ EnemyAction.Pause →
      ∃ g', PlayState.renderEnemy g = some g') := by
  refine ⟨isCollidedWithPlayer_idle g hk hp hpos, ?_, ?_, ?_⟩
  · intro g' hr
    exact ⟨(renderEnemySwitch_idle g g' hk hp hpos hr).1,
      (renderEnemySwitch_idle g g' hk hp hpos hr).2.1⟩
  · intro g' hr
    unfold PlayState.renderEnemy at hr
    cases hs : PlayState.renderEnemySwitch g with
    | none =>
      rw [hs] at hr
      exact absurd hr (by simp)
    | some g1 =>
      rw [hs, Option.map_some', Option.some.injEq] at hr
      obtain ⟨e1, e2, _⟩ := renderEnemySwitch_idle g g1 hk hp hpos hs
      obtain ⟨f1, _, f3, _, f5⟩ := flipChecker_frame g1
      rw [← hr]
      refine ⟨f5.trans e1, ?_, ?_, ?_⟩
      · rw [f5, e1]
      · rw [f3, e2]
      · rw [f1, e2]
  · intro h1 h5 hpause
    obtain ⟨nm, hnm⟩ := vecAt_enemies g.level h1 h5
    unfold PlayState.renderEnemy PlayState.renderEnemySwitch
    rw [hnm]
    simp only [Option.some_bind]
    have hdefault : ∀ g2 : Game, g2.player = g.player → g2.playState = g.playState →
        ∃ g', ((PlayState.isCollidedWithPlayer g2).map
          (fun hit => if hit = true then PlayState.processCollisionWithPlayer g2 else g2)).map
            PlayState.flipChecker = some g' := by
      intro g2 e1 e2
      rw [isCollidedWithPlayer_idle g2 (by rw [e2]; exact hk) (by rw [e2]; exact hp)
        (by rw [e1]; exact hpos)]
      exact ⟨_, rfl⟩
    cases hm : g.playState.enemyCurrentMove <;> dsimp only
    case Kick => exact absurd hm hk
    case Punch => exact absurd hm hp
    case Pause => exact absurd hm hpause
    case MoveLeft => exact ⟨_, rfl⟩
    case Defeated => exact ⟨_, rfl⟩
    all_goals
      refine hdefault _ ?_ ?_ <;> split_ifs <;> rfl

/-- Witness of C38: the idle enemy of the first frame of a round. -/
theorem idle_enemy_cannot_hit_witness :
    PlayState.isCollidedWithPlayer sampleGame = some false ∧
    ∃ g', PlayState.renderEnemy sampleGame = some g' ∧ g'.player.health = 9 ∧
      g'.playState.renderEnemyHit = false := by
  have h := idle_enemy_cannot_hit sampleGame (by decide) (by decide) (Or.inl (by decide))
  obtain ⟨g', hg⟩ := h.2.2.2 (by decide) (by decide) (by decide)
  exact ⟨h.1, g', hg, (h.2.2.1 g' hg).2.1, (h.2.2.1 g' hg).2.2.1⟩

/-! ### The vitals of a round, operation by operation -/

/-- Two states with the same player, enemy health and player-hit freeze have
the same vitals. -/
theorem vitals_congr (g g' : Game) (hp : g'.player = g.player)
    (he : g'.playState.enemyHealth = g.playState.enemyHealth)
    (hm : g'.playState.pauseMovement = g.playState.pauseMovement) :
    g'.vitals = g.vitals := by
  unfold Game.vitals
  rw [hp, he, hm]

/-- The facing flip keeps the enemy health and the freeze flag. -/
theorem flipEnemySprites_vitals (st : PlayState) :
    st.flipEnemySprites.enemyHealth = st.enemyHealth ∧
    st.flipEnemySprites.pauseMovement = st.pauseMovement := by
  unfold PlayState.flipEnemySprites
  dsimp only
  split_ifs <;> exact ⟨rfl, rfl⟩

/-- Vitals after `PlayState::init`: the enemy has full health and no freeze is
on. -/
theorem init_vitals (g : Game) :
    (PlayState.init g).vitals
      = { g.vitals with enemyHealth := DEFAULT_HEALTH, paused := false } := by
  obtain ⟨_, _, r3, _, _, r6, _, _⟩ := reset_fields g.playState
  unfold Game.vitals PlayState.init
  dsimp only
  rw [r3, r6]

/-- The method `Player::clear` does not touch the jump acceleration. -/
theorem clear_accel (p : Player) : p.clear.jumpAcceleration_ = p.jumpAcceleration_ := by
  unfold Player.clear
  dsimp only
  have h := (setMovement_keeps
    { p with controlsLocked := false, canAttack := true, pauseTimer := 0, stunJumpTimer_ := 0,
             x := kPlayerDefaultX, y := kPlayerDefaultY } 0).2.2.2.2.2.1
  split_ifs
  · exact h
  · exact h

/-- Vitals after `PlayState::cleanUp`. -/
theorem cleanUp_vitals (g : Game) : (PlayState.cleanUp g).vitals = g.vitals.cleaned := by
  obtain ⟨c1, _, c3, c4, _, _, c7, _, _⟩ := clear_fields g.player
  obtain ⟨_, _, r3, _, _, r6, _, _⟩ := reset_fields g.playState
  unfold Game.vitals Vitals.cleaned PlayState.cleanUp PlayState.baseCleanUp
  dsimp only
  rw [c1, c3, c4, c7, r3, r6, clear_accel]

/-- The facing check does not touch the vitals. -/
theorem flipChecker_vitals (g : Game) : (PlayState.flipChecker g).vitals = g.vitals := by
  have hf := flipEnemySprites_vitals
  apply vitals_congr
  · exact (flipChecker_frame g).2.2.2.2
  · unfold PlayState.flipChecker
    dsimp only
    split_ifs <;> simp only [(hf _).1]
  · unfold PlayState.flipChecker
    dsimp only
    split_ifs <;> simp only [(hf _).2]

/-- The method `Player::play` touches the vitals only when it ends the defeat
animation: the action goes from Defeated to VeryDefeated. -/
theorem play_vitals (g : Game) :
    (Player.play g).vitals = g.vitals
      ∨ (g.player.currAction_ = PlayerAction.Defeated
        ∧ (Player.play g).vitals = { g.vitals with action := PlayerAction.VeryDefeated }) := by
  by_cases ha : g.player.currAction_ = PlayerAction.Defeated
  · simp only [PlayerAction.Defeated] at ha
    cases hl : (g.sprites SpriteId.player_defeated).updateAndDraw.1 <;>
      by_cases hsh : g.player.isShaking = true <;>
      by_cases h3 : g.player.life_counter + 1 = 3 <;>
      simp [Player.play, Game.vitals, ha, hl, hsh, h3, Player.setMovement,
        Player.invertSprites] <;>
      split_ifs <;> simp [ha]
  · left
    simp only [PlayerAction.Defeated] at ha
    by_cases hsh : g.player.isShaking = true <;>
      by_cases hw : g.player.currAction_ = 2 ∨ g.player.currAction_ = 3 <;>
      simp [Player.play, Game.vitals, ha, hsh, hw, Player.invertSprites] <;>
      split_ifs <;> simp [ha]

/-- The first block of `onTimeTick` touches the vitals only when it ends the
freeze of a player hit: the freeze is over and the enemy has lost one health
point. -/
theorem tickHitFreeze_vitals (g : Game) :
    (PlayState.tickHitFreeze g).vitals = g.vitals
      ∨ (g.playState.pauseMovement = true
        ∧ (PlayState.tickHitFreeze g).vitals
            = { g.vitals with paused := false, enemyHealth := g.playState.enemyHealth - 1 }) := by
  unfold PlayState.tickHitFreeze
  by_cases hp : g.playState.pauseMovement = true
  · rw [if_pos hp]
    dsimp only
    by_cases ht : g.playState.haltTime + 1 = 2
    · rw [if_pos ht]
      right
      refine ⟨hp, ?_⟩
      split_ifs <;> rfl
    · rw [if_neg ht]
      exact Or.inl rfl
  · rw [if_neg hp]
    exact Or.inl rfl

/-- The enemy-hit reset keeps the vitals. -/
theorem resetEnemyMove_vitals (g : Game) : (PlayState.resetEnemyMove g).vitals = g.vitals :=
  rfl

/-- The fourth block of `onTimeTick` touches the vitals only when it sends a
walking or crouching player back to Idle. -/
theorem tickEnemyHit_vitals (g : Game) (k : Keys) :
    (PlayState.tickEnemyHit g k).vitals = g.vitals
      ∨ (¬ g.vitals.airborne
        ∧ (PlayState.tickEnemyHit g k).vitals
            = { g.vitals with action := PlayerAction.Default }) := by
  unfold PlayState.tickEnemyHit
  by_cases h1 : g.playState.renderEnemyHit = true
  · rw [if_pos h1]
    dsimp only
    by_cases h2 : g.playState.haltTimeHit + 1 = 4
    · rw [if_pos h2]
      by_cases h3 : (g.player.currAction_ = PlayerAction.WalkRight ∧ (!k.right) = true)
          ∨ (g.player.currAction_ = PlayerAction.WalkLeft ∧ (!k.left) = true)
          ∨ (g.player.currAction_ = PlayerAction.Crouch ∧ (!k.down) = true)
      · right
        have hnd : g.player.currAction_ ≠ PlayerAction.Defeated := by
          simp only [PlayerAction.WalkRight, PlayerAction.WalkLeft, PlayerAction.Crouch,
            PlayerAction.Defeated] at h3 ⊢
          omega
        have hna : ¬ g.vitals.airborne := by
          unfold Vitals.airborne Game.vitals
          simp only [PlayerAction.WalkRight, PlayerAction.WalkLeft, PlayerAction.Crouch,
            PlayerAction.JumpUp, PlayerAction.JumpDown] at h3 ⊢
          omega
        refine ⟨hna, ?_⟩
        simp only [PlayState.resetEnemyMove]
        rw [if_pos h3]
        simp only [Player.setMovement, and_true, if_neg hnd]
        split_ifs <;> rfl
      · left
        simp only [PlayState.resetEnemyMove]
        rw [if_neg h3]
        split_ifs <;> rfl
    · rw [if_neg h2]
      exact Or.inl rfl
  · rw [if_neg h1]
    exact Or.inl rfl

/-- The method `Player::onTimeTick` touches the vitals only when it releases
the lock of a grounded player, whose action becomes Crouch or Idle, or stays
Defeated. -/
theorem playerTick_vitals (g : Game) (k : Keys) :
    (Player.onTimeTick g k).vitals = g.vitals
      ∨ (¬ g.vitals.airborne
        ∧ ∃ a, (a = PlayerAction.Crouch ∨ a = PlayerAction.Default ∨ a = PlayerAction.Defeated)
          ∧ (Player.onTimeTick g k).vitals = { g.vitals with locked := false, action := a }) := by
  by_cases hc : g.player.controlsLocked = true ∧ (!g.playState.renderEnemyHit) = true
  · by_cases hgr : g.player.currAction_ ≠ PlayerAction.JumpUp
        ∧ g.player.currAction_ ≠ PlayerAction.JumpDown
    · by_cases h3 : g.player.pauseTimer + 1 = 3
      · right
        refine ⟨fun ha => ?_, ?_⟩
        · rcases ha with h | h
          · exact hgr.1 h
          · exact hgr.2 h
        · have hs := setMovement_keeps
          unfold Player.onTimeTick
          try dsimp only
          rw [if_pos hc, if_pos hgr, if_pos h3]
          try dsimp only
          by_cases hk : k.down = true ∧ g.player.prevAction_ = PlayerAction.Crouch
          · rw [if_pos hk]
            refine ⟨PlayerAction.Crouch, Or.inl rfl, ?_⟩
            unfold Game.vitals
            dsimp only
            split_ifs <;> (try dsimp only) <;>
              simp only [(hs _ _).1, (hs _ _).2.1, (hs _ _).2.2.2.2.2.1,
                (hs _ _).2.2.2.2.2.2.1, setMovement_currAction _ 4 (by decide)] <;> rfl
          · rw [if_neg hk]
            by_cases hd : g.player.currAction_ = PlayerAction.Defeated
            · refine ⟨PlayerAction.Defeated, Or.inr (Or.inr rfl), ?_⟩
              have hsm : ∀ p : Player, p.currAction_ = PlayerAction.Defeated →
                  (p.setMovement 0).currAction_ = PlayerAction.Defeated := by
                intro p hp
                unfold Player.setMovement
                rw [if_pos ⟨hp, rfl⟩]
                exact hp
              have hq := hsm
                { g.player with controlsLocked := false, showHit_ := false, pauseTimer := 0,
                                activateTime := 0, attackActive := true } hd
              unfold Game.vitals
              try dsimp only
              split_ifs <;> (try dsimp only) <;>
                simp only [(hs _ _).1, (hs _ _).2.1, (hs _ _).2.2.2.2.2.1,
                  (hs _ _).2.2.2.2.2.2.1, hq]
            · refine ⟨PlayerAction.Default, Or.inr (Or.inl rfl), ?_⟩
              have hq := setMovement_idle
                { g.player with controlsLocked := false, showHit_ := false, pauseTimer := 0,
                                activateTime := 0, attackActive := true } hd
              unfold Game.vitals
              try dsimp only
              split_ifs <;> (try dsimp only) <;>
                simp only [(hs _ _).1, (hs _ _).2.1, (hs _ _).2.2.2.2.2.1,
                  (hs _ _).2.2.2.2.2.2.1, hq]
      · left
        unfold Player.onTimeTick
        try dsimp only
        rw [if_pos hc, if_pos hgr, if_neg h3]
        try dsimp only
        split_ifs <;> rfl
    · left
      unfold Player.onTimeTick
      dsimp only
      rw [if_pos hc, if_neg hgr]
      split_ifs <;> rfl
  · left
    unfold Player.onTimeTick
    dsimp only
    rw [if_neg hc]
    split_ifs <;> rfl

/-- The method `offsetEnemyX` keeps the vitals. -/
theorem offsetEnemyX_vitals (g : Game) (amount : Int) (isAdd : Bool) :
    (PlayState.offsetEnemyX g amount isAdd).vitals = g.vitals := by
  rw [offsetEnemyX_eq]
  rfl

/-- The check at the head of `moveEnemyRight` keeps the vitals. -/
theorem afterRetreatCheck_vitals (g : Game) : (PlayState.afterRetreatCheck g).vitals = g.vitals := by
  unfold PlayState.afterRetreatCheck
  split_ifs <;> rfl

/-- The method `moveEnemyRight` keeps the vitals. -/
theorem moveEnemyRight_vitals (g : Game) (d : Bool) :
    (PlayState.moveEnemyRight g d).vitals = g.vitals := by
  rw [moveEnemyRight_eq]
  split_ifs
  all_goals first
    | exact (offsetEnemyX_vitals (PlayState.afterRetreatCheck g) EnemyRunSpriteFPS d).trans
        (afterRetreatCheck_vitals g)
    | exact afterRetreatCheck_vitals g

/-- The pursuit step keeps the vitals. -/
theorem enemyPursuePlayer_vitals (g : Game) : (PlayState.enemyPursuePlayer g).vitals = g.vitals := by
  unfold PlayState.enemyPursuePlayer
  dsimp only
  split_ifs
  · exact (offsetEnemyX_vitals _ _ _).trans (offsetEnemyX_vitals _ _ _)
  · exact offsetEnemyX_vitals _ _ _
  · exact offsetEnemyX_vitals _ _ _
  · rfl

/-- The AI step of the enemy keeps the vitals. -/
theorem updateEnemyMovementState_vitals (g : Game) (rnd : Fin 2) :
    (PlayState.updateEnemyMovementState g rnd).vitals = g.vitals := by
  unfold PlayState.updateEnemyMovementState
  cases g.playState.enemyMoveState
  · dsimp only
    split_ifs
    · exact enemyPursuePlayer_vitals g
    · exact enemyPursuePlayer_vitals g
  · rfl
  · exact moveEnemyRight_vitals _ false
  · exact moveEnemyRight_vitals _ true

/-- The method `tickEnemyMovement` keeps the vitals. -/
theorem tickEnemyMovement_vitals (g : Game) (rnd : Fin 2) :
    (PlayState.tickEnemyMovement g rnd).vitals = g.vitals := by
  unfold PlayState.tickEnemyMovement
  dsimp only
  split_ifs
  · exact updateEnemyMovementState_vitals _ rnd
  · rfl

/-- The method `processCollisionWithPlayer` takes one health point of the
player and keeps the other vitals. -/
theorem processCollisionWithPlayer_vitals (g : Game) :
    (PlayState.processCollisionWithPlayer g).vitals
      = { g.vitals with health := g.player.health - 1 } := by
  unfold PlayState.processCollisionWithPlayer
  dsimp only
  split_ifs <;> rw [offsetEnemyX_vitals] <;> rfl

/-- The resolution of a completed enemy attack takes at most one health point
of a player who has health left. -/
theorem resolveEnemyAttack_vitals (g g' : Game) (h : PlayState.resolveEnemyAttack g = some g') :
    g'.vitals = g.vitals
      ∨ (0 < g.player.health ∧ g'.vitals = { g.vitals with health := g.player.health - 1 }) := by
  unfold PlayState.resolveEnemyAttack at h
  cases h1 : PlayState.isCollidedWithPlayer g with
  | none =>
    rw [h1] at h
    exact absurd h (by simp)
  | some hit1 =>
    rw [h1, Option.some_bind] at h
    dsimp only at h
    cases hit1
    · have e : (if (!false) = true then PlayState.resetEnemyMove g else g)
          = PlayState.resetEnemyMove g := rfl
      rw [e] at h
      cases h2 : PlayState.isCollidedWithPlayer (PlayState.resetEnemyMove g) with
      | none =>
        rw [h2] at h
        exact absurd h (by simp)
      | some hit2 =>
        rw [h2, Option.map_some', Option.some.injEq] at h
        rw [← h]
        split_ifs with hc
        · right
          exact ⟨hc.2, processCollisionWithPlayer_vitals _⟩
        · exact Or.inl rfl
    · have e : (if (!true) = true then PlayState.resetEnemyMove g else g) = g := rfl
      rw [e, h1, Option.map_some', Option.some.injEq] at h
      rw [← h]
      split_ifs with hc
      · right
        exact ⟨hc.2, processCollisionWithPlayer_vitals _⟩
      · exact Or.inl rfl

/-- The `switch` of `renderEnemy`, for a player who is not above the top of
the screen: it takes at most one health point of a player who has health
left, and keeps the other vitals. -/
theorem renderEnemySwitch_vitals (g g' : Game) (hy : 0 ≤ g.player.y)
    (h : PlayState.renderEnemySwitch g = some g') :
    g'.vitals = g.vitals
      ∨ (0 < g.player.health ∧ g'.vitals = { g.vitals with health := g.player.health - 1 }) := by
  by_cases hm : g.playState.enemyCurrentMove = EnemyAction.Kick
      ∨ g.playState.enemyCurrentMove = EnemyAction.Punch
  · unfold PlayState.renderEnemySwitch at h
    cases hv : vecAt enemies (g.level - 1) with
    | none =>
      rw [hv] at h
      exact absurd h (by simp)
    | some nm =>
      rw [hv, Option.some_bind] at h
      have hk : (vecAt enemySprites g.playState.enemyRandomAttack).bind (fun _ =>
          if (PlayState.stepAttackSprite g).1 = true then
            PlayState.resolveEnemyAttack (PlayState.stepAttackSprite g).2
          else some (PlayState.stepAttackSprite g).2) = some g' := by
        rcases hm with hm | hm <;> rw [hm] at h <;> exact h
      cases hs : vecAt enemySprites g.playState.enemyRandomAttack with
      | none =>
        rw [hs] at hk
        exact absurd hk (by simp)
      | some s =>
        rw [hs, Option.some_bind] at hk
        by_cases hl : (PlayState.stepAttackSprite g).1 = true
        · rw [if_pos hl] at hk
          have hr := resolveEnemyAttack_vitals (PlayState.stepAttackSprite g).2 g' hk
          exact hr
        · rw [if_neg hl, Option.some.injEq] at hk
          rw [← hk]
          exact Or.inl rfl
  · left
    obtain ⟨e1, e2, _⟩ := renderEnemySwitch_idle g g' (fun hc => hm (Or.inl hc))
      (fun hc => hm (Or.inr hc)) (Or.inr hy) h
    exact vitals_congr g g' e1 (by rw [e2]) (by rw [e2])

/-- The method `renderEnemy`, for a player who is not above the top of the
screen: it takes at most one health point of a player who has health left,
and keeps the other vitals. -/
theorem renderEnemy_vitals (g g' : Game) (hy : 0 ≤ g.player.y)
    (h : PlayState.renderEnemy g = some g') :
    g'.vitals = g.vitals
      ∨ (0 < g.player.health ∧ g'.vitals = { g.vitals with health := g.player.health - 1 }) := by
  unfold PlayState.renderEnemy at h
  cases hs : PlayState.renderEnemySwitch g with
  | none =>
    rw [hs] at h
    exact absurd h (by simp)
  | some g1 =>
    rw [hs, Option.map_some', Option.some.injEq] at h
    rw [← h, flipChecker_vitals]
    exact renderEnemySwitch_vitals g g1 hy hs

/-- A pose step of the victory sequencer sets the action to a pose, which is
no jump, and keeps the other vitals. -/
theorem processEndState_pose_vitals (g : Game)
    (h : EndSequence.ShowPunch ≤ g.playState.endState
      ∧ g.playState.endState ≤ EndSequence.Smile) :
    ∃ a, a ≠ PlayerAction.JumpUp ∧ a ≠ PlayerAction.JumpDown ∧
      (PlayState.processEndState g).vitals = { g.vitals with action := a } := by
  simp only [EndSequence.ShowPunch, EndSequence.Smile] at h
  have hc : g.playState.endState = 2 ∨ g.playState.endState = 3 ∨ g.playState.endState = 4
      ∨ g.playState.endState = 5 ∨ g.playState.endState = 6 ∨ g.playState.endState = 7
      ∨ g.playState.endState = 8 := by omega
  rcases hc with h1 | h1 | h1 | h1 | h1 | h1 | h1
  · exact ⟨5, by decide, by decide, by
      simp [PlayState.processEndState, PlayState.prepareEndOfRoundChoreography, h1,
        Game.vitals, Player.setMovement, Player.invertSprites]⟩
  · exact ⟨8, by decide, by decide, by
      simp [PlayState.processEndState, PlayState.prepareEndOfRoundChoreography, h1,
        Game.vitals, Player.setMovement, Player.invertSprites]⟩
  · exact ⟨9, by decide, by decide, by
      simp [PlayState.processEndState, PlayState.prepareEndOfRoundChoreography, h1,
        Game.vitals, Player.setMovement, Player.invertSprites]⟩
  · exact ⟨9, by decide, by decide, by
      simp [PlayState.processEndState, PlayState.prepareEndOfRoundChoreography, h1,
        Game.vitals, Player.setMovement, Player.invertSprites]⟩
  · exact ⟨8, by decide, by decide, by
      simp [PlayState.processEndState, PlayState.prepareEndOfRoundChoreography, h1,
        Game.vitals, Player.setMovement, Player.invertSprites]⟩
  · exact ⟨5, by decide, by decide, by
      simp [PlayState.processEndState, PlayState.prepareEndOfRoundChoreography, h1,
        Game.vitals, Player.setMovement, Player.invertSprites]⟩
  · exact ⟨12, by decide, by decide, by
      simp [PlayState.processEndState, PlayState.prepareEndOfRoundChoreography, h1,
        Game.vitals, Player.setMovement, Player.invertSprites]⟩

/-- What a step of the victory sequencer does to the vitals: nothing, a pose,
one health point of a player who has health left counted off, or the
`cleanUp` of the round. -/
theorem processEndState_vitals (g : Game) :
    (PlayState.processEndState g).vitals = g.vitals
      ∨ (∃ a, a ≠ PlayerAction.JumpUp ∧ a ≠ PlayerAction.JumpDown ∧
          (PlayState.processEndState g).vitals = { g.vitals with action := a })
      ∨ (0 < g.player.health
        ∧ (PlayState.processEndState g).vitals
            = { g.vitals with health := g.player.health - 1 })
      ∨ (PlayState.processEndState g).vitals = g.vitals.cleaned := by
  have hc : g.playState.endState = EndSequence.PlayWinSound
      ∨ (EndSequence.ShowPunch ≤ g.playState.endState
        ∧ g.playState.endState ≤ EndSequence.Smile)
      ∨ g.playState.endState = EndSequence.CountLife
      ∨ g.playState.endState = EndSequence.Transition
      ∨ g.playState.endState = EndSequence.GameOver
      ∨ (g.playState.endState < EndSequence.PlayWinSound
        ∨ EndSequence.GameOver < g.playState.endState) := by
    simp only [EndSequence.PlayWinSound, EndSequence.ShowPunch, EndSequence.Smile,
      EndSequence.CountLife, EndSequence.Transition, EndSequence.GameOver]
    omega
  rcases hc with h | h | h | h | h | h
  · rw [processEndState_playWinSound g h]
    exact Or.inl rfl
  · exact Or.inr (Or.inl (processEndState_pose_vitals g h))
  · rw [processEndState_countLife g h]
    by_cases hh : g.player.health > 0
    · rw [if_pos hh]
      exact Or.inr (Or.inr (Or.inl ⟨hh, rfl⟩))
    · rw [if_neg hh]
      exact Or.inl rfl
  · rw [processEndState_transition g h]
    by_cases hl : g.level = 5
    · rw [if_pos hl]
      exact Or.inl rfl
    · rw [if_neg hl]
      right
      right
      right
      exact cleanUp_vitals
        { g with playState := { g.playState with maxHaltTime := EndDelayHigh } }
  · rw [processEndState_gameOver g h]
    exact Or.inl rfl
  · rw [processEndState_start g h]
    exact Or.inl rfl

/-- What a step of the defeat sequencer does to the vitals: nothing, the
player laid down on the ground with the action Defeated, or the `cleanUp` of
the round. -/
theorem processEnemyEndState_vitals (g : Game) :
    (PlayState.processEnemyEndState g).vitals = g.vitals
      ∨ (PlayState.processEnemyEndState g).vitals
          = { g.vitals with action := PlayerAction.Defeated, y := kPlayerDefaultY }
      ∨ (PlayState.processEnemyEndState g).vitals = g.vitals.cleaned := by
  unfold PlayState.processEnemyEndState
  cases g.playState.enemyEndState
  · exact Or.inl rfl
  · right
    left
    have hs := setMovement_keeps g.player 13
    have ha := setMovement_currAction g.player 13 (by decide)
    unfold Game.vitals
    dsimp only
    rw [hs.1, hs.2.2.2.2.2.1, hs.2.2.2.2.2.2.1, ha]
    rfl
  · exact Or.inl rfl
  · dsimp only
    by_cases hl : g.player.lives > 0
    · rw [if_pos hl]
      right
      right
      exact cleanUp_vitals
        { g with player := { g.player with lives := g.player.lives - 1 },
                 state := GameState.Preview }
    · rw [if_neg hl]
      exact Or.inl rfl
  · exact Or.inl rfl

/-- Outside a jump that it advances, `Player::processJump` returns the state it
was called on. -/
theorem processJump_idle (g : Game)
    (h : ¬ ((g.player.currAction_ = PlayerAction.JumpUp
      ∨ g.player.currAction_ = PlayerAction.JumpDown)
      ∧ g.player.health > 0 ∧ (!g.playState.renderEnemyHit) = true)) :
    Player.processJump g = some g := by
  unfold Player.processJump
  dsimp only
  rw [if_neg h]

/-- The call `Player::processJump` returns unless the player is in the air
with a jump acceleration of 0. -/
theorem processJump_returns (g : Game)
    (h : g.vitals.airborne → g.player.jumpAcceleration_ ≠ 0) :
    ∃ g', Player.processJump g = some g' := by
  by_cases hg : (g.player.currAction_ = PlayerAction.JumpUp
      ∨ g.player.currAction_ = PlayerAction.JumpDown)
      ∧ g.player.health > 0 ∧ (!g.playState.renderEnemyHit) = true
  · have hne := h hg.1
    by_cases hc : g.player.jumpFrameCounter_ + 1 ≥ Int.tdiv TARGET_FPS g.player.jumpAcceleration_
    · rw [processJump_move g hg hne hc]
      split_ifs <;> exact ⟨_, rfl⟩
    · exact ⟨_, processJump_counts g hg hne hc⟩
  · exact ⟨g, processJump_idle g hg⟩

/-- What a returning `Player::processJump` call does to the vitals: nothing,
one step up (two pixels, one unit of acceleration less) from below the apex,
the switch to JumpDown, one step down, or the landing. -/
theorem processJump_vitals (g g' : Game) (h : Player.processJump g = some g') :
    g'.vitals = g.vitals
      ∨ (g.player.currAction_ = PlayerAction.JumpUp ∧ g.player.y > kPlayerJumpHeight
        ∧ g'.vitals = { g.vitals with accel := g.player.jumpAcceleration_ - 1,
                                      y := g.player.y - kPlayerJumpSpeed })
      ∨ (g.player.currAction_ = PlayerAction.JumpUp
        ∧ g'.vitals = { g.vitals with action := PlayerAction.JumpDown })
      ∨ (g.player.currAction_ = PlayerAction.JumpDown ∧ g.player.y < kPlayerDefaultY
        ∧ g'.vitals
            = { g.vitals with
                accel := if g.player.jumpAcceleration_ < kPlayerJumpAccelFrameRate
                         then g.player.jumpAcceleration_ + 1 else g.player.jumpAcceleration_,
                y := g.player.y + kPlayerJumpSpeed })
      ∨ (g.player.currAction_ = PlayerAction.JumpDown
        ∧ g'.vitals = { g.vitals with y := kPlayerDefaultY, action := PlayerAction.Default,
                                      locked := false }) := by
  by_cases hg : (g.player.currAction_ = PlayerAction.JumpUp
      ∨ g.player.currAction_ = PlayerAction.JumpDown)
      ∧ g.player.health > 0 ∧ (!g.playState.renderEnemyHit) = true
  · by_cases hne : g.player.jumpAcceleration_ = 0
    · unfold Player.processJump at h
      dsimp only at h
      rw [if_pos hg, if_pos hne] at h
      exact absurd h (by simp)
    · by_cases hc : g.player.jumpFrameCounter_ + 1
          ≥ Int.tdiv TARGET_FPS g.player.jumpAcceleration_
      · rw [processJump_move g hg hne hc] at h
        obtain ⟨d1, d2, d3⟩ := jumpDrifted_frame g
        obtain ⟨d4, d5, _, _⟩ := jumpDrifted_rest g
        by_cases hup : g.player.currAction_ = PlayerAction.JumpUp
        · rw [if_pos (d2.trans hup)] at h
          by_cases hy : g.player.y > kPlayerJumpHeight
          · rw [if_pos (by rw [d1]; exact hy), Option.some.injEq] at h
            right
            left
            refine ⟨hup, hy, ?_⟩
            rw [← h]
            unfold Game.vitals
            dsimp only
            rw [d1, d2, d3, d4, d5]
          · rw [if_neg (by rw [d1]; exact hy), Option.some.injEq] at h
            right
            right
            left
            refine ⟨hup, ?_⟩
            obtain ⟨s1, s2, _, _, _, s6, s7, _⟩ := setMovement_keeps (Player.jumpDrifted g) 11
            have s8 := setMovement_currAction (Player.jumpDrifted g) 11 (by decide)
            rw [← h]
            unfold Game.vitals
            dsimp only
            rw [s1, s2, s6, s7, s8, d1, d3, d4, d5]
            rfl
        · have hdn : g.player.currAction_ = PlayerAction.JumpDown := by
            rcases hg.1 with h1 | h1
            · exact absurd h1 hup
            · exact h1
          rw [if_neg (by rw [d2]; exact hup)] at h
          by_cases hy : g.player.y < kPlayerDefaultY
          · rw [if_pos (by rw [d1]; exact hy), Option.some.injEq] at h
            right
            right
            right
            left
            refine ⟨hdn, hy, ?_⟩
            rw [← h]
            unfold Game.vitals
            dsimp only
            rw [d1, d2, d3, d4, d5]
          · rw [if_neg (by rw [d1]; exact hy), Option.some.injEq] at h
            right
            right
            right
            right
            refine ⟨hdn, ?_⟩
            have hnd : ({ Player.jumpDrifted g with y := kPlayerDefaultY } : Player).currAction_
                ≠ PlayerAction.Defeated := by
              show (Player.jumpDrifted g).currAction_ ≠ PlayerAction.Defeated
              rw [d2, hdn]
              decide
            obtain ⟨s1, s2, _, _, _, s6, _, _⟩ := setMovement_keeps
              ({ Player.jumpDrifted g with y := kPlayerDefaultY } : Player) 0
            have s8 := setMovement_idle
              ({ Player.jumpDrifted g with y := kPlayerDefaultY } : Player) hnd
            rw [← h]
            unfold Game.vitals
            dsimp only
            rw [s1, s2, s6, s8]
            dsimp only
            rw [d3, d4]
      · rw [processJump_counts g hg hne hc, Option.some.injEq] at h
        rw [← h]
        exact Or.inl rfl
  · rw [processJump_idle g hg, Option.some.injEq] at h
    rw [← h]
    exact Or.inl rfl

/-! ### The two invariants on the vitals -/

/-- After `cleanUp` the health part is sound. -/
theorem roundSafe_cleaned (v : Vitals) : v.cleaned.roundSafe := by
  unfold Vitals.roundSafe Vitals.cleaned
  exact ⟨show (0 : Int) ≤ DEFAULT_HEALTH by decide, show (0 : Int) ≤ DEFAULT_HEALTH by decide,
    fun h => absurd h Bool.false_ne_true, show (0 : Int) ≤ kPlayerDefaultY by decide⟩

/-- After `cleanUp` the jump part is sound. -/
theorem jumpSafe_cleaned (v : Vitals) : v.cleaned.jumpSafe := by
  have hn : ¬ v.cleaned.airborne := by
    unfold Vitals.airborne Vitals.cleaned
    dsimp only
    split_ifs <;> decide
  exact ⟨fun h => absurd h hn, fun _ => rfl, fun _ => hn, fun _ => hn⟩

/-- The health part depends on the healths, the freeze and the height
only. -/
theorem roundSafe_congr (v w : Vitals) (h : v.roundSafe) (h1 : w.health = v.health)
    (h2 : w.enemyHealth = v.enemyHealth) (h3 : w.paused = v.paused) (h4 : w.y = v.y) :
    w.roundSafe := by
  unfold Vitals.roundSafe at h ⊢
  rw [h1, h2, h3, h4]
  exact h

/-- A fresh enemy keeps the health part sound. -/
theorem roundSafe_init (v : Vitals) (h : v.roundSafe) :
    ({ v with enemyHealth := DEFAULT_HEALTH, paused := false } : Vitals).roundSafe := by
  unfold Vitals.roundSafe at h ⊢
  exact ⟨h.1, show (0 : Int) ≤ DEFAULT_HEALTH by decide,
    fun hc => absurd hc Bool.false_ne_true, h.2.2.2⟩

/-- A fresh enemy keeps the jump part sound. -/
theorem jumpSafe_init (v : Vitals) (h : v.jumpSafe) :
    ({ v with enemyHealth := DEFAULT_HEALTH, paused := false } : Vitals).jumpSafe := by
  unfold Vitals.jumpSafe at h ⊢
  exact ⟨h.1, h.2.1, fun hc => absurd hc (show ¬ DEFAULT_HEALTH ≤ (0 : Int) by decide),
    fun hc => absurd hc Bool.false_ne_true⟩

/-- A health point taken from a player who has health left keeps the health
part sound. -/
theorem roundSafe_damage (v : Vitals) (h : v.roundSafe) (hh : 0 < v.health) :
    ({ v with health := v.health - 1 } : Vitals).roundSafe := by
  unfold Vitals.roundSafe at h ⊢
  exact ⟨by show 0 ≤ v.health - 1; omega, h.2.1, h.2.2.1, h.2.2.2⟩

/-- The end of the freeze of a player hit keeps the health part sound: the
enemy had health left. -/
theorem roundSafe_thaw (v : Vitals) (h : v.roundSafe) (hp : v.paused = true) :
    ({ v with paused := false, enemyHealth := v.enemyHealth - 1 } : Vitals).roundSafe := by
  unfold Vitals.roundSafe at h ⊢
  have := h.2.2.1 hp
  exact ⟨h.1, by show 0 ≤ v.enemyHealth - 1; omega, fun hc => absurd hc Bool.false_ne_true,
    h.2.2.2⟩

/-- The end of the freeze of a player hit keeps the jump part sound: no jump
was under way. -/
theorem jumpSafe_thaw (v : Vitals) (h : v.jumpSafe) (hp : v.paused = true) :
    ({ v with paused := false, enemyHealth := v.enemyHealth - 1 } : Vitals).jumpSafe := by
  unfold Vitals.jumpSafe at h ⊢
  have hn := h.2.2.2 hp
  exact ⟨fun ha => absurd ha hn, h.2.1, fun _ => hn, fun _ => hn⟩

/-- A new action that is no jump, for a player on the ground, keeps the jump
part sound, whatever becomes of the lock. -/
theorem jumpSafe_grounded (v : Vitals) (h : v.jumpSafe) (hn : ¬ v.airborne) (a : Int)
    (l : Bool) (h10 : a ≠ PlayerAction.JumpUp) (h11 : a ≠ PlayerAction.JumpDown) :
    ({ v with action := a, locked := l } : Vitals).jumpSafe := by
  have hn' : ¬ ({ v with action := a, locked := l } : Vitals).airborne := by
    intro hc
    rcases hc with hc | hc
    · exact h10 hc
    · exact h11 hc
  exact ⟨fun ha => absurd ha hn', fun _ => h.2.1 hn, fun _ => hn', fun _ => hn'⟩

/-- A player laid on the ground keeps the jump part sound. -/
theorem jumpSafe_laid (v : Vitals) (a : Int) (l : Bool)
    (h10 : a ≠ PlayerAction.JumpUp) (h11 : a ≠ PlayerAction.JumpDown) :
    ({ v with action := a, y := kPlayerDefaultY, locked := l } : Vitals).jumpSafe := by
  have hn' : ¬ ({ v with action := a, y := kPlayerDefaultY, locked := l } : Vitals).airborne := by
    intro hc
    rcases hc with hc | hc
    · exact h10 hc
    · exact h11 hc
  exact ⟨fun ha => absurd ha hn', fun _ => rfl, fun _ => hn', fun _ => hn'⟩

/-- The jump part does not depend on the player's health. -/
theorem jumpSafe_health (v : Vitals) (h : v.jumpSafe) (x : Int) :
    ({ v with health := x } : Vitals).jumpSafe := h

/-- The health part does not depend on action, acceleration and lock. -/
theorem roundSafe_action (v : Vitals) (h : v.roundSafe) (a c : Int) (l : Bool) :
    ({ v with action := a, accel := c, locked := l } : Vitals).roundSafe := h

/-- A new height that is not negative keeps the health part sound. -/
theorem roundSafe_height (v : Vitals) (h : v.roundSafe) (a c y : Int) (l : Bool)
    (hy : 0 ≤ y) :
    ({ v with action := a, accel := c, locked := l, y := y } : Vitals).roundSafe :=
  ⟨h.1, h.2.1, h.2.2.1, hy⟩

/-- A step up from below the apex keeps the jump part sound. -/
theorem jumpSafe_ascend (v : Vitals) (h : v.jumpSafe) (hup : v.action = PlayerAction.JumpUp)
    (hy : v.y > kPlayerJumpHeight) :
    ({ v with accel := v.accel - 1, y := v.y - kPlayerJumpSpeed } : Vitals).jumpSafe := by
  have ha : v.airborne := Or.inl hup
  obtain ⟨⟨a1, a2, a3⟩, a4⟩ := h.1 ha
  simp only [kPlayerJumpHeight, kPlayerDefaultY, kPlayerJumpSpeed,
    kPlayerJumpAccelFrameRate] at a1 a2 a3 hy
  refine ⟨fun _ => ⟨⟨?_, ?_, ?_⟩, a4⟩, fun hn => absurd ha hn, h.2.2.1, h.2.2.2⟩
  · show kPlayerJumpHeight ≤ v.y - kPlayerJumpSpeed
    simp only [kPlayerJumpHeight, kPlayerJumpSpeed]
    omega
  · show v.y - kPlayerJumpSpeed ≤ kPlayerDefaultY
    simp only [kPlayerDefaultY, kPlayerJumpSpeed]
    omega
  · show kPlayerJumpSpeed * (kPlayerJumpAccelFrameRate - (v.accel - 1))
      = kPlayerDefaultY - (v.y - kPlayerJumpSpeed)
    simp only [kPlayerDefaultY, kPlayerJumpSpeed, kPlayerJumpAccelFrameRate]
    omega

/-- The switch from JumpUp to JumpDown keeps the jump part sound. -/
theorem jumpSafe_switch (v : Vitals) (h : v.jumpSafe) (hup : v.action = PlayerAction.JumpUp) :
    ({ v with action := PlayerAction.JumpDown } : Vitals).jumpSafe := by
  have ha : v.airborne := Or.inl hup
  have ha' : ({ v with action := PlayerAction.JumpDown } : Vitals).airborne := Or.inr rfl
  exact ⟨fun _ => h.1 ha, fun hn => absurd ha' hn, fun he => absurd ha (h.2.2.1 he),
    fun hp => absurd ha (h.2.2.2 hp)⟩

/-- A step down from above the ground keeps the jump part sound. -/
theorem jumpSafe_descend (v : Vitals) (h : v.jumpSafe)
    (hdn : v.action = PlayerAction.JumpDown) (hy : v.y < kPlayerDefaultY) :
    ({ v with accel := if v.accel < kPlayerJumpAccelFrameRate then v.accel + 1 else v.accel,
              y := v.y + kPlayerJumpSpeed } : Vitals).jumpSafe := by
  have ha : v.airborne := Or.inr hdn
  obtain ⟨⟨a1, a2, a3⟩, a4⟩ := h.1 ha
  simp only [kPlayerJumpHeight, kPlayerDefaultY, kPlayerJumpSpeed,
    kPlayerJumpAccelFrameRate] at a1 a2 a3 hy
  have hacc : v.accel < kPlayerJumpAccelFrameRate := by
    simp only [kPlayerJumpAccelFrameRate]
    omega
  refine ⟨fun _ => ⟨⟨?_, ?_, ?_⟩, a4⟩, fun hn => absurd ha hn, h.2.2.1, h.2.2.2⟩
  · show kPlayerJumpHeight ≤ v.y + kPlayerJumpSpeed
    simp only [kPlayerJumpHeight, kPlayerJumpSpeed]
    omega
  · show v.y + kPlayerJumpSpeed ≤ kPlayerDefaultY
    simp only [kPlayerDefaultY, kPlayerJumpSpeed]
    omega
  · show kPlayerJumpSpeed * (kPlayerJumpAccelFrameRate
        - (if v.accel < kPlayerJumpAccelFrameRate then v.accel + 1 else v.accel))
      = kPlayerDefaultY - (v.y + kPlayerJumpSpeed)
    rw [if_pos hacc]
    simp only [kPlayerDefaultY, kPlayerJumpSpeed, kPlayerJumpAccelFrameRate]
    omega

/-- The operation `Player::processJump` keeps the jump part sound. -/
theorem processJump_jumpSafe : Keeps JumpSafe Player.processJump := by
  intro g g' hI h
  unfold JumpSafe at hI ⊢
  rcases processJump_vitals g g' h with e | ⟨h1, h2, e⟩ | ⟨h1, e⟩ | ⟨h1, h2, e⟩ | ⟨_, e⟩
  · rw [e]
    exact hI
  · rw [e]
    exact jumpSafe_ascend g.vitals hI h1 h2
  · rw [e]
    exact jumpSafe_switch g.vitals hI h1
  · rw [e]
    exact jumpSafe_descend g.vitals hI h1 h2
  · rw [e]
    exact jumpSafe_laid g.vitals PlayerAction.Default false (by decide) (by decide)

/-- The operation `Player::processJump` keeps the health part sound. -/
theorem processJump_roundSafe : Keeps RoundSafe Player.processJump := by
  intro g g' hI h
  unfold RoundSafe at hI ⊢
  have hy : 0 ≤ g.player.y := hI.2.2.2
  rcases processJump_vitals g g' h with e | ⟨_, h2, e⟩ | ⟨_, e⟩ | ⟨_, _, e⟩ | ⟨_, e⟩
  · rw [e]
    exact hI
  · rw [e]
    refine ⟨hI.1, hI.2.1, hI.2.2.1, ?_⟩
    show 0 ≤ g.player.y - kPlayerJumpSpeed
    simp only [kPlayerJumpHeight, kPlayerJumpSpeed] at h2 ⊢
    omega
  · rw [e]
    exact hI
  · rw [e]
    refine ⟨hI.1, hI.2.1, hI.2.2.1, ?_⟩
    show 0 ≤ g.player.y + kPlayerJumpSpeed
    simp only [kPlayerJumpSpeed]
    omega
  · rw [e]
    exact ⟨hI.1, hI.2.1, hI.2.2.1, show (0 : Int) ≤ kPlayerDefaultY by decide⟩

/-- A player whose jump part is sound is not above the top of the screen. -/
theorem jumpSafe_height (v : Vitals) (h : v.jumpSafe) : 0 ≤ v.y := by
  by_cases ha : v.airborne
  · have := (h.1 ha).1.1
    simp only [kPlayerJumpHeight] at this
    omega
  · rw [h.2.1 ha]
    decide

/-! ### The invariants, operation by operation -/

/-- The method `PlayState::init` keeps the health part sound. -/
theorem init_roundSafe (g : Game) (h : RoundSafe g) : RoundSafe (PlayState.init g) := by
  unfold RoundSafe at h ⊢
  rw [init_vitals]
  exact roundSafe_init g.vitals h

/-- The method `PlayState::init` keeps the jump part sound. -/
theorem init_jumpSafe (g : Game) (h : JumpSafe g) : JumpSafe (PlayState.init g) := by
  unfold JumpSafe at h ⊢
  rw [init_vitals]
  exact jumpSafe_init g.vitals h

/-- The method `Player::play` keeps the health part sound. -/
theorem play_roundSafe (g : Game) (h : RoundSafe g) : RoundSafe (Player.play g) := by
  unfold RoundSafe at h ⊢
  rcases play_vitals g with e | ⟨_, e⟩
  · rw [e]
    exact h
  · rw [e]
    exact h

/-- The method `Player::play` keeps the jump part sound. -/
theorem play_jumpSafe (g : Game) (h : JumpSafe g) : JumpSafe (Player.play g) := by
  unfold JumpSafe at h ⊢
  rcases play_vitals g with e | ⟨ha, e⟩
  · rw [e]
    exact h
  · rw [e]
    have hn : ¬ g.vitals.airborne := by
      intro hc
      rcases hc with hc | hc
      · exact absurd (ha.symm.trans hc) (by decide)
      · exact absurd (ha.symm.trans hc) (by decide)
    exact jumpSafe_grounded g.vitals h hn PlayerAction.VeryDefeated g.vitals.locked
      (by decide) (by decide)

/-- The method `renderEnemy` keeps the health part sound. -/
theorem renderEnemy_roundSafe : Keeps RoundSafe PlayState.renderEnemy := by
  intro g g' hI h
  unfold RoundSafe at hI ⊢
  rcases renderEnemy_vitals g g' hI.2.2.2 h with e | ⟨hh, e⟩
  · rw [e]
    exact hI
  · rw [e]
    exact roundSafe_damage g.vitals hI hh

/-- The method `renderEnemy` keeps the jump part sound. -/
theorem renderEnemy_jumpSafe : Keeps JumpSafe PlayState.renderEnemy := by
  intro g g' hI h
  unfold JumpSafe at hI ⊢
  rcases renderEnemy_vitals g g' (jumpSafe_height g.vitals hI) h with e | ⟨_, e⟩
  · rw [e]
    exact hI
  · rw [e]
    exact hI

/-- The first block of `onTimeTick` keeps the health part sound. -/
theorem tickHitFreeze_roundSafe (g : Game) (h : RoundSafe g) :
    RoundSafe (PlayState.tickHitFreeze g) := by
  unfold RoundSafe at h ⊢
  rcases tickHitFreeze_vitals g with e | ⟨hp, e⟩
  · rw [e]
    exact h
  · rw [e]
    exact roundSafe_thaw g.vitals h hp

/-- The first block of `onTimeTick` keeps the jump part sound. -/
theorem tickHitFreeze_jumpSafe (g : Game) (h : JumpSafe g) :
    JumpSafe (PlayState.tickHitFreeze g) := by
  unfold JumpSafe at h ⊢
  rcases tickHitFreeze_vitals g with e | ⟨hp, e⟩
  · rw [e]
    exact h
  · rw [e]
    exact jumpSafe_thaw g.vitals h hp

/-- The second block of `onTimeTick`, the victory sequencer, keeps the health
part sound. -/
theorem tickEndState_roundSafe (g : Game) (h : RoundSafe g) :
    RoundSafe (PlayState.tickEndState g) := by
  unfold RoundSafe at h ⊢
  unfold PlayState.tickEndState
  by_cases h0 : g.playState.enemyHealth = 0
  · rw [if_pos h0]
    dsimp only
    by_cases ht : g.playState.haltTime + 1 = g.playState.maxHaltTime
    · rw [if_pos ht]
      show (PlayState.processEndState
        { g with playState := { g.playState with haltTime := g.playState.haltTime + 1 } }).vitals.roundSafe
      rcases processEndState_vitals
        { g with playState := { g.playState with haltTime := g.playState.haltTime + 1 } }
        with e | ⟨a, _, _, e⟩ | ⟨hh, e⟩ | e
      · rw [e]
        exact h
      · rw [e]
        exact h
      · rw [e]
        exact roundSafe_damage g.vitals h hh
      · rw [e]
        exact roundSafe_cleaned _
    · rw [if_neg ht]
      exact h
  · rw [if_neg h0]
    exact h

/-- The second block of `onTimeTick`, the victory sequencer, keeps the jump
part sound: it runs only while the enemy is out of health, when no jump is
under way. -/
theorem tickEndState_jumpSafe (g : Game) (h : JumpSafe g) :
    JumpSafe (PlayState.tickEndState g) := by
  unfold JumpSafe at h ⊢
  unfold PlayState.tickEndState
  by_cases h0 : g.playState.enemyHealth = 0
  · have hn : ¬ g.vitals.airborne := h.2.2.1 (by show g.playState.enemyHealth ≤ 0; omega)
    rw [if_pos h0]
    dsimp only
    by_cases ht : g.playState.haltTime + 1 = g.playState.maxHaltTime
    · rw [if_pos ht]
      show (PlayState.processEndState
        { g with playState := { g.playState with haltTime := g.playState.haltTime + 1 } }).vitals.jumpSafe
      rcases processEndState_vitals
        { g with playState := { g.playState with haltTime := g.playState.haltTime + 1 } }
        with e | ⟨a, a1, a2, e⟩ | ⟨_, e⟩ | e
      · rw [e]
        exact h
      · rw [e]
        exact jumpSafe_grounded g.vitals h hn a g.vitals.locked a1 a2
      · rw [e]
        exact h
      · rw [e]
        exact jumpSafe_cleaned _
    · rw [if_neg ht]
      exact h
  · rw [if_neg h0]
    exact h

/-- The third block of `onTimeTick`, the defeat sequencer, keeps the health
part sound. -/
theorem tickEnemyEndState_roundSafe (g : Game) (h : RoundSafe g) :
    RoundSafe (PlayState.tickEnemyEndState g) := by
  unfold RoundSafe at h ⊢
  unfold PlayState.tickEnemyEndState
  by_cases h0 : g.playState.enemyHealth ≠ 0 ∧ g.player.health = 0
  · rw [if_pos h0]
    dsimp only
    by_cases ht : g.playState.haltTime + 1 = g.playState.maxHaltTime
    · rw [if_pos ht]
      show (PlayState.processEnemyEndState
        { g with playState := { g.playState with haltTime := g.playState.haltTime + 1 } }).vitals.roundSafe
      rcases processEnemyEndState_vitals
        { g with playState := { g.playState with haltTime := g.playState.haltTime + 1 } }
        with e | e | e
      · rw [e]
        exact h
      · rw [e]
        exact ⟨h.1, h.2.1, h.2.2.1, show (0 : Int) ≤ kPlayerDefaultY by decide⟩
      · rw [e]
        exact roundSafe_cleaned _
    · rw [if_neg ht]
      exact h
  · rw [if_neg h0]
    exact h

/-- The third block of `onTimeTick`, the defeat sequencer, keeps the jump
part sound. -/
theorem tickEnemyEndState_jumpSafe (g : Game) (h : JumpSafe g) :
    JumpSafe (PlayState.tickEnemyEndState g) := by
  unfold JumpSafe at h ⊢
  unfold PlayState.tickEnemyEndState
  by_cases h0 : g.playState.enemyHealth ≠ 0 ∧ g.player.health = 0
  · rw [if_pos h0]
    dsimp only
    by_cases ht : g.playState.haltTime + 1 = g.playState.maxHaltTime
    · rw [if_pos ht]
      show (PlayState.processEnemyEndState
        { g with playState := { g.playState with haltTime := g.playState.haltTime + 1 } }).vitals.jumpSafe
      rcases processEnemyEndState_vitals
        { g with playState := { g.playState with haltTime := g.playState.haltTime + 1 } }
        with e | e | e
      · rw [e]
        exact h
      · rw [e]
        exact jumpSafe_laid g.vitals PlayerAction.Defeated g.vitals.locked
          (by decide) (by decide)
      · rw [e]
        exact jumpSafe_cleaned _
    · rw [if_neg ht]
      exact h
  · rw [if_neg h0]
    exact h

/-- The fourth block of `onTimeTick` keeps the health part sound. -/
theorem tickEnemyHit_roundSafe (g : Game) (k : Keys) (h : RoundSafe g) :
    RoundSafe (PlayState.tickEnemyHit g k) := by
  unfold RoundSafe at h ⊢
  rcases tickEnemyHit_vitals g k with e | ⟨_, e⟩
  · rw [e]
    exact h
  · rw [e]
    exact h

/-- The fourth block of `onTimeTick` keeps the jump part sound. -/
theorem tickEnemyHit_jumpSafe (g : Game) (k : Keys) (h : JumpSafe g) :
    JumpSafe (PlayState.tickEnemyHit g k) := by
  unfold JumpSafe at h ⊢
  rcases tickEnemyHit_vitals g k with e | ⟨hn, e⟩
  · rw [e]
    exact h
  · rw [e]
    exact jumpSafe_grounded g.vitals h hn PlayerAction.Default g.vitals.locked
      (by decide) (by decide)

/-- The method `PlayState::onTimeTick` keeps the health part sound. -/
theorem onTimeTick_roundSafe (g : Game) (k : Keys) (h : RoundSafe g) :
    RoundSafe (PlayState.onTimeTick g k) :=
  tickEnemyHit_roundSafe _ k
    (tickEnemyEndState_roundSafe _ (tickEndState_roundSafe _ (tickHitFreeze_roundSafe g h)))

/-- The method `PlayState::onTimeTick` keeps the jump part sound. -/
theorem onTimeTick_jumpSafe (g : Game) (k : Keys) (h : JumpSafe g) :
    JumpSafe (PlayState.onTimeTick g k) :=
  tickEnemyHit_jumpSafe _ k
    (tickEnemyEndState_jumpSafe _ (tickEndState_jumpSafe _ (tickHitFreeze_jumpSafe g h)))

/-- The inherited `timeTick` of the play state keeps the health part sound. -/
theorem stateTimeTick_roundSafe (g : Game) (k : Keys) (h : RoundSafe g) :
    RoundSafe (PlayState.timeTick g k) := by
  unfold PlayState.timeTick
  dsimp only
  split_ifs
  · exact onTimeTick_roundSafe _ k h
  · exact h

/-- The inherited `timeTick` of the play state keeps the jump part sound. -/
theorem stateTimeTick_jumpSafe (g : Game) (k : Keys) (h : JumpSafe g) :
    JumpSafe (PlayState.timeTick g k) := by
  unfold PlayState.timeTick
  dsimp only
  split_ifs
  · exact onTimeTick_jumpSafe _ k h
  · exact h

/-- The method `Player::onTimeTick` keeps the health part sound. -/
theorem playerTick_roundSafe (g : Game) (k : Keys) (h : RoundSafe g) :
    RoundSafe (Player.onTimeTick g k) := by
  unfold RoundSafe at h ⊢
  rcases playerTick_vitals g k with e | ⟨_, a, _, e⟩
  · rw [e]
    exact h
  · rw [e]
    exact h

/-- The method `Player::onTimeTick` keeps the jump part sound. -/
theorem playerTick_jumpSafe (g : Game) (k : Keys) (h : JumpSafe g) :
    JumpSafe (Player.onTimeTick g k) := by
  unfold JumpSafe at h ⊢
  rcases playerTick_vitals g k with e | ⟨hn, a, ha, e⟩
  · rw [e]
    exact h
  · rw [e]
    refine jumpSafe_grounded g.vitals h hn a false ?_ ?_
    · rcases ha with ha | ha | ha <;> rw [ha] <;> decide
    · rcases ha with ha | ha | ha <;> rw [ha] <;> decide

/-- The inherited `timeTick` of the player keeps the health part sound. -/
theorem playerTimeTick_roundSafe (g : Game) (k : Keys) (h : RoundSafe g) :
    RoundSafe (Player.timeTick g k) := by
  unfold Player.timeTick
  dsimp only
  split_ifs
  · exact playerTick_roundSafe _ k h
  · exact h

/-- The inherited `timeTick` of the player keeps the jump part sound. -/
theorem playerTimeTick_jumpSafe (g : Game) (k : Keys) (h : JumpSafe g) :
    JumpSafe (Player.timeTick g k) := by
  unfold Player.timeTick
  dsimp only
  split_ifs
  · exact playerTick_jumpSafe _ k h
  · exact h

/-- The method `tickEnemyMovement` keeps the health part sound. -/
theorem tickEnemyMovement_roundSafe (g : Game) (rnd : Fin 2) (h : RoundSafe g) :
    RoundSafe (PlayState.tickEnemyMovement g rnd) := by
  unfold RoundSafe at h ⊢
  rw [tickEnemyMovement_vitals]
  exact h

/-- The method `tickEnemyMovement` keeps the jump part sound. -/
theorem tickEnemyMovement_jumpSafe (g : Game) (rnd : Fin 2) (h : JumpSafe g) :
    JumpSafe (PlayState.tickEnemyMovement g rnd) := by
  unfold JumpSafe at h ⊢
  rw [tickEnemyMovement_vitals]
  exact h

/-- The restart block of `PlayState::handleInput` leaves the vitals of
`cleanUp`, or those it found. -/
theorem restart_vitals (g1 : Game) (k : Keys) :
    (if (g1.playState.enemyEndState = EnemyEndSequence.GameOver
          ∨ g1.playState.endState = EndSequence.GameOver) ∧ k.enter then
      { PlayState.cleanUp g1 with
        state := GameState.Intro, score := 0, level := 1,
        player := { (PlayState.cleanUp g1).player with lives := kPlayerDefaultLives },
        introState := { (PlayState.cleanUp g1).introState with canProceed := false } }
    else g1).vitals = g1.vitals
    ∨ (if (g1.playState.enemyEndState = EnemyEndSequence.GameOver
          ∨ g1.playState.endState = EndSequence.GameOver) ∧ k.enter then
      { PlayState.cleanUp g1 with
        state := GameState.Intro, score := 0, level := 1,
        player := { (PlayState.cleanUp g1).player with lives := kPlayerDefaultLives },
        introState := { (PlayState.cleanUp g1).introState with canProceed := false } }
    else g1).vitals = g1.vitals.cleaned := by
  split_ifs
  · right
    exact cleanUp_vitals g1
  · left
    rfl

/-- The method `PlayState::handleInput` keeps the health part sound: the
player's input is handled only while the enemy has health, so a hit that
starts a freeze finds the enemy with health left. -/
theorem handleInput_roundSafe (k : Keys) :
    Keeps RoundSafe (fun g => PlayState.handleInput g k) := by
  intro g g' hI h
  unfold RoundSafe at hI ⊢
  have hstep : ∃ g1, (if g.player.health > 0 ∧ g.playState.enemyHealth > 0
      then Player.handleInput g k else some g) = some g1 ∧ g1.vitals.roundSafe := by
    by_cases hg : g.player.health > 0 ∧ g.playState.enemyHealth > 0
    · rw [if_pos hg]
      obtain ⟨g1, h1, _, _, e3, e4, _, e6, _, _, _⟩ := handleInput_effect g k
      refine ⟨g1, h1, ?_, ?_, ?_, ?_⟩
      · show 0 ≤ g1.player.health
        rw [e3]
        exact hI.1
      · show 0 ≤ g1.playState.enemyHealth
        rw [e6]
        exact hI.2.1
      · intro _
        show 1 ≤ g1.playState.enemyHealth
        rw [e6]
        omega
      · show 0 ≤ g1.player.y
        rw [e4]
        exact hI.2.2.2
    · rw [if_neg hg]
      exact ⟨g, rfl, hI⟩
  obtain ⟨g1, h1, hs⟩ := hstep
  change PlayState.handleInput g k = some g' at h
  unfold PlayState.handleInput at h
  rw [h1, Option.map_some', Option.some.injEq] at h
  rw [← h]
  rcases restart_vitals g1 k with e | e
  · rw [e]
    exact hs
  · rw [e]
    exact roundSafe_cleaned _

/-- The method `PlayState::handleInput` keeps the jump part sound: a jump
begins on the ground with the acceleration at its start value and the
controls locked, only while the enemy has health and no freeze is on. -/
theorem handleInput_jumpSafe (k : Keys) :
    Keeps JumpSafe (fun g => PlayState.handleInput g k) := by
  intro g g' hI h
  unfold JumpSafe at hI ⊢
  have hstep : ∃ g1, (if g.player.health > 0 ∧ g.playState.enemyHealth > 0
      then Player.handleInput g k else some g) = some g1 ∧ g1.vitals.jumpSafe := by
    by_cases hg : g.player.health > 0 ∧ g.playState.enemyHealth > 0
    · rw [if_pos hg]
      obtain ⟨g1, h1, _, _, _, e4, _, e6, _, e8, _⟩ := handleInput_effect g k
      refine ⟨g1, h1, ?_⟩
      rcases e8 with e | ⟨hl, hp, hj⟩
      · rw [e]
        exact hI
      · have hn : ¬ g.vitals.airborne := by
          intro ha
          have := (hI.1 ha).2
          exact absurd (hl.symm.trans this) (by decide)
        have hy : g.player.y = kPlayerDefaultY := hI.2.1 hn
        refine ⟨?_, ?_, ?_, ?_⟩
        · intro ha
          obtain ⟨j1, j2, j3, _⟩ := hj ha
          refine ⟨⟨?_, ?_, ?_⟩, j3⟩
          · show kPlayerJumpHeight ≤ g1.player.y
            rw [e4, hy]
            decide
          · show g1.player.y ≤ kPlayerDefaultY
            rw [e4, hy]
          · show kPlayerJumpSpeed * (kPlayerJumpAccelFrameRate - g1.player.jumpAcceleration_)
              = kPlayerDefaultY - g1.player.y
            rw [e4, hy, j2]
            decide
        · intro _
          show g1.player.y = kPlayerDefaultY
          rw [e4]
          exact hy
        · intro he
          have he' : g1.playState.enemyHealth ≤ 0 := he
          rw [e6] at he'
          omega
        · intro hp1 ha
          have := (hj ha).2.2.2 hp1
          rw [hy] at this
          exact absurd this (by decide)
    · rw [if_neg hg]
      exact ⟨g, rfl, hI⟩
  obtain ⟨g1, h1, hs⟩ := hstep
  change PlayState.handleInput g k = some g' at h
  unfold PlayState.handleInput at h
  rw [h1, Option.map_some', Option.some.injEq] at h
  rw [← h]
  rcases restart_vitals g1 k with e | e
  · rw [e]
    exact hs
  · rw [e]
    exact jumpSafe_cleaned _

/-- The method `PlayState::drawStage` keeps the health part sound. -/
theorem drawStage_roundSafe : Keeps RoundSafe PlayState.drawStage := by
  intro g g' hI h
  unfold PlayState.drawStage at h
  cases hv : vecAt enemies (g.level - 1) with
  | none =>
    rw [hv] at h
    exact absurd h (by simp)
  | some nm =>
    rw [hv, Option.some_bind] at h
    cases hr : PlayState.renderEnemy g with
    | none =>
      rw [hr] at h
      exact absurd h (by simp)
    | some g1 =>
      rw [hr, Option.map_some', Option.some.injEq] at h
      rw [← h]
      exact play_roundSafe g1 (renderEnemy_roundSafe g g1 hI hr)

/-- The method `PlayState::drawStage` keeps the jump part sound. -/
theorem drawStage_jumpSafe : Keeps JumpSafe PlayState.drawStage := by
  intro g g' hI h
  unfold PlayState.drawStage at h
  cases hv : vecAt enemies (g.level - 1) with
  | none =>
    rw [hv] at h
    exact absurd h (by simp)
  | some nm =>
    rw [hv, Option.some_bind] at h
    cases hr : PlayState.renderEnemy g with
    | none =>
      rw [hr] at h
      exact absurd h (by simp)
    | some g1 =>
      rw [hr, Option.map_some', Option.some.injEq] at h
      rw [← h]
      exact play_jumpSafe g1 (renderEnemy_jumpSafe g g1 hI hr)

/-! ### The invariants over a frame -/

/-- A property of the vitals that every operation of a frame keeps is kept
by the frame up to the call of `processJump`. -/
theorem jumpEntry_keeps (P : Vitals → Prop)
    (hinit : ∀ g, P g.vitals → P (PlayState.init g).vitals)
    (hin : ∀ k, Keeps (fun g => P g.vitals) (fun g => PlayState.handleInput g k))
    (hdraw : Keeps (fun g => P g.vitals) PlayState.drawStage)
    (htick : ∀ g k, P g.vitals → P (PlayState.timeTick g k).vitals)
    (hptick : ∀ g k, P g.vitals → P (Player.timeTick g k).vitals)
    (k : Keys) :
    Keeps (fun g => P g.vitals) (fun g => PlayState.jumpEntry g k) := by
  intro g g' hI h
  change PlayState.jumpEntry g k = some g' at h
  unfold PlayState.jumpEntry at h
  dsimp only at h
  have h0 : P (if (!g.playState.initialized_) = true then
      { PlayState.init g with
        playState := { (PlayState.init g).playState with initialized_ := true } }
      else g).vitals := by
    split_ifs
    · exact hinit g hI
    · exact hI
  cases h1 : PlayState.handleInput (if (!g.playState.initialized_) = true then
      { PlayState.init g with
        playState := { (PlayState.init g).playState with initialized_ := true } }
      else g) k with
  | none =>
    rw [h1] at h
    exact absurd h (by simp)
  | some g1 =>
    rw [h1, Option.some_bind] at h
    have i1 := hin k _ g1 h0 h1
    cases h2 : PlayState.drawStage g1 with
    | none =>
      rw [h2] at h
      exact absurd h (by simp)
    | some g2 =>
      rw [h2, Option.some_bind] at h
      have i2 := hdraw g1 g2 i1 h2
      have i3 := htick g2 k i2
      by_cases hp : (!(PlayState.timeTick g2 k).playState.pauseMovement) = true
      · rw [if_pos hp, Option.some.injEq] at h
        rw [← h]
        exact hptick _ k i3
      · rw [if_neg hp] at h
        exact absurd h (by simp)

/-- A property of the vitals that every operation of a frame keeps is kept
by the frame `PlayState::run`. -/
theorem run_keeps (P : Vitals → Prop)
    (hinit : ∀ g, P g.vitals → P (PlayState.init g).vitals)
    (hin : ∀ k, Keeps (fun g => P g.vitals) (fun g => PlayState.handleInput g k))
    (hdraw : Keeps (fun g => P g.vitals) PlayState.drawStage)
    (htick : ∀ g k, P g.vitals → P (PlayState.timeTick g k).vitals)
    (hptick : ∀ g k, P g.vitals → P (Player.timeTick g k).vitals)
    (hjump : Keeps (fun g => P g.vitals) Player.processJump)
    (henemy : ∀ g rnd, P g.vitals → P (PlayState.tickEnemyMovement g rnd).vitals)
    (k : Keys) (rnd : Fin 2) :
    Keeps (fun g => P g.vitals) (fun g => PlayState.run g k rnd) := by
  intro g g' hI h
  change PlayState.run g k rnd = some g' at h
  unfold PlayState.run at h
  cases hb : PlayState.runBeforeEnemy g k with
  | none =>
    rw [hb] at h
    exact absurd h (by simp)
  | some g4 =>
    rw [hb, Option.map_some', Option.some.injEq] at h
    have i4 : P g4.vitals := by
      unfold PlayState.runBeforeEnemy at hb
      dsimp only at hb
      have h0 : P (if (!g.playState.initialized_) = true then
          { PlayState.init g with
            playState := { (PlayState.init g).playState with initialized_ := true } }
          else g).vitals := by
        split_ifs
        · exact hinit g hI
        · exact hI
      cases h1 : PlayState.handleInput (if (!g.playState.initialized_) = true then
          { PlayState.init g with
            playState := { (PlayState.init g).playState with initialized_ := true } }
          else g) k with
      | none =>
        rw [h1] at hb
        exact absurd hb (by simp)
      | some g1 =>
        rw [h1, Option.some_bind] at hb
        have i1 := hin k _ g1 h0 h1
        cases h2 : PlayState.drawStage g1 with
        | none =>
          rw [h2] at hb
          exact absurd hb (by simp)
        | some g2 =>
          rw [h2, Option.some_bind] at hb
          have i2 := hdraw g1 g2 i1 h2
          have i3 := htick g2 k i2
          by_cases hp : (!(PlayState.timeTick g2 k).playState.pauseMovement) = true
          · rw [if_pos hp] at hb
            exact hjump _ g4 (hptick _ k i3) hb
          · rw [if_neg hp, Option.some.injEq] at hb
            rw [← hb]
            exact i3
    rw [← h]
    split_ifs
    · exact henemy g4 rnd i4
    · exact i4

/-- A frame of `PlayState::run` keeps the health part sound. -/
theorem run_roundSafe (k : Keys) (rnd : Fin 2) :
    Keeps RoundSafe (fun g => PlayState.run g k rnd) :=
  run_keeps Vitals.roundSafe init_roundSafe handleInput_roundSafe drawStage_roundSafe
    stateTimeTick_roundSafe playerTimeTick_roundSafe processJump_roundSafe
    tickEnemyMovement_roundSafe k rnd

/-- A frame of `PlayState::run` keeps the jump part sound. -/
theorem run_jumpSafe (k : Keys) (rnd : Fin 2) :
    Keeps JumpSafe (fun g => PlayState.run g k rnd) :=
  run_keeps Vitals.jumpSafe init_jumpSafe handleInput_jumpSafe drawStage_jumpSafe
    stateTimeTick_jumpSafe playerTimeTick_jumpSafe processJump_jumpSafe
    tickEnemyMovement_jumpSafe k rnd

/-! ### Health never goes negative -/

/-- A step of the victory sequencer keeps the health part sound. -/
theorem processEndState_roundSafe (g : Game) (h : RoundSafe g) :
    RoundSafe (PlayState.processEndState g) := by
  unfold RoundSafe at h ⊢
  rcases processEndState_vitals g with e | ⟨a, _, _, e⟩ | ⟨hh, e⟩ | e
  · rw [e]
    exact h
  · rw [e]
    exact h
  · rw [e]
    exact roundSafe_damage g.vitals h hh
  · rw [e]
    exact roundSafe_cleaned _

/-- A step of the defeat sequencer keeps the health part sound. -/
theorem processEnemyEndState_roundSafe (g : Game) (h : RoundSafe g) :
    RoundSafe (PlayState.processEnemyEndState g) := by
  unfold RoundSafe at h ⊢
  rcases processEnemyEndState_vitals g with e | e | e
  · rw [e]
    exact h
  · rw [e]
    exact ⟨h.1, h.2.1, h.2.2.1, show (0 : Int) ≤ kPlayerDefaultY by decide⟩
  · rw [e]
    exact roundSafe_cleaned _

/-- Every operation of a round keeps the health part sound. -/
theorem roundOp_roundSafe (op : RoundOp) : Keeps RoundSafe op.apply := by
  intro g g' hI h
  cases op with
  | input k => exact handleInput_roundSafe k g g' hI h
  | tick k =>
    change some (PlayState.onTimeTick g k) = some g' at h
    rw [Option.some.injEq] at h
    rw [← h]
    exact onTimeTick_roundSafe g k hI
  | render => exact renderEnemy_roundSafe g g' hI h
  | victory =>
    change some (PlayState.processEndState g) = some g' at h
    rw [Option.some.injEq] at h
    rw [← h]
    exact processEndState_roundSafe g hI
  | defeat =>
    change some (PlayState.processEnemyEndState g) = some g' at h
    rw [Option.some.injEq] at h
    rw [← h]
    exact processEnemyEndState_roundSafe g hI
  | frame k rnd => exact run_roundSafe k rnd g g' hI h

/-- Every sequence of operations of a round keeps the health part sound. -/
theorem applyAll_roundSafe (ops : List RoundOp) : Keeps RoundSafe (RoundOp.applyAll ops) := by
  induction ops with
  | nil =>
    intro g g' hI h
    change some g = some g' at h
    rw [Option.some.injEq] at h
    rw [← h]
    exact hI
  | cons op ops ih =>
    intro g g' hI h
    change (op.apply g).bind (RoundOp.applyAll ops) = some g' at h
    cases h1 : op.apply g with
    | none =>
      rw [h1] at h
      exact absurd h (by simp)
    | some g1 =>
      rw [h1, Option.some_bind] at h
      exact ih g1 g' (roundOp_roundSafe op g g1 hI h1) h

/-- C39: in every state reached from a reset round (both healths
`DEFAULT_HEALTH`, no freeze on, the player at the ground height) through any
sequence of `PlayState::handleInput` (with the `Player::handleInput` it
calls), `PlayState::onTimeTick`, `PlayState::renderEnemy` with its collision
handling, steps of the two round sequencers and whole frames
`PlayState::run`, the player's health and the enemy's health are at least
0. -/
theorem health_never_negative (g0 g : Game) (ops : List RoundOp)
    (h0 : ResetRound g0) (hr : RoundOp.applyAll ops g0 = some g) :
    0 ≤ g.player.health ∧ 0 ≤ g.playState.enemyHealth := by
  have hs : RoundSafe g0 := by
    obtain ⟨a1, a2, a3, a4⟩ := h0
    refine ⟨?_, ?_, ?_, ?_⟩
    · show 0 ≤ g0.player.health
      rw [a1]
      decide
    · show 0 ≤ g0.playState.enemyHealth
      rw [a2]
      decide
    · intro hp
      exact absurd (a3.symm.trans hp) (by decide)
    · show 0 ≤ g0.player.y
      rw [a4]
      decide
  have hg := applyAll_roundSafe ops g0 g hs hr
  exact ⟨hg.1, hg.2.1⟩

/-- Witness of C39: the operations of `shortRound` from the first frame of a
round. -/
theorem health_never_negative_witness :
    ∃ g, RoundOp.applyAll shortRound sampleGame = some g ∧
      0 ≤ g.player.health ∧ 0 ≤ g.playState.enemyHealth := by
  have hs : (RoundOp.applyAll shortRound sampleGame).isSome = true := by decide
  obtain ⟨g, hg⟩ := Option.isSome_iff_exists.mp hs
  exact ⟨g, hg, health_never_negative sampleGame g shortRound
    (by unfold ResetRound; decide) hg⟩

/-! ### The jump acceleration is never zero in a jump -/

/-- One pass of the loop of `Game::run` keeps the jump part sound. -/
theorem runFrame_jumpSafe (i : FrameInput) : Keeps JumpSafe (fun g => Game.runFrame g i) := by
  intro g g' hI h
  change Game.runFrame g i = some g' at h
  unfold Game.runFrame at h
  by_cases hs : g.state = GameState.Intro ∨ g.state = GameState.Preview
  · rw [if_pos hs, Option.some.injEq] at h
    rw [← h]
    exact hI
  · rw [if_neg hs] at h
    exact run_jumpSafe i.keys i.rnd g g' hI h

/-- The loop of `Game::run` keeps the jump part sound. -/
theorem runFrames_jumpSafe (ins : List FrameInput) : Keeps JumpSafe (Game.runFrames ins) := by
  induction ins with
  | nil =>
    intro g g' hI h
    change some g = some g' at h
    rw [Option.some.injEq] at h
    rw [← h]
    exact hI
  | cons i ins ih =>
    intro g g' hI h
    change (Game.runFrame g i).bind (Game.runFrames ins) = some g' at h
    cases h1 : Game.runFrame g i with
    | none =>
      rw [h1] at h
      exact absurd h (by simp)
    | some g1 =>
      rw [h1, Option.some_bind] at h
      exact ih g1 g' (runFrame_jumpSafe i g g1 hI h1) h

/-- A state whose jump part is sound has, while the player is in the air, the
player on the arc of the jump, a jump acceleration between 30 and 53, and a
`processJump` call that does not divide by zero. -/
theorem jumpSafe_division (g : Game) (h : JumpSafe g) :
    (Airborne g.player →
      JumpArc g.player ∧ 30 ≤ g.player.jumpAcceleration_ ∧
      g.player.jumpAcceleration_ ≤ kPlayerJumpAccelFrameRate) ∧
    ∃ g', Player.processJump g = some g' := by
  have harc : Airborne g.player →
      JumpArc g.player ∧ 30 ≤ g.player.jumpAcceleration_ ∧
      g.player.jumpAcceleration_ ≤ kPlayerJumpAccelFrameRate := by
    intro ha
    obtain ⟨⟨a1, a2, a3⟩, _⟩ := h.1 ha
    refine ⟨⟨a1, a2, a3⟩, ?_, ?_⟩
    · change kPlayerJumpHeight ≤ g.player.y at a1
      change kPlayerJumpSpeed * (kPlayerJumpAccelFrameRate - g.player.jumpAcceleration_)
        = kPlayerDefaultY - g.player.y at a3
      simp only [kPlayerJumpHeight, kPlayerJumpSpeed, kPlayerJumpAccelFrameRate,
        kPlayerDefaultY] at a1 a3
      omega
    · change g.player.y ≤ kPlayerDefaultY at a2
      change kPlayerJumpSpeed * (kPlayerJumpAccelFrameRate - g.player.jumpAcceleration_)
        = kPlayerDefaultY - g.player.y at a3
      simp only [kPlayerJumpSpeed, kPlayerJumpAccelFrameRate, kPlayerDefaultY] at a2 a3 ⊢
      omega
  refine ⟨harc, processJump_returns g (fun ha => ?_)⟩
  have := (harc ha).2.1
  omega

/-- C40: in every state that the loop of `Game::run` reaches from the
initial state, a player whose action is JumpUp or JumpDown is on the arc of a
jump (the acceleration is the start value 53 less one unit for every two
pixels above the ground, the apex being 46 pixels up), so the jump
acceleration lies between 30 and 53.  The same holds in the state on which a
frame calls `Player::processJump`, and the call returns: the division
`TARGET_FPS / jumpAcceleration_` never divides by zero. -/
theorem jump_division_defined (g0 g : Game) (ins : List FrameInput)
    (h0 : g0.constructed) (hr : Game.runFrames ins g0 = some g) :
    (Airborne g.player →
      JumpArc g.player ∧ 30 ≤ g.player.jumpAcceleration_ ∧
      g.player.jumpAcceleration_ ≤ kPlayerJumpAccelFrameRate) ∧
    (∀ k g3, PlayState.jumpEntry g k = some g3 →
      (Airborne g3.player →
        JumpArc g3.player ∧ 30 ≤ g3.player.jumpAcceleration_ ∧
        g3.player.jumpAcceleration_ ≤ kPlayerJumpAccelFrameRate) ∧
      ∃ g4, Player.processJump g3 = some g4) := by
  have hn : ¬ g0.vitals.airborne := by
    intro ha
    have ha' : g0.player.currAction_ = PlayerAction.JumpUp
        ∨ g0.player.currAction_ = PlayerAction.JumpDown := ha
    rw [h0.1] at ha'
    exact absurd ha' (by decide)
  have hs : JumpSafe g0 :=
    ⟨fun ha => absurd ha hn, fun _ => h0.2.1, fun _ => hn, fun _ => hn⟩
  have hg : JumpSafe g := runFrames_jumpSafe ins g0 g hs hr
  refine ⟨(jumpSafe_division g hg).1, ?_⟩
  intro k g3 h3
  have h3s : JumpSafe g3 :=
    jumpEntry_keeps Vitals.jumpSafe init_jumpSafe handleInput_jumpSafe drawStage_jumpSafe
      stateTimeTick_jumpSafe playerTimeTick_jumpSafe k g g3 hg h3
  exact jumpSafe_division g3 h3s

/-- Witness of C40: the first jump of a game, three frames in. -/
theorem jump_division_defined_witness :
    ∃ g, Game.runFrames firstJump constructedGame = some g ∧
      g.player.currAction_ = PlayerAction.JumpUp ∧
      30 ≤ g.player.jumpAcceleration_ ∧ g.player.jumpAcceleration_ ≤ 53 := by
  have hs : (Game.runFrames firstJump constructedGame).isSome = true := by decide
  obtain ⟨g, hg⟩ := Option.isSome_iff_exists.mp hs
  have ha : (Game.runFrames firstJump constructedGame).map (fun g => g.player.currAction_)
      = some PlayerAction.JumpUp := by decide
  rw [hg, Option.map_some', Option.some.injEq] at ha
  have h := (jump_division_defined constructedGame g firstJump
    (by unfold Game.constructed; decide) hg).1 (Or.inl ha)
  exact ⟨g, hg, ha, h.2.1, h.2.2⟩

/-! ### The course of a round -/

/-- A request other than `Defeated` leaves the action `Defeated` only if it
was `Defeated` before. -/
theorem setMovement_defeated (p : Player) (m : Int) (hm : m ≠ PlayerAction.Defeated) :
    (p.setMovement m).currAction_ = PlayerAction.Defeated →
      p.currAction_ = PlayerAction.Defeated := by
  unfold Player.setMovement
  by_cases hc : p.currAction_ = PlayerAction.Defeated ∧ m = 0
  · rw [if_pos hc]
    exact id
  · rw [if_neg hc]
    intro h
    exact absurd h hm

/-- The method `setMovement` does not touch the hit flag. -/
theorem setMovement_showHit (p : Player) (m : Int) :
    (p.setMovement m).showHit_ = p.showHit_ := by
  unfold Player.setMovement
  split_ifs <;> rfl

/-- The method `Player::clear` takes the hit flag down. -/
theorem clear_showHit (p : Player) : p.clear.showHit_ = false := by
  unfold Player.clear Player.invertSprites
  dsimp only
  split_ifs <;> rfl

/-- A state that differs from one in order only in members the order does
not read, and in an action that is `Defeated` only if it was, is in order
once its health part is sound. -/
theorem orderly_transfer (g g' : Game) (h : Orderly g) (hR : RoundSafe g')
    (hh : g'.player.health = g.player.health)
    (he : g'.playState.enemyHealth = g.playState.enemyHealth)
    (hp : g'.playState.pauseMovement = g.playState.pauseMovement)
    (hs : g'.player.showHit_ = g.player.showHit_)
    (h1 : g'.playState.endState = g.playState.endState)
    (h2 : g'.playState.enemyEndState = g.playState.enemyEndState)
    (ha : g'.player.currAction_ = PlayerAction.Defeated →
      g.player.currAction_ = PlayerAction.Defeated) :
    Orderly g' := by
  obtain ⟨_, o1, o2, o3, o4⟩ := h
  refine ⟨hR, ?_, ?_, ?_, ?_⟩
  · rw [hp, hs, hh]
    exact o1
  · rw [h1, he]
    exact o2
  · rw [h2, hh, he]
    exact o3
  · intro hd
    rw [hh, he, h2]
    exact o4 (ha hd)

/-- The method `PlayState::init` keeps the course in order. -/
theorem init_orderly (g : Game) (h : Orderly g) : Orderly (PlayState.init g) := by
  obtain ⟨r1, r2, r3, _, _, r6, _, _⟩ := reset_fields g.playState
  obtain ⟨hR, _, _, _, o4⟩ := h
  refine ⟨init_roundSafe g hR, ?_, ?_, ?_, ?_⟩
  · intro hp
    exact absurd (r6.symm.trans hp) Bool.false_ne_true
  · intro hn
    exact absurd r1 hn
  · intro hn
    exact absurd r2 hn
  · intro hd
    have hd' : g.player.currAction_ = PlayerAction.Defeated := hd
    refine ⟨(o4 hd').1, ?_, ?_, ?_⟩
    · show g.playState.reset.enemyHealth ≠ 0
      rw [r3]
      decide
    · show g.playState.reset.enemyEndState ≠ EnemyEndSequence.Transition
      rw [r2]
      decide
    · show g.playState.reset.enemyEndState ≠ EnemyEndSequence.GameOver
      rw [r2]
      decide

/-- The first frame of the Play phase puts the game as its constructors left
it in order. -/
theorem init_opened (g : Game) (h : g.opened) : Orderly (PlayState.init g) := by
  obtain ⟨r1, r2, r3, _, _, r6, _, _⟩ := reset_fields g.playState
  obtain ⟨a1, a2, a3, a4, _, _, _, _⟩ := h
  refine ⟨⟨?_, ?_, ?_, ?_⟩, ?_, ?_, ?_, ?_⟩
  · show 0 ≤ g.player.health
    rw [a2]
    decide
  · show 0 ≤ g.playState.reset.enemyHealth
    rw [r3]
    decide
  · intro _
    show 1 ≤ g.playState.reset.enemyHealth
    rw [r3]
    decide
  · show 0 ≤ g.player.y
    rw [a3]
    decide
  · intro hp
    exact absurd (r6.symm.trans hp) Bool.false_ne_true
  · intro hn
    exact absurd r1 hn
  · intro hn
    exact absurd r2 hn
  · intro hd
    have hd' : g.player.currAction_ = PlayerAction.Defeated := hd
    rw [a1] at hd'
    exact absurd hd' (by decide)

/-- After `PlayState::cleanUp` of a player whose action is not `Defeated`
the course is in order, and the action is Idle. -/
theorem cleanUp_orderly (g : Game) (hd : g.player.currAction_ ≠ PlayerAction.Defeated) :
    Orderly (PlayState.cleanUp g) ∧
    (PlayState.cleanUp g).player.currAction_ = PlayerAction.Default := by
  obtain ⟨r1, r2, r3, _, _, r6, _, _⟩ := reset_fields g.playState
  obtain ⟨c1, _, c3, _, _, _, _, _, _⟩ := clear_fields g.player
  rw [if_neg hd] at c1
  have hR : RoundSafe (PlayState.cleanUp g) := by
    unfold RoundSafe
    rw [cleanUp_vitals]
    exact roundSafe_cleaned _
  refine ⟨⟨hR, ?_, ?_, ?_, ?_⟩, c1⟩
  · intro hp
    exact absurd (r6.symm.trans hp) Bool.false_ne_true
  · intro hn
    exact absurd r1 hn
  · intro hn
    exact absurd r2 hn
  · intro hc
    have hc' : g.player.clear.currAction_ = PlayerAction.Defeated := hc
    rw [c1] at hc'
    exact absurd hc' (by decide)

/-- Every state follows itself. -/
theorem inputStep_refl (g : Game) : InputStep g g :=
  ⟨rfl, rfl, rfl, rfl, rfl, id, Or.inl ⟨rfl, rfl⟩⟩

/-- The parts of `Player::handleInput` compose. -/
theorem inputStep_trans {a b c : Game} (h1 : InputStep a b) (h2 : InputStep b c) :
    InputStep a c := by
  obtain ⟨a1, a2, a3, a4, a5, a6, a7⟩ := h1
  obtain ⟨b1, b2, b3, b4, b5, b6, b7⟩ := h2
  refine ⟨b1.trans a1, b2.trans a2, b3.trans a3, b4.trans a4, b5.trans a5,
    fun h => a6 (b6 h), ?_⟩
  rcases b7 with ⟨p, s⟩ | hb
  · rcases a7 with ⟨p', s'⟩ | ⟨p', s'⟩
    · exact Or.inl ⟨p.trans p', s.trans s'⟩
    · exact Or.inr ⟨p.trans p', s.trans s'⟩
  · exact Or.inr hb

/-- The direction, crouch and jump keys keep the hit flag, and leave the
action `Defeated` only if it was. -/
theorem afterMovementKeys_course (g : Game) (k : Keys) :
    (Player.afterMovementKeys g k).showHit_ = g.player.showHit_ ∧
    ((Player.afterMovementKeys g k).currAction_ = PlayerAction.Defeated →
      g.player.currAction_ = PlayerAction.Defeated) := by
  constructor
  · unfold Player.afterMovementKeys
    dsimp only
    split_ifs <;> simp only [setMovement_showHit]
  · have hs : ∀ (p : Player) (m : Int), (p.setMovement m).currAction_ = PlayerAction.Defeated →
        m ≠ PlayerAction.Defeated → p.currAction_ = PlayerAction.Defeated :=
      fun p m h hm => setMovement_defeated p m hm h
    unfold Player.afterMovementKeys
    dsimp only
    split_ifs
    all_goals
      intro h
      repeat (first | exact h | replace h := hs _ _ h (by decide))

/-- In the Play phase `Player::processCollision` returns a state that
follows the one it was called on. -/
theorem processCollision_inputStep (g : Game) (h : g.state = GameState.Play) :
    ∃ g', Player.processCollision g = some g' ∧ InputStep g g' := by
  rcases processCollision_play_cases g h with e | e
  · exact ⟨g, e, inputStep_refl g⟩
  · exact ⟨_, e, rfl, rfl, rfl, rfl, rfl, id, Or.inr ⟨rfl, rfl⟩⟩

/-- In the Play phase the lambda `doAttack` returns a state that follows the
one it was called on. -/
theorem doAttack_inputStep (g : Game) (cond : Bool) (mv : Int)
    (hmv : mv ≠ PlayerAction.Defeated) (h : g.state = GameState.Play) :
    ∃ g', Player.doAttack g cond mv = some g' ∧ InputStep g g' := by
  unfold Player.doAttack
  split_ifs
  · obtain ⟨g', h1, h2⟩ := processCollision_inputStep
      { g with player := Player.setMovement
                 { g.player with controlsLocked := true, canAttack := false } mv } h
    refine ⟨g', h1, inputStep_trans ?_ h2⟩
    exact ⟨rfl, (setMovement_keeps _ _).1, rfl, rfl, rfl,
      setMovement_defeated _ mv hmv, Or.inl ⟨rfl, setMovement_showHit _ _⟩⟩
  · exact ⟨g, rfl, inputStep_refl g⟩

/-- The method `Player::handleInput` always returns, and its result follows
the state it was called on. -/
theorem handleInput_inputStep (g : Game) (k : Keys) :
    ∃ g', Player.handleInput g k = some g' ∧ InputStep g g' := by
  by_cases hblock : g.state ≠ GameState.Play ∨ g.player.controlsLocked
      ∨ g.playState.renderEnemyHit ∨ g.playState.pauseMovement
  · exact ⟨g, handleInput_guarded g k hblock, inputStep_refl g⟩
  · have hplay : g.state = GameState.Play := by
      by_contra hc
      exact hblock (Or.inl hc)
    have hlock : g.player.controlsLocked = false := by
      cases hc : g.player.controlsLocked
      · rfl
      · exact absurd (Or.inr (Or.inl hc)) hblock
    have hhit : g.playState.renderEnemyHit = false := by
      cases hc : g.playState.renderEnemyHit
      · rfl
      · exact absurd (Or.inr (Or.inr (Or.inl hc))) hblock
    have hpause : g.playState.pauseMovement = false := by
      cases hc : g.playState.pauseMovement
      · rfl
      · exact absurd (Or.inr (Or.inr (Or.inr hc))) hblock
    rw [handleInput_blocks g k hplay hlock hhit hpause]
    have h3 : InputStep g { g with player := Player.afterMovementKeys g k } :=
      ⟨rfl, (afterMovementKeys_vitals g k).1, rfl, rfl, rfl, (afterMovementKeys_course g k).2,
        Or.inl ⟨rfl, (afterMovementKeys_course g k).1⟩⟩
    have m1 : (if k.down = true then (6 : Int) else 5) ≠ PlayerAction.Defeated := by
      split_ifs <;> decide
    have m3 : (if k.down = true then (8 : Int) else 7) ≠ PlayerAction.Defeated := by
      split_ifs <;> decide
    obtain ⟨g4, e4, s4⟩ := doAttack_inputStep { g with player := Player.afterMovementKeys g k }
      (k.keyA && (Player.afterMovementKeys g k).canAttack) (if k.down then 6 else 5) m1 hplay
    have t4 := inputStep_trans h3 s4
    rw [e4, Option.some_bind]
    obtain ⟨g5, e5, s5⟩ := doAttack_inputStep g4
      (k.keyS && g4.player.canAttack && (k.left || k.right)) 9 (by decide) (t4.1.trans hplay)
    have t5 := inputStep_trans t4 s5
    rw [e5, Option.some_bind]
    obtain ⟨g6, e6, s6⟩ := doAttack_inputStep g5
      (k.keyS && g5.player.canAttack) (if k.down then 8 else 7) m3 (t5.1.trans hplay)
    have t6 := inputStep_trans t5 s6
    rw [e6, Option.some_bind]
    have s7 : InputStep g6 (Player.afterKeyRelease g6 k) := by
      unfold Player.afterKeyRelease
      split_ifs
      · exact ⟨rfl, rfl, rfl, rfl, rfl, id, Or.inl ⟨rfl, rfl⟩⟩
      · exact inputStep_refl g6
    have t7 := inputStep_trans t6 s7
    unfold Player.flyingKickBlock
    split_ifs
    · obtain ⟨g8, e8, s8⟩ := processCollision_inputStep
        { Player.afterKeyRelease g6 k with
          player := { (Player.afterKeyRelease g6 k).player with
                      isFlyingKick_ := true, canFlyKick_ := false, stunJumpTimer_ := 0 } }
        (t7.1.trans hplay)
      refine ⟨g8, e8, inputStep_trans t7 (inputStep_trans ?_ s8)⟩
      exact ⟨rfl, rfl, rfl, rfl, rfl, id, Or.inl ⟨rfl, rfl⟩⟩
    · exact ⟨_, rfl, t7⟩

/-- In a state in order no reset of the round finds the action `Defeated`:
at the sequencer positions where `PlayState::cleanUp` is called the player's
action is another one. -/
theorem reset_finds_no_defeated (g : Game) (h : Orderly g) (hs : ResetDue g) :
    g.player.currAction_ ≠ PlayerAction.Defeated := by
  obtain ⟨_, _, o2, _, o4⟩ := h
  intro hd
  obtain ⟨_, d2, d3, d4⟩ := o4 hd
  rcases hs with e | e | e | e
  · exact d2 (o2 (by rw [e]; decide))
  · exact d2 (o2 (by rw [e]; decide))
  · exact d3 e
  · exact d4 e

/-- The method `PlayState::handleInput` keeps the course in order: a hit of
the player starts the freeze and shows the hit together, only while both
actors have health, and the restart resets a player whose action is not
`Defeated`. -/
theorem handleInput_orderly (k : Keys) :
    Keeps Orderly (fun g => PlayState.handleInput g k) := by
  intro g g' hI h
  have hstep : ∃ g1, (if g.player.health > 0 ∧ g.playState.enemyHealth > 0
      then Player.handleInput g k else some g) = some g1 ∧ Orderly g1 := by
    by_cases hg : g.player.health > 0 ∧ g.playState.enemyHealth > 0
    · rw [if_pos hg]
      obtain ⟨g1, h1, _, e2, e3, e4, e5, e6, e7⟩ := handleInput_inputStep g k
      obtain ⟨g1', h1', _, _, _, y4, _⟩ := handleInput_effect g k
      have hy : g1.player.y = g.player.y := by
        rw [h1, Option.some.injEq] at h1'
        rw [h1']
        exact y4
      obtain ⟨hR, o1, o2, o3, o4⟩ := hI
      refine ⟨g1, h1, ⟨?_, ?_, ?_, ?_⟩, ?_, ?_, ?_, ?_⟩
      · show 0 ≤ g1.player.health
        rw [e2]
        exact hR.1
      · show 0 ≤ g1.playState.enemyHealth
        rw [e3]
        exact hR.2.1
      · intro _
        show 1 ≤ g1.playState.enemyHealth
        rw [e3]
        omega
      · show 0 ≤ g1.player.y
        rw [hy]
        exact hR.2.2.2
      · intro hp
        rw [e2]
        rcases e7 with ⟨p, s⟩ | ⟨_, s⟩
        · rw [s]
          exact o1 (p.symm.trans hp)
        · exact ⟨s, by omega⟩
      · rw [e4, e3]
        exact o2
      · rw [e5, e2, e3]
        exact o3
      · intro hd
        rw [e2, e3, e5]
        exact o4 (e6 hd)
    · rw [if_neg hg]
      exact ⟨g, rfl, hI⟩
  obtain ⟨g1, h1, hs⟩ := hstep
  change PlayState.handleInput g k = some g' at h
  unfold PlayState.handleInput at h
  rw [h1, Option.map_some', Option.some.injEq] at h
  rw [← h]
  by_cases hc : (g1.playState.enemyEndState = EnemyEndSequence.GameOver
      ∨ g1.playState.endState = EndSequence.GameOver) ∧ k.enter = true
  · rw [if_pos hc]
    have hd : g1.player.currAction_ ≠ PlayerAction.Defeated := by
      apply reset_finds_no_defeated g1 hs
      rcases hc.1 with e | e
      · exact Or.inr (Or.inr (Or.inr e))
      · exact Or.inr (Or.inl e)
    exact (cleanUp_orderly g1 hd).1
  · rw [if_neg hc]
    exact hs

/-- Two states with the same player and sequencer positions have the same
marks. -/
theorem marks_congr (g g' : Game) (hp : g'.player = g.player)
    (h1 : g'.playState.endState = g.playState.endState)
    (h2 : g'.playState.enemyEndState = g.playState.enemyEndState) :
    g'.marks = g.marks := by
  unfold Game.marks
  rw [hp, h1, h2]

/-- A state with the vitals and the marks of a state in order is in
order. -/
theorem orderly_congr (g g' : Game) (h : Orderly g) (hv : g'.vitals = g.vitals)
    (hm : g'.marks = g.marks) : Orderly g' := by
  have hR : RoundSafe g' := by
    unfold RoundSafe
    rw [hv]
    exact h.1
  exact orderly_transfer g g' h hR (congrArg Vitals.health hv) (congrArg Vitals.enemyHealth hv)
    (congrArg Vitals.paused hv) (congrArg Marks.showHit hm) (congrArg Marks.endState hm)
    (congrArg Marks.enemyEndState hm)
    (fun hd => (congrArg Vitals.action hv).symm.trans hd)

/-- The facing flip keeps the sequencer positions. -/
theorem flipEnemySprites_marks (st : PlayState) :
    st.flipEnemySprites.endState = st.endState ∧
    st.flipEnemySprites.enemyEndState = st.enemyEndState := by
  unfold PlayState.flipEnemySprites
  dsimp only
  split_ifs <;> exact ⟨rfl, rfl⟩

/-- The facing check does not touch the marks. -/
theorem flipChecker_marks (g : Game) : (PlayState.flipChecker g).marks = g.marks := by
  have hf := flipEnemySprites_marks
  apply marks_congr
  · exact (flipChecker_frame g).2.2.2.2
  · unfold PlayState.flipChecker
    dsimp only
    split_ifs <;> simp only [(hf _).1]
  · unfold PlayState.flipChecker
    dsimp only
    split_ifs <;> simp only [(hf _).2]

/-- The method `offsetEnemyX` keeps the marks. -/
theorem offsetEnemyX_marks (g : Game) (amount : Int) (isAdd : Bool) :
    (PlayState.offsetEnemyX g amount isAdd).marks = g.marks := by
  rw [offsetEnemyX_eq]
  rfl

/-- The check at the head of `moveEnemyRight` keeps the marks. -/
theorem afterRetreatCheck_marks (g : Game) : (PlayState.afterRetreatCheck g).marks = g.marks := by
  unfold PlayState.afterRetreatCheck
  split_ifs <;> rfl

/-- The method `moveEnemyRight` keeps the marks. -/
theorem moveEnemyRight_marks (g : Game) (d : Bool) :
    (PlayState.moveEnemyRight g d).marks = g.marks := by
  rw [moveEnemyRight_eq]
  split_ifs
  all_goals first
    | exact (offsetEnemyX_marks (PlayState.afterRetreatCheck g) EnemyRunSpriteFPS d).trans
        (afterRetreatCheck_marks g)
    | exact afterRetreatCheck_marks g

/-- The pursuit step keeps the marks. -/
theorem enemyPursuePlayer_marks (g : Game) : (PlayState.enemyPursuePlayer g).marks = g.marks := by
  unfold PlayState.enemyPursuePlayer
  dsimp only
  split_ifs
  · exact (offsetEnemyX_marks _ _ _).trans (offsetEnemyX_marks _ _ _)
  · exact offsetEnemyX_marks _ _ _
  · exact offsetEnemyX_marks _ _ _
  · rfl

/-- The AI step of the enemy keeps the marks. -/
theorem updateEnemyMovementState_marks (g : Game) (rnd : Fin 2) :
    (PlayState.updateEnemyMovementState g rnd).marks = g.marks := by
  unfold PlayState.updateEnemyMovementState
  cases g.playState.enemyMoveState
  · dsimp only
    split_ifs
    · exact enemyPursuePlayer_marks g
    · exact enemyPursuePlayer_marks g
  · rfl
  · exact moveEnemyRight_marks _ false
  · exact moveEnemyRight_marks _ true

/-- The method `tickEnemyMovement` keeps the marks. -/
theorem tickEnemyMovement_marks (g : Game) (rnd : Fin 2) :
    (PlayState.tickEnemyMovement g rnd).marks = g.marks := by
  unfold PlayState.tickEnemyMovement
  dsimp only
  split_ifs
  · exact updateEnemyMovementState_marks _ rnd
  · rfl

/-- The method `tickEnemyMovement` keeps the course in order. -/
theorem tickEnemyMovement_orderly (g : Game) (rnd : Fin 2) (h : Orderly g) :
    Orderly (PlayState.tickEnemyMovement g rnd) :=
  orderly_congr g _ h (tickEnemyMovement_vitals g rnd) (tickEnemyMovement_marks g rnd)

/-- The method `processCollisionWithPlayer` keeps the marks. -/
theorem processCollisionWithPlayer_marks (g : Game) :
    (PlayState.processCollisionWithPlayer g).marks = g.marks := by
  unfold PlayState.processCollisionWithPlayer
  dsimp only
  split_ifs <;> rw [offsetEnemyX_marks] <;> rfl

/-- The resolution of a completed enemy attack keeps the marks. -/
theorem resolveEnemyAttack_marks (g g' : Game) (h : PlayState.resolveEnemyAttack g = some g') :
    g'.marks = g.marks := by
  unfold PlayState.resolveEnemyAttack at h
  cases h1 : PlayState.isCollidedWithPlayer g with
  | none =>
    rw [h1] at h
    exact absurd h (by simp)
  | some hit1 =>
    rw [h1, Option.some_bind] at h
    dsimp only at h
    cases hit1
    · have e : (if (!false) = true then PlayState.resetEnemyMove g else g)
          = PlayState.resetEnemyMove g := rfl
      rw [e] at h
      cases h2 : PlayState.isCollidedWithPlayer (PlayState.resetEnemyMove g) with
      | none =>
        rw [h2] at h
        exact absurd h (by simp)
      | some hit2 =>
        rw [h2, Option.map_some', Option.some.injEq] at h
        rw [← h]
        split_ifs with hc
        · exact processCollisionWithPlayer_marks _
        · rfl
    · have e : (if (!true) = true then PlayState.resetEnemyMove g else g) = g := rfl
      rw [e, h1, Option.map_some', Option.some.injEq] at h
      rw [← h]
      split_ifs with hc
      · exact processCollisionWithPlayer_marks _
      · rfl

/-- While the hit of the player is shown the attack animation of the enemy
is paused and reports no completed loop. -/
theorem stepAttackSprite_shown (g : Game) (h : g.player.showHit_ = true) :
    (PlayState.stepAttackSprite g).1 = false := by
  unfold PlayState.stepAttackSprite Sprite.updateAndDraw
  dsimp only
  rw [h]
  split_ifs with h1 h2 h3
  · exact absurd h2 (by decide)
  · exact absurd h2 (by decide)
  · rfl
  · rfl

/-- The `switch` of `renderEnemy`, for a player who is not above the top of
the screen: the marks are kept, and a health point is taken only from a
player who has health left and whose hit is not shown. -/
theorem renderEnemySwitch_course (g g' : Game) (hy : 0 ≤ g.player.y)
    (h : PlayState.renderEnemySwitch g = some g') :
    g'.marks = g.marks ∧
    (g'.vitals = g.vitals
      ∨ (0 < g.player.health ∧ g.player.showHit_ = false
        ∧ g'.vitals = { g.vitals with health := g.player.health - 1 })) := by
  by_cases hm : g.playState.enemyCurrentMove = EnemyAction.Kick
      ∨ g.playState.enemyCurrentMove = EnemyAction.Punch
  · unfold PlayState.renderEnemySwitch at h
    cases hv : vecAt enemies (g.level - 1) with
    | none =>
      rw [hv] at h
      exact absurd h (by simp)
    | some nm =>
      rw [hv, Option.some_bind] at h
      have hk : (vecAt enemySprites g.playState.enemyRandomAttack).bind (fun _ =>
          if (PlayState.stepAttackSprite g).1 = true then
            PlayState.resolveEnemyAttack (PlayState.stepAttackSprite g).2
          else some (PlayState.stepAttackSprite g).2) = some g' := by
        rcases hm with hm | hm <;> rw [hm] at h <;> exact h
      cases hs : vecAt enemySprites g.playState.enemyRandomAttack with
      | none =>
        rw [hs] at hk
        exact absurd hk (by simp)
      | some s =>
        rw [hs, Option.some_bind] at hk
        by_cases hl : (PlayState.stepAttackSprite g).1 = true
        · rw [if_pos hl] at hk
          have hsh : g.player.showHit_ = false := by
            cases hc : g.player.showHit_
            · rfl
            · rw [stepAttackSprite_shown g hc] at hl
              exact absurd hl Bool.false_ne_true
          have hmk := resolveEnemyAttack_marks (PlayState.stepAttackSprite g).2 g' hk
          have hr := resolveEnemyAttack_vitals (PlayState.stepAttackSprite g).2 g' hk
          refine ⟨hmk, ?_⟩
          rcases hr with e | ⟨e1, e2⟩
          · exact Or.inl e
          · exact Or.inr ⟨e1, hsh, e2⟩
        · rw [if_neg hl, Option.some.injEq] at hk
          rw [← hk]
          exact ⟨rfl, Or.inl rfl⟩
  · obtain ⟨e1, e2, _⟩ := renderEnemySwitch_idle g g' (fun hc => hm (Or.inl hc))
      (fun hc => hm (Or.inr hc)) (Or.inr hy) h
    exact ⟨marks_congr g g' e1 (by rw [e2]) (by rw [e2]),
      Or.inl (vitals_congr g g' e1 (by rw [e2]) (by rw [e2]))⟩

/-- The method `renderEnemy`, for a player who is not above the top of the
screen: the marks are kept, and a health point is taken only from a player
who has health left and whose hit is not shown. -/
theorem renderEnemy_course (g g' : Game) (hy : 0 ≤ g.player.y)
    (h : PlayState.renderEnemy g = some g') :
    g'.marks = g.marks ∧
    (g'.vitals = g.vitals
      ∨ (0 < g.player.health ∧ g.player.showHit_ = false
        ∧ g'.vitals = { g.vitals with health := g.player.health - 1 })) := by
  unfold PlayState.renderEnemy at h
  cases hs : PlayState.renderEnemySwitch g with
  | none =>
    rw [hs] at h
    exact absurd h (by simp)
  | some g1 =>
    rw [hs, Option.map_some', Option.some.injEq] at h
    rw [← h, flipChecker_vitals, flipChecker_marks]
    exact renderEnemySwitch_course g g1 hy hs

/-- The method `renderEnemy` keeps the course in order: the enemy takes no
health point while the freeze of a player hit is on, nor from a player who
has none left. -/
theorem renderEnemy_orderly : Keeps Orderly PlayState.renderEnemy := by
  intro g g' hI h
  have hR := renderEnemy_roundSafe g g' hI.1 h
  obtain ⟨hm, hv⟩ := renderEnemy_course g g' hI.1.2.2.2 h
  rcases hv with e | ⟨e1, e2, e3⟩
  · exact orderly_congr g g' hI e hm
  · obtain ⟨_, o1, o2, o3, o4⟩ := hI
    have hh : g'.player.health = g.player.health - 1 := congrArg Vitals.health e3
    have he : g'.playState.enemyHealth = g.playState.enemyHealth :=
      congrArg Vitals.enemyHealth e3
    have hp : g'.playState.pauseMovement = g.playState.pauseMovement :=
      congrArg Vitals.paused e3
    have ha : g'.player.currAction_ = g.player.currAction_ := congrArg Vitals.action e3
    have hs : g'.player.showHit_ = g.player.showHit_ := congrArg Marks.showHit hm
    have h1 : g'.playState.endState = g.playState.endState := congrArg Marks.endState hm
    have h2 : g'.playState.enemyEndState = g.playState.enemyEndState :=
      congrArg Marks.enemyEndState hm
    refine ⟨hR, ?_, ?_, ?_, ?_⟩
    · intro hq
      have hq' := (o1 (hp.symm.trans hq)).1
      rw [e2] at hq'
      exact absurd hq' Bool.false_ne_true
    · rw [h1, he]
      exact o2
    · intro hn
      rw [h2] at hn
      have := (o3 hn).1
      omega
    · intro hd
      rw [ha] at hd
      have := (o4 hd).1
      omega

/-- The method `Player::play` touches the course of the round only when it
ends the defeat animation: the action goes from Defeated to VeryDefeated and
the defeat sequencer to `Transition`, together. -/
theorem play_course (g : Game) :
    ((Player.play g).vitals = g.vitals ∧ (Player.play g).marks = g.marks)
      ∨ (g.player.currAction_ = PlayerAction.Defeated
        ∧ (Player.play g).vitals = { g.vitals with action := PlayerAction.VeryDefeated }
        ∧ (Player.play g).marks
            = { g.marks with enemyEndState := EnemyEndSequence.Transition }) := by
  by_cases ha : g.player.currAction_ = PlayerAction.Defeated
  · simp only [PlayerAction.Defeated] at ha
    cases hl : (g.sprites SpriteId.player_defeated).updateAndDraw.1 <;>
      by_cases hsh : g.player.isShaking = true <;>
      by_cases h3 : g.player.life_counter + 1 = 3 <;>
      simp [Player.play, Game.vitals, Game.marks, ha, hl, hsh, h3, Player.setMovement,
        Player.invertSprites] <;>
      split_ifs <;> simp [ha]
  · left
    simp only [PlayerAction.Defeated] at ha
    by_cases hsh : g.player.isShaking = true <;>
      by_cases hw : g.player.currAction_ = 2 ∨ g.player.currAction_ = 3 <;>
      simp [Player.play, Game.vitals, Game.marks, ha, hsh, hw, Player.invertSprites] <;>
      split_ifs <;> simp [ha]

/-- The method `Player::play` keeps the course in order: the defeat
sequencer reaches `Transition` with the action `VeryDefeated`. -/
theorem play_orderly (g : Game) (h : Orderly g) : Orderly (Player.play g) := by
  rcases play_course g with ⟨ev, em⟩ | ⟨hd, ev, em⟩
  · exact orderly_congr g _ h ev em
  · have hR := play_roundSafe g h.1
    obtain ⟨_, o1, o2, o3, o4⟩ := h
    obtain ⟨d1, d2, _, _⟩ := o4 hd
    have hh : (Player.play g).player.health = g.player.health := congrArg Vitals.health ev
    have he : (Player.play g).playState.enemyHealth = g.playState.enemyHealth :=
      congrArg Vitals.enemyHealth ev
    have hp : (Player.play g).playState.pauseMovement = g.playState.pauseMovement :=
      congrArg Vitals.paused ev
    have ha : (Player.play g).player.currAction_ = PlayerAction.VeryDefeated :=
      congrArg Vitals.action ev
    have hs : (Player.play g).player.showHit_ = g.player.showHit_ := congrArg Marks.showHit em
    have h1 : (Player.play g).playState.endState = g.playState.endState :=
      congrArg Marks.endState em
    refine ⟨hR, ?_, ?_, ?_, ?_⟩
    · rw [hp, hs, hh]
      exact o1
    · rw [h1, he]
      exact o2
    · intro _
      rw [hh, he]
      exact ⟨d1, d2⟩
    · intro hc
      rw [ha] at hc
      exact absurd hc (by decide)

/-- The method `PlayState::drawStage` keeps the course in order. -/
theorem drawStage_orderly : Keeps Orderly PlayState.drawStage := by
  intro g g' hI h
  unfold PlayState.drawStage at h
  cases hv : vecAt enemies (g.level - 1) with
  | none =>
    rw [hv] at h
    exact absurd h (by simp)
  | some nm =>
    rw [hv, Option.some_bind] at h
    cases hr : PlayState.renderEnemy g with
    | none =>
      rw [hr] at h
      exact absurd h (by simp)
    | some g1 =>
      rw [hr, Option.map_some', Option.some.injEq] at h
      rw [← h]
      exact play_orderly g1 (renderEnemy_orderly g g1 hI hr)

/-- The first block of `onTimeTick` touches the course of the round only when
it ends the freeze of a player hit. -/
theorem tickHitFreeze_course (g : Game) :
    ((PlayState.tickHitFreeze g).vitals = g.vitals ∧ (PlayState.tickHitFreeze g).marks = g.marks)
      ∨ (g.playState.pauseMovement = true
        ∧ (PlayState.tickHitFreeze g).vitals
            = { g.vitals with paused := false, enemyHealth := g.playState.enemyHealth - 1 }
        ∧ (PlayState.tickHitFreeze g).playState.endState = g.playState.endState
        ∧ (PlayState.tickHitFreeze g).playState.enemyEndState = g.playState.enemyEndState) := by
  unfold PlayState.tickHitFreeze
  by_cases hp : g.playState.pauseMovement = true
  · rw [if_pos hp]
    dsimp only
    by_cases ht : g.playState.haltTime + 1 = 2
    · rw [if_pos ht]
      right
      refine ⟨hp, ?_, ?_, ?_⟩
      · split_ifs <;> rfl
      · split_ifs <;> rfl
      · split_ifs <;> rfl
    · rw [if_neg ht]
      exact Or.inl ⟨rfl, rfl⟩
  · rw [if_neg hp]
    exact Or.inl ⟨rfl, rfl⟩

/-- The first block of `onTimeTick` keeps the course in order: the freeze of
a player hit ends before either sequencer has left `Start`. -/
theorem tickHitFreeze_orderly (g : Game) (h : Orderly g) :
    Orderly (PlayState.tickHitFreeze g) := by
  rcases tickHitFreeze_course g with ⟨ev, em⟩ | ⟨hp, ev, e1, e2⟩
  · exact orderly_congr g _ h ev em
  · have hR := tickHitFreeze_roundSafe g h.1
    obtain ⟨hS, o1, o2, o3, o4⟩ := h
    have hpe : 1 ≤ g.playState.enemyHealth := hS.2.2.1 hp
    have hph : 1 ≤ g.player.health := (o1 hp).2
    have hq : (PlayState.tickHitFreeze g).playState.pauseMovement = false :=
      congrArg Vitals.paused ev
    have hh : (PlayState.tickHitFreeze g).player.health = g.player.health :=
      congrArg Vitals.health ev
    have ha : (PlayState.tickHitFreeze g).player.currAction_ = g.player.currAction_ :=
      congrArg Vitals.action ev
    refine ⟨hR, ?_, ?_, ?_, ?_⟩
    · intro hc
      exact absurd (hq.symm.trans hc) Bool.false_ne_true
    · intro hn
      rw [e1] at hn
      have := o2 hn
      omega
    · intro hn
      rw [e2] at hn
      have := (o3 hn).1
      omega
    · intro hd
      rw [ha] at hd
      have := (o4 hd).1
      omega

/-- A state whose enemy is out of health is in order when its health part is
sound, the defeat sequencer is at `Start` and the action is not
`Defeated`. -/
theorem orderly_won (g : Game) (hR : RoundSafe g) (he : g.playState.enemyHealth = 0)
    (h2 : g.playState.enemyEndState = EnemyEndSequence.Start)
    (ha : g.player.currAction_ ≠ PlayerAction.Defeated) : Orderly g := by
  refine ⟨hR, ?_, ?_, ?_, ?_⟩
  · intro hp
    have h1 : 1 ≤ g.playState.enemyHealth := hR.2.2.1 hp
    omega
  · intro _
    exact he
  · intro hn
    exact absurd h2 hn
  · intro hd
    exact absurd hd ha

/-- The choreography step keeps the enemy health and the defeat sequencer,
and a pose other than `Defeated` leaves the action `Defeated` only if it
was. -/
theorem prepareEndOfRoundChoreography_course (g : Game) (m : Int) (f s : Bool)
    (hm : m ≠ PlayerAction.Defeated) :
    (PlayState.prepareEndOfRoundChoreography g m f s).playState.enemyHealth
      = g.playState.enemyHealth ∧
    (PlayState.prepareEndOfRoundChoreography g m f s).playState.enemyEndState
      = g.playState.enemyEndState ∧
    ((PlayState.prepareEndOfRoundChoreography g m f s).player.currAction_
        = PlayerAction.Defeated → g.player.currAction_ = PlayerAction.Defeated) := by
  unfold PlayState.prepareEndOfRoundChoreography
  dsimp only
  refine ⟨?_, ?_, ?_⟩
  · split_ifs <;> rfl
  · split_ifs <;> rfl
  · intro h
    have h' := setMovement_defeated _ m hm h
    revert h'
    unfold Player.invertSprites
    split_ifs <;> exact id

/-- A step of the victory sequencer either keeps the enemy health and the
defeat sequencer and leaves the action `Defeated` only if it was, or it is
the reset of the round at `Transition`. -/
theorem processEndState_course (g : Game) :
    ((PlayState.processEndState g).playState.enemyHealth = g.playState.enemyHealth ∧
      (PlayState.processEndState g).playState.enemyEndState = g.playState.enemyEndState ∧
      ((PlayState.processEndState g).player.currAction_ = PlayerAction.Defeated →
        g.player.currAction_ = PlayerAction.Defeated))
    ∨ (g.playState.endState = EndSequence.Transition ∧
        PlayState.processEndState g =
          { PlayState.cleanUp
              { g with playState := { g.playState with maxHaltTime := EndDelayHigh } } with
            level := g.level + 1, state := GameState.Preview }) := by
  by_cases ht : g.playState.endState = EndSequence.Transition
  · rw [processEndState_transition g ht]
    by_cases h5 : g.level = 5
    · rw [if_pos h5]
      exact Or.inl ⟨rfl, rfl, id⟩
    · rw [if_neg h5]
      exact Or.inr ⟨ht, rfl⟩
  · left
    by_cases hc : g.playState.endState = EndSequence.CountLife
    · rw [processEndState_countLife g hc]
      split_ifs <;> exact ⟨rfl, rfl, id⟩
    · by_cases hpose : EndSequence.ShowPunch ≤ g.playState.endState
          ∧ g.playState.endState ≤ EndSequence.Smile
      · simp only [EndSequence.ShowPunch, EndSequence.Smile] at hpose
        have hcs : g.playState.endState = 2 ∨ g.playState.endState = 3
            ∨ g.playState.endState = 4 ∨ g.playState.endState = 5
            ∨ g.playState.endState = 6 ∨ g.playState.endState = 7
            ∨ g.playState.endState = 8 := by omega
        have hp := prepareEndOfRoundChoreography_course g
        rcases hcs with h1 | h1 | h1 | h1 | h1 | h1 | h1
        · have e : PlayState.processEndState g
              = PlayState.prepareEndOfRoundChoreography g 5 false true := by
            simp [PlayState.processEndState, h1]
          rw [e]
          exact hp 5 false true (by decide)
        · have e : PlayState.processEndState g
              = PlayState.prepareEndOfRoundChoreography g 8 true true := by
            simp [PlayState.processEndState, h1]
          rw [e]
          exact hp 8 true true (by decide)
        · have e : PlayState.processEndState g
              = PlayState.prepareEndOfRoundChoreography g 9 true true := by
            simp [PlayState.processEndState, h1]
          rw [e]
          exact hp 9 true true (by decide)
        · have e : PlayState.processEndState g
              = PlayState.prepareEndOfRoundChoreography g 9 true true := by
            simp [PlayState.processEndState, h1]
          rw [e]
          exact hp 9 true true (by decide)
        · have e : PlayState.processEndState g
              = PlayState.prepareEndOfRoundChoreography g 8 true true := by
            simp [PlayState.processEndState, h1]
          rw [e]
          exact hp 8 true true (by decide)
        · have e : PlayState.processEndState g
              = PlayState.prepareEndOfRoundChoreography g 5 true true := by
            simp [PlayState.processEndState, h1]
          rw [e]
          exact hp 5 true true (by decide)
        · have e : PlayState.processEndState g
              = PlayState.prepareEndOfRoundChoreography g 12 true false := by
            simp [PlayState.processEndState, h1]
          rw [e]
          exact hp 12 true false (by decide)
      · by_cases hw : g.playState.endState = EndSequence.PlayWinSound
        · rw [processEndState_playWinSound g hw]
          exact ⟨rfl, rfl, id⟩
        · by_cases hg : g.playState.endState = EndSequence.GameOver
          · rw [processEndState_gameOver g hg]
            exact ⟨rfl, rfl, id⟩
          · have hst : g.playState.endState < EndSequence.PlayWinSound
                ∨ EndSequence.GameOver < g.playState.endState := by
              simp only [EndSequence.ShowPunch, EndSequence.Smile, EndSequence.PlayWinSound,
                EndSequence.GameOver, EndSequence.CountLife, EndSequence.Transition]
                at ht hc hpose hw hg ⊢
              omega
            rw [processEndState_start g hst]
            exact ⟨rfl, rfl, id⟩

/-- A step of the victory sequencer, taken while the enemy is out of health,
keeps the course in order; its reset of the round finds an action other than
`Defeated` and leaves the player Idle. -/
theorem processEndState_orderly (g : Game) (h : Orderly g)
    (he : g.playState.enemyHealth = 0) : Orderly (PlayState.processEndState g) := by
  have hR := processEndState_roundSafe g h.1
  obtain ⟨_, _, _, o3, o4⟩ := h
  have hnd : g.player.currAction_ ≠ PlayerAction.Defeated := by
    intro hd
    exact (o4 hd).2.1 he
  have hst : g.playState.enemyEndState = EnemyEndSequence.Start := by
    by_contra hn
    exact (o3 hn).2 he
  rcases processEndState_course g with ⟨e1, e2, e3⟩ | ⟨_, e⟩
  · exact orderly_won _ hR (e1.trans he) (e2.trans hst) (fun hd => hnd (e3 hd))
  · rw [e]
    exact (cleanUp_orderly
      { g with playState := { g.playState with maxHaltTime := EndDelayHigh } } hnd).1

/-- The second block of `onTimeTick` keeps the course in order. -/
theorem tickEndState_orderly (g : Game) (h : Orderly g) :
    Orderly (PlayState.tickEndState g) := by
  unfold PlayState.tickEndState
  by_cases h0 : g.playState.enemyHealth = 0
  · rw [if_pos h0]
    dsimp only
    by_cases ht : g.playState.haltTime + 1 = g.playState.maxHaltTime
    · rw [if_pos ht]
      exact processEndState_orderly
        { g with playState := { g.playState with haltTime := g.playState.haltTime + 1 } } h h0
    · rw [if_neg ht]
      exact h
  · rw [if_neg h0]
    exact h

/-- A state whose player is out of health while the enemy is not is in order
when its health part is sound, no freeze is on, the victory sequencer is at
`Start` and an action `Defeated` finds the defeat sequencer before
`Transition`. -/
theorem orderly_lost (g : Game) (hR : RoundSafe g)
    (hp : g.playState.pauseMovement = false) (hh : g.player.health = 0)
    (he : g.playState.enemyHealth ≠ 0) (h1 : g.playState.endState = EndSequence.Start)
    (ha : g.player.currAction_ = PlayerAction.Defeated →
      g.playState.enemyEndState ≠ EnemyEndSequence.Transition ∧
      g.playState.enemyEndState ≠ EnemyEndSequence.GameOver) : Orderly g := by
  refine ⟨hR, ?_, ?_, ?_, ?_⟩
  · intro hc
    exact absurd (hp.symm.trans hc) Bool.false_ne_true
  · intro hn
    exact absurd h1 hn
  · intro _
    exact ⟨hh, he⟩
  · intro hd
    exact ⟨hh, he, (ha hd).1, (ha hd).2⟩

/-- A step of the defeat sequencer, taken while the player is out of health
and the enemy is not, keeps the course in order: the action becomes
`Defeated` with the sequencer at `MoveFeet`, and the reset of the round at
`Transition` finds another action. -/
theorem processEnemyEndState_orderly (g : Game) (h : Orderly g)
    (he : g.playState.enemyHealth ≠ 0) (hh : g.player.health = 0) :
    Orderly (PlayState.processEnemyEndState g) := by
  have hR := processEnemyEndState_roundSafe g h.1
  obtain ⟨_, o1, o2, _, o4⟩ := h
  have hp : g.playState.pauseMovement = false := by
    cases hc : g.playState.pauseMovement
    · rfl
    · have := (o1 hc).2
      omega
  have h1 : g.playState.endState = EndSequence.Start := by
    by_contra hn
    exact he (o2 hn)
  cases hes : g.playState.enemyEndState with
  | Transition =>
    have hnd : g.player.currAction_ ≠ PlayerAction.Defeated := by
      intro hd
      exact (o4 hd).2.2.1 hes
    rw [processEnemyEndState_transition g hes]
    by_cases hl : g.player.lives > 0
    · rw [if_pos hl]
      exact (cleanUp_orderly
        { g with player := { g.player with lives := g.player.lives - 1 },
                 state := GameState.Preview } hnd).1
    · rw [if_neg hl]
      rw [processEnemyEndState_transition g hes, if_neg hl] at hR
      exact orderly_lost _ hR hp hh he h1 (fun hd => absurd hd hnd)
  | GameOver =>
    have hnd : g.player.currAction_ ≠ PlayerAction.Defeated := by
      intro hd
      exact (o4 hd).2.2.2 hes
    rw [processEnemyEndState_gameOver g hes]
    rw [processEnemyEndState_gameOver g hes] at hR
    exact orderly_lost _ hR hp hh he h1 (fun hd => absurd hd hnd)
  | LieDown =>
    have e : PlayState.processEnemyEndState g =
        { g with
          player := { g.player.setMovement 13 with y := kPlayerDefaultY }
          sprites := Function.update g.sprites SpriteId.player_defeated
                       (g.sprites SpriteId.player_defeated).resetAnimation
          playState := { g.playState with enemyEndState := EnemyEndSequence.MoveFeet } } := by
      simp only [PlayState.processEnemyEndState, hes]
    rw [e] at hR ⊢
    refine orderly_lost _ hR hp ?_ he h1
      (fun _ => ⟨(by decide : EnemyEndSequence.MoveFeet ≠ EnemyEndSequence.Transition),
        (by decide : EnemyEndSequence.MoveFeet ≠ EnemyEndSequence.GameOver)⟩)
    exact (setMovement_keeps g.player 13).1.trans hh
  | MoveFeet =>
    have e : PlayState.processEnemyEndState g = g := by
      simp only [PlayState.processEnemyEndState, hes]
    rw [e] at hR ⊢
    exact orderly_lost _ hR hp hh he h1
      (fun _ => ⟨by rw [hes]; decide, by rw [hes]; decide⟩)
  | Start =>
    have e : PlayState.processEnemyEndState g =
        { g with
          playState := { g.playState with enemyEndState := EnemyEndSequence.LieDown,
                                          enemyCurrentMove := EnemyAction.Pause }
          player := { g.player with life_counter := 0 } } := by
      simp only [PlayState.processEnemyEndState, hes]
    rw [e] at hR ⊢
    exact orderly_lost _ hR hp hh he h1
      (fun _ => ⟨(by decide : EnemyEndSequence.LieDown ≠ EnemyEndSequence.Transition),
        (by decide : EnemyEndSequence.LieDown ≠ EnemyEndSequence.GameOver)⟩)

/-- The third block of `onTimeTick` keeps the course in order. -/
theorem tickEnemyEndState_orderly (g : Game) (h : Orderly g) :
    Orderly (PlayState.tickEnemyEndState g) := by
  unfold PlayState.tickEnemyEndState
  by_cases h0 : g.playState.enemyHealth ≠ 0 ∧ g.player.health = 0
  · rw [if_pos h0]
    dsimp only
    by_cases ht : g.playState.haltTime + 1 = g.playState.maxHaltTime
    · rw [if_pos ht]
      exact processEnemyEndState_orderly
        { g with playState := { g.playState with haltTime := g.playState.haltTime + 1 } }
        h h0.1 h0.2
    · rw [if_neg ht]
      exact h
  · rw [if_neg h0]
    exact h

/-- The fourth block of `onTimeTick` keeps the hit flag, and leaves the
action `Defeated` only if it was. -/
theorem tickEnemyHit_course (g : Game) (k : Keys) :
    (PlayState.tickEnemyHit g k).player.showHit_ = g.player.showHit_ ∧
    ((PlayState.tickEnemyHit g k).player.currAction_ = PlayerAction.Defeated →
      g.player.currAction_ = PlayerAction.Defeated) := by
  unfold PlayState.tickEnemyHit
  by_cases h1 : g.playState.renderEnemyHit = true
  · rw [if_pos h1]
    dsimp only
    by_cases h2 : g.playState.haltTimeHit + 1 = 4
    · rw [if_pos h2]
      simp only [PlayState.resetEnemyMove]
      constructor
      · split_ifs <;> first | rfl | exact setMovement_showHit _ _
      · split_ifs
        all_goals first
          | exact id
          | exact setMovement_defeated _ 0 (by decide)
    · rw [if_neg h2]
      exact ⟨rfl, id⟩
  · rw [if_neg h1]
    exact ⟨rfl, id⟩

/-- The fourth block of `onTimeTick` keeps the course in order. -/
theorem tickEnemyHit_orderly (g : Game) (k : Keys) (h : Orderly g) :
    Orderly (PlayState.tickEnemyHit g k) := by
  obtain ⟨_, _, _, _, f5, f6, f7, f8, f9, _, _⟩ := tickEnemyHit_frame g k
  obtain ⟨c1, c2⟩ := tickEnemyHit_course g k
  exact orderly_transfer g _ h (tickEnemyHit_roundSafe g k h.1) f5 f8 f9 c1 f6 f7 c2

/-- The method `PlayState::onTimeTick` keeps the course in order. -/
theorem onTimeTick_orderly (g : Game) (k : Keys) (h : Orderly g) :
    Orderly (PlayState.onTimeTick g k) :=
  tickEnemyHit_orderly _ k
    (tickEnemyEndState_orderly _ (tickEndState_orderly _ (tickHitFreeze_orderly g h)))

/-- The timer of the play state keeps the course in order. -/
theorem stateTimeTick_orderly (g : Game) (k : Keys) (h : Orderly g) :
    Orderly (PlayState.timeTick g k) := by
  unfold PlayState.timeTick
  dsimp only
  split_ifs
  · exact onTimeTick_orderly _ k h
  · exact h

/-- A state that differs from one in order only in members the order does
not read, in a hit flag that is up while a freeze is on, and in an action
that is `Defeated` only if it was, is in order once its health part is
sound. -/
theorem orderly_shown (g g' : Game) (h : Orderly g) (hR : RoundSafe g')
    (hh : g'.player.health = g.player.health)
    (he : g'.playState.enemyHealth = g.playState.enemyHealth)
    (hp : g'.playState.pauseMovement = g.playState.pauseMovement)
    (hs : g'.playState.pauseMovement = true → g'.player.showHit_ = true)
    (h1 : g'.playState.endState = g.playState.endState)
    (h2 : g'.playState.enemyEndState = g.playState.enemyEndState)
    (ha : g'.player.currAction_ = PlayerAction.Defeated →
      g.player.currAction_ = PlayerAction.Defeated) :
    Orderly g' := by
  obtain ⟨_, o1, o2, o3, o4⟩ := h
  refine ⟨hR, ?_, ?_, ?_, ?_⟩
  · intro hc
    refine ⟨hs hc, ?_⟩
    rw [hh]
    exact (o1 (hp.symm.trans hc)).2
  · rw [h1, he]
    exact o2
  · rw [h2, hh, he]
    exact o3
  · intro hd
    rw [hh, he, h2]
    exact o4 (ha hd)

/-- The method `Player::onTimeTick` keeps the health of the player and
leaves the action `Defeated` only if it was. -/
theorem playerTick_course (g : Game) (k : Keys) :
    (Player.onTimeTick g k).player.health = g.player.health ∧
    ((Player.onTimeTick g k).player.currAction_ = PlayerAction.Defeated →
      g.player.currAction_ = PlayerAction.Defeated) := by
  constructor
  · rcases playerTick_vitals g k with e | ⟨_, a, _, e⟩
    · exact congrArg Vitals.health e
    · exact congrArg Vitals.health e
  · unfold Player.onTimeTick
    dsimp only
    split_ifs
    all_goals first
      | exact id
      | exact setMovement_defeated _ 4 (by decide)
      | exact setMovement_defeated _ 0 (by decide)

/-- The timer of the player, run while no freeze of a player hit is on,
keeps the course in order. -/
theorem playerTimeTick_orderly (g : Game) (k : Keys) (h : Orderly g)
    (hp : g.playState.pauseMovement = false) : Orderly (Player.timeTick g k) := by
  have hR := playerTimeTick_roundSafe g k h.1
  have hq : ∀ g1 : Game, g1.playState = g.playState → g1.player.health = g.player.health →
      (g1.player.currAction_ = PlayerAction.Defeated →
        g.player.currAction_ = PlayerAction.Defeated) → RoundSafe g1 → Orderly g1 := by
    intro g1 e1 e2 e3 hR1
    refine orderly_shown g g1 h hR1 e2 (by rw [e1]) (by rw [e1]) ?_ (by rw [e1]) (by rw [e1]) e3
    intro hc
    rw [e1, hp] at hc
    exact absurd hc Bool.false_ne_true
  unfold Player.timeTick at hR ⊢
  dsimp only at hR ⊢
  split_ifs with hf
  · rw [if_pos hf] at hR
    exact hq _ rfl (playerTick_course _ k).1 (playerTick_course _ k).2 hR
  · rw [if_neg hf] at hR
    exact hq _ rfl rfl id hR

/-- The horizontal drift keeps the hit flag. -/
theorem jumpDrifted_showHit (g : Game) :
    (Player.jumpDrifted g).showHit_ = g.player.showHit_ := by
  unfold Player.jumpDrifted
  dsimp only
  split_ifs <;> rfl

/-- The method `Player::processJump` keeps the play state and the hit
flag. -/
theorem processJump_marks (g g' : Game) (h : Player.processJump g = some g') :
    g'.playState = g.playState ∧ g'.player.showHit_ = g.player.showHit_ := by
  by_cases hg : (g.player.currAction_ = PlayerAction.JumpUp
      ∨ g.player.currAction_ = PlayerAction.JumpDown)
      ∧ g.player.health > 0 ∧ (!g.playState.renderEnemyHit) = true
  · by_cases hne : g.player.jumpAcceleration_ = 0
    · unfold Player.processJump at h
      dsimp only at h
      rw [if_pos hg, if_pos hne] at h
      exact absurd h (by simp)
    · by_cases hc : g.player.jumpFrameCounter_ + 1
          ≥ Int.tdiv TARGET_FPS g.player.jumpAcceleration_
      · rw [processJump_move g hg hne hc] at h
        have d := jumpDrifted_showHit g
        split_ifs at h
        all_goals
          rw [Option.some.injEq] at h
          rw [← h]
          refine ⟨rfl, ?_⟩
          first
            | exact d
            | exact (setMovement_showHit _ _).trans d
      · rw [processJump_counts g hg hne hc, Option.some.injEq] at h
        rw [← h]
        exact ⟨rfl, rfl⟩
  · rw [processJump_idle g hg, Option.some.injEq] at h
    rw [← h]
    exact ⟨rfl, rfl⟩

/-- The method `Player::processJump` keeps the course in order. -/
theorem processJump_orderly : Keeps Orderly Player.processJump := by
  intro g g' hI h
  have hR := processJump_roundSafe g g' hI.1 h
  obtain ⟨m1, m2⟩ := processJump_marks g g' h
  have hv := processJump_vitals g g' h
  have hh : g'.player.health = g.player.health := by
    rcases hv with e | ⟨_, _, e⟩ | ⟨_, e⟩ | ⟨_, _, e⟩ | ⟨_, e⟩ <;>
      exact congrArg Vitals.health e
  have ha : g'.player.currAction_ = PlayerAction.Defeated →
      g.player.currAction_ = PlayerAction.Defeated := by
    intro hd
    rcases hv with e | ⟨_, _, e⟩ | ⟨_, e⟩ | ⟨_, _, e⟩ | ⟨_, e⟩
    · exact (congrArg Vitals.action e).symm.trans hd
    · exact (congrArg Vitals.action e).symm.trans hd
    · have e' : g'.player.currAction_ = PlayerAction.JumpDown := congrArg Vitals.action e
      rw [e'] at hd
      exact absurd hd (by decide)
    · exact (congrArg Vitals.action e).symm.trans hd
    · have e' : g'.player.currAction_ = PlayerAction.Default := congrArg Vitals.action e
      rw [e'] at hd
      exact absurd hd (by decide)
  exact orderly_transfer g g' hI hR hh (by rw [m1]) (by rw [m1]) m2 (by rw [m1]) (by rw [m1]) ha

/-- A frame of `PlayState::run`, from a state of a run of the game, ends with
the course of the round in order. -/
theorem run_settled (k : Keys) (rnd : Fin 2) (g g' : Game) (hI : Settled g)
    (h : PlayState.run g k rnd = some g') : Orderly g' := by
  unfold PlayState.run at h
  cases hb : PlayState.runBeforeEnemy g k with
  | none =>
    rw [hb] at h
    exact absurd h (by simp)
  | some g4 =>
    rw [hb, Option.map_some', Option.some.injEq] at h
    have i4 : Orderly g4 := by
      unfold PlayState.runBeforeEnemy at hb
      dsimp only at hb
      have h0 : Orderly (if (!g.playState.initialized_) = true then
          { PlayState.init g with
            playState := { (PlayState.init g).playState with initialized_ := true } }
          else g) := by
        rcases hI with ho | hop
        · split_ifs
          · exact init_orderly g ho
          · exact ho
        · have hi : (!g.playState.initialized_) = true := by
            rw [hop.2.2.2.2.2.2.2]
            rfl
          rw [if_pos hi]
          exact init_opened g hop
      cases h1 : PlayState.handleInput (if (!g.playState.initialized_) = true then
          { PlayState.init g with
            playState := { (PlayState.init g).playState with initialized_ := true } }
          else g) k with
      | none =>
        rw [h1] at hb
        exact absurd hb (by simp)
      | some g1 =>
        rw [h1, Option.some_bind] at hb
        have i1 := handleInput_orderly k _ g1 h0 h1
        cases h2 : PlayState.drawStage g1 with
        | none =>
          rw [h2] at hb
          exact absurd hb (by simp)
        | some g2 =>
          rw [h2, Option.some_bind] at hb
          have i2 := drawStage_orderly g1 g2 i1 h2
          have i3 := stateTimeTick_orderly g2 k i2
          by_cases hp : (!(PlayState.timeTick g2 k).playState.pauseMovement) = true
          · rw [if_pos hp] at hb
            have hp' : (PlayState.timeTick g2 k).playState.pauseMovement = false := by
              cases hc : (PlayState.timeTick g2 k).playState.pauseMovement
              · rfl
              · rw [hc] at hp
                exact absurd hp (by decide)
            exact processJump_orderly _ g4 (playerTimeTick_orderly _ k i3 hp') hb
          · rw [if_neg hp, Option.some.injEq] at hb
            rw [← hb]
            exact i3
    rw [← h]
    split_ifs
    · exact tickEnemyMovement_orderly g4 rnd i4
    · exact i4

/-- One pass of the loop of `Game::run` leaves a state of a run of the
game. -/
theorem runFrame_settled (i : FrameInput) : Keeps Settled (fun g => Game.runFrame g i) := by
  intro g g' hI h
  change Game.runFrame g i = some g' at h
  unfold Game.runFrame at h
  by_cases hs : g.state = GameState.Intro ∨ g.state = GameState.Preview
  · rw [if_pos hs, Option.some.injEq] at h
    rw [← h]
    rcases hI with ho | hop
    · exact Or.inl ho
    · exact Or.inr hop
  · rw [if_neg hs] at h
    exact Or.inl (run_settled i.keys i.rnd g g' hI h)

/-- Every state that the loop of `Game::run` reaches from the game as its
constructors leave it, whatever the inputs of the frames, is a state of a run
of the game: the course of its round is in order, or no frame of the Play
phase has run yet. -/
theorem runFrames_settled (ins : List FrameInput) : Keeps Settled (Game.runFrames ins) := by
  induction ins with
  | nil =>
    intro g g' hI h
    change some g = some g' at h
    rw [Option.some.injEq] at h
    rw [← h]
    exact hI
  | cons i ins ih =>
    intro g g' hI h
    change (Game.runFrame g i).bind (Game.runFrames ins) = some g' at h
    cases h1 : Game.runFrame g i with
    | none =>
      rw [h1] at h
      exact absurd h (by simp)
    | some g1 =>
      rw [h1, Option.some_bind] at h
      exact ih g1 g' (runFrame_settled i g g1 hI h1) h

/-- In a state of a run of the game no reset of the round is due while the
action is `Defeated`. -/
theorem settled_reset_off_defeated (g : Game) (h : Settled g) (hs : ResetDue g) :
    g.player.currAction_ ≠ PlayerAction.Defeated := by
  rcases h with ho | hop
  · exact reset_finds_no_defeated g ho hs
  · rw [hop.1]
    decide

/-- The game overs that the runs of the game reach: with the victory
sequencer at `GameOver` the state is a won game over, with the defeat
sequencer at `GameOver` a lost one. -/
theorem gameOver_reached (g : Game) (h : Settled g) :
    (g.playState.endState = EndSequence.GameOver → WonGameOver g) ∧
    (g.playState.enemyEndState = EnemyEndSequence.GameOver → LostGameOver g) := by
  rcases h with ⟨hR, o1, o2, o3, _⟩ | hop
  · constructor
    · intro he
      have h0 : g.playState.enemyHealth = 0 := o2 (by rw [he]; decide)
      refine ⟨he, h0, ?_⟩
      cases hc : g.playState.pauseMovement
      · rfl
      · have h1 : 1 ≤ g.playState.enemyHealth := hR.2.2.1 hc
        omega
    · intro he
      obtain ⟨h0, h1⟩ := o3 (by rw [he]; decide)
      refine ⟨he, h1, h0, ?_⟩
      cases hc : g.playState.pauseMovement
      · rfl
      · have := (o1 hc).2
        omega
  · constructor
    · intro he
      rw [hop.2.2.2.2.1] at he
      exact absurd he (by decide)
    · intro he
      rw [hop.2.2.2.2.2.1] at he
      exact absurd he (by decide)

/-- The three callers of `PlayState::cleanUp`, on a state in order: the
restart of `PlayState::handleInput` at a game over, the victory step at
`Transition` below the last level and the defeat step at `Transition` with a
life left all leave the player Idle with full health. -/
theorem reset_leaves_idle (g : Game) (h : Orderly g) :
    (∀ k g', PlayState.handleInput g k = some g' →
      (g.playState.endState = EndSequence.GameOver
        ∨ g.playState.enemyEndState = EnemyEndSequence.GameOver) → k.enter = true →
      g'.player.currAction_ = PlayerAction.Default ∧ g'.player.health = DEFAULT_HEALTH) ∧
    (g.playState.endState = EndSequence.Transition → g.level ≠ 5 →
      (PlayState.processEndState g).player.currAction_ = PlayerAction.Default ∧
      (PlayState.processEndState g).player.health = DEFAULT_HEALTH) ∧
    (g.playState.enemyEndState = EnemyEndSequence.Transition → g.player.lives > 0 →
      (PlayState.processEnemyEndState g).player.currAction_ = PlayerAction.Default ∧
      (PlayState.processEnemyEndState g).player.health = DEFAULT_HEALTH) := by
  refine ⟨?_, ?_, ?_⟩
  · intro k g' hr hgo hk
    have hstep : ∃ g1, (if g.player.health > 0 ∧ g.playState.enemyHealth > 0
        then Player.handleInput g k else some g) = some g1 ∧ InputStep g g1 := by
      split_ifs
      · exact handleInput_inputStep g k
      · exact ⟨g, rfl, inputStep_refl g⟩
    obtain ⟨g1, h1, _, _, _, e4, e5, e6, _⟩ := hstep
    have hd : g.player.currAction_ ≠ PlayerAction.Defeated := by
      apply reset_finds_no_defeated g h
      rcases hgo with e | e
      · exact Or.inr (Or.inl e)
      · exact Or.inr (Or.inr (Or.inr e))
    have hd1 : g1.player.currAction_ ≠ PlayerAction.Defeated := fun hc => hd (e6 hc)
    have hc : (g1.playState.enemyEndState = EnemyEndSequence.GameOver
        ∨ g1.playState.endState = EndSequence.GameOver) ∧ k.enter = true := by
      rw [e4, e5]
      exact ⟨hgo.symm, hk⟩
    unfold PlayState.handleInput at hr
    rw [h1, Option.map_some', Option.some.injEq, if_pos hc] at hr
    obtain ⟨c1, _, c3, _, _, _, _, _, _⟩ := clear_fields g1.player
    rw [if_neg hd1] at c1
    rw [← hr]
    exact ⟨c1, c3⟩
  · intro ht hl
    have hd : g.player.currAction_ ≠ PlayerAction.Defeated :=
      reset_finds_no_defeated g h (Or.inl ht)
    rw [processEndState_transition g ht, if_neg hl]
    obtain ⟨c1, _, c3, _, _, _, _, _, _⟩ := clear_fields g.player
    rw [if_neg hd] at c1
    exact ⟨c1, c3⟩
  · intro ht hl
    have hd : g.player.currAction_ ≠ PlayerAction.Defeated :=
      reset_finds_no_defeated g h (Or.inr (Or.inr (Or.inl ht)))
    obtain ⟨_, _, _, _, _, a6, a7, _, _⟩ := (processEnemyEndState_at_transition g ht).1 hl
    rw [if_neg hd] at a7
    exact ⟨a7, a6⟩

/-- The game `openedGame` is as its constructors leave it, and the frames of
`firstJump` run from it. -/
theorem openedGame_runs :
    openedGame.opened ∧ (Game.runFrames firstJump openedGame).isSome = true := by
  constructor
  · unfold Game.opened
    decide
  · decide

end RetroRemake
